import Mathlib

/-! # Security-group policy allocator (`plugins/bussiness_plugins/security_group`)

A shallow embedding of the apply path of `security_group.go`:
`applyPolicies`, `createPolicies`, `destroyPolicies`, the helpers they call and
`ApplySecurityPolicyAction.Do`.

Conventions of the embedding.

* A Go `error` is the `Option String` of its message (`none` is `nil`); a pair
  `(value, error)` is a Lean pair.
* Everything outside the translated functions (the cloud provider, the client
  constructor, the configuration lookup and the order in which the Go runtime
  walks a map) is a field of `Env`.  Every answer may depend on the history of
  calls made so far, so a provider with state is covered.
* Every external call is recorded as an `Event` together with its answer.  A
  translated function receives the history and returns the events it added.
* A `[]*SecurityPolicy` is the list of the entries pointed to; a function that
  writes through the pointers returns the updated list.  The pointers handed
  to one call are distinct elements of the caller's batch.
* A Go run-time panic (index or slice bound out of range, method call on a nil
  interface) is the outcome `Result.panic`.
* `int` is the 64-bit Go `int`.  Numbers parsed out of group names are kept in
  range by `strconv.Atoi` and arithmetic on them wraps (`wrapInt`); lengths of
  slices and rule counts are far below `2^63` and are not wrapped.
-/

namespace securitygroup

/-! ## Strings and integers -/

/-- `MAX_SEUCRITY_RULE_NUM = 100`. -/
def MAX_SEUCRITY_RULE_NUM : Int := 100

/-- Modelled from the spec: the constant `INGRESS_RULE` is declared in a file of
the package that is not part of the sources; the spec names the two directions
`ingress` and `egress`. -/
def INGRESS_RULE : String := "ingress"

/-- Modelled from the spec: the constant `EGRESS_RULE`, see `INGRESS_RULE`. -/
def EGRESS_RULE : String := "egress"

/-- Two's-complement wrap-around of a Go `int` (64 bits). -/
def wrapInt (x : Int) : Int := (x + 2 ^ 63) % 2 ^ 64 - 2 ^ 63

/-- `strings.EqualFold`, on the ASCII letters. -/
def EqualFold (s t : String) : Bool :=
  s.data.map Char.toLower == t.data.map Char.toLower

/-- `strings.HasPrefix`. -/
def HasPrefix (s pre : String) : Bool := pre.data.isPrefixOf s.data

/-- `strings.ToUpper`, on the ASCII letters. -/
def ToUpper (s : String) : String := String.mk (s.data.map Char.toUpper)

/-- `strings.Split(s, sep)` for a separator of one character, on the characters of `s`. -/
def splitChars (sep : Char) : List Char → List (List Char)
  | [] => [[]]
  | c :: cs =>
    if c = sep then [] :: splitChars sep cs
    else
      match splitChars sep cs with
      | [] => [[c]]
      | x :: xs => (c :: x) :: xs

/-- `strings.Split(s, "-")`. -/
def Split (s : String) (sep : Char) : List String :=
  (splitChars sep s.data).map String.mk

/-- Value of a decimal digit. -/
def digitVal (c : Char) : Option Nat :=
  if 48 ≤ c.toNat ∧ c.toNat ≤ 57 then some (c.toNat - 48) else none

/-- Reads a run of decimal digits, most significant first. -/
def parseDigits : List Char → Nat → Option Nat
  | [], acc => some acc
  | c :: cs, acc =>
    match digitVal c with
    | none => none
    | some d => parseDigits cs (acc * 10 + d)

/-- `strconv.Atoi`: an optional sign, at least one decimal digit, nothing else, and a
value in the range of `int`; `none` stands for a non-nil error. -/
def Atoi (s : String) : Option Int :=
  match s.data with
  | [] => none
  | '-' :: ds =>
    if ds = [] then none
    else
      match parseDigits ds 0 with
      | none => none
      | some n => if n ≤ 2 ^ 63 then some (-(n : Int)) else none
  | '+' :: ds =>
    if ds = [] then none
    else
      match parseDigits ds 0 with
      | none => none
      | some n => if n < 2 ^ 63 then some (n : Int) else none
  | ds =>
    match parseDigits ds 0 with
    | none => none
    | some n => if n < 2 ^ 63 then some (n : Int) else none

/-- `fmt.Sprintf("%d", n)`. -/
def formatInt (n : Int) : String := toString n

/-! ## Go maps -/

/-- Go `m[k]`, on a map kept as the list of its entries in order of first insertion. -/
def mapGet {α : Type} : List (String × α) → String → Option α
  | [], _ => none
  | (k', v) :: rest, k => if k' = k then some v else mapGet rest k

/-- Go `m[k] = v`. -/
def mapSet {α : Type} : List (String × α) → String → α → List (String × α)
  | [], k, v => [(k, v)]
  | (k', v') :: rest, k, v =>
    if k' = k then (k, v) :: rest else (k', v') :: mapSet rest k v

/-- Go `m[k] = append(m[k], x)`. -/
def mapAppend {α : Type} (m : List (String × List α)) (k : String) (x : α) :
    List (String × List α) :=
  mapSet m k ((mapGet m k).getD [] ++ [x])

/-- Keys of a map, in order of first insertion. -/
def mapKeys {α : Type} (m : List (String × α)) : List String := m.map Prod.fst

/-- Order in which a `for ... range m` visits the keys `keys` of a map. Go leaves the order
unspecified; `hint` is the order the runtime happens to prefer: the keys named in `hint`
come first, in that order, then the others.  Every arrangement of the keys is the value
of `rangeKeys hint keys` for `hint` that arrangement itself. -/
def rangeKeys (hint keys : List String) : List String :=
  (hint.dedup.filter fun k => k ∈ keys) ++ keys.filter fun k => k ∉ hint

/-! ## Data model -/

/-- `SecurityPolicy`, the unit of work (`Typ` is the Go field `Type`). -/
structure SecurityPolicy where
  Ip : String
  Typ : String
  Id : String
  Region : String
  SupportSecurityGroupApi : Bool
  PeerIp : String
  Protocol : String
  Ports : String
  Action : String
  Description : String
  ErrorMsg : String
  UndoReason : String
  SecurityGroupId : String
  deriving DecidableEq, Repr

/-- A `ResourceInstance`: the values its getters return. Its two provider methods are
`Env.InstanceQuerySecurityGroups` and `Env.InstanceAssociateSecurityGroups`. -/
structure ResourceInstance where
  typeName : String
  id : String
  name : String
  region : String
  ip : String
  supportSecurityGroupApi : Bool
  deriving DecidableEq, Repr

/-- `vpc.SecurityGroupPolicy`, the fields the package sets. -/
structure SecurityGroupPolicy where
  PolicyIndex : Option Int
  Protocol : String
  Port : String
  CidrBlock : String
  Action : String
  PolicyDescription : String
  deriving DecidableEq, Repr

/-- `vpc.SecurityGroupPolicySet`. -/
structure SecurityGroupPolicySet where
  Ingress : List SecurityGroupPolicy
  Egress : List SecurityGroupPolicy
  deriving DecidableEq, Repr

/-- `vpc.SecurityGroup`, the fields the package reads. -/
structure SecurityGroup where
  SecurityGroupId : String
  SecurityGroupName : String
  deriving DecidableEq, Repr

/-- The client `plugins.CreateVpcClient` returns. -/
structure VpcClient where
  region : String
  secretId : String
  secretKey : String
  deriving DecidableEq, Repr

/-- `ApplyResult`. -/
structure ApplyResult where
  PoliciesTotal : Int
  SuccessTotal : Int
  UndoTotal : Int
  FailedTotal : Int
  SuccessPolicies : List SecurityPolicy
  UndoPolicies : List SecurityPolicy
  FailedPolicies : List SecurityPolicy
  deriving DecidableEq, Repr

/-- `ApplySecurityPoliciesRequest`. -/
structure ApplySecurityPoliciesRequest where
  IngressPolicies : List SecurityPolicy
  EgressPolicies : List SecurityPolicy
  deriving DecidableEq, Repr

/-- `ApplySecurityPoliciesResult`, without the elapsed time `TimeTaken`. -/
structure ApplySecurityPoliciesResult where
  IngressApplyResult : ApplyResult
  EgressApplyResult : ApplyResult
  deriving DecidableEq, Repr

/-! ## The world outside the package -/

/-- One external call with its arguments and its answer. -/
inductive Event where
  | getProviderParams (region : String) (ret : Except String String)
  | queryInstancesById (resType providerParams : String) (instanceIds : List String)
      (ret : Except String (List (String × ResourceInstance)))
  | instanceQuerySecurityGroups (inst : ResourceInstance) (providerParams : String)
      (ret : Except String (List String))
  | instanceAssociateSecurityGroups (inst : ResourceInstance) (providerParams : String)
      (securityGroups : List String) (ret : Option String)
  | querySecurityGroups (providerParams : String) (securityGroupIds : List String)
      (ret : Except String (List SecurityGroup))
  | querySecurityGroupPolicies (providerParams securityGroupId : String)
      (ret : Except String SecurityGroupPolicySet)
  | createSecurityGroup (providerParams name description : String) (ret : Except String String)
  | createVpcClient (region secretId secretKey : String) (ret : Option String)
  | createSecurityGroupPolicies (client : VpcClient) (securityGroupId : String)
      (policySet : SecurityGroupPolicySet) (ret : Option String)
  | deleteSecurityGroupPolicies (client : VpcClient) (securityGroupId : String)
      (policySet : SecurityGroupPolicySet) (ret : Option String)

/-- The history of external calls. -/
abbrev World := List Event

/-- The external collaborators of the package, none of which is in the sources: each takes
the history of calls made before it. `mapOrder` is the preference of the Go runtime when it
walks a map with the given keys (see `rangeKeys`). -/
structure Env where
  getProviderParams : World → String → Except String String
  QueryInstancesById : World → String → String → List String →
    Except String (List (String × ResourceInstance))
  InstanceQuerySecurityGroups : World → ResourceInstance → String → Except String (List String)
  InstanceAssociateSecurityGroups : World → ResourceInstance → String → List String →
    Option String
  QuerySecurityGroups : World → String → List String → Except String (List SecurityGroup)
  QuerySecurityGroupPolicies : World → String → String → Except String SecurityGroupPolicySet
  CreateSecurityGroup : World → String → String → String → Except String String
  GetMapFromProviderParams : String → String → String
  CreateVpcClient : World → String → String → String → Option String
  CreateSecurityGroupPolicies : World → VpcClient → String → SecurityGroupPolicySet →
    Option String
  DeleteSecurityGroupPolicies : World → VpcClient → String → SecurityGroupPolicySet →
    Option String
  mapOrder : World → List String → List String

/-- Outcome of a call that may panic, with the external calls it made. -/
inductive Result (α : Type) where
  | done (a : α) (evs : List Event)
  | panic (evs : List Event)

/-- The external calls made, whatever the outcome. -/
def Result.events {α : Type} : Result α → List Event
  | .done _ evs => evs
  | .panic evs => evs

/-! ## The resource-type registry -/

/-- The names `init` registers in `resourceTypeMap`. -/
def registeredResourceTypes : List String := ["mysql", "cvm", "clb", "redis", "mongodb"]

/-- `getResouceTypeByName`: the registered type (known by its name) or the not-found error. -/
def getResouceTypeByName (name : String) : Except String String :=
  if name ∈ registeredResourceTypes then .ok name
  else .error ("resourceType[" ++ name ++ "] not found")

/-! ## Auto-created groups: names, sequence numbers, order -/

/-- The test in the loop body of `getAutoCreatedSecurityGroups`: the name splits on `-` into
exactly three parts, the owner IP, `auto`, and a part `strconv.Atoi` accepts; the value is
the number parsed. -/
def autoCreatedNum (ip securityGroup : String) : Option Int :=
  match Split securityGroup '-' with
  | [e0, e1, e2] => if e0 = ip ∧ e1 = "auto" then Atoi e2 else none
  | _ => none

/-- The inner loop of `sortSecurityGroupsIds`: `k` steps `j = 0 .. k-1`, each swapping
`num[j], num[j+1]` (and the ids with them) when `num[j] > num[j+1]`; the flag tells whether
a swap happened. The two slices are swapped in lock step and are kept as one list of pairs. -/
def bubblePass : Nat → List (Int × String) → List (Int × String) × Bool
  | k + 1, x :: y :: rest =>
    if x.1 > y.1 then (y :: (bubblePass k (x :: rest)).1, true)
    else (x :: (bubblePass k (y :: rest)).1, (bubblePass k (y :: rest)).2)
  | _, l => (l, false)

/-- The outer loop of `sortSecurityGroupsIds`, by the number `len(num) - i` of rounds left:
round `i` makes `len(num) - i - 1` steps and the loop stops after a round without a swap. -/
def bubbleLoop : Nat → List (Int × String) → List (Int × String)
  | 0, l => l
  | r + 1, l =>
    if (bubblePass r l).2 then bubbleLoop r (bubblePass r l).1 else (bubblePass r l).1

/-- `sortSecurityGroupsIds`. -/
def sortSecurityGroupsIds (num : List Int) (securityGroupsIds : List String) :
    List String × Option String :=
  if num.length ≠ securityGroupsIds.length then
    ([], some "sortSecurityGroupsIds error: lengths of two arrays is not equal")
  else
    (((bubbleLoop num.length (num.zip securityGroupsIds)).map Prod.snd), none)

/-- The loop of `getAutoCreatedSecurityGroups` from position `i` on, with the ids and numbers
collected and the largest number seen so far; `none` is the index-out-of-range panic of
`allSecurityGroupsIds[i]`. -/
def autoCreatedLoop (ip : String) (allSecurityGroupsIds : List String) :
    List String → Nat → List String → List Int → Int → Option (List String × List Int × Int)
  | [], _, created, nums, maxNum => some (created, nums, maxNum)
  | securityGroup :: rest, i, created, nums, maxNum =>
    match autoCreatedNum ip securityGroup with
    | some num =>
      match allSecurityGroupsIds[i]? with
      | none => none
      | some id =>
        autoCreatedLoop ip allSecurityGroupsIds rest (i + 1) (created ++ [id]) (nums ++ [num])
          (if maxNum < num then num else maxNum)
    | none => autoCreatedLoop ip allSecurityGroupsIds rest (i + 1) created nums maxNum

/-- `getAutoCreatedSecurityGroups`: the ids of the auto-created groups of `ip` in ascending
order of sequence number, the next sequence number, and the error of the sort. -/
def getAutoCreatedSecurityGroups (ip : String)
    (allSecurityGroupsNames allSecurityGroupsIds : List String) :
    Option (List String × Int × Option String) :=
  match autoCreatedLoop ip allSecurityGroupsIds allSecurityGroupsNames 0 [] [] 0 with
  | none => none
  | some (created, nums, maxAutoCreatedNum) =>
    some ((sortSecurityGroupsIds nums created).1, wrapInt (maxAutoCreatedNum + 1),
      (sortSecurityGroupsIds nums created).2)

/-! ## Provider queries -/

/-- `getSecurityGroupFreePolicyNum`. -/
def getSecurityGroupFreePolicyNum (env : Env) (w : World) (providerParams securityGroup : String)
    (direction : String) : (Int × Option String) × List Event :=
  let ret := env.QuerySecurityGroupPolicies w providerParams securityGroup
  let ev := Event.querySecurityGroupPolicies providerParams securityGroup ret
  match ret with
  | .error e => ((0, some e), [ev])
  | .ok policiesSet =>
    if EqualFold direction INGRESS_RULE then
      ((MAX_SEUCRITY_RULE_NUM - (policiesSet.Ingress.length : Int), none), [ev])
    else ((MAX_SEUCRITY_RULE_NUM - (policiesSet.Egress.length : Int), none), [ev])

/-- The second loop of `getSecurityGroupNames`. -/
def namesLoop (idNameMap : List (String × String)) :
    List String → List String → List String × Option String
  | [], securityGroupNames => (securityGroupNames, none)
  | id :: rest, securityGroupNames =>
    match mapGet idNameMap id with
    | some name => namesLoop idNameMap rest (securityGroupNames ++ [name])
    | none => (securityGroupNames, some ("can't found groupId(" ++ id ++ ") detail"))

/-- `getSecurityGroupNames`. -/
def getSecurityGroupNames (env : Env) (w : World) (providerParams : String)
    (securityGroupIds : List String) : (List String × Option String) × List Event :=
  let ret := env.QuerySecurityGroups w providerParams securityGroupIds
  let ev := Event.querySecurityGroups providerParams securityGroupIds ret
  match ret with
  | .error e => (([], some e), [ev])
  | .ok securityGroupSet =>
    (namesLoop
      (securityGroupSet.foldl
        (fun m securityGroup =>
          mapSet m securityGroup.SecurityGroupId securityGroup.SecurityGroupName) [])
      securityGroupIds [], [ev])

/-! ## Creating groups and submitting entries -/

/-- The loop of `createNewAutomationSecurityGroups` at index `i` with `k` rounds left. -/
def createNewLoop (env : Env) (providerParams ip : String) (auotNumIndex : Int) :
    Nat → Int → List String → World → (List String × Option String) × List Event
  | 0, _, newSecurityGroupIds, _ => ((newSecurityGroupIds, none), [])
  | k + 1, i, newSecurityGroupIds, w =>
    let securityGroupName := ip ++ "-auto-" ++ formatInt (wrapInt (auotNumIndex + i))
    let ret := env.CreateSecurityGroup w providerParams securityGroupName "automation created"
    let ev := Event.createSecurityGroup providerParams securityGroupName "automation created" ret
    match ret with
    | .error e => ((newSecurityGroupIds, some e), [ev])
    | .ok securityGroupId =>
      ((createNewLoop env providerParams ip auotNumIndex k (i + 1)
          (newSecurityGroupIds ++ [securityGroupId]) (w ++ [ev])).1,
        ev :: (createNewLoop env providerParams ip auotNumIndex k (i + 1)
          (newSecurityGroupIds ++ [securityGroupId]) (w ++ [ev])).2)

/-- `createNewAutomationSecurityGroups`: groups `ip-auto-<auotNumIndex + i>` for
`i = 0 .. newCreatedSecurityGroupNum - 1`, stopping at the first failure. -/
def createNewAutomationSecurityGroups (env : Env) (w : World) (providerParams ip : String)
    (newCreatedSecurityGroupNum auotNumIndex : Int) :
    (List String × Option String) × List Event :=
  createNewLoop env providerParams ip auotNumIndex newCreatedSecurityGroupNum.toNat 0 [] w

/-- The rule `newSecurityPolicySet` builds for one entry. -/
def newSecurityPolicy (policy : SecurityPolicy) (isSetPolicyIndex : Bool) : SecurityGroupPolicy :=
  { PolicyIndex := if isSetPolicyIndex then some 0 else none
    Protocol := policy.Protocol
    Port := policy.Ports
    CidrBlock := policy.PeerIp
    Action := ToUpper policy.Action
    PolicyDescription := policy.Description }

/-- `newSecurityPolicySet`. -/
def newSecurityPolicySet (policies : List SecurityPolicy) (direction : String)
    (isSetPolicyIndex : Bool) : SecurityGroupPolicySet :=
  if EqualFold direction INGRESS_RULE then
    { Ingress := policies.map fun policy => newSecurityPolicy policy isSetPolicyIndex
      Egress := [] }
  else
    { Ingress := []
      Egress := policies.map fun policy => newSecurityPolicy policy isSetPolicyIndex }

/-- The message the deferred function of `addPoliciesToSecurityGroup` writes. -/
def addPolicyErrMsg (securityGroupId err : String) : String :=
  "add policy to securityGroup(" ++ securityGroupId ++ ") meet err =" ++ err

/-- `addPoliciesToSecurityGroup`: the error and the entries as the call leaves them. -/
def addPoliciesToSecurityGroup (env : Env) (w : World) (providerParams securityGroupId : String)
    (policies : List SecurityPolicy) (direction : String) :
    (Option String × List SecurityPolicy) × List Event :=
  if policies.length = 0 then ((none, policies), [])
  else
    let paramsMap := env.GetMapFromProviderParams providerParams
    let client : VpcClient :=
      { region := paramsMap "Region", secretId := paramsMap "SecretID",
        secretKey := paramsMap "SecretKey" }
    let cret := env.CreateVpcClient w client.region client.secretId client.secretKey
    let ev1 := Event.createVpcClient client.region client.secretId client.secretKey cret
    match cret with
    | some err =>
      ((some err, policies.map fun policy =>
          { policy with ErrorMsg := addPolicyErrMsg securityGroupId err }), [ev1])
    | none =>
      let policySet := newSecurityPolicySet policies direction true
      let ret := env.CreateSecurityGroupPolicies (w ++ [ev1]) client securityGroupId policySet
      let ev2 := Event.createSecurityGroupPolicies client securityGroupId policySet ret
      match ret with
      | none =>
        ((none, policies.map fun policy => { policy with SecurityGroupId := securityGroupId }),
          [ev1, ev2])
      | some err =>
        ((some err, policies.map fun policy =>
            { policy with ErrorMsg := addPolicyErrMsg securityGroupId err }), [ev1, ev2])

/-- The first loop of `createPolicies`: the free capacity of every existing auto-created
group, stored in `freePolicyNumMap` and summed in `freePoliciesNum`. -/
def freeLoop (env : Env) (providerParams direction : String) :
    List String → List (String × Int) → Int → World →
      ((List (String × Int) × Int) × Option String) × List Event
  | [], freePolicyNumMap, freePoliciesNum, _ => (((freePolicyNumMap, freePoliciesNum), none), [])
  | securityGroup :: rest, freePolicyNumMap, freePoliciesNum, w =>
    match getSecurityGroupFreePolicyNum env w providerParams securityGroup direction with
    | ((_, some err), evs) => (((freePolicyNumMap, freePoliciesNum), some err), evs)
    | ((freeNum, none), evs) =>
      ((freeLoop env providerParams direction rest
          (mapSet freePolicyNumMap securityGroup freeNum) (freePoliciesNum + freeNum)
          (w ++ evs)).1,
        evs ++ (freeLoop env providerParams direction rest
          (mapSet freePolicyNumMap securityGroup freeNum) (freePoliciesNum + freeNum)
          (w ++ evs)).2)

/-- The last loop of `createPolicies`, from `offset` on: every group takes the next
`limit` entries, `limit` the smaller of what is left and the group's free number. A
negative `limit` makes `policies[offset:offset+limit]` panic. -/
def fillLoop (env : Env) (providerParams direction : String)
    (freePolicyNumMap : List (String × Int)) :
    List String → Nat → List SecurityPolicy → World →
      Result (Option String × List SecurityPolicy)
  | [], _, policies, _ => .done (none, policies) []
  | securityGroupId :: rest, offset, policies, w =>
    let freeNum : Int := (mapGet freePolicyNumMap securityGroupId).getD 0
    let limit : Int :=
      if (policies.length : Int) - offset > freeNum then freeNum
      else (policies.length : Int) - offset
    if limit < 0 then .panic []
    else
      match addPoliciesToSecurityGroup env w providerParams securityGroupId
          ((policies.drop offset).take limit.toNat) direction with
      | ((some err, slice), evs) =>
        .done (some err, policies.take offset ++ slice ++ policies.drop (offset + limit.toNat)) evs
      | ((none, slice), evs) =>
        match fillLoop env providerParams direction freePolicyNumMap rest (offset + limit.toNat)
            (policies.take offset ++
              (slice.map fun policy => { policy with SecurityGroupId := securityGroupId }) ++
              policies.drop (offset + limit.toNat)) (w ++ evs) with
        | .done r evs2 => .done r (evs ++ evs2)
        | .panic evs2 => .panic (evs ++ evs2)

/-- `createPolicies`: the ids of the new groups, the error, and the entries as the call
leaves them. -/
def createPolicies (env : Env) (w : World) (providerParams : String)
    (existSecurityGroups : List String) (policies : List SecurityPolicy) (direction : String) :
    Result ((List String × Option String) × List SecurityPolicy) :=
  match policies with
  | [] => .done (([], none), policies) []
  | policy0 :: _ =>
    match getSecurityGroupNames env w providerParams existSecurityGroups with
    | ((_, some err), evs1) => .done (([], some err), policies) evs1
    | ((securityGroupsNames, none), evs1) =>
      match getAutoCreatedSecurityGroups policy0.Ip securityGroupsNames existSecurityGroups with
      | none => .panic evs1
      | some (_, _, some err) => .done (([], some err), policies) evs1
      | some (createdSecurityGroups, autoCreatedStartIndex, none) =>
        match freeLoop env providerParams direction createdSecurityGroups [] 0 (w ++ evs1) with
        | ((_, some err), evs2) => .done (([], some err), policies) (evs1 ++ evs2)
        | (((freeMap0, freePoliciesNum), none), evs2) =>
          if freePoliciesNum < (policies.length : Int) then
            match createNewAutomationSecurityGroups env (w ++ evs1 ++ evs2) providerParams
                policy0.Ip
                (Int.tdiv ((policies.length : Int) - freePoliciesNum + MAX_SEUCRITY_RULE_NUM - 1)
                  MAX_SEUCRITY_RULE_NUM)
                autoCreatedStartIndex with
            | ((newSecurityGroups, some err), evs3) =>
              .done ((newSecurityGroups, some err), policies) (evs1 ++ evs2 ++ evs3)
            | ((newSecurityGroups, none), evs3) =>
              match fillLoop env providerParams direction
                  (newSecurityGroups.foldl
                    (fun m securityGroup => mapSet m securityGroup MAX_SEUCRITY_RULE_NUM) freeMap0)
                  (createdSecurityGroups ++ newSecurityGroups) 0 policies
                  (w ++ evs1 ++ evs2 ++ evs3) with
              | .done (err, policies1) evs4 =>
                .done ((newSecurityGroups, err), policies1) (evs1 ++ evs2 ++ evs3 ++ evs4)
              | .panic evs4 => .panic (evs1 ++ evs2 ++ evs3 ++ evs4)
          else
            match fillLoop env providerParams direction freeMap0 createdSecurityGroups 0 policies
                (w ++ evs1 ++ evs2) with
            | .done (err, policies1) evs4 => .done (([], err), policies1) (evs1 ++ evs2 ++ evs4)
            | .panic evs4 => .panic (evs1 ++ evs2 ++ evs4)

/-! ## Rolling back -/

/-- The loop of `destroyPolicies` over the groups of `securityGroupMap`, in the order given:
one delete request per group, stopping at the first that fails. -/
def destroyLoop (env : Env) (client : VpcClient) (direction : String)
    (securityGroupMap : List (String × List SecurityPolicy)) :
    List String → World → Option String × List Event
  | [], _ => (none, [])
  | securityGroupId :: rest, w =>
    let policySet :=
      newSecurityPolicySet ((mapGet securityGroupMap securityGroupId).getD []) direction false
    let ret := env.DeleteSecurityGroupPolicies w client securityGroupId policySet
    let ev := Event.deleteSecurityGroupPolicies client securityGroupId policySet ret
    match ret with
    | some err => (some err, [ev])
    | none =>
      ((destroyLoop env client direction securityGroupMap rest (w ++ [ev])).1,
        ev :: (destroyLoop env client direction securityGroupMap rest (w ++ [ev])).2)

/-- The map `destroyPolicies` builds: the entries under their `SecurityGroupId`. -/
def groupBySecurityGroupId (policies : List SecurityPolicy) :
    List (String × List SecurityPolicy) :=
  policies.foldl (fun m policy => mapAppend m policy.SecurityGroupId policy) []

/-- `destroyPolicies`. -/
def destroyPolicies (env : Env) (w : World) (providerParams : String)
    (policies : List SecurityPolicy) (direction : String) : Option String × List Event :=
  let securityGroupMap := groupBySecurityGroupId policies
  let paramsMap := env.GetMapFromProviderParams providerParams
  let client : VpcClient :=
    { region := paramsMap "Region", secretId := paramsMap "SecretID",
      secretKey := paramsMap "SecretKey" }
  let cret := env.CreateVpcClient w client.region client.secretId client.secretKey
  let ev1 := Event.createVpcClient client.region client.secretId client.secretKey cret
  match cret with
  | some err => (some err, [ev1])
  | none =>
    ((destroyLoop env client direction securityGroupMap
        (rangeKeys (env.mapOrder (w ++ [ev1]) (mapKeys securityGroupMap))
          (mapKeys securityGroupMap)) (w ++ [ev1])).1,
      ev1 :: (destroyLoop env client direction securityGroupMap
        (rangeKeys (env.mapOrder (w ++ [ev1]) (mapKeys securityGroupMap))
          (mapKeys securityGroupMap)) (w ++ [ev1])).2)

/-! ## `applyPolicies` -/

/-- `fillSecuityPoliciesWithErrMsg`, with the message of the error. -/
def fillSecuityPoliciesWithErrMsg (policies : List SecurityPolicy) (err : String) :
    List SecurityPolicy :=
  policies.map fun policy => { policy with ErrorMsg := err }

/-- Go `%v` of a `[]string`. -/
def formatStrings (l : List String) : String := "[" ++ " ".intercalate l ++ "]"

/-- The error `applyPolicies` builds when the bind fails. -/
def bindErrorMsg (policy0 : SecurityPolicy) (groups : List String) (err : String) : String :=
  "resourceType(" ++ policy0.Typ ++ ") instance(" ++ policy0.Ip ++ ") AssociateSecurityGroups[" ++
    formatStrings groups ++ "] meet err=" ++ err

/-- The first loop of `applyPolicies`: the alias `clb-cvm...` becomes `cvm`, an entry that
supports the security-group API joins the group of its `Ip`, any other entry gets its
`UndoReason` and is copied to `UndoPolicies`. -/
def partitionLoop :
    List SecurityPolicy → List (String × List SecurityPolicy) → List SecurityPolicy →
      List (String × List SecurityPolicy) × List SecurityPolicy
  | [], instanceMap, undoPolicies => (instanceMap, undoPolicies)
  | policy :: rest, instanceMap, undoPolicies =>
    let policy1 := if HasPrefix policy.Typ "clb-cvm" then { policy with Typ := "cvm" } else policy
    if policy1.SupportSecurityGroupApi = true then
      partitionLoop rest (mapAppend instanceMap policy1.Ip policy1) undoPolicies
    else
      partitionLoop rest instanceMap
        (undoPolicies ++
          [{ policy1 with
              UndoReason :=
                "instanceType(" ++ policy1.Typ ++ ") do not support security group api" }])

/-- The second half of the body of the second loop of `applyPolicies`, once the resource
`inst` and its groups `existSecurityGroups` are known: submit the entries, roll back and
mark them when that fails, bind the groups when a group was created, roll back and mark them
when the bind fails. `policy0` is `policies[0]`, whose `Type` and `Ip` the bind error names
(`createPolicies` writes no other field than `ErrorMsg` and `SecurityGroupId`). -/
def applyGroupTail (env : Env) (w : World) (providerParams : String) (inst : ResourceInstance)
    (existSecurityGroups : List String) (policy0 : SecurityPolicy)
    (policies : List SecurityPolicy) (direction : String) : Result (List SecurityPolicy) :=
  match createPolicies env w providerParams existSecurityGroups policies direction with
  | .panic evs => .panic evs
  | .done ((_, some err), policies1) evs =>
    .done (fillSecuityPoliciesWithErrMsg policies1 err)
      (evs ++ (destroyPolicies env (w ++ evs) providerParams policies1 direction).2)
  | .done ((newSecurityGroups, none), policies1) evs =>
    if newSecurityGroups.length > 0 then
      let groups := newSecurityGroups ++ existSecurityGroups
      let ret4 := env.InstanceAssociateSecurityGroups (w ++ evs) inst providerParams groups
      let ev4 := Event.instanceAssociateSecurityGroups inst providerParams groups ret4
      match ret4 with
      | some err =>
        .done (fillSecuityPoliciesWithErrMsg policies1 (bindErrorMsg policy0 groups err))
          (evs ++ [ev4] ++
            (destroyPolicies env (w ++ evs ++ [ev4]) providerParams policies1 direction).2)
      | none => .done policies1 (evs ++ [ev4])
    else .done policies1 evs

/-- The body of the second loop of `applyPolicies` for the entries of one owner IP: the
entries as the round leaves them. An empty group makes `policies[0]` panic, and so does a
non-empty answer of `QueryInstancesById` without the id asked for, whose `instance` is
nil. -/
def applyGroup (env : Env) (w : World) (policies : List SecurityPolicy) (direction : String) :
    Result (List SecurityPolicy) :=
  match policies with
  | [] => .panic []
  | policy0 :: _ =>
    match getResouceTypeByName policy0.Typ with
    | .error err => .done (fillSecuityPoliciesWithErrMsg policies err) []
    | .ok resType =>
      let ret1 := env.getProviderParams w policy0.Region
      let ev1 := Event.getProviderParams policy0.Region ret1
      match ret1 with
      | .error err => .done (fillSecuityPoliciesWithErrMsg policies err) [ev1]
      | .ok providerParams =>
        let ret2 := env.QueryInstancesById (w ++ [ev1]) resType providerParams [policy0.Id]
        let ev2 := Event.queryInstancesById resType providerParams [policy0.Id] ret2
        match ret2 with
        | .error err => .done (fillSecuityPoliciesWithErrMsg policies err) [ev1, ev2]
        | .ok instances =>
          if instances.length = 0 then
            .done (fillSecuityPoliciesWithErrMsg policies
              ("can't found instanceId(" ++ policy0.Id ++ ")")) [ev1, ev2]
          else
            match mapGet instances policy0.Id with
            | none => .panic [ev1, ev2]
            | some inst =>
              let ret3 := env.InstanceQuerySecurityGroups (w ++ [ev1, ev2]) inst providerParams
              let ev3 := Event.instanceQuerySecurityGroups inst providerParams ret3
              match ret3 with
              | .error err => .done (fillSecuityPoliciesWithErrMsg policies err) [ev1, ev2, ev3]
              | .ok existSecurityGroups =>
                match applyGroupTail env (w ++ [ev1, ev2, ev3]) providerParams inst
                    existSecurityGroups policy0 policies direction with
                | .panic evs => .panic ([ev1, ev2, ev3] ++ evs)
                | .done policies1 evs => .done policies1 ([ev1, ev2, ev3] ++ evs)

/-- The second loop of `applyPolicies` over the owner IPs in the order given: each round
rewrites the entries of its group. -/
def applyLoop (env : Env) (direction : String) :
    List String → List (String × List SecurityPolicy) → World →
      Result (List (String × List SecurityPolicy))
  | [], instanceMap, _ => .done instanceMap []
  | key :: rest, instanceMap, w =>
    match applyGroup env w ((mapGet instanceMap key).getD []) direction with
    | .panic evs => .panic evs
    | .done policies evs =>
      match applyLoop env direction rest (mapSet instanceMap key policies) (w ++ evs) with
      | .done instanceMap1 evs2 => .done instanceMap1 (evs ++ evs2)
      | .panic evs2 => .panic (evs ++ evs2)

/-- The inner loop of the last loop of `applyPolicies`. -/
def collectGroup :
    List SecurityPolicy → List SecurityPolicy × List SecurityPolicy →
      List SecurityPolicy × List SecurityPolicy
  | [], acc => acc
  | policy :: rest, (successPolicies, failedPolicies) =>
    if policy.ErrorMsg = "" then collectGroup rest (successPolicies ++ [policy], failedPolicies)
    else collectGroup rest (successPolicies, failedPolicies ++ [policy])

/-- The last loop of `applyPolicies` over the owner IPs in the order given. -/
def collectLoop (instanceMap : List (String × List SecurityPolicy)) :
    List String → List SecurityPolicy × List SecurityPolicy →
      List SecurityPolicy × List SecurityPolicy
  | [], acc => acc
  | key :: rest, acc =>
    collectLoop instanceMap rest (collectGroup ((mapGet instanceMap key).getD []) acc)

/-- `applyPolicies`. `UndoTotal` keeps the zero value of `ApplyResult{}`: the function
assigns `PoliciesTotal`, `SuccessTotal` and `FailedTotal` only. -/
def applyPolicies (env : Env) (w : World) (policies : List SecurityPolicy) (direction : String) :
    Result ApplyResult :=
  match applyLoop env direction
      (rangeKeys (env.mapOrder w (mapKeys (partitionLoop policies [] []).1))
        (mapKeys (partitionLoop policies [] []).1))
      (partitionLoop policies [] []).1 w with
  | .panic evs => .panic evs
  | .done instanceMap evs =>
    .done
      { PoliciesTotal := policies.length
        SuccessTotal :=
          (collectLoop instanceMap
            (rangeKeys (env.mapOrder (w ++ evs) (mapKeys instanceMap)) (mapKeys instanceMap))
            ([], [])).1.length
        UndoTotal := 0
        FailedTotal :=
          (collectLoop instanceMap
            (rangeKeys (env.mapOrder (w ++ evs) (mapKeys instanceMap)) (mapKeys instanceMap))
            ([], [])).2.length
        SuccessPolicies :=
          (collectLoop instanceMap
            (rangeKeys (env.mapOrder (w ++ evs) (mapKeys instanceMap)) (mapKeys instanceMap))
            ([], [])).1
        UndoPolicies := (partitionLoop policies [] []).2
        FailedPolicies :=
          (collectLoop instanceMap
            (rangeKeys (env.mapOrder (w ++ evs) (mapKeys instanceMap)) (mapKeys instanceMap))
            ([], [])).2 }
      evs

/-- `ApplySecurityPolicyAction.Do`: ingress first, then egress; the error is non-nil when
either direction counts a failed entry. -/
def ApplySecurityPolicyAction.Do (env : Env) (w : World) (req : ApplySecurityPoliciesRequest) :
    Result (ApplySecurityPoliciesResult × Option String) :=
  match applyPolicies env w req.IngressPolicies INGRESS_RULE with
  | .panic evs => .panic evs
  | .done ingress evs1 =>
    match applyPolicies env (w ++ evs1) req.EgressPolicies EGRESS_RULE with
    | .panic evs2 => .panic (evs1 ++ evs2)
    | .done egress evs2 =>
      .done
        ({ IngressApplyResult := ingress, EgressApplyResult := egress },
          if ingress.FailedTotal > 0 ∨ egress.FailedTotal > 0 then
            some "have some failed polices,please check policy applied detail"
          else none)
        (evs1 ++ evs2)

/-! ## Reading the history -/

/-- The value of a run that did not panic. -/
def Result.value? {α : Type} : Result α → Option α
  | .done a _ => some a
  | .panic _ => none

/-- The call succeeded: it returned no error and, for the two look-ups by id, the answer has
every id that was asked for. -/
def Event.succeeded : Event → Bool
  | .getProviderParams _ (.ok _) => true
  | .queryInstancesById _ _ ids (.ok instances) =>
    instances.length ≠ 0 && ids.all fun id => (mapGet instances id).isSome
  | .instanceQuerySecurityGroups _ _ (.ok _) => true
  | .instanceAssociateSecurityGroups _ _ _ none => true
  | .querySecurityGroups _ ids (.ok groups) =>
    ids.all fun id => groups.any fun g => g.SecurityGroupId == id
  | .querySecurityGroupPolicies _ _ (.ok _) => true
  | .createSecurityGroup _ _ _ (.ok _) => true
  | .createVpcClient _ _ _ none => true
  | .createSecurityGroupPolicies _ _ _ none => true
  | .deleteSecurityGroupPolicies _ _ _ none => true
  | _ => false

/-- Names of the groups the create-group calls asked for, in order. -/
def createdNames (evs : List Event) : List String :=
  evs.filterMap fun e =>
    match e with
    | .createSecurityGroup _ name _ _ => some name
    | _ => none

/-- Ids of the groups the provider created, in order. -/
def createdIds (evs : List Event) : List String :=
  evs.filterMap fun e =>
    match e with
    | .createSecurityGroup _ _ _ (.ok id) => some id
    | _ => none

/-- Free number `MAX_SEUCRITY_RULE_NUM - len(rules)` of a policy set in a direction. -/
def freeNumOf (direction : String) (policiesSet : SecurityGroupPolicySet) : Int :=
  if EqualFold direction INGRESS_RULE then MAX_SEUCRITY_RULE_NUM - (policiesSet.Ingress.length : Int)
  else MAX_SEUCRITY_RULE_NUM - (policiesSet.Egress.length : Int)

/-- The groups whose rules were queried with the free number of each, in order. -/
def queriedFree (direction : String) (evs : List Event) : List (String × Int) :=
  evs.filterMap fun e =>
    match e with
    | .querySecurityGroupPolicies _ g (.ok policiesSet) => some (g, freeNumOf direction policiesSet)
    | _ => none

/-- The rules of a request, whatever the direction. -/
def SecurityGroupPolicySet.rules (s : SecurityGroupPolicySet) : List SecurityGroupPolicy :=
  s.Ingress ++ s.Egress

/-- The create-policies requests the provider accepted: group and policy set, in order. -/
def submitted (evs : List Event) : List (String × SecurityGroupPolicySet) :=
  evs.filterMap fun e =>
    match e with
    | .createSecurityGroupPolicies _ g policySet none => some (g, policySet)
    | _ => none

/-- Every create-policies request issued, accepted or not. -/
def submitRequests (evs : List Event) : List (String × SecurityGroupPolicySet) :=
  evs.filterMap fun e =>
    match e with
    | .createSecurityGroupPolicies _ g policySet _ => some (g, policySet)
    | _ => none

/-- Every delete-policies request issued: group and policy set, in order. -/
def deleteRequests (evs : List Event) : List (String × SecurityGroupPolicySet) :=
  evs.filterMap fun e =>
    match e with
    | .deleteSecurityGroupPolicies _ g policySet _ => some (g, policySet)
    | _ => none

/-- The bind requests issued: the list of group ids of each. -/
def bindRequests (evs : List Event) : List (List String) :=
  evs.filterMap fun e =>
    match e with
    | .instanceAssociateSecurityGroups _ _ groups _ => some groups
    | _ => none

/-- Names the provider returned for the groups of a resource. -/
def groupNamesSeen (evs : List Event) : List String :=
  evs.flatMap fun e =>
    match e with
    | .querySecurityGroups _ _ (.ok groups) => groups.map fun g => g.SecurityGroupName
    | _ => []

/-- The entry with its group id set. -/
def bindTo (securityGroupId : String) (policy : SecurityPolicy) : SecurityPolicy :=
  { policy with SecurityGroupId := securityGroupId }

/-- The pairs (sequence number, id) of the auto-created groups of `ip` among the groups with
the given names and ids, in the order of the input. -/
def recognised (ip : String) (names ids : List String) : List (Int × String) :=
  (names.zip ids).filterMap fun x => (autoCreatedNum ip x.1).map fun n => (n, x.2)

/-- The external operation an event records, by number. -/
def Event.kind : Event → Nat
  | .getProviderParams _ _ => 0
  | .queryInstancesById _ _ _ _ => 1
  | .instanceQuerySecurityGroups _ _ _ => 2
  | .instanceAssociateSecurityGroups _ _ _ _ => 3
  | .querySecurityGroups _ _ _ => 4
  | .querySecurityGroupPolicies _ _ _ => 5
  | .createSecurityGroup _ _ _ _ => 6
  | .createVpcClient _ _ _ _ => 7
  | .createSecurityGroupPolicies _ _ _ _ => 8
  | .deleteSecurityGroupPolicies _ _ _ _ => 9

/-- The message of the error the call returned, if it returned one. -/
def Event.error? : Event → Option String
  | .getProviderParams _ (.error e) => some e
  | .queryInstancesById _ _ _ (.error e) => some e
  | .instanceQuerySecurityGroups _ _ (.error e) => some e
  | .instanceAssociateSecurityGroups _ _ _ (some e) => some e
  | .querySecurityGroups _ _ (.error e) => some e
  | .querySecurityGroupPolicies _ _ (.error e) => some e
  | .createSecurityGroup _ _ _ (.error e) => some e
  | .createVpcClient _ _ _ (some e) => some e
  | .createSecurityGroupPolicies _ _ _ (some e) => some e
  | .deleteSecurityGroupPolicies _ _ _ (some e) => some e
  | _ => none

/-- The `freeNum` the last loop of `createPolicies` reads for a group. -/
def capOf (freePolicyNumMap : List (String × Int)) (securityGroupId : String) : Int :=
  (mapGet freePolicyNumMap securityGroupId).getD 0

/-- First fit in order: every group takes, from what is left, as many entries as its free
number allows. -/
def greedySlices (freePolicyNumMap : List (String × Int)) :
    List String → List SecurityPolicy → List (String × List SecurityPolicy)
  | [], _ => []
  | g :: gs, rest =>
    (g, rest.take (capOf freePolicyNumMap g).toNat) ::
      greedySlices freePolicyNumMap gs (rest.drop (capOf freePolicyNumMap g).toNat)

/-- What first fit leaves unplaced. -/
def leftover (freePolicyNumMap : List (String × Int)) :
    List String → List SecurityPolicy → List SecurityPolicy
  | [], rest => rest
  | g :: gs, rest => leftover freePolicyNumMap gs (rest.drop (capOf freePolicyNumMap g).toNat)

/-- The entries of the slices, each bound to the group of its slice. -/
def boundSlices (slices : List (String × List SecurityPolicy)) : List SecurityPolicy :=
  slices.flatMap fun s => s.2.map (bindTo s.1)

/-- The entry without what an apply pass writes to an entry it processes: error message
and group id. -/
def eraseStatus (policy : SecurityPolicy) : SecurityPolicy :=
  { policy with ErrorMsg := "", SecurityGroupId := "" }

/-- The alias rewrite at the head of the first loop of `applyPolicies`. -/
def normalizeType (policy : SecurityPolicy) : SecurityPolicy :=
  if HasPrefix policy.Typ "clb-cvm" then { policy with Typ := "cvm" } else policy

/-- The undo reason the first loop of `applyPolicies` writes. -/
def markUndo (policy : SecurityPolicy) : SecurityPolicy :=
  { policy with
    UndoReason := "instanceType(" ++ policy.Typ ++ ") do not support security group api" }

/-- The largest sequence number among the recognised groups, `0` when there is none. -/
def maxSeq (ip : String) (names ids : List String) : Int :=
  ((recognised ip names ids).map Prod.fst).foldl (fun m n => if m < n then n else m) 0

/-! ## Concrete providers for the examples -/

/-- An entry for owner `ip` as the calculator produces it. -/
def samplePolicy (ip peerIp : String) (support : Bool) : SecurityPolicy :=
  { Ip := ip, Typ := "cvm", Id := "ins-1", Region := "ap-guangzhou",
    SupportSecurityGroupApi := support, PeerIp := peerIp, Protocol := "tcp", Ports := "80",
    Action := "accept", Description := "svc", ErrorMsg := "", UndoReason := "",
    SecurityGroupId := "" }

/-- A rule already present in a group. -/
def sampleRule : SecurityGroupPolicy :=
  { PolicyIndex := some 0, Protocol := "tcp", Port := "22", CidrBlock := "10.9.9.9",
    Action := "ACCEPT", PolicyDescription := "old" }

/-- A provider whose state does not change: every instance is bound to the groups `groups`
(id, name, number of rules in either direction); group `<name>` is created with id
`sg-<name>`; a create-policies request is rejected for the groups in `rejectSubmit`, a
delete-policies request for the groups in `rejectDelete`, a bind when `rejectBind`. Maps are
walked in insertion order. -/
def scriptedEnv (groups : List (String × String × Nat)) (rejectSubmit rejectDelete : List String)
    (rejectBind : Bool) : Env :=
  { getProviderParams := fun _ region => .ok region
    QueryInstancesById := fun _ resType _ ids =>
      .ok (ids.map fun id =>
        (id, { typeName := resType, id := id, name := id, region := "ap-guangzhou",
               ip := "", supportSecurityGroupApi := true }))
    InstanceQuerySecurityGroups := fun _ _ _ => .ok (groups.map fun g => g.1)
    InstanceAssociateSecurityGroups := fun _ _ _ _ =>
      if rejectBind then some "bind rejected" else none
    QuerySecurityGroups := fun _ _ _ =>
      .ok (groups.map fun g => { SecurityGroupId := g.1, SecurityGroupName := g.2.1 })
    QuerySecurityGroupPolicies := fun _ _ id =>
      .ok { Ingress := List.replicate (((mapGet groups id).map fun g => g.2).getD 0) sampleRule
            Egress := List.replicate (((mapGet groups id).map fun g => g.2).getD 0) sampleRule }
    CreateSecurityGroup := fun _ _ name _ => .ok ("sg-" ++ name)
    GetMapFromProviderParams := fun _ _ => ""
    CreateVpcClient := fun _ _ _ _ => none
    CreateSecurityGroupPolicies := fun _ _ id _ =>
      if id ∈ rejectSubmit then some "request rejected" else none
    DeleteSecurityGroupPolicies := fun _ _ id _ =>
      if id ∈ rejectDelete then some "request rejected" else none
    mapOrder := fun _ keys => keys }

/-- The groups of the example resource: one auto-created group of `10.0.0.1` with 98 rules
(two free) and one group that is not auto-created. -/
def demoGroups : List (String × String × Nat) :=
  [("sg-1", "10.0.0.1-auto-1", 98), ("sg-d", "default", 5)]

/-- A provider on which every call succeeds, for a resource bound to `demoGroups`. -/
def demoEnv : Env := scriptedEnv demoGroups [] [] false

/-- Three entries for owner `10.0.0.1`. -/
def demoBatch : List SecurityPolicy :=
  [samplePolicy "10.0.0.1" "10.0.0.2" true, samplePolicy "10.0.0.1" "10.0.0.3" true,
    samplePolicy "10.0.0.1" "10.0.0.4" true]

/-- 250 entries for owner `10.0.0.1`. -/
def demoBatch250 : List SecurityPolicy :=
  List.replicate 250 (samplePolicy "10.0.0.1" "10.0.0.2" true)

/-- A provider on which every call succeeds, for a resource bound to one group that is not
auto-created. -/
def plainEnv : Env := scriptedEnv [("sg-d", "default", 5)] [] [] false

/-- Three auto-created groups of `10.0.0.1`, each with 99 rules (one free). -/
def fullGroups : List (String × String × Nat) :=
  [("sg-1", "10.0.0.1-auto-1", 99), ("sg-2", "10.0.0.1-auto-2", 99),
    ("sg-3", "10.0.0.1-auto-3", 99)]

/-- A provider for a resource bound to `fullGroups` that rejects the create-policies request
for `sg-3`. -/
def rejectThirdEnv : Env := scriptedEnv fullGroups ["sg-3"] [] false

/-- A provider for a resource bound to `fullGroups` that rejects the create-policies request
for `sg-3` and the delete-policies requests for `sg-1` and `sg-2`. -/
def rejectDeleteEnv : Env := scriptedEnv fullGroups ["sg-3"] ["sg-1", "sg-2"] false

/-- A provider for a resource bound to `demoGroups` that rejects the create-policies request
for the new group `sg-10.0.0.1-auto-2`. -/
def rejectNewGroupEnv : Env := scriptedEnv demoGroups ["sg-10.0.0.1-auto-2"] [] false

/-- The peer addresses a request lists, with the group it is sent to. -/
def requestPeers (r : String × SecurityGroupPolicySet) : String × List String :=
  (r.1, r.2.rules.map fun rule => rule.CidrBlock)

/-- The ids of the groups a run works with: those whose rules it read, then those it
created. -/
def groupIdsUsed (direction : String) (evs : List Event) : List String :=
  (queriedFree direction evs).map Prod.fst ++ createdIds evs

/-- How many of the three terminal states hold for an entry: failed (`ErrorMsg` set), undo
(`UndoReason` set), success (`SecurityGroupId` set, `ErrorMsg` and `UndoReason` empty). -/
def terminalStates (policy : SecurityPolicy) : Nat :=
  (if policy.ErrorMsg ≠ "" then 1 else 0) + (if policy.UndoReason ≠ "" then 1 else 0) +
    (if policy.SecurityGroupId ≠ "" ∧ policy.ErrorMsg = "" ∧ policy.UndoReason = "" then 1
      else 0)

/-- An entry of a resource that does not support the API, sent with the error message of an
earlier pass still on it. -/
def staleEntry : SecurityPolicy :=
  { samplePolicy "10.0.0.1" "10.0.0.2" false with ErrorMsg := "request rejected" }

/-- A provider for resources bound to `demoGroups` that rejects the create-policies request
for the new group `sg-10.0.0.9-auto-1`. -/
def rejectOtherEnv : Env := scriptedEnv demoGroups ["sg-10.0.0.9-auto-1"] [] false

/-- Entries of three owners: `10.0.0.1`, `10.0.0.9`, and `10.0.0.5`, which does not support
the API. -/
def mixedBatch : List SecurityPolicy :=
  [samplePolicy "10.0.0.1" "10.0.0.2" true, samplePolicy "10.0.0.9" "10.0.0.3" true,
    samplePolicy "10.0.0.5" "10.0.0.4" false]

end securitygroup

/-! # The calculator and the validation of an apply request

The calculator (`findInstanceByIp`, `newPolicies`, `calcPolicies`,
`CalcSecurityPolicyAction.Do`) only reads from the provider.  Its collaborators are the
fields of `CalcEnv`, its calls are recorded as `CalcEvent`s, and its outcomes are
`CalcResult`s, in the same way as `Env`, `Event` and `Result` for the apply path.
-/

namespace securitygroup

/-! ## Validation of an apply request -/

/-- One loop of `ApplySecurityPolicyAction.CheckParam`: the error `msg` at the first entry
with an empty `Ip` or an empty `Id`. -/
def checkLoop (msg : String) : List SecurityPolicy → Option String
  | [] => none
  | policy :: rest =>
    if policy.Ip = "" ∨ policy.Id = "" then some msg else checkLoop msg rest

/-- `ApplySecurityPolicyAction.CheckParam`: the error it returns and the external calls it
makes, of which there is none. -/
def ApplySecurityPolicyAction.CheckParam (req : ApplySecurityPoliciesRequest) :
    Option String × List Event :=
  match checkLoop "ingress policy have empty value" req.IngressPolicies with
  | some err => (some err, [])
  | none =>
    match checkLoop "egress policy have empty value" req.EgressPolicies with
    | some err => (some err, [])
    | none => (none, [])

/-! ## The calculator: data and provider -/

/-- `CalcSecurityPoliciesRequest`. -/
structure CalcSecurityPoliciesRequest where
  Protocol : String
  SourceIps : List String
  DestIps : List String
  DestPort : String
  PolicyAction : String
  PolicyDirections : List String
  Description : String
  deriving DecidableEq, Repr

/-- `CalcSecurityPoliciesResult`, without the elapsed time `TimeTaken`. -/
structure CalcSecurityPoliciesResult where
  IngressPoliciesTotal : Int
  EgressPoliciesTotal : Int
  IngressPolicies : List SecurityPolicy
  EgressPolicies : List SecurityPolicy
  deriving DecidableEq, Repr

/-- One external call of the calculator with its arguments and its answer.
`getProviderParams` returns a string and an error: `newPolicies` drops the error and uses
the string. -/
inductive CalcEvent where
  | getRegions (ret : Except String (List String))
  | getProviderParams (region : String) (ret : String × Option String)
  | queryInstancesByIp (resType providerParams : String) (ips : List String)
      (ret : Except String (List (String × ResourceInstance)))
  | getBackendTargets (inst : ResourceInstance) (providerParams proto port : String)
      (ret : Except String (List ResourceInstance × List String))

/-- The history of the external calls of the calculator. -/
abbrev CalcWorld := List CalcEvent

/-- The external collaborators of the calculator, none of which is in the sources; the
provider calls take the history of calls made before. `IsLoadBalanceType` and
`IsSupportEgressPolicy` are the two flags of a registered resource type, known by its name.
`getPortsByPolicyFormat` is the port parser with its error. `typeOrder` is the preference
of the Go runtime when it walks `resourceTypeMap` (see `rangeKeys`). -/
structure CalcEnv where
  getRegions : CalcWorld → Except String (List String)
  getProviderParams : CalcWorld → String → String × Option String
  QueryInstancesByIp : CalcWorld → String → String → List String →
    Except String (List (String × ResourceInstance))
  GetBackendTargets : CalcWorld → ResourceInstance → String → String → String →
    Except String (List ResourceInstance × List String)
  IsLoadBalanceType : String → Bool
  IsSupportEgressPolicy : String → Bool
  getPortsByPolicyFormat : String → List String × Option String
  typeOrder : CalcWorld → List String → List String

/-- Outcome of a call of the calculator that may panic, with the external calls it made. -/
inductive CalcResult (α : Type) where
  | done (a : α) (evs : List CalcEvent)
  | panic (evs : List CalcEvent)

/-- The external calls made, whatever the outcome. -/
def CalcResult.events {α : Type} : CalcResult α → List CalcEvent
  | .done _ evs => evs
  | .panic evs => evs

/-- The value of a run that did not panic. -/
def CalcResult.value? {α : Type} : CalcResult α → Option α
  | .done a _ => some a
  | .panic _ => none

/-- Modelled from the spec: `isContainInList`, whether the direction is one of the requested
directions. -/
def isContainInList (item : String) (list : List String) : Bool := list.contains item

/-! ## `findInstanceByIp` -/

/-- The inner loop of `findInstanceByIp` over the resource types in the order given: it ends
at the first lookup that fails or whose answer has the IP. -/
def typeLoop (env : CalcEnv) (providerParams ip : String) :
    List String → CalcWorld → Option (Except String ResourceInstance) × List CalcEvent
  | [], _ => (none, [])
  | resType :: rest, w =>
    let ret := env.QueryInstancesByIp w resType providerParams [ip]
    let ev := CalcEvent.queryInstancesByIp resType providerParams [ip] ret
    match ret with
    | .error err => (some (.error err), [ev])
    | .ok instanceMap =>
      match mapGet instanceMap ip with
      | some inst => (some (.ok inst), [ev])
      | none =>
        ((typeLoop env providerParams ip rest (w ++ [ev])).1,
          ev :: (typeLoop env providerParams ip rest (w ++ [ev])).2)

/-- The not-found error of `findInstanceByIp`. -/
def notFoundError (ip : String) : String := "ip(" ++ ip ++ "),can't be found"

/-- The outer loop of `findInstanceByIp` over the regions: the parameters of the region,
then the resource types in the order the runtime walks `resourceTypeMap`. -/
def regionLoop (env : CalcEnv) (ip : String) :
    List String → CalcWorld → Except String ResourceInstance × List CalcEvent
  | [], _ => (.error (notFoundError ip), [])
  | region :: rest, w =>
    let ret := env.getProviderParams w region
    let ev := CalcEvent.getProviderParams region ret
    match ret.2 with
    | some err => (.error err, [ev])
    | none =>
      let found := typeLoop env ret.1 ip
        (rangeKeys (env.typeOrder (w ++ [ev]) registeredResourceTypes) registeredResourceTypes)
        (w ++ [ev])
      match found.1 with
      | some r => (r, ev :: found.2)
      | none =>
        ((regionLoop env ip rest (w ++ ev :: found.2)).1,
          ev :: found.2 ++ (regionLoop env ip rest (w ++ ev :: found.2)).2)

/-- `findInstanceByIp`. -/
def findInstanceByIp (env : CalcEnv) (w : CalcWorld) (ip : String) :
    Except String ResourceInstance × List CalcEvent :=
  let ret := env.getRegions w
  let ev := CalcEvent.getRegions ret
  match ret with
  | .error err => (.error err, [ev])
  | .ok regions =>
    ((regionLoop env ip regions (w ++ [ev])).1,
      ev :: (regionLoop env ip regions (w ++ [ev])).2)


/-! ## `newPolicies` -/

/-- The `SecurityPolicy` literal of `newPolicies` for the resource `inst` under the owner
address `ip`; the three status fields keep their zero value. -/
def newPolicy (inst : ResourceInstance) (ip peerIp proto port action desc : String) :
    SecurityPolicy :=
  { Ip := ip, Typ := inst.typeName, Id := inst.id, Region := inst.region,
    SupportSecurityGroupApi := inst.supportSecurityGroupApi, PeerIp := peerIp,
    Protocol := proto, Ports := port, Action := action, Description := desc,
    ErrorMsg := "", UndoReason := "", SecurityGroupId := "" }

/-- The loop of `newPolicies` over the backends of a load balancer: the `i`-th backend gets
the `i`-th port; `none` is the panic of `ports[i]` when the ports run out. -/
def backendLoop (peerIp proto action desc : String) :
    List ResourceInstance → List String → List SecurityPolicy → Option (List SecurityPolicy)
  | [], _, policies => some policies
  | _ :: _, [], _ => none
  | backendInstance :: rest, port :: ports, policies =>
    backendLoop peerIp proto action desc rest ports
      (policies ++ [newPolicy backendInstance backendInstance.ip peerIp proto port action desc])

/-- The error of `newPolicies` for a port that is not a list of integers. -/
def portFormatError (port : String) : String :=
  "loadbalancer do not support port format like " ++ port

/-- The error of `newPolicies` for a listener without backends. -/
def noBackendError (lbIp splitPort : String) : String :=
  "loadbalancer(" ++ lbIp ++ ") port (" ++ splitPort ++ ") do not have any backends"

/-- The loop of `newPolicies` over the ports of a load balancer split at the commas. -/
def splitPortLoop (env : CalcEnv) (inst : ResourceInstance)
    (providerParams peerIp proto port action desc : String) :
    List String → List SecurityPolicy → CalcWorld →
      CalcResult (List SecurityPolicy × Option String)
  | [], policies, _ => .done (policies, none) []
  | splitPort :: rest, policies, w =>
    match Atoi splitPort with
    | none => .done (policies, some (portFormatError port)) []
    | some _ =>
      let ret := env.GetBackendTargets w inst providerParams proto splitPort
      let ev := CalcEvent.getBackendTargets inst providerParams proto splitPort ret
      match ret with
      | .error err => .done (policies, some err) [ev]
      | .ok (instances, ports) =>
        if instances.length = 0 then
          .done (policies, some (noBackendError inst.ip splitPort)) [ev]
        else
          match backendLoop peerIp proto action desc instances ports policies with
          | none => .panic [ev]
          | some policies1 =>
            match splitPortLoop env inst providerParams peerIp proto port action desc rest
                policies1 (w ++ [ev]) with
            | .done r evs => .done r (ev :: evs)
            | .panic evs => .panic (ev :: evs)

/-- `newPolicies`. A resource whose type is not registered makes the method call on the nil
`resType` panic. -/
def newPolicies (env : CalcEnv) (w : CalcWorld) (inst : ResourceInstance)
    (myIp peerIp proto port action desc : String) :
    CalcResult (List SecurityPolicy × Option String) :=
  match getResouceTypeByName inst.typeName with
  | .error _ => .panic []
  | .ok resType =>
    if env.IsLoadBalanceType resType = false then
      .done ([newPolicy inst myIp peerIp proto port action desc], none) []
    else
      let ret := env.getProviderParams w inst.region
      let ev := CalcEvent.getProviderParams inst.region ret
      match splitPortLoop env inst ret.1 peerIp proto port action desc (Split port ',') []
          (w ++ [ev]) with
      | .done r evs => .done r (ev :: evs)
      | .panic evs => .panic (ev :: evs)

/-! ## `calcPolicies` -/

/-- The error of `calcPolicies` for an ingress peer that is a load balancer. -/
def lbPeerError (peerIp : String) : String :=
  "对端设备(" ++ peerIp ++ ") 是负载均衡设备,入栈规则不支持对端IP为负载均衡设备"

/-- The test of `calcPolicies` on the answer of `findInstanceByIp` for a peer: the direction
is ingress, the peer was found, its type is registered and is a load balancer. -/
def isLoadBalancePeer (env : CalcEnv) (direction : String)
    (found : Except String ResourceInstance) : Bool :=
  match found with
  | .error _ => false
  | .ok peerInstance =>
    match getResouceTypeByName peerInstance.typeName with
    | .error _ => false
    | .ok peerResType => direction == INGRESS_RULE && env.IsLoadBalanceType peerResType

/-- The loop of `calcPolicies` over the ports, for one peer. -/
def portLoop (env : CalcEnv) (inst : ResourceInstance)
    (devIp peerIp proto action description : String) :
    List String → List SecurityPolicy → CalcWorld →
      CalcResult (List SecurityPolicy × Option String)
  | [], policies, _ => .done (policies, none) []
  | port :: rest, policies, w =>
    match newPolicies env w inst devIp peerIp proto port action description with
    | .panic evs => .panic evs
    | .done (_, some err) evs => .done (policies, some err) evs
    | .done (newPolicies1, none) evs =>
      match portLoop env inst devIp peerIp proto action description rest
          (if newPolicies1.length > 0 then policies ++ newPolicies1 else policies)
          (w ++ evs) with
      | .done r evs2 => .done r (evs ++ evs2)
      | .panic evs2 => .panic (evs ++ evs2)

/-- The loop of `calcPolicies` over the peers. -/
def peerLoop (env : CalcEnv) (inst : ResourceInstance)
    (devIp proto : String) (ports : List String) (action description direction : String) :
    List String → List SecurityPolicy → CalcWorld →
      CalcResult (List SecurityPolicy × Option String)
  | [], policies, _ => .done (policies, none) []
  | peerIp :: rest, policies, w =>
    let found := findInstanceByIp env w peerIp
    if isLoadBalancePeer env direction found.1 = true then
      .done (policies, some (lbPeerError peerIp)) found.2
    else
      match portLoop env inst devIp peerIp proto action description ports policies
          (w ++ found.2) with
      | .panic evs => .panic (found.2 ++ evs)
      | .done (policies1, some err) evs => .done (policies1, some err) (found.2 ++ evs)
      | .done (policies1, none) evs =>
        match peerLoop env inst devIp proto ports action description direction rest policies1
            (w ++ found.2 ++ evs) with
        | .done r evs2 => .done r (found.2 ++ evs ++ evs2)
        | .panic evs2 => .panic (found.2 ++ evs ++ evs2)

/-- `calcPolicies`: the policies and the error. -/
def calcPolicies (env : CalcEnv) (w : CalcWorld) (devIp : String) (peerIps : List String)
    (proto : String) (ports : List String) (action description direction : String) :
    CalcResult (List SecurityPolicy × Option String) :=
  let found := findInstanceByIp env w devIp
  match found.1 with
  | .error err => .done ([], some err) found.2
  | .ok inst =>
    match getResouceTypeByName inst.typeName with
    | .error err => .done ([], some err) found.2
    | .ok resType =>
      if direction = EGRESS_RULE ∧ env.IsSupportEgressPolicy resType = false then
        .done ([], none) found.2
      else
        match peerLoop env inst devIp proto ports action description direction peerIps []
            (w ++ found.2) with
        | .done r evs => .done r (found.2 ++ evs)
        | .panic evs => .panic (found.2 ++ evs)

/-! ## `CalcSecurityPolicyAction.Do` -/

/-- The two `if` statements of `CalcSecurityPolicyAction.Do` that fold an error into
`finalError`. -/
def combineError (finalError err : Option String) : Option String :=
  match err, finalError with
  | some e, some f => some (f ++ e)
  | some e, none => some e
  | none, f => f

/-- One of the two loops of `CalcSecurityPolicyAction.Do` over the owner addresses `ips`:
the policies collected and `finalError`. -/
def doLoop (env : CalcEnv) (peerIps : List String) (proto : String) (ports : List String)
    (action description direction : String) :
    List String → List SecurityPolicy × Option String → CalcWorld →
      CalcResult (List SecurityPolicy × Option String)
  | [], acc, _ => .done acc []
  | ip :: rest, acc, w =>
    match calcPolicies env w ip peerIps proto ports action description direction with
    | .panic evs => .panic evs
    | .done (policies, err) evs =>
      match doLoop env peerIps proto ports action description direction rest
          (acc.1 ++ policies, combineError acc.2 err) (w ++ evs) with
      | .done r evs2 => .done r (evs ++ evs2)
      | .panic evs2 => .panic (evs ++ evs2)

/-- `CalcSecurityPolicyAction.Do`: the result and the error. -/
def CalcSecurityPolicyAction.Do (env : CalcEnv) (w : CalcWorld)
    (req : CalcSecurityPoliciesRequest) :
    CalcResult (CalcSecurityPoliciesResult × Option String) :=
  let ports := (env.getPortsByPolicyFormat req.DestPort).1
  match (if isContainInList EGRESS_RULE req.PolicyDirections = true then
      doLoop env req.DestIps req.Protocol ports req.PolicyAction req.Description EGRESS_RULE
        req.SourceIps ([], none) w
    else .done ([], none) []) with
  | .panic evs => .panic evs
  | .done (egressPolicies, finalError1) evs1 =>
    match (if isContainInList INGRESS_RULE req.PolicyDirections = true then
        doLoop env req.SourceIps req.Protocol ports req.PolicyAction req.Description
          INGRESS_RULE req.DestIps ([], finalError1) (w ++ evs1)
      else .done ([], finalError1) []) with
    | .panic evs2 => .panic (evs1 ++ evs2)
    | .done (ingressPolicies, finalError) evs2 =>
      .done
        ({ IngressPoliciesTotal := ingressPolicies.length
           EgressPoliciesTotal := egressPolicies.length
           IngressPolicies := ingressPolicies
           EgressPolicies := egressPolicies }, finalError)
        (evs1 ++ evs2)

/-! ## Reading the history of the calculator -/

/-- The message of the error the call returned, if it returned one. -/
def CalcEvent.error? : CalcEvent → Option String
  | .getRegions (.error e) => some e
  | .getProviderParams _ (_, some e) => some e
  | .queryInstancesByIp _ _ _ (.error e) => some e
  | .getBackendTargets _ _ _ _ (.error e) => some e
  | _ => none

/-- The lookups by IP of a run: resource type, provider parameters, addresses asked for and
the instance the answer has for `ip`, in order. -/
def lookups (ip : String) (evs : List CalcEvent) :
    List (String × String × List String × Option ResourceInstance) :=
  evs.filterMap fun e =>
    match e with
    | .queryInstancesByIp resType providerParams ips (.ok instanceMap) =>
      some (resType, providerParams, ips, mapGet instanceMap ip)
    | _ => none

/-- The regions whose parameters a run read, with the parameters. -/
def regionsRead (evs : List CalcEvent) : List (String × String) :=
  evs.filterMap fun e =>
    match e with
    | .getProviderParams region (providerParams, none) => some (region, providerParams)
    | _ => none

/-! ## The calculations of a request, one owner address after the other -/

/-- The calls of `calcPolicies` for the owner addresses `ips` in order, each made in the
history the earlier ones leave. -/
def calcRuns (env : CalcEnv) (peerIps : List String) (proto : String) (ports : List String)
    (action description direction : String) :
    List String → CalcWorld → List (CalcResult (List SecurityPolicy × Option String))
  | [], _ => []
  | ip :: rest, w =>
    calcPolicies env w ip peerIps proto ports action description direction ::
      calcRuns env peerIps proto ports action description direction rest
        (w ++ (calcPolicies env w ip peerIps proto ports action description direction).events)

/-- The calculations for egress: none when egress is not requested, else one for every
source address, with the destination addresses as peers. -/
def egressRuns (env : CalcEnv) (w : CalcWorld) (req : CalcSecurityPoliciesRequest) :
    List (CalcResult (List SecurityPolicy × Option String)) :=
  if isContainInList EGRESS_RULE req.PolicyDirections = true then
    calcRuns env req.DestIps req.Protocol (env.getPortsByPolicyFormat req.DestPort).1
      req.PolicyAction req.Description EGRESS_RULE req.SourceIps w
  else []

/-- The calculations for ingress, made after those for egress: none when ingress is not
requested, else one for every destination address, with the source addresses as peers. -/
def ingressRuns (env : CalcEnv) (w : CalcWorld) (req : CalcSecurityPoliciesRequest) :
    List (CalcResult (List SecurityPolicy × Option String)) :=
  if isContainInList INGRESS_RULE req.PolicyDirections = true then
    calcRuns env req.SourceIps req.Protocol (env.getPortsByPolicyFormat req.DestPort).1
      req.PolicyAction req.Description INGRESS_RULE req.DestIps
      (w ++ (egressRuns env w req).flatMap CalcResult.events)
  else []

/-- The policies a calculation returned. -/
def policiesOf (r : CalcResult (List SecurityPolicy × Option String)) : List SecurityPolicy :=
  match r.value? with
  | some (policies, _) => policies
  | none => []

/-- The error a calculation returned. -/
def errorOf (r : CalcResult (List SecurityPolicy × Option String)) : Option String :=
  match r.value? with
  | some (_, err) => err
  | none => none

/-- The combined error in the words of the specification: no error when no calculation
returned one, else the messages of those that did, one after the other. -/
def joinErrors (errs : List (Option String)) : Option String :=
  if errs.all Option.isNone then none
  else some ((errs.filterMap id).foldl (fun acc e => acc ++ e) "")

/-! ## Concrete providers for the examples of the calculator -/

/-- A compute instance with the address `ip`. -/
def cvmAt (ip : String) : ResourceInstance :=
  { typeName := "cvm", id := "ins-" ++ ip, name := "vm", region := "ap-guangzhou", ip := ip,
    supportSecurityGroupApi := true }

/-- A load balancer with the address `ip`. -/
def clbAt (ip : String) : ResourceInstance :=
  { typeName := "clb", id := "lb-" ++ ip, name := "lb", region := "ap-guangzhou", ip := ip,
    supportSecurityGroupApi := false }

/-- A database instance with the address `ip`. -/
def mysqlAt (ip : String) : ResourceInstance :=
  { typeName := "mysql", id := "cdb-" ++ ip, name := "db", region := "ap-guangzhou", ip := ip,
    supportSecurityGroupApi := true }

/-- A provider of one region whose state does not change: the resources are `owners`, each
found by the lookup of its own type; the lookups of the types in `failingTypes` fail; the
backends of a load balancer are listed under `<ip>:<port>`; `clb` is the load-balancer
type; the types in `noEgressTypes` do not support egress policy; a port specification is
split at the commas; `resourceTypeMap` is walked in the order of registration. -/
def scriptedCalcEnv (owners : List ResourceInstance) (failingTypes noEgressTypes : List String)
    (backends : List (String × List ResourceInstance × List String)) : CalcEnv :=
  { getRegions := fun _ => .ok ["ap-guangzhou"]
    getProviderParams := fun _ region => (region, none)
    QueryInstancesByIp := fun _ resType _ ips =>
      if failingTypes.contains resType then .error "lookup failed"
      else .ok ((owners.filter fun o => o.typeName == resType && ips.contains o.ip).map
        fun o => (o.ip, o))
    GetBackendTargets := fun _ inst _ _ port =>
      .ok ((mapGet backends (inst.ip ++ ":" ++ port)).getD ([], []))
    IsLoadBalanceType := fun t => t == "clb"
    IsSupportEgressPolicy := fun t => !noEgressTypes.contains t
    getPortsByPolicyFormat := fun s => (Split s ',', none)
    typeOrder := fun _ keys => keys }

/-- A provider that knows the compute instance `10.0.0.1` and nothing else. -/
def oneVmEnv : CalcEnv := scriptedCalcEnv [cvmAt "10.0.0.1"] [] [] []

/-- The request of the end-to-end scenario of the calculator. -/
def egressRequest : CalcSecurityPoliciesRequest :=
  { Protocol := "TCP", SourceIps := ["10.0.0.1"], DestIps := ["10.0.0.2"], DestPort := "80",
    PolicyAction := "accept", PolicyDirections := ["egress"], Description := "svc" }

/-- A provider that knows the load balancer `10.0.0.8`, whose listener on port 80 has the
backends `10.0.0.3` on port 8080 and `10.0.0.4` on port 8081. -/
def lbEnv : CalcEnv :=
  scriptedCalcEnv [clbAt "10.0.0.8"] [] []
    [("10.0.0.8:80", [cvmAt "10.0.0.3", cvmAt "10.0.0.4"], ["8080", "8081"])]

/-- A provider that knows the database `10.0.0.6`, of a type that does not support egress
policy. -/
def dbEnv : CalcEnv := scriptedCalcEnv [mysqlAt "10.0.0.6"] [] ["mysql"] []

/-- A request in both directions: the second source address is not known to `oneVmEnv`. -/
def bothRequest : CalcSecurityPoliciesRequest :=
  { Protocol := "TCP", SourceIps := ["10.0.0.1", "10.0.0.7"], DestIps := ["10.0.0.2"],
    DestPort := "80,443", PolicyAction := "accept",
    PolicyDirections := ["egress", "ingress"], Description := "svc" }

/-- The answers of the provider to the calls `findInstanceByIp` makes do not depend on the
history. -/
def CalcEnv.stateless (env : CalcEnv) : Prop :=
  (∀ w w', env.getRegions w = env.getRegions w') ∧
    (∀ w w' region, env.getProviderParams w region = env.getProviderParams w' region) ∧
    (∀ w w' resType providerParams ips,
      env.QueryInstancesByIp w resType providerParams ips =
        env.QueryInstancesByIp w' resType providerParams ips) ∧
    ∀ w w' keys, env.typeOrder w keys = env.typeOrder w' keys

/-- A provider that knows the compute instance `10.0.0.1` and whose lookup for the type
`mysql`, the first that is asked, fails. -/
def lookupFailsEnv : CalcEnv := scriptedCalcEnv [cvmAt "10.0.0.1"] ["mysql"] [] []

/-- A provider that knows the load balancers `10.0.0.8` and `10.0.0.9`, neither of which
has a backend. -/
def emptyLbEnv : CalcEnv := scriptedCalcEnv [clbAt "10.0.0.8", clbAt "10.0.0.9"] [] [] []

/-- A provider that knows the compute instance `10.0.0.1` and the load balancer
`10.0.0.9`. -/
def vmAndLbEnv : CalcEnv := scriptedCalcEnv [cvmAt "10.0.0.1", clbAt "10.0.0.9"] [] [] []

/-! ## The entries of one owner in an apply pass -/

/-- The entries of a batch that the second loop of `applyPolicies` processes for the owner
address `ip`: those that support the API, with the alias rewritten, in input order. -/
def ownerGroup (policies : List SecurityPolicy) (ip : String) : List SecurityPolicy :=
  ((policies.filter fun p => p.SupportSecurityGroupApi).map normalizeType).filter
    fun q => q.Ip = ip

end securitygroup

namespace securitygroup

/-! ## Providers for the fill loop and the bind call -/

/-- A provider on which every call succeeds, for a resource bound to one auto-created group
of `10.0.0.1` that holds 101 rules in either direction. -/
def overfullEnv : Env := scriptedEnv [("sg-1", "10.0.0.1-auto-1", 101)] [] [] false

/-- Two auto-created groups of `10.0.0.1` and one other group: the first auto-created group
is full (100 rules), the second has two free places. -/
def packedGroups : List (String × String × Nat) :=
  [("sg-1", "10.0.0.1-auto-1", 100), ("sg-d", "default", 5), ("sg-2", "10.0.0.1-auto-2", 98)]

/-- A provider on which every call succeeds, for a resource bound to `packedGroups`. -/
def packedEnv : Env := scriptedEnv packedGroups [] [] false

end securitygroup

namespace securitygroup

/-! ## Order of the auto-created groups -/

theorem bubblePass_length (k : Nat) (l : List (Int × String)) :
    (bubblePass k l).1.length = l.length := by
  induction k generalizing l with
  | zero => cases l <;> simp [bubblePass]
  | succ k ih =>
    match l with
    | [] => simp [bubblePass]
    | [x] => simp [bubblePass]
    | x :: y :: rest =>
      simp only [bubblePass]
      split
      · simp [ih]
      · simp [ih]

theorem bubblePass_spec (k : Nat) (l : List (Int × String)) (hk : k + 1 ≤ l.length) :
    ∃ a m, (bubblePass k l).1 = a ++ m :: l.drop (k + 1) ∧
      (a ++ [m]).Perm (l.take (k + 1)) ∧ (∀ x ∈ a, x.1 ≤ m.1) ∧ a.length = k := by
  induction k generalizing l with
  | zero =>
    match l, hk with
    | x :: rest, _ => exact ⟨[], x, by cases rest <;> simp [bubblePass], by simp, by simp, rfl⟩
  | succ k ih =>
    match l, hk with
    | [x], h => simp at h
    | x :: y :: rest, h =>
      have hlen : k + 1 ≤ (x :: rest).length := by simp at h ⊢; omega
      simp only [bubblePass]
      split
      · rename_i hxy
        obtain ⟨a, m, h1, h2, h3, h4⟩ := ih (x :: rest) hlen
        refine ⟨y :: a, m, by simp [h1], ?_, ?_, by simp [h4]⟩
        · have : (y :: (a ++ [m])).Perm (y :: x :: rest.take k) := by
            simpa using h2
          simpa using this.trans (List.Perm.swap x y _)
        · have hx : x ∈ a ++ [m] := h2.symm.subset (by simp)
          have hxm : x.1 ≤ m.1 := by
            rcases List.mem_append.1 hx with hx | hx
            · exact h3 x hx
            · simp at hx; subst hx; exact le_refl _
          intro z hz
          rcases List.mem_cons.1 hz with rfl | hz
          · omega
          · exact h3 z hz
      · rename_i hxy
        have hlen2 : k + 1 ≤ (y :: rest).length := by simp at h ⊢; omega
        obtain ⟨a, m, h1, h2, h3, h4⟩ := ih (y :: rest) hlen2
        refine ⟨x :: a, m, by simp [h1], ?_, ?_, by simp [h4]⟩
        · have : (x :: (a ++ [m])).Perm (x :: y :: rest.take k) := by
            simpa using h2
          simpa using this
        · have hy : y ∈ a ++ [m] := h2.symm.subset (by simp)
          have hym : y.1 ≤ m.1 := by
            rcases List.mem_append.1 hy with hy | hy
            · exact h3 y hy
            · simp at hy; subst hy; exact le_refl _
          intro z hz
          rcases List.mem_cons.1 hz with rfl | hz
          · omega
          · exact h3 z hz

theorem bubblePass_noswap (k : Nat) (l : List (Int × String))
    (h : (bubblePass k l).2 = false) :
    (bubblePass k l).1 = l ∧ (l.take (k + 1)).Pairwise (fun a b => a.1 ≤ b.1) := by
  induction k generalizing l with
  | zero =>
    match l with
    | [] => simp [bubblePass]
    | [x] => simp [bubblePass]
    | x :: y :: rest => simp [bubblePass]
  | succ k ih =>
    match l with
    | [] => simp [bubblePass]
    | [x] => simp [bubblePass]
    | x :: y :: rest =>
      simp only [bubblePass] at h ⊢
      split at h
      · simp at h
      · rename_i hxy
        obtain ⟨h1, h2⟩ := ih (y :: rest) h
        rw [if_neg hxy]
        refine ⟨by simp [h1], ?_⟩
        have h2' : (y :: rest.take k).Pairwise (fun a b => a.1 ≤ b.1) := by simpa using h2
        simp only [List.take_succ_cons, List.pairwise_cons] at h2' ⊢
        refine ⟨?_, h2'⟩
        intro z hz
        rcases List.mem_cons.1 hz with rfl | hz
        · omega
        · have := h2'.1 z hz
          omega

theorem bubbleLoop_sorted (r : Nat) (l : List (Int × String)) (hr : r ≤ l.length)
    (hs : (l.drop r).Pairwise (fun a b => a.1 ≤ b.1))
    (hle : ∀ x ∈ l.take r, ∀ y ∈ l.drop r, x.1 ≤ y.1) :
    (bubbleLoop r l).Pairwise (fun a b => a.1 ≤ b.1) ∧ (bubbleLoop r l).Perm l := by
  induction r generalizing l with
  | zero => simpa [bubbleLoop] using hs
  | succ r ih =>
    simp only [bubbleLoop]
    split
    · obtain ⟨a, m, h1, h2, h3, h4⟩ := bubblePass_spec r l hr
      have hperm : (bubblePass r l).1.Perm l := by
        rw [h1]
        have : (a ++ [m] ++ l.drop (r + 1)).Perm (l.take (r + 1) ++ l.drop (r + 1)) :=
          h2.append_right _
        simpa using this
      have htake : (bubblePass r l).1.take r = a := by
        rw [h1, List.take_append_eq_append_take]; simp [← h4]
      have hdrop : (bubblePass r l).1.drop r = m :: l.drop (r + 1) := by
        rw [h1, List.drop_append_eq_append_drop]; simp [← h4]
      have hm : m ∈ l.take (r + 1) := h2.subset (by simp)
      have ha : ∀ x ∈ a, x ∈ l.take (r + 1) := fun x hx => h2.subset (by simp [hx])
      have := ih (bubblePass r l).1 (by rw [bubblePass_length]; omega)
        (by
          rw [hdrop, List.pairwise_cons]
          exact ⟨fun y hy => hle m hm y hy, hs⟩)
        (by
          rw [htake, hdrop]
          intro x hx y hy
          rcases List.mem_cons.1 hy with rfl | hy
          · exact h3 x hx
          · exact hle x (ha x hx) y hy)
      exact ⟨this.1, this.2.trans hperm⟩
    · rename_i hflag
      obtain ⟨h1, h2⟩ := bubblePass_noswap r l (by simpa using hflag)
      rw [h1]
      refine ⟨?_, List.Perm.refl _⟩
      have : l = l.take (r + 1) ++ l.drop (r + 1) := (List.take_append_drop _ _).symm
      rw [this, List.pairwise_append]
      exact ⟨h2, hs, hle⟩

end securitygroup

namespace securitygroup

theorem recognised_cons_some (ip n id : String) (names ids : List String) (num : Int)
    (h : autoCreatedNum ip n = some num) :
    recognised ip (n :: names) (id :: ids) = (num, id) :: recognised ip names ids := by
  simp [recognised, h]

theorem recognised_cons_none (ip n id : String) (names ids : List String)
    (h : autoCreatedNum ip n = none) :
    recognised ip (n :: names) (id :: ids) = recognised ip names ids := by
  simp [recognised, h]

theorem autoCreatedLoop_eq (ip : String) (ids : List String) (names : List String) (i : Nat)
    (created : List String) (nums : List Int) (maxNum : Int)
    (hlen : i + names.length ≤ ids.length) :
    autoCreatedLoop ip ids names i created nums maxNum =
      some (created ++ (recognised ip names (ids.drop i)).map Prod.snd,
        nums ++ (recognised ip names (ids.drop i)).map Prod.fst,
        ((recognised ip names (ids.drop i)).map Prod.fst).foldl
          (fun m n => if m < n then n else m) maxNum) := by
  induction names generalizing i created nums maxNum with
  | nil => simp [autoCreatedLoop, recognised]
  | cons n rest ih =>
    have hi : i < ids.length := by simp at hlen; omega
    have hdrop : ids.drop i = ids[i] :: ids.drop (i + 1) := by
      rw [List.drop_eq_getElem_cons hi]
    have hget : ids[i]? = some ids[i] := List.getElem?_eq_getElem hi
    simp only [autoCreatedLoop]
    cases hn : autoCreatedNum ip n with
    | none =>
      simp only []
      rw [ih (i + 1) created nums maxNum (by simp at hlen ⊢; omega), hdrop,
        recognised_cons_none _ _ _ _ _ hn]
    | some num =>
      simp only [hget]
      rw [ih (i + 1) _ _ _ (by simp at hlen ⊢; omega), hdrop,
        recognised_cons_some _ _ _ _ _ _ hn]
      simp

theorem recognised_map_length (ip : String) (names ids : List String) :
    ((recognised ip names ids).map Prod.fst).length =
      ((recognised ip names ids).map Prod.snd).length := by simp

theorem getAutoCreatedSecurityGroups_eq (ip : String) (names ids : List String)
    (hlen : names.length = ids.length) :
    getAutoCreatedSecurityGroups ip names ids =
      some (((bubbleLoop (recognised ip names ids).length (recognised ip names ids)).map Prod.snd),
        wrapInt (maxSeq ip names ids + 1), none) := by
  unfold getAutoCreatedSecurityGroups
  rw [autoCreatedLoop_eq ip ids names 0 [] [] 0 (by omega)]
  have hz : ((recognised ip names ids).map Prod.fst).zip ((recognised ip names ids).map Prod.snd) =
      recognised ip names ids := (List.zip_of_prod rfl rfl).symm
  simp [sortSecurityGroupsIds, maxSeq, hz]


theorem wrapInt_of_range (x : Int) (h1 : -(2 ^ 63) ≤ x) (h2 : x < 2 ^ 63) : wrapInt x = x := by
  unfold wrapInt
  rw [Int.emod_eq_of_lt (by omega) (by omega)]
  omega

theorem splitChars_ne_nil (sep : Char) (cs : List Char) : splitChars sep cs ≠ [] := by
  cases cs with
  | nil => simp [splitChars]
  | cons c cs =>
    simp only [splitChars]
    split
    · simp
    · split <;> simp

theorem splitChars_no_sep (sep : Char) (cs : List Char) :
    ∀ part ∈ splitChars sep cs, sep ∉ part := by
  induction cs with
  | nil => simp [splitChars]
  | cons c cs ih =>
    simp only [splitChars]
    split
    · intro part hp
      rcases List.mem_cons.1 hp with rfl | hp
      · simp
      · exact ih part hp
    · rename_i hc
      split
      · simp [Ne.symm hc]
      · rename_i x xs hx
        rw [hx] at ih
        intro part hp
        rcases List.mem_cons.1 hp with rfl | hp
        · have := ih x (by simp)
          simp [Ne.symm hc, this]
        · exact ih part (by simp [hp])

theorem Atoi_nonneg (s : String) (n : Int) (hs : '-' ∉ s.data) (h : Atoi s = some n) : 0 ≤ n := by
  unfold Atoi at h
  split at h
  · simp at h
  · rename_i ds hd
    rw [hd] at hs; simp at hs
  · split at h
    · simp at h
    · split at h
      · simp at h
      · split at h
        · simp at h; omega
        · simp at h
  · split at h
    · simp at h
    · split at h
      · simp at h; omega
      · simp at h

theorem autoCreatedNum_nonneg (ip name : String) (n : Int) (h : autoCreatedNum ip name = some n) :
    0 ≤ n := by
  unfold autoCreatedNum at h
  split at h
  · rename_i e0 e1 e2 hsplit
    split at h
    · refine Atoi_nonneg e2 n ?_ h
      have : e2 ∈ Split name '-' := by rw [hsplit]; simp
      unfold Split at this
      obtain ⟨part, hp, rfl⟩ := List.mem_map.1 this
      exact splitChars_no_sep _ _ part hp
    · simp at h
  · simp at h

end securitygroup

namespace securitygroup

theorem foldl_max_spec (l : List Int) (m0 : Int) :
    m0 ≤ l.foldl (fun m n => if m < n then n else m) m0 ∧
    (∀ n ∈ l, n ≤ l.foldl (fun m n => if m < n then n else m) m0) ∧
    (l.foldl (fun m n => if m < n then n else m) m0 = m0 ∨
      l.foldl (fun m n => if m < n then n else m) m0 ∈ l) := by
  induction l generalizing m0 with
  | nil => simp
  | cons a l ih =>
    simp only [List.foldl_cons, List.mem_cons]
    by_cases hlt : m0 < a
    · rw [if_pos hlt]
      obtain ⟨h1, h2, h3⟩ := ih a
      refine ⟨by omega, ?_, ?_⟩
      · intro n hn
        rcases hn with rfl | hn
        · exact h1
        · exact h2 n hn
      · rcases h3 with h3 | h3
        · right; left; exact h3
        · right; right; exact h3
    · rw [if_neg hlt]
      obtain ⟨h1, h2, h3⟩ := ih m0
      refine ⟨h1, ?_, ?_⟩
      · intro n hn
        rcases hn with rfl | hn
        · omega
        · exact h2 n hn
      · rcases h3 with h3 | h3
        · left; exact h3
        · right; right; exact h3

theorem maxSeq_spec (ip : String) (names ids : List String) :
    0 ≤ maxSeq ip names ids ∧
    (∀ x ∈ recognised ip names ids, x.1 ≤ maxSeq ip names ids) ∧
    (recognised ip names ids = [] → maxSeq ip names ids = 0) ∧
    (recognised ip names ids ≠ [] → ∃ x ∈ recognised ip names ids, x.1 = maxSeq ip names ids) := by
  obtain ⟨h1, h2, h3⟩ := foldl_max_spec ((recognised ip names ids).map Prod.fst) 0
  refine ⟨h1, ?_, ?_, ?_⟩
  · intro x hx
    exact h2 x.1 (List.mem_map_of_mem _ hx)
  · intro h
    simp [maxSeq, h]
  · intro hne
    rcases h3 with h3 | h3
    · obtain ⟨x, rest, hx⟩ := List.exists_cons_of_ne_nil hne
      have hx' : x ∈ recognised ip names ids := by rw [hx]; simp
      have hge : 0 ≤ x.1 := by
        unfold recognised at hx'
        obtain ⟨y, _, hy⟩ := List.mem_filterMap.1 hx'
        cases hnum : autoCreatedNum ip y.1 with
        | none => simp [hnum] at hy
        | some n =>
          simp [hnum] at hy
          rw [← hy]
          exact autoCreatedNum_nonneg _ _ _ hnum
      have hle := h2 x.1 (List.mem_map_of_mem _ hx')
      refine ⟨x, hx', ?_⟩
      unfold maxSeq
      omega
    · obtain ⟨x, hx, hxe⟩ := List.mem_map.1 h3
      exact ⟨x, hx, hxe⟩

/-- The names `createNewAutomationSecurityGroups` asks for, from round `i` on. -/
theorem createNewLoop_spec (env : Env) (providerParams ip : String) (auotNumIndex : Int)
    (k : Nat) (i : Int) (acc : List String) (w : World)
    (hok : ∀ e ∈ (createNewLoop env providerParams ip auotNumIndex k i acc w).2,
      e.succeeded = true) :
    createdNames (createNewLoop env providerParams ip auotNumIndex k i acc w).2 =
      (List.range k).map (fun (j : Nat) =>
        ip ++ "-auto-" ++ formatInt (wrapInt (auotNumIndex + (i + (j : Int))))) ∧
    (createNewLoop env providerParams ip auotNumIndex k i acc w).1 =
      (acc ++ createdIds (createNewLoop env providerParams ip auotNumIndex k i acc w).2, none) ∧
    (createdIds (createNewLoop env providerParams ip auotNumIndex k i acc w).2).length = k := by
  induction k generalizing i acc w with
  | zero => simp [createNewLoop, createdNames, createdIds]
  | succ k ih =>
    simp only [createNewLoop] at hok ⊢
    cases hret : env.CreateSecurityGroup w providerParams
        (ip ++ "-auto-" ++ formatInt (wrapInt (auotNumIndex + i))) "automation created" with
    | error e =>
      rw [hret] at hok
      have := hok _ (List.mem_singleton_self _)
      simp [Event.succeeded] at this
    | ok id =>
      rw [hret] at hok
      simp only [] at hok ⊢
      have hok' := fun e he => hok e (List.mem_cons_of_mem _ he)
      obtain ⟨h1, h2, h3⟩ := ih (i + 1) (acc ++ [id])
        (w ++ [Event.createSecurityGroup providerParams
          (ip ++ "-auto-" ++ formatInt (wrapInt (auotNumIndex + i))) "automation created"
          (.ok id)]) hok'
      refine ⟨?_, ?_, ?_⟩
      · rw [List.range_succ_eq_map]
        simp only [createdNames, List.filterMap_cons, List.map_cons, List.map_map]
        simp only [createdNames] at h1
        rw [h1]
        simp only [Nat.cast_zero, add_zero, List.cons.injEq, true_and]
        apply List.map_congr_left
        intro j _
        simp only [Function.comp, Nat.cast_succ]
        congr 3
        ring_nf
      · rw [h2]
        simp [createdIds]
      · simp only [createdIds, List.filterMap_cons, List.length_cons]
        simp only [createdIds] at h3
        rw [h3]

end securitygroup

namespace securitygroup

/-- C5. For group names and ids of equal length, `getAutoCreatedSecurityGroups` returns
(without error) the ids at the positions whose name is `<ip>-auto-<n>`, as a permutation of
those ids in ascending order of `n`. -/
theorem getAutoCreatedSecurityGroups_ids_ascending (ip : String) (names ids : List String)
    (hlen : names.length = ids.length) :
    ∃ l : List (Int × String),
      l.Perm (recognised ip names ids) ∧ l.Pairwise (fun a b => a.1 ≤ b.1) ∧
      ∃ next, getAutoCreatedSecurityGroups ip names ids = some (l.map Prod.snd, next, none) := by
  obtain ⟨h1, h2⟩ := bubbleLoop_sorted (recognised ip names ids).length (recognised ip names ids)
    (le_refl _) (by simp) (by simp)
  exact ⟨_, h2, h1, _, getAutoCreatedSecurityGroups_eq ip names ids hlen⟩

theorem getAutoCreatedSecurityGroups_ids_ascending_witness :
    ["10.0.0.1-auto-2", "default", "10.0.0.1-auto-1", "10.0.0.2-auto-7"].length =
        ["sg-b", "sg-x", "sg-a", "sg-y"].length ∧
      (getAutoCreatedSecurityGroups "10.0.0.1"
          ["10.0.0.1-auto-2", "default", "10.0.0.1-auto-1", "10.0.0.2-auto-7"]
          ["sg-b", "sg-x", "sg-a", "sg-y"] = some (["sg-a", "sg-b"], 3, none)) ∧
      ∃ l : List (Int × String),
        l.Perm (recognised "10.0.0.1"
          ["10.0.0.1-auto-2", "default", "10.0.0.1-auto-1", "10.0.0.2-auto-7"]
          ["sg-b", "sg-x", "sg-a", "sg-y"]) ∧
        l.Pairwise (fun a b => a.1 ≤ b.1) ∧
        ∃ next, getAutoCreatedSecurityGroups "10.0.0.1"
          ["10.0.0.1-auto-2", "default", "10.0.0.1-auto-1", "10.0.0.2-auto-7"]
          ["sg-b", "sg-x", "sg-a", "sg-y"] = some (l.map Prod.snd, next, none) :=
  ⟨rfl, by decide,
    getAutoCreatedSecurityGroups_ids_ascending "10.0.0.1"
      ["10.0.0.1-auto-2", "default", "10.0.0.1-auto-1", "10.0.0.2-auto-7"]
      ["sg-b", "sg-x", "sg-a", "sg-y"] rfl⟩

/-- C4, counterexample. A group numbered `2^63 - 1` is recognised, and the next index
`maxAutoCreatedNum + 1` wraps to `-2^63`: it is not `1 +` the largest sequence number. -/
theorem next_index_wraps_at_max_int :
    recognised "10.0.0.1" ["10.0.0.1-auto-9223372036854775807"] ["sg-1"] =
        [(9223372036854775807, "sg-1")] ∧
      getAutoCreatedSecurityGroups "10.0.0.1" ["10.0.0.1-auto-9223372036854775807"] ["sg-1"] =
        some (["sg-1"], -9223372036854775808, none) ∧
      ¬ (getAutoCreatedSecurityGroups "10.0.0.1" ["10.0.0.1-auto-9223372036854775807"]
          ["sg-1"]).map (fun r => r.2.1) = some (1 + 9223372036854775807) := by
  decide

/-- C4, amended. As long as the largest sequence number plus `max(1, k)`, `k` the number of
new groups, stays below `2^63`: `getAutoCreatedSecurityGroups` returns as next index `1 +`
the largest sequence number among the recognised names (`1` when none is recognised); when its
create-group calls succeed `createNewAutomationSecurityGroups` asks for the names
`<ip>-auto-<next>`, ..., `<ip>-auto-<next+k-1>`; these numbers are increasing and each is
greater than the number of every existing auto-created group of `ip`. -/
theorem next_index_resumes_after_largest (env : Env) (w : World) (providerParams ip : String)
    (names ids : List String) (k : Nat) (hlen : names.length = ids.length)
    (hrange : maxSeq ip names ids + max 1 (k : Int) < 2 ^ 63)
    (hok : ∀ e ∈ (createNewAutomationSecurityGroups env w providerParams ip k
        (maxSeq ip names ids + 1)).2, e.succeeded = true) :
    (∃ created, getAutoCreatedSecurityGroups ip names ids =
        some (created, maxSeq ip names ids + 1, none)) ∧
      (∀ x ∈ recognised ip names ids, x.1 ≤ maxSeq ip names ids) ∧
      (recognised ip names ids = [] → maxSeq ip names ids = 0) ∧
      (recognised ip names ids ≠ [] →
        ∃ x ∈ recognised ip names ids, x.1 = maxSeq ip names ids) ∧
      createdNames (createNewAutomationSecurityGroups env w providerParams ip k
          (maxSeq ip names ids + 1)).2 =
        (List.range k).map (fun (j : Nat) =>
          ip ++ "-auto-" ++ formatInt (maxSeq ip names ids + 1 + (j : Int))) ∧
      (∀ j : Nat, j < k → ∀ x ∈ recognised ip names ids,
        x.1 < maxSeq ip names ids + 1 + (j : Int)) ∧
      ((List.range k).map (fun (j : Nat) => maxSeq ip names ids + 1 + (j : Int))).Pairwise
        (fun a b => a < b) := by
  obtain ⟨h0, hle, hnil, hmax⟩ := maxSeq_spec ip names ids
  have hk : (1 : Int) ≤ max 1 (k : Int) := le_max_left _ _
  have hk2 : (k : Int) ≤ max 1 (k : Int) := le_max_right _ _
  have hget := getAutoCreatedSecurityGroups_eq ip names ids hlen
  rw [wrapInt_of_range _ (by omega) (by omega)] at hget
  refine ⟨⟨_, hget⟩, hle, hnil, hmax, ?_, ?_, ?_⟩
  · unfold createNewAutomationSecurityGroups at hok ⊢
    simp only [Int.toNat_ofNat] at hok ⊢
    rw [(createNewLoop_spec env providerParams ip _ k 0 [] w hok).1]
    apply List.map_congr_left
    intro j hj
    have hj' : j < k := List.mem_range.1 hj
    rw [wrapInt_of_range _ (by omega) (by omega)]
    simp
  · intro j _ x hx
    have := hle x hx
    omega
  · rw [List.pairwise_map]
    refine (List.pairwise_lt_range k).imp ?_
    intro a b hab
    omega

theorem next_index_resumes_after_largest_witness :
    (["10.0.0.1-auto-2", "default", "10.0.0.1-auto-1"].length = ["sg-b", "sg-x", "sg-a"].length) ∧
      getAutoCreatedSecurityGroups "10.0.0.1" ["10.0.0.1-auto-2", "default", "10.0.0.1-auto-1"]
        ["sg-b", "sg-x", "sg-a"] = some (["sg-a", "sg-b"], 3, none) ∧
      createdNames (createNewAutomationSecurityGroups
          (scriptedEnv [] [] [] false)
          [] "ap" "10.0.0.1" (2 : Nat)
          (maxSeq "10.0.0.1" ["10.0.0.1-auto-2", "default", "10.0.0.1-auto-1"]
            ["sg-b", "sg-x", "sg-a"] + 1)).2 = ["10.0.0.1-auto-3", "10.0.0.1-auto-4"] := by
  refine ⟨rfl, by decide, ?_⟩
  have h := (next_index_resumes_after_largest
    (scriptedEnv [] [] [] false)
    [] "ap" "10.0.0.1" ["10.0.0.1-auto-2", "default", "10.0.0.1-auto-1"]
    ["sg-b", "sg-x", "sg-a"] 2 rfl (by decide) (by decide)).2.2.2.2.1
  rw [h]
  decide

end securitygroup

namespace securitygroup

/-! ## The result of `ApplySecurityPolicyAction.Do` and the totals -/

/-- C8. Whenever the ingress pass and the egress pass of an apply request finish,
`ApplySecurityPolicyAction.Do` returns both itemized results, and its error is non-nil if and
only if `failed_policies_total` is greater than `0` in the ingress or in the egress result. -/
theorem Do_error_iff_failed_total (env : Env) (w : World) (req : ApplySecurityPoliciesRequest)
    (ingress egress : ApplyResult) (evs1 evs2 : List Event)
    (h1 : applyPolicies env w req.IngressPolicies INGRESS_RULE = .done ingress evs1)
    (h2 : applyPolicies env (w ++ evs1) req.EgressPolicies EGRESS_RULE = .done egress evs2) :
    ∃ err, ApplySecurityPolicyAction.Do env w req =
        .done ({ IngressApplyResult := ingress, EgressApplyResult := egress }, err)
          (evs1 ++ evs2) ∧
      (err ≠ none ↔ 0 < ingress.FailedTotal ∨ 0 < egress.FailedTotal) := by
  unfold ApplySecurityPolicyAction.Do
  rw [h1]
  simp only []
  rw [h2]
  simp only []
  by_cases hf : ingress.FailedTotal > 0 ∨ egress.FailedTotal > 0
  · exact ⟨_, by rw [if_pos hf], by simpa using hf⟩
  · refine ⟨_, by rw [if_neg hf], ?_⟩
    simp only [ne_eq, not_true_eq_false, false_iff]
    simpa using hf

theorem Do_error_iff_failed_total_witness :
    ∃ err, ApplySecurityPolicyAction.Do (scriptedEnv [] [] [] false) []
        { IngressPolicies := [{ samplePolicy "10.0.0.1" "10.0.0.2" true with Typ := "disk" }]
          EgressPolicies := [] } =
        .done
          ({ IngressApplyResult :=
              { PoliciesTotal := 1, SuccessTotal := 0, UndoTotal := 0, FailedTotal := 1
                SuccessPolicies := [], UndoPolicies := []
                FailedPolicies :=
                  [{ samplePolicy "10.0.0.1" "10.0.0.2" true with
                      Typ := "disk", ErrorMsg := "resourceType[disk] not found" }] }
             EgressApplyResult :=
              { PoliciesTotal := 0, SuccessTotal := 0, UndoTotal := 0, FailedTotal := 0
                SuccessPolicies := [], UndoPolicies := [], FailedPolicies := [] } }, err)
          ([] ++ []) ∧
      (err ≠ none ↔ (0 : Int) < 1 ∨ (0 : Int) < 0) :=
  Do_error_iff_failed_total (scriptedEnv [] [] [] false) []
    { IngressPolicies := [{ samplePolicy "10.0.0.1" "10.0.0.2" true with Typ := "disk" }]
      EgressPolicies := [] } _ _ [] [] rfl rfl

/-- C9, the failing input. One entry that does not support the security-group API ends in
`undo_policies`, and `undo_policies_total` is still `0`: `applyPolicies` never assigns
`UndoTotal`. -/
theorem applyPolicies_undo_total_stays_zero :
    (applyPolicies (scriptedEnv [] [] [] false) [] [samplePolicy "10.0.0.1" "10.0.0.2" false]
        INGRESS_RULE).value?.map
        (fun r => (r.PoliciesTotal, r.UndoTotal, r.UndoPolicies.length,
          r.SuccessTotal, r.FailedTotal)) =
      some (1, 0, 1, 0, 0) := by
  decide

end securitygroup

namespace securitygroup

/-! ## Maps -/

theorem mapGet_mapSet {α : Type} (m : List (String × α)) (k k' : String) (v : α) :
    mapGet (mapSet m k v) k' = if k = k' then some v else mapGet m k' := by
  induction m with
  | nil => simp [mapSet, mapGet]
  | cons a m ih =>
    obtain ⟨ka, va⟩ := a
    simp only [mapSet]
    by_cases h : ka = k
    · subst h
      simp only [if_true, mapGet]
      split <;> rfl
    · simp only [if_neg h, mapGet, ih]
      by_cases h2 : ka = k'
      · subst h2
        simp [Ne.symm h]
      · simp [h2]

theorem mapKeys_mapSet_of_mem {α : Type} (m : List (String × α)) (k : String) (v : α)
    (h : k ∈ mapKeys m) : mapKeys (mapSet m k v) = mapKeys m := by
  induction m with
  | nil => simp [mapKeys] at h
  | cons a m ih =>
    obtain ⟨ka, va⟩ := a
    simp only [mapSet]
    by_cases hk : ka = k
    · subst hk; simp [mapKeys]
    · simp only [if_neg hk]
      have : k ∈ mapKeys m := by
        simp only [mapKeys, List.map_cons, List.mem_cons] at h
        rcases h with h | h
        · exact absurd h.symm hk
        · exact h
      simp only [mapKeys, List.map_cons] at ih ⊢
      rw [ih this]

theorem mapKeys_mapSet_of_not_mem {α : Type} (m : List (String × α)) (k : String) (v : α)
    (h : k ∉ mapKeys m) : mapKeys (mapSet m k v) = mapKeys m ++ [k] := by
  induction m with
  | nil => simp [mapKeys, mapSet]
  | cons a m ih =>
    obtain ⟨ka, va⟩ := a
    simp only [mapKeys, List.map_cons, List.mem_cons, not_or] at h
    simp only [mapSet, if_neg (Ne.symm h.1)]
    simp only [mapKeys, List.map_cons] at ih ⊢
    rw [ih h.2]
    rfl

theorem mapGet_isSome_iff {α : Type} (m : List (String × α)) (k : String) :
    (mapGet m k).isSome = true ↔ k ∈ mapKeys m := by
  induction m with
  | nil => simp [mapGet, mapKeys]
  | cons a m ih =>
    obtain ⟨ka, va⟩ := a
    simp only [mapGet, mapKeys, List.map_cons, List.mem_cons]
    by_cases h : ka = k
    · simp [h]
    · simp only [if_neg h]
      simp only [mapKeys] at ih
      rw [ih]
      constructor
      · exact Or.inr
      · rintro (h' | h')
        · exact absurd h'.symm h
        · exact h'

theorem mapGet_eq_none_iff {α : Type} (m : List (String × α)) (k : String) :
    mapGet m k = none ↔ k ∉ mapKeys m := by
  rw [← mapGet_isSome_iff]
  cases mapGet m k <;> simp

theorem mapKeys_mapSet_nodup {α : Type} (m : List (String × α)) (k : String) (v : α)
    (h : (mapKeys m).Nodup) : (mapKeys (mapSet m k v)).Nodup := by
  by_cases hk : k ∈ mapKeys m
  · rw [mapKeys_mapSet_of_mem m k v hk]; exact h
  · rw [mapKeys_mapSet_of_not_mem m k v hk]
    exact List.Nodup.append h (by simp) (by simpa using hk)

theorem rangeKeys_perm (hint keys : List String) (h : keys.Nodup) :
    (rangeKeys hint keys).Perm keys := by
  unfold rangeKeys
  have h1 : (hint.dedup.filter fun k => k ∈ keys).Perm (keys.filter fun k => k ∈ hint) := by
    rw [List.perm_ext_iff_of_nodup ((List.nodup_dedup hint).filter _) (h.filter _)]
    intro a
    simp [List.mem_filter, and_comm]
  refine (h1.append_right _).trans ?_
  have := List.filter_append_perm (fun k => decide (k ∈ hint)) keys
  simpa using this

theorem rangeKeys_singleton (hint : List String) (k : String) : rangeKeys hint [k] = [k] := by
  have h := rangeKeys_perm hint [k] (by simp)
  exact List.perm_singleton.1 h

theorem mem_rangeKeys (hint keys : List String) (k : String) :
    k ∈ rangeKeys hint keys ↔ k ∈ keys := by
  unfold rangeKeys
  simp only [List.mem_append, List.mem_filter, List.mem_dedup, decide_eq_true_eq,
    decide_not, Bool.not_eq_true', decide_eq_false_iff_not]
  constructor
  · rintro (⟨_, h⟩ | ⟨h, _⟩) <;> exact h
  · intro h
    by_cases hh : k ∈ hint
    · exact Or.inl ⟨hh, h⟩
    · exact Or.inr ⟨h, hh⟩

end securitygroup

namespace securitygroup

/-! ## Names of the groups of a resource -/

theorem foldl_mapSet_names (groups : List SecurityGroup) (m : List (String × String))
    (id : String) :
    ((mapGet (groups.foldl (fun m g => mapSet m g.SecurityGroupId g.SecurityGroupName) m)
        id).isSome = true ↔
      (mapGet m id).isSome = true ∨ ∃ g ∈ groups, g.SecurityGroupId = id) ∧
    (∀ n, mapGet (groups.foldl (fun m g => mapSet m g.SecurityGroupId g.SecurityGroupName) m)
        id = some n → mapGet m id = some n ∨ ∃ g ∈ groups, g.SecurityGroupName = n) := by
  induction groups generalizing m with
  | nil => simp
  | cons g groups ih =>
    simp only [List.foldl_cons, List.mem_cons]
    obtain ⟨h1, h2⟩ := ih (mapSet m g.SecurityGroupId g.SecurityGroupName)
    constructor
    · rw [h1, mapGet_mapSet]
      by_cases hg : g.SecurityGroupId = id
      · simp [hg]
      · simp [hg]
    · intro n hn
      rcases h2 n hn with h | ⟨g', hg', hn'⟩
      · rw [mapGet_mapSet] at h
        by_cases hg : g.SecurityGroupId = id
        · rw [if_pos hg] at h
          right
          exact ⟨g, Or.inl rfl, by simpa using h⟩
        · rw [if_neg hg] at h
          exact Or.inl h
      · exact Or.inr ⟨g', Or.inr hg', hn'⟩

theorem namesLoop_spec (idNameMap : List (String × String)) (ids acc : List String)
    (h : ∀ id ∈ ids, (mapGet idNameMap id).isSome = true) :
    ∃ names, namesLoop idNameMap ids acc = (acc ++ names, none) ∧ names.length = ids.length ∧
      ∀ n ∈ names, ∃ id, mapGet idNameMap id = some n := by
  induction ids generalizing acc with
  | nil => exact ⟨[], by simp [namesLoop]⟩
  | cons id ids ih =>
    simp only [namesLoop]
    cases hget : mapGet idNameMap id with
    | none =>
      have := h id (by simp)
      simp [hget] at this
    | some name =>
      obtain ⟨names, h1, h2, h3⟩ := ih (acc ++ [name]) (fun x hx => h x (by simp [hx]))
      refine ⟨name :: names, by simp [h1], by simp [h2], ?_⟩
      intro n hn
      rcases List.mem_cons.1 hn with rfl | hn
      · exact ⟨id, hget⟩
      · exact h3 n hn

theorem getSecurityGroupNames_events (env : Env) (w : World) (providerParams : String)
    (ids : List String) :
    (getSecurityGroupNames env w providerParams ids).2 =
      [Event.querySecurityGroups providerParams ids
        (env.QuerySecurityGroups w providerParams ids)] := by
  unfold getSecurityGroupNames
  cases env.QuerySecurityGroups w providerParams ids <;> rfl

theorem getSecurityGroupNames_ok (env : Env) (w : World) (providerParams : String)
    (ids : List String)
    (hok : ∀ e ∈ (getSecurityGroupNames env w providerParams ids).2, e.succeeded = true) :
    (getSecurityGroupNames env w providerParams ids).1.2 = none ∧
      (getSecurityGroupNames env w providerParams ids).1.1.length = ids.length ∧
      ∀ n ∈ (getSecurityGroupNames env w providerParams ids).1.1,
        n ∈ groupNamesSeen (getSecurityGroupNames env w providerParams ids).2 := by
  rw [getSecurityGroupNames_events] at hok ⊢
  have hs := hok _ (List.mem_singleton_self _)
  unfold getSecurityGroupNames
  cases hret : env.QuerySecurityGroups w providerParams ids with
  | error e => rw [hret] at hs; simp [Event.succeeded] at hs
  | ok groups =>
    rw [hret] at hs
    simp only [Event.succeeded, List.all_eq_true, List.any_eq_true, beq_iff_eq] at hs
    obtain ⟨names, h1, h2, h3⟩ := namesLoop_spec
      (groups.foldl (fun m g => mapSet m g.SecurityGroupId g.SecurityGroupName) []) ids []
      (fun id hid => ((foldl_mapSet_names groups [] id).1).2 (Or.inr (hs id hid)))
    simp only [h1, List.nil_append]
    refine ⟨trivial, h2, ?_⟩
    intro n hn
    obtain ⟨id, hid⟩ := h3 n hn
    rcases (foldl_mapSet_names groups [] id).2 n hid with h | ⟨g, hg, hgn⟩
    · simp [mapGet] at h
    · simp only [groupNamesSeen, List.flatMap_cons, List.flatMap_nil, List.append_nil,
        List.mem_map]
      exact ⟨g, hg, hgn⟩

/-! ## Free numbers of the existing groups -/

theorem getSecurityGroupFreePolicyNum_events (env : Env) (w : World)
    (providerParams g direction : String) :
    (getSecurityGroupFreePolicyNum env w providerParams g direction).2 =
      [Event.querySecurityGroupPolicies providerParams g
        (env.QuerySecurityGroupPolicies w providerParams g)] := by
  unfold getSecurityGroupFreePolicyNum
  cases env.QuerySecurityGroupPolicies w providerParams g with
  | error e => rfl
  | ok s => simp only []; split <;> rfl

theorem freeLoop_kinds (env : Env) (providerParams direction : String) (gs : List String)
    (m : List (String × Int)) (total : Int) (w : World) :
    ∀ e ∈ (freeLoop env providerParams direction gs m total w).2, e.kind = 5 := by
  induction gs generalizing m total w with
  | nil => simp [freeLoop]
  | cons g gs ih =>
    have hev := getSecurityGroupFreePolicyNum_events env w providerParams g direction
    simp only [freeLoop]
    rcases hr : getSecurityGroupFreePolicyNum env w providerParams g direction with
      ⟨⟨freeNum, _ | err⟩, evs⟩
    · rw [hr] at hev
      simp only [] at hev ⊢
      intro e he
      rcases List.mem_append.1 he with he | he
      · rw [hev] at he; simp at he; rw [he]; rfl
      · exact ih _ _ _ e he
    · rw [hr] at hev
      simp only [] at hev ⊢
      intro e he
      rw [hev] at he; simp at he; rw [he]; rfl

theorem freeLoop_spec (env : Env) (providerParams direction : String) (gs : List String)
    (m : List (String × Int)) (total : Int) (w : World) :
    (freeLoop env providerParams direction gs m total w).1.1.1 =
        (queriedFree direction (freeLoop env providerParams direction gs m total w).2).foldl
          (fun m gf => mapSet m gf.1 gf.2) m ∧
      (freeLoop env providerParams direction gs m total w).1.1.2 =
        total + ((queriedFree direction
          (freeLoop env providerParams direction gs m total w).2).map Prod.snd).sum ∧
      ((∀ e ∈ (freeLoop env providerParams direction gs m total w).2, e.succeeded = true) →
        (freeLoop env providerParams direction gs m total w).1.2 = none ∧
        (queriedFree direction
          (freeLoop env providerParams direction gs m total w).2).map Prod.fst = gs) := by
  induction gs generalizing m total w with
  | nil => simp [freeLoop, queriedFree]
  | cons g gs ih =>
    have hev := getSecurityGroupFreePolicyNum_events env w providerParams g direction
    simp only [freeLoop]
    unfold getSecurityGroupFreePolicyNum at hev ⊢
    cases hret : env.QuerySecurityGroupPolicies w providerParams g with
    | error e =>
      simp only [queriedFree, List.filterMap_cons, List.filterMap_nil, List.foldl_nil,
        List.map_nil, List.sum_nil, add_zero, true_and]
      intro hok
      have := hok _ (List.mem_singleton_self _)
      simp [Event.succeeded] at this
    | ok s =>
      rw [hret] at hev
      simp only [] at hev ⊢
      have hfree : (if EqualFold direction INGRESS_RULE = true then
            ((MAX_SEUCRITY_RULE_NUM - (s.Ingress.length : Int), (none : Option String)),
              [Event.querySecurityGroupPolicies providerParams g (Except.ok s)])
          else ((MAX_SEUCRITY_RULE_NUM - (s.Egress.length : Int), none),
              [Event.querySecurityGroupPolicies providerParams g (Except.ok s)])) =
          ((freeNumOf direction s, none),
            [Event.querySecurityGroupPolicies providerParams g (Except.ok s)]) := by
        unfold freeNumOf
        split <;> rfl
      rw [hfree]
      simp only []
      obtain ⟨h1, h2, h3⟩ := ih (mapSet m g (freeNumOf direction s))
        (total + freeNumOf direction s)
        (w ++ [Event.querySecurityGroupPolicies providerParams g (Except.ok s)])
      refine ⟨?_, ?_, ?_⟩
      · rw [h1]; simp [queriedFree]
      · rw [h2]; simp [queriedFree]; ring
      · intro hok
        obtain ⟨h4, h5⟩ := h3 (fun e he => hok e (List.mem_append_right _ he))
        refine ⟨h4, ?_⟩
        simp only [queriedFree, List.singleton_append, List.filterMap_cons, List.map_cons]
        simp only [queriedFree] at h5
        rw [h5]

end securitygroup

namespace securitygroup

/-! ## Creating groups and submitting entries -/

theorem createNewLoop_kinds (env : Env) (providerParams ip : String) (auotNumIndex : Int)
    (k : Nat) (i : Int) (acc : List String) (w : World) :
    ∀ e ∈ (createNewLoop env providerParams ip auotNumIndex k i acc w).2, e.kind = 6 := by
  induction k generalizing i acc w with
  | zero => simp [createNewLoop]
  | succ k ih =>
    simp only [createNewLoop]
    cases env.CreateSecurityGroup w providerParams
        (ip ++ "-auto-" ++ formatInt (wrapInt (auotNumIndex + i))) "automation created" with
    | error e => simp [Event.kind]
    | ok id =>
      simp only []
      intro e he
      rcases List.mem_cons.1 he with rfl | he
      · rfl
      · exact ih _ _ _ e he

theorem bindTo_bindTo (g : String) (p : SecurityPolicy) : bindTo g (bindTo g p) = bindTo g p := rfl

theorem eraseStatus_bindTo (g : String) (p : SecurityPolicy) :
    eraseStatus (bindTo g p) = eraseStatus p := rfl

theorem eraseStatus_setErr (e : String) (p : SecurityPolicy) :
    eraseStatus { p with ErrorMsg := e } = eraseStatus p := rfl

theorem newSecurityPolicy_bindTo (g : String) (p : SecurityPolicy) (b : Bool) :
    newSecurityPolicy (bindTo g p) b = newSecurityPolicy p b := rfl

theorem addPolicies_nil (env : Env) (w : World) (providerParams g direction : String) :
    addPoliciesToSecurityGroup env w providerParams g [] direction = ((none, []), []) := by
  simp [addPoliciesToSecurityGroup]

theorem addPolicies_kinds (env : Env) (w : World) (providerParams g : String)
    (ps : List SecurityPolicy) (direction : String) :
    ∀ e ∈ (addPoliciesToSecurityGroup env w providerParams g ps direction).2,
      e.kind = 7 ∨ e.kind = 8 := by
  unfold addPoliciesToSecurityGroup
  split
  · simp
  · simp only []
    split
    · simp [Event.kind]
    · split <;> simp [Event.kind]

/-- Either the request for a non-empty slice is accepted, and the entries are bound to the
group, or the call returns the error of a failed event and the entries carry its message. -/
theorem addPolicies_cases (env : Env) (w : World) (providerParams g : String)
    (ps : List SecurityPolicy) (direction : String) (hne : ps ≠ []) :
    ((addPoliciesToSecurityGroup env w providerParams g ps direction).1 =
          (none, ps.map (bindTo g)) ∧
        (∀ e ∈ (addPoliciesToSecurityGroup env w providerParams g ps direction).2,
          e.succeeded = true) ∧
        submitted (addPoliciesToSecurityGroup env w providerParams g ps direction).2 =
          [(g, newSecurityPolicySet ps direction true)]) ∨
      (∃ err, (addPoliciesToSecurityGroup env w providerParams g ps direction).1 =
          (some err, ps.map fun p => { p with ErrorMsg := addPolicyErrMsg g err }) ∧
        (∃ e ∈ (addPoliciesToSecurityGroup env w providerParams g ps direction).2,
          e.error? = some err ∧ e.succeeded = false ∧ (e.kind = 7 ∨ e.kind = 8)) ∧
        submitted (addPoliciesToSecurityGroup env w providerParams g ps direction).2 = []) := by
  unfold addPoliciesToSecurityGroup
  have hlen : ¬ ps.length = 0 := by
    intro h; exact hne (List.length_eq_zero.1 h)
  rw [if_neg hlen]
  simp only []
  generalize env.CreateVpcClient w (env.GetMapFromProviderParams providerParams "Region")
    (env.GetMapFromProviderParams providerParams "SecretID")
    (env.GetMapFromProviderParams providerParams "SecretKey") = cret
  cases cret with
  | some err =>
    right
    exact ⟨err, rfl, ⟨_, List.mem_singleton_self _, by simp [Event.error?],
      by simp [Event.succeeded], by simp [Event.kind]⟩, by simp [submitted]⟩
  | none =>
    simp only []
    generalize env.CreateSecurityGroupPolicies _ _ _ _ = sret
    cases sret with
    | none =>
      left
      refine ⟨rfl, ?_, by simp [submitted]⟩
      intro e he
      simp only [List.mem_cons, List.mem_singleton, List.not_mem_nil, or_false] at he
      rcases he with rfl | rfl <;> simp [Event.succeeded]
    | some err =>
      right
      refine ⟨err, rfl, ⟨_, List.mem_cons_of_mem _ (List.mem_singleton_self _),
        by simp [Event.error?], by simp [Event.succeeded], by simp [Event.kind]⟩, ?_⟩
      simp [submitted]

/-- The slice the loop takes is the slice first fit takes. -/
theorem limit_facts (ps : List SecurityPolicy) (offset : Nat) (cap : Int)
    (hoff : offset ≤ ps.length)
    (hlim : ¬ (if (ps.length : Int) - offset > cap then cap else (ps.length : Int) - offset) < 0) :
    0 ≤ cap ∧
      (ps.drop offset).take
          (if (ps.length : Int) - offset > cap then cap else (ps.length : Int) - offset).toNat =
        (ps.drop offset).take cap.toNat ∧
      ps.drop (offset +
          (if (ps.length : Int) - offset > cap then cap else (ps.length : Int) - offset).toNat) =
        (ps.drop offset).drop cap.toNat ∧
      offset + (if (ps.length : Int) - offset > cap then cap
        else (ps.length : Int) - offset).toNat ≤ ps.length ∧
      ((ps.drop offset).take cap.toNat).length =
        (if (ps.length : Int) - offset > cap then cap else (ps.length : Int) - offset).toNat := by
  by_cases h : (ps.length : Int) - offset > cap
  · rw [if_pos h] at hlim ⊢
    refine ⟨by omega, rfl, by rw [List.drop_drop, Nat.add_comm], by omega, ?_⟩
    rw [List.length_take, List.length_drop]
    omega
  · rw [if_neg h] at hlim ⊢
    have hc : 0 ≤ cap := by omega
    have h1 : ((ps.length : Int) - offset).toNat = ps.length - offset := by omega
    have h2 : ps.length - offset ≤ cap.toNat := by omega
    rw [h1]
    refine ⟨hc, ?_, ?_, by omega, ?_⟩
    · rw [List.take_of_length_le (by rw [List.length_drop]),
        List.take_of_length_le (by rw [List.length_drop]; exact h2)]
    · rw [List.drop_drop]
      rw [List.drop_of_length_le (by omega), List.drop_of_length_le (by omega)]
    · rw [List.length_take, List.length_drop]
      omega

theorem limit_neg (ps : List SecurityPolicy) (offset : Nat) (cap : Int)
    (hoff : offset ≤ ps.length)
    (hlim : (if (ps.length : Int) - offset > cap then cap else (ps.length : Int) - offset) < 0) :
    cap < 0 := by
  split at hlim <;> omega

end securitygroup

namespace securitygroup

theorem fillLoop_nil (env : Env) (providerParams direction : String) (M : List (String × Int))
    (offset : Nat) (ps : List SecurityPolicy) (w : World) :
    fillLoop env providerParams direction M [] offset ps w = .done (none, ps) [] := rfl

theorem fillLoop_cons_neg (env : Env) (providerParams direction : String)
    (M : List (String × Int)) (g : String) (gs : List String) (offset : Nat)
    (ps : List SecurityPolicy) (w : World) (hoff : offset ≤ ps.length) (hcap : capOf M g < 0) :
    fillLoop env providerParams direction M (g :: gs) offset ps w = .panic [] := by
  have hlim : (if (ps.length : Int) - offset > capOf M g then capOf M g
      else (ps.length : Int) - offset) < 0 := by
    rw [if_pos (by omega)]; exact hcap
  simp only [capOf] at hlim
  simp only [fillLoop, if_pos hlim]

theorem fillLoop_step (env : Env) (providerParams direction : String)
    (M : List (String × Int)) (g : String) (gs : List String) (offset : Nat)
    (ps : List SecurityPolicy) (w : World) (hoff : offset ≤ ps.length) (hcap : 0 ≤ capOf M g) :
    (∃ evsA, (∀ e ∈ evsA, e.succeeded = true ∧ (e.kind = 7 ∨ e.kind = 8)) ∧
        submitted evsA =
          (if (ps.drop offset).take (capOf M g).toNat = [] then []
            else [(g, newSecurityPolicySet ((ps.drop offset).take (capOf M g).toNat)
              direction true)]) ∧
        fillLoop env providerParams direction M (g :: gs) offset ps w =
          match fillLoop env providerParams direction M gs
              (offset + ((ps.drop offset).take (capOf M g).toNat).length)
              (ps.take offset ++ ((ps.drop offset).take (capOf M g).toNat).map (bindTo g) ++
                (ps.drop offset).drop (capOf M g).toNat) (w ++ evsA) with
          | .done r evs2 => .done r (evsA ++ evs2)
          | .panic evs2 => .panic (evsA ++ evs2)) ∨
      (∃ err evsA, (∃ e ∈ evsA, e.error? = some err ∧ e.succeeded = false) ∧
        (∀ e ∈ evsA, e.kind = 7 ∨ e.kind = 8) ∧ submitted evsA = [] ∧
        fillLoop env providerParams direction M (g :: gs) offset ps w =
          .done (some err,
            ps.take offset ++
              ((ps.drop offset).take (capOf M g).toNat).map
                (fun p => { p with ErrorMsg := addPolicyErrMsg g err }) ++
              (ps.drop offset).drop (capOf M g).toNat) evsA) := by
  have hlim : ¬ (if (ps.length : Int) - offset > capOf M g then capOf M g
      else (ps.length : Int) - offset) < 0 := by
    split <;> omega
  obtain ⟨_, htake, hdrop, _, hlen⟩ := limit_facts ps offset (capOf M g) hoff hlim
  have hbb : ∀ l : List SecurityPolicy,
      (l.map (bindTo g)).map (fun policy => { policy with SecurityGroupId := g }) =
        l.map (bindTo g) := by
    intro l; rw [List.map_map]; rfl
  simp only [capOf] at hlim htake hdrop hlen
  simp only [fillLoop, if_neg hlim]
  generalize (if (ps.length : Int) - offset > (mapGet M g).getD 0 then (mapGet M g).getD 0
      else (ps.length : Int) - offset).toNat = L at htake hdrop hlen ⊢
  rw [htake, hdrop]
  subst hlen
  have hcapdef : (mapGet M g).getD 0 = capOf M g := rfl
  simp only [hcapdef]
  by_cases hnil : (ps.drop offset).take (capOf M g).toNat = []
  · left
    refine ⟨[], by simp, by simp [hnil, submitted], ?_⟩
    rw [hnil, addPolicies_nil]
    simp
  · rcases addPolicies_cases env w providerParams g _ direction hnil with
      ⟨h1, h2, h3⟩ | ⟨err, h1, h2, h3⟩
    · left
      refine ⟨(addPoliciesToSecurityGroup env w providerParams g
        ((ps.drop offset).take (capOf M g).toNat) direction).2, ?_, ?_, ?_⟩
      · intro e he
        exact ⟨h2 e he, addPolicies_kinds _ _ _ _ _ _ e he⟩
      · rw [h3, if_neg hnil]
      · rcases hadd : addPoliciesToSecurityGroup env w providerParams g
          ((ps.drop offset).take (capOf M g).toNat) direction with ⟨⟨e1, sl⟩, evsA⟩
        rw [hadd] at h1
        simp only [Prod.mk.injEq] at h1
        obtain ⟨rfl, rfl⟩ := h1
        simp only [hbb]
    · right
      refine ⟨err, (addPoliciesToSecurityGroup env w providerParams g
        ((ps.drop offset).take (capOf M g).toNat) direction).2, ?_, ?_, h3, ?_⟩
      · obtain ⟨e, he, h4, h5, _⟩ := h2
        exact ⟨e, he, h4, h5⟩
      · exact addPolicies_kinds _ _ _ _ _ _
      · rcases hadd : addPoliciesToSecurityGroup env w providerParams g
          ((ps.drop offset).take (capOf M g).toNat) direction with ⟨⟨e1, sl⟩, evsA⟩
        rw [hadd] at h1
        simp only [Prod.mk.injEq] at h1
        obtain ⟨rfl, rfl⟩ := h1
        rfl

end securitygroup

namespace securitygroup

theorem take_append_mid {α : Type} (a b c : List α) (n m : Nat) (ha : a.length = n)
    (hb : b.length = m) :
    (a ++ b ++ c).take (n + m) = a ++ b ∧ (a ++ b ++ c).drop (n + m) = c ∧
      (a ++ b ++ c).take n = a := by
  subst ha hb
  refine ⟨?_, ?_, ?_⟩
  · rw [← List.length_append, List.take_left']
    rfl
  · rw [← List.length_append, List.drop_left']
    rfl
  · rw [List.append_assoc, List.take_left']
    rfl

theorem fillLoop_kinds (env : Env) (providerParams direction : String)
    (M : List (String × Int)) (gs : List String) (offset : Nat) (ps : List SecurityPolicy)
    (w : World) (hoff : offset ≤ ps.length) :
    ∀ e ∈ (fillLoop env providerParams direction M gs offset ps w).events,
      e.kind = 7 ∨ e.kind = 8 := by
  induction gs generalizing offset ps w with
  | nil => simp [fillLoop, Result.events]
  | cons g gs ih =>
    by_cases hcap : capOf M g < 0
    · rw [fillLoop_cons_neg _ _ _ _ _ _ _ _ _ hoff hcap]; simp [Result.events]
    · rcases fillLoop_step env providerParams direction M g gs offset ps w hoff (by omega) with
        ⟨evsA, hA, _, heq⟩ | ⟨err, evsA, _, hk, _, heq⟩
      · rw [heq]
        have hlen : offset + ((ps.drop offset).take (capOf M g).toNat).length ≤
            (ps.take offset ++ ((ps.drop offset).take (capOf M g).toNat).map (bindTo g) ++
              (ps.drop offset).drop (capOf M g).toNat).length := by
          simp only [List.length_append, List.length_take, List.length_map, List.length_drop]
          omega
        have := ih _ _ (w ++ evsA) hlen
        revert this
        cases fillLoop env providerParams direction M gs _ _ (w ++ evsA) with
        | done r evs2 =>
          intro this e he
          simp only [Result.events, List.mem_append] at he this
          rcases he with he | he
          · exact (hA e he).2
          · exact this e he
        | panic evs2 =>
          intro this e he
          simp only [Result.events, List.mem_append] at he this
          rcases he with he | he
          · exact (hA e he).2
          · exact this e he
      · rw [heq]; simpa [Result.events] using hk

theorem fillLoop_panic (env : Env) (providerParams direction : String)
    (M : List (String × Int)) (gs : List String) (offset : Nat) (ps : List SecurityPolicy)
    (w : World) (hoff : offset ≤ ps.length) (evs : List Event)
    (h : fillLoop env providerParams direction M gs offset ps w = .panic evs) :
    (∃ g ∈ gs, capOf M g < 0) ∧ ∀ e ∈ evs, e.succeeded = true := by
  induction gs generalizing offset ps w evs with
  | nil => simp [fillLoop] at h
  | cons g gs ih =>
    by_cases hcap : capOf M g < 0
    · rw [fillLoop_cons_neg _ _ _ _ _ _ _ _ _ hoff hcap] at h
      simp only [Result.panic.injEq] at h
      subst h
      exact ⟨⟨g, by simp, hcap⟩, by simp⟩
    · rcases fillLoop_step env providerParams direction M g gs offset ps w hoff (by omega) with
        ⟨evsA, hA, _, heq⟩ | ⟨err, evsA, _, hk, _, heq⟩
      · rw [heq] at h
        have hlen : offset + ((ps.drop offset).take (capOf M g).toNat).length ≤
            (ps.take offset ++ ((ps.drop offset).take (capOf M g).toNat).map (bindTo g) ++
              (ps.drop offset).drop (capOf M g).toNat).length := by
          simp only [List.length_append, List.length_take, List.length_map, List.length_drop]
          omega
        have hrec := ih _ _ (w ++ evsA) hlen
        revert h hrec
        cases fillLoop env providerParams direction M gs _ _ (w ++ evsA) with
        | done r evs2 => intro h; simp at h
        | panic evs2 =>
          intro h hrec
          simp only [Result.panic.injEq] at h
          subst h
          obtain ⟨⟨g', hg', hc'⟩, hs⟩ := hrec evs2 rfl
          refine ⟨⟨g', by simp [hg'], hc'⟩, ?_⟩
          intro e he
          rcases List.mem_append.1 he with he | he
          · exact (hA e he).1
          · exact hs e he
      · rw [heq] at h; simp at h

end securitygroup

namespace securitygroup

theorem step_state_facts (ps : List SecurityPolicy) (offset c : Nat) (g : String)
    (hoff : offset ≤ ps.length) :
    offset + ((ps.drop offset).take c).length ≤
        (ps.take offset ++ ((ps.drop offset).take c).map (bindTo g) ++
          (ps.drop offset).drop c).length ∧
      (ps.take offset ++ ((ps.drop offset).take c).map (bindTo g) ++
          (ps.drop offset).drop c).take (offset + ((ps.drop offset).take c).length) =
        ps.take offset ++ ((ps.drop offset).take c).map (bindTo g) ∧
      (ps.take offset ++ ((ps.drop offset).take c).map (bindTo g) ++
          (ps.drop offset).drop c).drop (offset + ((ps.drop offset).take c).length) =
        (ps.drop offset).drop c ∧
      (ps.take offset ++ ((ps.drop offset).take c).map (bindTo g) ++
          (ps.drop offset).drop c).take offset = ps.take offset ∧
      (ps.take offset ++ ((ps.drop offset).take c).map (bindTo g) ++
          (ps.drop offset).drop c).map eraseStatus = ps.map eraseStatus := by
  have ha : (ps.take offset).length = offset := by rw [List.length_take]; omega
  have hb : (((ps.drop offset).take c).map (bindTo g)).length =
      ((ps.drop offset).take c).length := by simp
  obtain ⟨h1, h2, h3⟩ := take_append_mid (ps.take offset)
    (((ps.drop offset).take c).map (bindTo g)) ((ps.drop offset).drop c) _ _ ha hb
  refine ⟨?_, h1, h2, h3, ?_⟩
  · simp only [List.length_append, List.length_take, List.length_map, List.length_drop]
    omega
  · simp only [List.map_append, List.map_map]
    have : (eraseStatus ∘ bindTo g) = eraseStatus := by funext p; rfl
    rw [this, List.append_assoc, ← List.map_append, ← List.map_append,
      List.take_append_drop, List.take_append_drop]

theorem fillLoop_done_err (env : Env) (providerParams direction : String)
    (M : List (String × Int)) (gs : List String) (offset : Nat) (ps : List SecurityPolicy)
    (w : World) (hoff : offset ≤ ps.length) (err : String) (ps' : List SecurityPolicy)
    (evs : List Event)
    (h : fillLoop env providerParams direction M gs offset ps w = .done (some err, ps') evs) :
    (∃ e ∈ evs, e.error? = some err ∧ e.succeeded = false) ∧
      ps'.map eraseStatus = ps.map eraseStatus ∧ ps'.take offset = ps.take offset ∧
      ∀ gset ∈ submitted evs, ∃ slice, gset.2 = newSecurityPolicySet slice direction true ∧
        ∀ p ∈ slice, bindTo gset.1 p ∈ ps' := by
  induction gs generalizing offset ps w evs with
  | nil => simp [fillLoop] at h
  | cons g gs ih =>
    by_cases hcap : capOf M g < 0
    · rw [fillLoop_cons_neg _ _ _ _ _ _ _ _ _ hoff hcap] at h; simp at h
    · rcases fillLoop_step env providerParams direction M g gs offset ps w hoff (by omega) with
        ⟨evsA, hA, hsub, heq⟩ | ⟨err', evsA, hfail, hk, hsub, heq⟩
      · rw [heq] at h
        obtain ⟨hlen, htk, hdr, htk0, hers⟩ :=
          step_state_facts ps offset (capOf M g).toNat g hoff
        have hrec := ih _ _ (w ++ evsA) hlen
        revert h hrec
        cases fillLoop env providerParams direction M gs _ _ (w ++ evsA) with
        | panic evs2 => intro h; simp at h
        | done r evs2 =>
          intro h hrec
          simp only [Result.done.injEq] at h
          obtain ⟨rfl, rfl⟩ := h
          obtain ⟨⟨e, he, h1⟩, h2, h3, h4⟩ := hrec evs2 rfl
          refine ⟨⟨e, List.mem_append_right _ he, h1⟩, h2.trans hers, ?_, ?_⟩
          · have := congrArg (List.take offset) h3
            rw [List.take_take, List.take_take, Nat.min_eq_left (Nat.le_add_right _ _)] at this
            rw [this, htk0]
          · intro gset hg
            simp only [submitted, List.filterMap_append, List.mem_append] at hg
            rcases hg with hg | hg
            · have hg' : gset ∈ submitted evsA := hg
              rw [hsub] at hg'
              split at hg'
              · simp at hg'
              · simp only [List.mem_singleton] at hg'
                subst hg'
                refine ⟨_, rfl, ?_⟩
                intro p hp
                have hmem : bindTo g p ∈ ps'.take
                    (offset + ((ps.drop offset).take (capOf M g).toNat).length) := by
                  rw [h3, htk]
                  exact List.mem_append_right _ (List.mem_map_of_mem _ hp)
                exact List.mem_of_mem_take hmem
            · exact h4 gset hg
      · rw [heq] at h
        simp only [Result.done.injEq, Prod.mk.injEq, Option.some.injEq] at h
        obtain ⟨⟨rfl, rfl⟩, rfl⟩ := h
        have ha : (ps.take offset).length = offset := by rw [List.length_take]; omega
        refine ⟨hfail, ?_, ?_, by simp [hsub]⟩
        · simp only [List.map_append, List.map_map]
          have : (eraseStatus ∘ fun p : SecurityPolicy =>
              { p with ErrorMsg := addPolicyErrMsg g err' }) = eraseStatus := by
            funext p; rfl
          rw [this, List.append_assoc, ← List.map_append, ← List.map_append,
            List.take_append_drop, List.take_append_drop]
        · rw [List.append_assoc, List.take_left' ha]

theorem fillLoop_done_none (env : Env) (providerParams direction : String)
    (M : List (String × Int)) (gs : List String) (offset : Nat) (ps : List SecurityPolicy)
    (w : World) (hoff : offset ≤ ps.length) (ps' : List SecurityPolicy) (evs : List Event)
    (h : fillLoop env providerParams direction M gs offset ps w = .done (none, ps') evs) :
    (∀ g ∈ gs, 0 ≤ capOf M g) ∧ (∀ e ∈ evs, e.succeeded = true) ∧
      ps' = ps.take offset ++ boundSlices (greedySlices M gs (ps.drop offset)) ++
        leftover M gs (ps.drop offset) ∧
      submitted evs =
        ((greedySlices M gs (ps.drop offset)).filter (fun s => s.2 ≠ [])).map
          (fun s => (s.1, newSecurityPolicySet s.2 direction true)) := by
  induction gs generalizing offset ps w evs with
  | nil =>
    simp only [fillLoop, Result.done.injEq, Prod.mk.injEq, true_and] at h
    obtain ⟨rfl, rfl⟩ := h
    simp [greedySlices, leftover, boundSlices, submitted]
  | cons g gs ih =>
    by_cases hcap : capOf M g < 0
    · rw [fillLoop_cons_neg _ _ _ _ _ _ _ _ _ hoff hcap] at h; simp at h
    · rcases fillLoop_step env providerParams direction M g gs offset ps w hoff (by omega) with
        ⟨evsA, hA, hsub, heq⟩ | ⟨err', evsA, hfail, hk, hsub, heq⟩
      · rw [heq] at h
        obtain ⟨hlen, htk, hdr, htk0, hers⟩ :=
          step_state_facts ps offset (capOf M g).toNat g hoff
        have hrec := ih _ _ (w ++ evsA) hlen
        revert h hrec
        cases fillLoop env providerParams direction M gs _ _ (w ++ evsA) with
        | panic evs2 => intro h; simp at h
        | done r evs2 =>
          intro h hrec
          simp only [Result.done.injEq] at h
          obtain ⟨rfl, rfl⟩ := h
          obtain ⟨h1, h2, h3, h4⟩ := hrec evs2 rfl
          refine ⟨?_, ?_, ?_, ?_⟩
          · intro g' hg'
            rcases List.mem_cons.1 hg' with rfl | hg'
            · omega
            · exact h1 g' hg'
          · intro e he
            rcases List.mem_append.1 he with he | he
            · exact (hA e he).1
            · exact h2 e he
          · rw [h3, htk, hdr]
            simp [greedySlices, leftover, boundSlices]
          · simp only [submitted, List.filterMap_append]
            have hsub' : List.filterMap (fun e => match e with
                | Event.createSecurityGroupPolicies _ g policySet none => some (g, policySet)
                | _ => none) evsA = submitted evsA := rfl
            have h4' : List.filterMap (fun e => match e with
                | Event.createSecurityGroupPolicies _ g policySet none => some (g, policySet)
                | _ => none) evs2 = submitted evs2 := rfl
            rw [hsub', h4', hsub, h4, hdr]
            simp only [greedySlices, List.filter_cons]
            by_cases hnil : (ps.drop offset).take (capOf M g).toNat = []
            · simp [hnil]
            · simp [hnil]
      · rw [heq] at h; simp at h

end securitygroup

namespace securitygroup

/-! ## What the history records, by kind of call -/

theorem queriedFree_eq_nil (direction : String) (evs : List Event)
    (h : ∀ e ∈ evs, e.kind ≠ 5) : queriedFree direction evs = [] := by
  unfold queriedFree
  rw [List.filterMap_eq_nil_iff]
  intro e he
  have := h e he
  cases e <;> simp [Event.kind] at this ⊢

theorem createdIds_eq_nil (evs : List Event) (h : ∀ e ∈ evs, e.kind ≠ 6) :
    createdIds evs = [] := by
  unfold createdIds
  rw [List.filterMap_eq_nil_iff]
  intro e he
  have := h e he
  cases e <;> simp [Event.kind] at this ⊢

theorem createdNames_eq_nil (evs : List Event) (h : ∀ e ∈ evs, e.kind ≠ 6) :
    createdNames evs = [] := by
  unfold createdNames
  rw [List.filterMap_eq_nil_iff]
  intro e he
  have := h e he
  cases e <;> simp [Event.kind] at this ⊢

theorem submitted_eq_nil (evs : List Event) (h : ∀ e ∈ evs, e.kind ≠ 8) :
    submitted evs = [] := by
  unfold submitted
  rw [List.filterMap_eq_nil_iff]
  intro e he
  have := h e he
  cases e <;> simp [Event.kind] at this ⊢

theorem submitRequests_eq_nil (evs : List Event) (h : ∀ e ∈ evs, e.kind ≠ 8) :
    submitRequests evs = [] := by
  unfold submitRequests
  rw [List.filterMap_eq_nil_iff]
  intro e he
  have := h e he
  cases e <;> simp [Event.kind] at this ⊢

theorem deleteRequests_eq_nil (evs : List Event) (h : ∀ e ∈ evs, e.kind ≠ 9) :
    deleteRequests evs = [] := by
  unfold deleteRequests
  rw [List.filterMap_eq_nil_iff]
  intro e he
  have := h e he
  cases e <;> simp [Event.kind] at this ⊢

theorem bindRequests_eq_nil (evs : List Event) (h : ∀ e ∈ evs, e.kind ≠ 3) :
    bindRequests evs = [] := by
  unfold bindRequests
  rw [List.filterMap_eq_nil_iff]
  intro e he
  have := h e he
  cases e <;> simp [Event.kind] at this ⊢

theorem groupNamesSeen_eq_nil (evs : List Event) (h : ∀ e ∈ evs, e.kind ≠ 4) :
    groupNamesSeen evs = [] := by
  unfold groupNamesSeen
  rw [List.flatMap_eq_nil_iff]
  intro e he
  have := h e he
  cases e <;> simp [Event.kind] at this ⊢

theorem queriedFree_append (direction : String) (a b : List Event) :
    queriedFree direction (a ++ b) = queriedFree direction a ++ queriedFree direction b := by
  simp [queriedFree]

theorem createdIds_append (a b : List Event) :
    createdIds (a ++ b) = createdIds a ++ createdIds b := by simp [createdIds]

theorem createdNames_append (a b : List Event) :
    createdNames (a ++ b) = createdNames a ++ createdNames b := by simp [createdNames]

theorem submitted_append (a b : List Event) :
    submitted (a ++ b) = submitted a ++ submitted b := by simp [submitted]

theorem submitRequests_append (a b : List Event) :
    submitRequests (a ++ b) = submitRequests a ++ submitRequests b := by simp [submitRequests]

theorem deleteRequests_append (a b : List Event) :
    deleteRequests (a ++ b) = deleteRequests a ++ deleteRequests b := by simp [deleteRequests]

theorem bindRequests_append (a b : List Event) :
    bindRequests (a ++ b) = bindRequests a ++ bindRequests b := by simp [bindRequests]

theorem groupNamesSeen_append (a b : List Event) :
    groupNamesSeen (a ++ b) = groupNamesSeen a ++ groupNamesSeen b := by simp [groupNamesSeen]

/-! ## First fit -/

theorem greedySlices_fst (M : List (String × Int)) (gs : List String)
    (rest : List SecurityPolicy) : (greedySlices M gs rest).map Prod.fst = gs := by
  induction gs generalizing rest with
  | nil => rfl
  | cons g gs ih => simp [greedySlices, ih]

theorem greedySlices_join (M : List (String × Int)) (gs : List String)
    (rest : List SecurityPolicy) :
    (greedySlices M gs rest).flatMap Prod.snd ++ leftover M gs rest = rest := by
  induction gs generalizing rest with
  | nil => simp [greedySlices, leftover]
  | cons g gs ih =>
    simp only [greedySlices, leftover, List.flatMap_cons, List.append_assoc, ih]
    exact List.take_append_drop _ _

theorem greedySlices_le_cap (M : List (String × Int)) (gs : List String)
    (rest : List SecurityPolicy) :
    ∀ s ∈ greedySlices M gs rest, s.2.length ≤ (capOf M s.1).toNat := by
  induction gs generalizing rest with
  | nil => simp [greedySlices]
  | cons g gs ih =>
    intro s hs
    simp only [greedySlices, List.mem_cons] at hs
    rcases hs with rfl | hs
    · simp only [List.length_take]; omega
    · exact ih _ s hs

theorem leftover_length (M : List (String × Int)) (gs : List String)
    (rest : List SecurityPolicy) :
    (leftover M gs rest).length = rest.length - (gs.map fun g => (capOf M g).toNat).sum := by
  induction gs generalizing rest with
  | nil => simp [leftover]
  | cons g gs ih =>
    simp only [leftover, ih, List.length_drop, List.map_cons, List.sum_cons]
    omega

theorem leftover_eq_nil (M : List (String × Int)) (gs : List String)
    (rest : List SecurityPolicy)
    (h : rest.length ≤ (gs.map fun g => (capOf M g).toNat).sum) : leftover M gs rest = [] := by
  apply List.length_eq_zero.1
  rw [leftover_length]
  omega

end securitygroup

namespace securitygroup

/-! ## The phases of `createPolicies` -/

theorem namesLoop_err (M : List (String × String)) (ids acc : List String) (err : String)
    (h : (namesLoop M ids acc).2 = some err) :
    ∃ id, err = "can't found groupId(" ++ id ++ ") detail" := by
  induction ids generalizing acc with
  | nil => simp [namesLoop] at h
  | cons id ids ih =>
    simp only [namesLoop] at h
    cases hget : mapGet M id with
    | none =>
      rw [hget] at h
      simp only [Option.some.injEq] at h
      exact ⟨id, h.symm⟩
    | some name =>
      rw [hget] at h
      exact ih _ h

theorem getSecurityGroupNames_err (env : Env) (w : World) (providerParams : String)
    (ids : List String) (err : String)
    (h : (getSecurityGroupNames env w providerParams ids).1.2 = some err) :
    (∃ e ∈ (getSecurityGroupNames env w providerParams ids).2, e.error? = some err) ∨
      ∃ id, err = "can't found groupId(" ++ id ++ ") detail" := by
  rw [getSecurityGroupNames_events]
  unfold getSecurityGroupNames at h
  cases hret : env.QuerySecurityGroups w providerParams ids with
  | error e =>
    rw [hret] at h
    simp only [Option.some.injEq] at h
    subst h
    left
    exact ⟨_, List.mem_singleton_self _, rfl⟩
  | ok groups =>
    rw [hret] at h
    simp only [] at h
    right
    exact namesLoop_err _ _ _ _ h

theorem freeLoop_err (env : Env) (providerParams direction : String) (gs : List String)
    (m : List (String × Int)) (total : Int) (w : World) (err : String)
    (h : (freeLoop env providerParams direction gs m total w).1.2 = some err) :
    ∃ e ∈ (freeLoop env providerParams direction gs m total w).2, e.error? = some err := by
  induction gs generalizing m total w with
  | nil => simp [freeLoop] at h
  | cons g gs ih =>
    simp only [freeLoop] at h ⊢
    unfold getSecurityGroupFreePolicyNum at h ⊢
    cases hret : env.QuerySecurityGroupPolicies w providerParams g with
    | error e =>
      rw [hret] at h
      simp only [Option.some.injEq] at h
      subst h
      exact ⟨_, List.mem_singleton_self _, rfl⟩
    | ok s =>
      rw [hret] at h
      simp only [] at h ⊢
      by_cases hd : EqualFold direction INGRESS_RULE = true
      · simp only [hd, if_true] at h ⊢
        obtain ⟨e, he, hee⟩ := ih _ _ _ h
        exact ⟨e, List.mem_append_right _ he, hee⟩
      · simp only [hd] at h ⊢
        obtain ⟨e, he, hee⟩ := ih _ _ _ h
        exact ⟨e, List.mem_append_right _ he, hee⟩

theorem createNewLoop_err (env : Env) (providerParams ip : String) (auotNumIndex : Int)
    (k : Nat) (i : Int) (acc : List String) (w : World) (err : String)
    (h : (createNewLoop env providerParams ip auotNumIndex k i acc w).1.2 = some err) :
    ∃ e ∈ (createNewLoop env providerParams ip auotNumIndex k i acc w).2,
      e.error? = some err := by
  induction k generalizing i acc w with
  | zero => simp [createNewLoop] at h
  | succ k ih =>
    simp only [createNewLoop] at h ⊢
    cases hret : env.CreateSecurityGroup w providerParams
        (ip ++ "-auto-" ++ formatInt (wrapInt (auotNumIndex + i))) "automation created" with
    | error e =>
      rw [hret] at h
      simp only [Option.some.injEq] at h
      subst h
      exact ⟨_, List.mem_singleton_self _, rfl⟩
    | ok id =>
      rw [hret] at h
      simp only [] at h ⊢
      obtain ⟨e, he, hee⟩ := ih _ _ _ h
      exact ⟨e, List.mem_cons_of_mem _ he, hee⟩

theorem getSecurityGroupFreePolicyNum_ok_eq (env : Env) (w : World)
    (providerParams g direction : String) (s : SecurityGroupPolicySet)
    (h : env.QuerySecurityGroupPolicies w providerParams g = .ok s) :
    getSecurityGroupFreePolicyNum env w providerParams g direction =
      ((freeNumOf direction s, none),
        [Event.querySecurityGroupPolicies providerParams g (Except.ok s)]) := by
  unfold getSecurityGroupFreePolicyNum freeNumOf
  rw [h]
  simp only []
  split <;> rfl

theorem freeLoop_none_ok (env : Env) (providerParams direction : String) (gs : List String)
    (m : List (String × Int)) (total : Int) (w : World)
    (h : (freeLoop env providerParams direction gs m total w).1.2 = none) :
    ∀ e ∈ (freeLoop env providerParams direction gs m total w).2, e.succeeded = true := by
  induction gs generalizing m total w with
  | nil => simp [freeLoop]
  | cons g gs ih =>
    simp only [freeLoop] at h ⊢
    cases hret : env.QuerySecurityGroupPolicies w providerParams g with
    | error e =>
      have : getSecurityGroupFreePolicyNum env w providerParams g direction =
          ((0, some e), [Event.querySecurityGroupPolicies providerParams g (Except.error e)]) := by
        unfold getSecurityGroupFreePolicyNum; rw [hret]
      rw [this] at h
      simp at h
    | ok s =>
      rw [getSecurityGroupFreePolicyNum_ok_eq env w providerParams g direction s hret] at h ⊢
      simp only [] at h ⊢
      intro e he
      simp only [List.singleton_append, List.mem_cons] at he
      rcases he with rfl | he
      · rfl
      · exact ih _ _ _ h e he

theorem createNewLoop_none_ok (env : Env) (providerParams ip : String) (auotNumIndex : Int)
    (k : Nat) (i : Int) (acc : List String) (w : World)
    (h : (createNewLoop env providerParams ip auotNumIndex k i acc w).1.2 = none) :
    ∀ e ∈ (createNewLoop env providerParams ip auotNumIndex k i acc w).2,
      e.succeeded = true := by
  induction k generalizing i acc w with
  | zero => simp [createNewLoop]
  | succ k ih =>
    simp only [createNewLoop] at h ⊢
    cases hret : env.CreateSecurityGroup w providerParams
        (ip ++ "-auto-" ++ formatInt (wrapInt (auotNumIndex + i))) "automation created" with
    | error e => rw [hret] at h; simp at h
    | ok id =>
      rw [hret] at h
      simp only [] at h ⊢
      intro e he
      rcases List.mem_cons.1 he with rfl | he
      · rfl
      · exact ih _ _ _ h e he

theorem error_not_succeeded (e : Event) (err : String) (h : e.error? = some err) :
    e.succeeded = false := by
  cases e with
  | getProviderParams _ ret => cases ret <;> simp [Event.error?, Event.succeeded] at h ⊢
  | queryInstancesById _ _ _ ret => cases ret <;> simp [Event.error?, Event.succeeded] at h ⊢
  | instanceQuerySecurityGroups _ _ ret =>
    cases ret <;> simp [Event.error?, Event.succeeded] at h ⊢
  | instanceAssociateSecurityGroups _ _ _ ret =>
    cases ret <;> simp [Event.error?, Event.succeeded] at h ⊢
  | querySecurityGroups _ _ ret => cases ret <;> simp [Event.error?, Event.succeeded] at h ⊢
  | querySecurityGroupPolicies _ _ ret =>
    cases ret <;> simp [Event.error?, Event.succeeded] at h ⊢
  | createSecurityGroup _ _ _ ret => cases ret <;> simp [Event.error?, Event.succeeded] at h ⊢
  | createVpcClient _ _ _ ret => cases ret <;> simp [Event.error?, Event.succeeded] at h ⊢
  | createSecurityGroupPolicies _ _ _ ret =>
    cases ret <;> simp [Event.error?, Event.succeeded] at h ⊢
  | deleteSecurityGroupPolicies _ _ _ ret =>
    cases ret <;> simp [Event.error?, Event.succeeded] at h ⊢

end securitygroup

namespace securitygroup

/-- The shape of a run of `createPolicies` on a non-empty batch: either a phase before the
fill loop returns its error, or the names, the auto-created groups, their free numbers and
the new groups are in place and the run is the fill loop on them. -/
theorem createPolicies_cases (env : Env) (w : World) (providerParams : String)
    (exist : List String) (p0 : SecurityPolicy) (tl : List SecurityPolicy)
    (direction : String) :
    (∃ newIds err evs,
        createPolicies env w providerParams exist (p0 :: tl) direction =
          .done ((newIds, some err), p0 :: tl) evs ∧
        (∀ e ∈ evs, e.kind = 4 ∨ e.kind = 5 ∨ e.kind = 6) ∧
        ¬ (∀ e ∈ evs, e.succeeded = true) ∧
        ((∃ e ∈ evs, e.error? = some err) ∨
          ∃ id, err = "can't found groupId(" ++ id ++ ") detail")) ∨
      (∃ names newIds evsP,
        (∀ e ∈ evsP, e.succeeded = true ∧ (e.kind = 4 ∨ e.kind = 5 ∨ e.kind = 6)) ∧
        names.length = exist.length ∧ (∀ n ∈ names, n ∈ groupNamesSeen evsP) ∧
        (queriedFree direction evsP).map Prod.fst =
          (bubbleLoop (recognised p0.Ip names exist).length
            (recognised p0.Ip names exist)).map Prod.snd ∧
        createdIds evsP = newIds ∧
        createdNames evsP =
          (List.range newIds.length).map (fun (j : Nat) =>
            p0.Ip ++ "-auto-" ++
              formatInt (wrapInt (wrapInt (maxSeq p0.Ip names exist + 1) + (0 + (j : Int))))) ∧
        newIds.length =
          (if ((queriedFree direction evsP).map Prod.snd).sum < ((p0 :: tl).length : Int) then
            (Int.tdiv (((p0 :: tl).length : Int) -
              ((queriedFree direction evsP).map Prod.snd).sum + MAX_SEUCRITY_RULE_NUM - 1)
              MAX_SEUCRITY_RULE_NUM).toNat
          else 0) ∧
        createPolicies env w providerParams exist (p0 :: tl) direction =
          match fillLoop env providerParams direction
              (newIds.foldl (fun m g => mapSet m g MAX_SEUCRITY_RULE_NUM)
                ((queriedFree direction evsP).foldl (fun m gf => mapSet m gf.1 gf.2) []))
              ((queriedFree direction evsP).map Prod.fst ++ newIds) 0 (p0 :: tl)
              (w ++ evsP) with
          | .done (err, ps1) evs4 => .done ((newIds, err), ps1) (evsP ++ evs4)
          | .panic evs4 => .panic (evsP ++ evs4)) := by
  unfold createPolicies
  have hNev := getSecurityGroupNames_events env w providerParams exist
  have hNok := getSecurityGroupNames_ok env w providerParams exist
  have hNerr := getSecurityGroupNames_err env w providerParams exist
  rcases hN : getSecurityGroupNames env w providerParams exist with ⟨⟨names, _ | err⟩, evs1⟩
  swap
  · -- the names are not all known
    left
    rw [hN] at hNev hNok hNerr
    simp only [] at hNev hNok hNerr
    refine ⟨[], err, evs1, rfl, ?_, ?_, hNerr err rfl⟩
    · intro e he
      rw [hNev] at he
      simp only [List.mem_singleton] at he
      subst he
      left; rfl
    · intro hall
      have := (hNok hall).1
      simp at this
  rw [hN] at hNev hNok
  simp only [] at hNev hNok ⊢
  have hk1 : ∀ e ∈ evs1, e.kind = 4 := by
    intro e he
    rw [hNev] at he
    simp only [List.mem_singleton] at he
    subst he; rfl
  by_cases hs1 : ∀ e ∈ evs1, e.succeeded = true
  swap
  · -- unreachable: without an error every id has its name
    exfalso
    apply hs1
    intro e he
    rw [hNev] at he
    simp only [List.mem_singleton] at he
    subst he
    have hnone : (getSecurityGroupNames env w providerParams exist).1.2 = none := by rw [hN]
    unfold getSecurityGroupNames at hnone
    cases hret : env.QuerySecurityGroups w providerParams exist with
    | error e => rw [hret] at hnone; simp at hnone
    | ok groups =>
      rw [hret] at hnone
      simp only [Event.succeeded, List.all_eq_true, List.any_eq_true, beq_iff_eq] at hnone ⊢
      intro id hid
      by_contra hcon
      have hget : mapGet (groups.foldl
          (fun m g => mapSet m g.SecurityGroupId g.SecurityGroupName) []) id = none := by
        cases hg : mapGet (groups.foldl
          (fun m g => mapSet m g.SecurityGroupId g.SecurityGroupName) []) id with
        | none => rfl
        | some n =>
          exfalso
          have := ((foldl_mapSet_names groups [] id).1).1 (by rw [hg]; rfl)
          rcases this with h | h
          · simp [mapGet] at h
          · exact hcon h
      generalize (groups.foldl
        (fun m g => mapSet m g.SecurityGroupId g.SecurityGroupName) []) = M at hnone hget
      generalize ([] : List String) = acc at hnone
      clear hret hN hNev hNok hNerr hk1 hs1
      induction exist generalizing acc with
      | nil => simp at hid
      | cons x xs ih =>
        simp only [namesLoop] at hnone
        rcases List.mem_cons.1 hid with rfl | hid
        · rw [hget] at hnone; simp at hnone
        · cases hx : mapGet M x with
          | none => rw [hx] at hnone; simp at hnone
          | some n => rw [hx] at hnone; exact ih hid _ hnone
  obtain ⟨-, hlen, hseen⟩ := hNok hs1
  rw [getAutoCreatedSecurityGroups_eq p0.Ip names exist hlen]
  simp only []
  have hFk := freeLoop_kinds env providerParams direction
    ((bubbleLoop (recognised p0.Ip names exist).length
      (recognised p0.Ip names exist)).map Prod.snd) [] 0 (w ++ evs1)
  have hFs := freeLoop_spec env providerParams direction
    ((bubbleLoop (recognised p0.Ip names exist).length
      (recognised p0.Ip names exist)).map Prod.snd) [] 0 (w ++ evs1)
  have hFe := freeLoop_err env providerParams direction
    ((bubbleLoop (recognised p0.Ip names exist).length
      (recognised p0.Ip names exist)).map Prod.snd) [] 0 (w ++ evs1)
  rcases hF : freeLoop env providerParams direction
    ((bubbleLoop (recognised p0.Ip names exist).length
      (recognised p0.Ip names exist)).map Prod.snd) [] 0 (w ++ evs1) with
    ⟨⟨⟨freeMap, total⟩, _ | err⟩, evs2⟩
  swap
  · left
    rw [hF] at hFk hFs hFe
    obtain ⟨e, he, hee⟩ := hFe err rfl
    refine ⟨[], err, evs1 ++ evs2, rfl, ?_, ?_, Or.inl ⟨e, List.mem_append_right _ he, hee⟩⟩
    · intro e he
      rcases List.mem_append.1 he with he | he
      · exact Or.inl (hk1 e he)
      · exact Or.inr (Or.inl (hFk e he))
    · intro hall
      have := hall e (List.mem_append_right _ he)
      rw [error_not_succeeded e err hee] at this
      simp at this
  rw [hF] at hFk hFs
  simp only [zero_add] at hFk hFs ⊢
  obtain ⟨hmap, htot, hFok⟩ := hFs
  have hs2 : ∀ e ∈ evs2, e.succeeded = true := by
    have := freeLoop_none_ok env providerParams direction
      ((bubbleLoop (recognised p0.Ip names exist).length
        (recognised p0.Ip names exist)).map Prod.snd) [] 0 (w ++ evs1)
    rw [hF] at this
    exact this rfl
  obtain ⟨-, hqg⟩ := hFok hs2
  have hq1 : queriedFree direction evs1 = [] :=
    queriedFree_eq_nil _ _ (fun e he => by rw [hk1 e he]; decide)
  have hc1 : createdIds evs1 = [] := createdIds_eq_nil _ (fun e he => by rw [hk1 e he]; decide)
  have hc2 : createdIds evs2 = [] := createdIds_eq_nil _ (fun e he => by rw [hFk e he]; decide)
  have hn1 : createdNames evs1 = [] :=
    createdNames_eq_nil _ (fun e he => by rw [hk1 e he]; decide)
  have hn2 : createdNames evs2 = [] :=
    createdNames_eq_nil _ (fun e he => by rw [hFk e he]; decide)
  have hg2 : groupNamesSeen evs2 = [] :=
    groupNamesSeen_eq_nil _ (fun e he => by rw [hFk e he]; decide)
  by_cases hlt : total < ((p0 :: tl).length : Int)
  · rw [if_pos hlt]
    unfold createNewAutomationSecurityGroups
    have hCk := createNewLoop_kinds env providerParams p0.Ip
      (wrapInt (maxSeq p0.Ip names exist + 1))
      (Int.tdiv (((p0 :: tl).length : Int) - total + MAX_SEUCRITY_RULE_NUM - 1)
        MAX_SEUCRITY_RULE_NUM).toNat 0 [] (w ++ evs1 ++ evs2)
    have hCs := createNewLoop_spec env providerParams p0.Ip
      (wrapInt (maxSeq p0.Ip names exist + 1))
      (Int.tdiv (((p0 :: tl).length : Int) - total + MAX_SEUCRITY_RULE_NUM - 1)
        MAX_SEUCRITY_RULE_NUM).toNat 0 [] (w ++ evs1 ++ evs2)
    have hCe := createNewLoop_err env providerParams p0.Ip
      (wrapInt (maxSeq p0.Ip names exist + 1))
      (Int.tdiv (((p0 :: tl).length : Int) - total + MAX_SEUCRITY_RULE_NUM - 1)
        MAX_SEUCRITY_RULE_NUM).toNat 0 [] (w ++ evs1 ++ evs2)
    rcases hC : createNewLoop env providerParams p0.Ip
      (wrapInt (maxSeq p0.Ip names exist + 1))
      (Int.tdiv (((p0 :: tl).length : Int) - total + MAX_SEUCRITY_RULE_NUM - 1)
        MAX_SEUCRITY_RULE_NUM).toNat 0 [] (w ++ evs1 ++ evs2) with ⟨⟨newIds, _ | err⟩, evs3⟩
    swap
    · left
      rw [hC] at hCk hCe
      obtain ⟨e, he, hee⟩ := hCe err rfl
      refine ⟨newIds, err, evs1 ++ evs2 ++ evs3, rfl, ?_, ?_,
        Or.inl ⟨e, List.mem_append_right _ he, hee⟩⟩
      · intro e he
        rcases List.mem_append.1 he with he | he
        · rcases List.mem_append.1 he with he | he
          · exact Or.inl (hk1 e he)
          · exact Or.inr (Or.inl (hFk e he))
        · exact Or.inr (Or.inr (hCk e he))
      · intro hall
        have := hall e (List.mem_append_right _ he)
        rw [error_not_succeeded e err hee] at this
        simp at this
    rw [hC] at hCk hCs
    simp only [] at hCk hCs ⊢
    have hs3 : ∀ e ∈ evs3, e.succeeded = true := by
      have := createNewLoop_none_ok env providerParams p0.Ip
        (wrapInt (maxSeq p0.Ip names exist + 1))
        (Int.tdiv (((p0 :: tl).length : Int) - total + MAX_SEUCRITY_RULE_NUM - 1)
          MAX_SEUCRITY_RULE_NUM).toNat 0 [] (w ++ evs1 ++ evs2)
      rw [hC] at this
      exact this rfl
    obtain ⟨hCn, hCr, hCl⟩ := hCs hs3
    simp only [Prod.mk.injEq, List.nil_append, and_true] at hCr
    right
    refine ⟨names, newIds, evs1 ++ evs2 ++ evs3, ?_, hlen, ?_, ?_, ?_, ?_, ?_, ?_⟩
    · intro e he
      rcases List.mem_append.1 he with he | he
      · rcases List.mem_append.1 he with he | he
        · exact ⟨hs1 e he, Or.inl (hk1 e he)⟩
        · exact ⟨hs2 e he, Or.inr (Or.inl (hFk e he))⟩
      · exact ⟨hs3 e he, Or.inr (Or.inr (hCk e he))⟩
    · intro n hn
      rw [groupNamesSeen_append, groupNamesSeen_append]
      exact List.mem_append_left _ (List.mem_append_left _ (hseen n hn))
    · rw [queriedFree_append, queriedFree_append, hq1,
        queriedFree_eq_nil _ evs3 (fun e he => by rw [hCk e he]; decide)]
      simpa using hqg
    · rw [createdIds_append, createdIds_append, hc1, hc2, hCr]; simp
    · rw [createdNames_append, createdNames_append, hn1, hn2, hCn, hCr, hCl]; simp
    · rw [queriedFree_append, queriedFree_append, hq1,
        queriedFree_eq_nil _ evs3 (fun e he => by rw [hCk e he]; decide)]
      simp only [List.nil_append, List.append_nil]
      rw [← htot, if_pos hlt, hCr, hCl]
    · rw [queriedFree_append, queriedFree_append, hq1,
        queriedFree_eq_nil _ evs3 (fun e he => by rw [hCk e he]; decide)]
      simp only [List.nil_append, List.append_nil]
      rw [← hmap, hqg]
      simp only [List.append_assoc]
  · rw [if_neg hlt]
    right
    refine ⟨names, [], evs1 ++ evs2, ?_, hlen, ?_, ?_, ?_, ?_, ?_, ?_⟩
    · intro e he
      rcases List.mem_append.1 he with he | he
      · exact ⟨hs1 e he, Or.inl (hk1 e he)⟩
      · exact ⟨hs2 e he, Or.inr (Or.inl (hFk e he))⟩
    · intro n hn
      rw [groupNamesSeen_append]
      exact List.mem_append_left _ (hseen n hn)
    · rw [queriedFree_append, hq1]
      simpa using hqg
    · rw [createdIds_append, hc1, hc2]; simp
    · rw [createdNames_append, hn1, hn2]; simp
    · rw [queriedFree_append, hq1]
      simp only [List.nil_append]
      rw [← htot, if_neg hlt]
      simp
    · rw [queriedFree_append, hq1]
      simp only [List.nil_append, List.foldl_nil, List.append_nil]
      rw [← hmap, hqg]
      simp only [List.append_assoc]

end securitygroup

namespace securitygroup

/-! ## The number of new groups -/

theorem ceil_div_hundred (d : Int) : ⌈((d : ℚ)) / 100⌉ = (d + 99) / 100 := by
  rw [Int.ceil_eq_iff]
  have h1 : (d + 99) / 100 * 100 ≤ d + 99 := Int.ediv_mul_le _ (by norm_num)
  have h2 : d + 99 < ((d + 99) / 100 + 1) * 100 := Int.lt_ediv_add_one_mul_self _ (by norm_num)
  constructor
  · rw [lt_div_iff₀ (by norm_num)]
    have : ((d + 99) / 100 - 1) * 100 < d := by omega
    exact_mod_cast this
  · rw [div_le_iff₀ (by norm_num)]
    have : d ≤ (d + 99) / 100 * 100 := by omega
    exact_mod_cast this

theorem createPolicies_events_fill (env : Env) (w : World) (providerParams : String)
    (exist : List String) (policies : List SecurityPolicy) (direction : String)
    (hne : policies ≠ [])
    (hok : ∀ e ∈ (createPolicies env w providerParams exist policies direction).events,
      e.succeeded = true) :
    ∃ p0 tl names newIds evsP evs4, policies = p0 :: tl ∧
      (createPolicies env w providerParams exist policies direction).events = evsP ++ evs4 ∧
      (∀ e ∈ evs4, e.kind = 7 ∨ e.kind = 8) ∧
      (∀ e ∈ evsP, e.succeeded = true ∧ (e.kind = 4 ∨ e.kind = 5 ∨ e.kind = 6)) ∧
      names.length = exist.length ∧ (∀ n ∈ names, n ∈ groupNamesSeen evsP) ∧
      (queriedFree direction evsP).map Prod.fst =
        (bubbleLoop (recognised p0.Ip names exist).length
          (recognised p0.Ip names exist)).map Prod.snd ∧
      createdIds evsP = newIds ∧
      createdNames evsP =
        (List.range newIds.length).map (fun (j : Nat) =>
          p0.Ip ++ "-auto-" ++
            formatInt (wrapInt (wrapInt (maxSeq p0.Ip names exist + 1) + (0 + (j : Int))))) ∧
      newIds.length =
        (if ((queriedFree direction evsP).map Prod.snd).sum < ((p0 :: tl).length : Int) then
          (Int.tdiv (((p0 :: tl).length : Int) -
            ((queriedFree direction evsP).map Prod.snd).sum + MAX_SEUCRITY_RULE_NUM - 1)
            MAX_SEUCRITY_RULE_NUM).toNat
        else 0) ∧
      createPolicies env w providerParams exist (p0 :: tl) direction =
        (match fillLoop env providerParams direction
            (newIds.foldl (fun m g => mapSet m g MAX_SEUCRITY_RULE_NUM)
              ((queriedFree direction evsP).foldl (fun m gf => mapSet m gf.1 gf.2) []))
            ((queriedFree direction evsP).map Prod.fst ++ newIds) 0 (p0 :: tl)
            (w ++ evsP) with
        | .done (err, ps1) evs4 => .done ((newIds, err), ps1) (evsP ++ evs4)
        | .panic evs4 => .panic (evsP ++ evs4)) ∧
      evs4 = (fillLoop env providerParams direction
            (newIds.foldl (fun m g => mapSet m g MAX_SEUCRITY_RULE_NUM)
              ((queriedFree direction evsP).foldl (fun m gf => mapSet m gf.1 gf.2) []))
            ((queriedFree direction evsP).map Prod.fst ++ newIds) 0 (p0 :: tl)
            (w ++ evsP)).events := by
  obtain ⟨p0, tl, rfl⟩ := List.exists_cons_of_ne_nil hne
  rcases createPolicies_cases env w providerParams exist p0 tl direction with
    ⟨newIds, err, evs, heq, _, hnot, _⟩ | ⟨names, newIds, evsP, hP, hlen, hseen, hq, hc, hn, hl, heq⟩
  · exfalso
    rw [heq] at hok
    exact hnot hok
  · refine ⟨p0, tl, names, newIds, evsP, _, rfl, ?_, ?_, hP, hlen, hseen, hq, hc, hn, hl, heq, rfl⟩
    · rw [heq]
      cases fillLoop env providerParams direction
        (newIds.foldl (fun m g => mapSet m g MAX_SEUCRITY_RULE_NUM)
          ((queriedFree direction evsP).foldl (fun m gf => mapSet m gf.1 gf.2) []))
        ((queriedFree direction evsP).map Prod.fst ++ newIds) 0 (p0 :: tl) (w ++ evsP) with
      | done r evs4 => obtain ⟨e, ps1⟩ := r; rfl
      | panic evs4 => rfl
    · exact fillLoop_kinds _ _ _ _ _ _ _ _ (Nat.zero_le _)

/-- C1. For a non-empty batch of `m` entries, when every provider call of `createPolicies`
succeeds, the number of create-group calls is `0` if the free numbers of the existing
auto-created groups add up to `F ≥ m`, and `(m - F + 99) / 100` otherwise; that is
`max(0, ceil((m - F) / 100))`. -/
theorem createPolicies_new_group_count (env : Env) (w : World) (providerParams : String)
    (exist : List String) (policies : List SecurityPolicy) (direction : String)
    (hne : policies ≠ [])
    (hok : ∀ e ∈ (createPolicies env w providerParams exist policies direction).events,
      e.succeeded = true) :
    ((createdNames (createPolicies env w providerParams exist policies direction).events).length
        : Int) =
      (if (policies.length : Int) ≤ ((queriedFree direction
          (createPolicies env w providerParams exist policies direction).events).map
            Prod.snd).sum then 0
        else ((policies.length : Int) - ((queriedFree direction
          (createPolicies env w providerParams exist policies direction).events).map
            Prod.snd).sum + 99) / 100) ∧
    ((createdNames (createPolicies env w providerParams exist policies direction).events).length
        : Int) =
      max 0 ⌈(((policies.length : Int) - ((queriedFree direction
          (createPolicies env w providerParams exist policies direction).events).map
            Prod.snd).sum : Int) : ℚ) / 100⌉ ∧
    (createdIds (createPolicies env w providerParams exist policies direction).events).length =
      (createdNames (createPolicies env w providerParams exist policies direction).events).length
    := by
  obtain ⟨p0, tl, names, newIds, evsP, evs4, hpol, hev, hk4, hP, -, -, -, hc, hn, hl, -, -⟩ :=
    createPolicies_events_fill env w providerParams exist policies direction hne hok
  have hq4 : queriedFree direction evs4 = [] :=
    queriedFree_eq_nil _ _ (fun e he => by rcases hk4 e he with h | h <;> rw [h] <;> decide)
  have hn4 : createdNames evs4 = [] :=
    createdNames_eq_nil _ (fun e he => by rcases hk4 e he with h | h <;> rw [h] <;> decide)
  have hc4 : createdIds evs4 = [] :=
    createdIds_eq_nil _ (fun e he => by rcases hk4 e he with h | h <;> rw [h] <;> decide)
  rw [hev, createdNames_append, queriedFree_append, createdIds_append, hq4, hn4, hc4]
  simp only [List.append_nil]
  have hnl : (createdNames evsP).length = newIds.length := by rw [hn]; simp
  rw [hnl, hc, hl, hpol]
  generalize ((queriedFree direction evsP).map Prod.snd).sum = F
  generalize ((p0 :: tl).length : Int) = m
  have hmain : (((if F < m then (Int.tdiv (m - F + MAX_SEUCRITY_RULE_NUM - 1)
      MAX_SEUCRITY_RULE_NUM).toNat else 0 : Nat) : Int)) =
      if m ≤ F then 0 else (m - F + 99) / 100 := by
    unfold MAX_SEUCRITY_RULE_NUM
    by_cases h : F < m
    · rw [if_pos h, if_neg (by omega)]
      rw [Int.tdiv_eq_ediv (by omega) (by norm_num)]
      have : m - F + 100 - 1 = m - F + 99 := by ring
      rw [this]
      have : 0 ≤ (m - F + 99) / 100 := Int.ediv_nonneg (by omega) (by norm_num)
      omega
    · rw [if_neg h, if_pos (by omega)]
      rfl
  refine ⟨hmain, ?_, rfl⟩
  rw [hmain, ceil_div_hundred]
  by_cases h : m ≤ F
  · rw [if_pos h]
    have : (m - F + 99) / 100 ≤ 0 := by omega
    omega
  · rw [if_neg h]
    have : 0 ≤ (m - F + 99) / 100 := Int.ediv_nonneg (by omega) (by norm_num)
    omega

end securitygroup

namespace securitygroup

/-! ## The free-number map -/

theorem foldl_mapSet_get_not_mem (l : List (String × Int)) (m0 : List (String × Int))
    (k : String) (h : k ∉ l.map Prod.fst) :
    mapGet (l.foldl (fun m gf => mapSet m gf.1 gf.2) m0) k = mapGet m0 k := by
  induction l generalizing m0 with
  | nil => rfl
  | cons a l ih =>
    simp only [List.map_cons, List.mem_cons, not_or] at h
    simp only [List.foldl_cons]
    rw [ih _ h.2, mapGet_mapSet, if_neg (Ne.symm h.1)]

theorem foldl_mapSet_get_of_nodup (l : List (String × Int)) (m0 : List (String × Int))
    (k : String) (v : Int) (hnd : (l.map Prod.fst).Nodup) (h : (k, v) ∈ l) :
    mapGet (l.foldl (fun m gf => mapSet m gf.1 gf.2) m0) k = some v := by
  induction l generalizing m0 with
  | nil => simp at h
  | cons a l ih =>
    simp only [List.map_cons, List.nodup_cons] at hnd
    simp only [List.foldl_cons]
    rcases List.mem_cons.1 h with h | h
    · subst h
      rw [foldl_mapSet_get_not_mem _ _ _ hnd.1, mapGet_mapSet]
      simp
    · exact ih _ hnd.2 h

theorem foldl_mapSet_values (l : List (String × Int)) (m0 : List (String × Int))
    (k : String) (v : Int) (h : mapGet (l.foldl (fun m gf => mapSet m gf.1 gf.2) m0) k = some v) :
    mapGet m0 k = some v ∨ (k, v) ∈ l := by
  induction l generalizing m0 with
  | nil => exact Or.inl h
  | cons a l ih =>
    simp only [List.foldl_cons] at h
    rcases ih _ h with h' | h'
    · rw [mapGet_mapSet] at h'
      by_cases hk : a.1 = k
      · rw [if_pos hk] at h'
        right
        simp only [Option.some.injEq] at h'
        subst hk h'
        exact List.mem_cons_self _ _
      · rw [if_neg hk] at h'
        exact Or.inl h'
    · exact Or.inr (List.mem_cons_of_mem _ h')

/-- The map the fill loop reads, as one pass over the queried groups and the new groups. -/
theorem fillMap_eq (qf : List (String × Int)) (newIds : List String) :
    newIds.foldl (fun m g => mapSet m g MAX_SEUCRITY_RULE_NUM)
        (qf.foldl (fun m gf => mapSet m gf.1 gf.2) []) =
      (qf ++ newIds.map fun g => (g, MAX_SEUCRITY_RULE_NUM)).foldl
        (fun m gf => mapSet m gf.1 gf.2) [] := by
  rw [List.foldl_append, List.foldl_map]

theorem fillMap_keys (qf : List (String × Int)) (newIds : List String) :
    (qf ++ newIds.map fun g => (g, MAX_SEUCRITY_RULE_NUM)).map Prod.fst =
      qf.map Prod.fst ++ newIds := by
  rw [List.map_append, List.map_map]
  congr 1
  exact List.map_id _

theorem fillMap_cap_nonneg (qf : List (String × Int)) (newIds : List String)
    (hfree : ∀ gf ∈ qf, 0 ≤ gf.2) (g : String) :
    0 ≤ capOf (newIds.foldl (fun m g => mapSet m g MAX_SEUCRITY_RULE_NUM)
        (qf.foldl (fun m gf => mapSet m gf.1 gf.2) [])) g := by
  rw [fillMap_eq]
  unfold capOf
  cases hget : mapGet ((qf ++ newIds.map fun g => (g, MAX_SEUCRITY_RULE_NUM)).foldl
      (fun m gf => mapSet m gf.1 gf.2) []) g with
  | none => simp
  | some v =>
    rcases foldl_mapSet_values _ _ _ _ hget with h | h
    · simp [mapGet] at h
    · rcases List.mem_append.1 h with h | h
      · simpa using hfree _ h
      · simp only [List.mem_map, Prod.mk.injEq] at h
        obtain ⟨_, _, _, rfl⟩ := h
        simp [MAX_SEUCRITY_RULE_NUM]

theorem fillMap_cap_queried (qf : List (String × Int)) (newIds : List String)
    (hnd : (qf.map Prod.fst ++ newIds).Nodup) (g : String) (f : Int) (h : (g, f) ∈ qf) :
    capOf (newIds.foldl (fun m g => mapSet m g MAX_SEUCRITY_RULE_NUM)
        (qf.foldl (fun m gf => mapSet m gf.1 gf.2) [])) g = f := by
  rw [fillMap_eq]
  unfold capOf
  rw [foldl_mapSet_get_of_nodup _ _ g f (by rw [fillMap_keys]; exact hnd)
    (List.mem_append_left _ h)]
  rfl

theorem fillMap_cap_new (qf : List (String × Int)) (newIds : List String)
    (hnd : (qf.map Prod.fst ++ newIds).Nodup) (g : String) (h : g ∈ newIds) :
    capOf (newIds.foldl (fun m g => mapSet m g MAX_SEUCRITY_RULE_NUM)
        (qf.foldl (fun m gf => mapSet m gf.1 gf.2) [])) g = MAX_SEUCRITY_RULE_NUM := by
  rw [fillMap_eq]
  unfold capOf
  have hmem : (g, MAX_SEUCRITY_RULE_NUM) ∈
      qf ++ newIds.map fun g => (g, MAX_SEUCRITY_RULE_NUM) :=
    List.mem_append_right _ (List.mem_map.2 ⟨g, h, rfl⟩)
  rw [foldl_mapSet_get_of_nodup _ _ g MAX_SEUCRITY_RULE_NUM
    (by rw [fillMap_keys]; exact hnd) hmem]
  rfl

theorem sum_caps_queried (M : List (String × Int)) (qf : List (String × Int))
    (hcap : ∀ gf ∈ qf, capOf M gf.1 = gf.2) (hfree : ∀ gf ∈ qf, 0 ≤ gf.2) :
    (((qf.map Prod.fst).map fun g => (capOf M g).toNat).sum : Int) = (qf.map Prod.snd).sum := by
  induction qf with
  | nil => simp
  | cons a qf ih =>
    simp only [List.map_cons, List.sum_cons, Nat.cast_add]
    rw [ih (fun gf h => hcap gf (List.mem_cons_of_mem _ h))
      (fun gf h => hfree gf (List.mem_cons_of_mem _ h)), hcap a (List.mem_cons_self _ _)]
    have := hfree a (List.mem_cons_self _ _)
    omega

theorem sum_caps_new (M : List (String × Int)) (newIds : List String)
    (hcap : ∀ g ∈ newIds, capOf M g = MAX_SEUCRITY_RULE_NUM) :
    (newIds.map fun g => (capOf M g).toNat).sum = 100 * newIds.length := by
  induction newIds with
  | nil => simp
  | cons a l ih =>
    simp only [List.map_cons, List.sum_cons, List.length_cons]
    rw [ih (fun g h => hcap g (List.mem_cons_of_mem _ h)), hcap a (List.mem_cons_self _ _)]
    simp [MAX_SEUCRITY_RULE_NUM]
    omega

end securitygroup

namespace securitygroup

/-! ## Every entry goes to one group -/

/-- C2. For a non-empty batch, when every provider call of `createPolicies` succeeds, the
free numbers of the existing auto-created groups are not negative and the group ids are
pairwise distinct: the batch is cut into one slice per group, in order; every entry is in
exactly one slice and leaves with the id of the group of its slice; each non-empty slice is
one accepted create-policies request to its group; and no slice is longer than the free
number of its group, `100` for a new group. -/
theorem createPolicies_every_entry_in_one_group (env : Env) (w : World)
    (providerParams : String) (exist : List String) (policies : List SecurityPolicy)
    (direction : String) (hne : policies ≠ [])
    (hok : ∀ e ∈ (createPolicies env w providerParams exist policies direction).events,
      e.succeeded = true)
    (hfree : ∀ gf ∈ queriedFree direction
      (createPolicies env w providerParams exist policies direction).events, 0 ≤ gf.2)
    (hnd : ((queriedFree direction
        (createPolicies env w providerParams exist policies direction).events).map Prod.fst ++
      createdIds (createPolicies env w providerParams exist policies direction).events).Nodup) :
    ∃ slices : List (String × List SecurityPolicy),
      createPolicies env w providerParams exist policies direction =
        .done ((createdIds (createPolicies env w providerParams exist policies direction).events,
            none), boundSlices slices)
          (createPolicies env w providerParams exist policies direction).events ∧
      slices.flatMap Prod.snd = policies ∧
      slices.map Prod.fst =
        (queriedFree direction
          (createPolicies env w providerParams exist policies direction).events).map Prod.fst ++
        createdIds (createPolicies env w providerParams exist policies direction).events ∧
      submitted (createPolicies env w providerParams exist policies direction).events =
        (slices.filter (fun s => s.2 ≠ [])).map
          (fun s => (s.1, newSecurityPolicySet s.2 direction true)) ∧
      (∀ s ∈ slices,
        s.1 ∈ createdIds (createPolicies env w providerParams exist policies direction).events →
          s.2.length ≤ 100) ∧
      (∀ s ∈ slices, ∀ f, (s.1, f) ∈ queriedFree direction
        (createPolicies env w providerParams exist policies direction).events →
          (s.2.length : Int) ≤ f) := by
  obtain ⟨p0, tl, names, newIds, evsP, evs4, hpol, hev, hk4, hP, -, -, -, hc, -, hl, heq, he4⟩ :=
    createPolicies_events_fill env w providerParams exist policies direction hne hok
  have hq4 : queriedFree direction evs4 = [] :=
    queriedFree_eq_nil _ _ (fun e he => by rcases hk4 e he with h | h <;> rw [h] <;> decide)
  have hc4 : createdIds evs4 = [] :=
    createdIds_eq_nil _ (fun e he => by rcases hk4 e he with h | h <;> rw [h] <;> decide)
  have hsP : submitted evsP = [] :=
    submitted_eq_nil _ (fun e he => by
      rcases (hP e he).2 with h | h | h <;> rw [h] <;> decide)
  rw [hev] at hok hfree hnd ⊢
  rw [queriedFree_append, hq4, List.append_nil] at hfree hnd ⊢
  rw [createdIds_append, hc4, List.append_nil, hc] at hnd ⊢
  rw [submitted_append, hsP, List.nil_append]
  subst hpol
  rw [heq]
  have hcapnn := fillMap_cap_nonneg (queriedFree direction evsP) newIds hfree
  have hcapq := fillMap_cap_queried (queriedFree direction evsP) newIds hnd
  have hcapn := fillMap_cap_new (queriedFree direction evsP) newIds hnd
  generalize hM : newIds.foldl (fun m g => mapSet m g MAX_SEUCRITY_RULE_NUM)
    ((queriedFree direction evsP).foldl (fun m gf => mapSet m gf.1 gf.2) []) = M
    at heq he4 hcapnn hcapq hcapn ⊢
  -- the groups can take the whole batch
  have hsum : (p0 :: tl).length ≤
      (((queriedFree direction evsP).map Prod.fst ++ newIds).map
        fun g => (capOf M g).toNat).sum := by
    rw [List.map_append, List.sum_append, sum_caps_new M newIds hcapn]
    have h1 := sum_caps_queried M (queriedFree direction evsP)
      (fun gf h => hcapq gf.1 gf.2 h) hfree
    generalize (((queriedFree direction evsP).map Prod.fst).map
      fun g => (capOf M g).toNat).sum = S at h1 ⊢
    generalize ((queriedFree direction evsP).map Prod.snd).sum = F at h1 hl
    generalize ((p0 :: tl).length) = m at hl ⊢
    unfold MAX_SEUCRITY_RULE_NUM at hl
    by_cases h : F < (m : Int)
    · rw [if_pos h, Int.tdiv_eq_ediv (by omega) (by norm_num)] at hl
      have : 0 ≤ ((m : Int) - F + 100 - 1) / 100 := Int.ediv_nonneg (by omega) (by norm_num)
      omega
    · omega
  have hfl0 := fillLoop_panic env providerParams direction M
    ((queriedFree direction evsP).map Prod.fst ++ newIds) 0 (p0 :: tl) (w ++ evsP)
    (Nat.zero_le _)
  have hfl1 := fillLoop_done_err env providerParams direction M
    ((queriedFree direction evsP).map Prod.fst ++ newIds) 0 (p0 :: tl) (w ++ evsP)
    (Nat.zero_le _)
  have hfl2 := fillLoop_done_none env providerParams direction M
    ((queriedFree direction evsP).map Prod.fst ++ newIds) 0 (p0 :: tl) (w ++ evsP)
    (Nat.zero_le _)
  rcases hFL : fillLoop env providerParams direction M
    ((queriedFree direction evsP).map Prod.fst ++ newIds) 0 (p0 :: tl) (w ++ evsP) with
    ⟨⟨_ | err, ps'⟩, evs⟩ | evs
  · -- the loop ends without error
    rw [hFL] at he4
    simp only [Result.events] at he4
    subst he4
    obtain ⟨-, -, hps, hsub⟩ := hfl2 ps' evs4 hFL
    have hleft := leftover_eq_nil M _ (p0 :: tl) hsum
    refine ⟨greedySlices M ((queriedFree direction evsP).map Prod.fst ++ newIds) (p0 :: tl),
      ?_, ?_, greedySlices_fst _ _ _, ?_, ?_, ?_⟩
    · simp only []
      rw [hps, List.drop_zero, hleft]
      simp
    · have := greedySlices_join M ((queriedFree direction evsP).map Prod.fst ++ newIds)
        (p0 :: tl)
      rw [hleft, List.append_nil] at this
      exact this
    · rw [hsub, List.drop_zero]
    · intro s hs hnew
      have := greedySlices_le_cap M _ _ s hs
      rw [hcapn s.1 hnew] at this
      simpa [MAX_SEUCRITY_RULE_NUM] using this
    · intro s hs f hf
      have := greedySlices_le_cap M _ _ s hs
      rw [hcapq s.1 f hf] at this
      have := hfree _ hf
      simp only at this
      omega
  · exfalso
    obtain ⟨⟨e, he, _, hns⟩, -⟩ := hfl1 err ps' evs hFL
    rw [hFL] at he4
    simp only [Result.events] at he4
    subst he4
    have := hok e (List.mem_append_right _ he)
    rw [hns] at this
    simp at this
  · exfalso
    obtain ⟨⟨g, _, hneg⟩, -⟩ := hfl0 evs hFL
    have := hcapnn g
    omega

end securitygroup

namespace securitygroup

/-! ## One round of the second loop of `applyPolicies` -/

/-- The first half of a round: it ends the round with an error on every entry, or panics on
a missing instance, or reaches `applyGroupTail` after three successful look-ups. -/
theorem applyGroup_cases (env : Env) (w : World) (p0 : SecurityPolicy)
    (tl : List SecurityPolicy) (direction : String) :
    (∃ err evs,
        applyGroup env w (p0 :: tl) direction =
          .done (fillSecuityPoliciesWithErrMsg (p0 :: tl) err) evs ∧
        (∀ e ∈ evs, e.kind = 0 ∨ e.kind = 1 ∨ e.kind = 2) ∧
        (err = "resourceType[" ++ p0.Typ ++ "] not found" ∨
          err = "can't found instanceId(" ++ p0.Id ++ ")" ∨ ∃ e ∈ evs, e.error? = some err) ∧
        (p0.Typ ∈ registeredResourceTypes → ¬ ∀ e ∈ evs, e.succeeded = true)) ∨
      (∃ evs, applyGroup env w (p0 :: tl) direction = .panic evs ∧
        (¬ ∀ e ∈ evs, e.succeeded = true) ∧ ∀ e ∈ evs, e.kind = 0 ∨ e.kind = 1 ∨ e.kind = 2) ∨
      (∃ providerParams inst exist evs0,
        (∀ e ∈ evs0, e.succeeded = true ∧ (e.kind = 0 ∨ e.kind = 1 ∨ e.kind = 2)) ∧
        Event.instanceQuerySecurityGroups inst providerParams (.ok exist) ∈ evs0 ∧
        applyGroup env w (p0 :: tl) direction =
          match applyGroupTail env (w ++ evs0) providerParams inst exist p0 (p0 :: tl)
              direction with
          | .panic evs => .panic (evs0 ++ evs)
          | .done ps1 evs => .done ps1 (evs0 ++ evs)) := by
  unfold applyGroup
  by_cases hreg : p0.Typ ∈ registeredResourceTypes
  swap
  · left
    refine ⟨"resourceType[" ++ p0.Typ ++ "] not found", [], ?_, by simp, Or.inl rfl,
      fun h => absurd h hreg⟩
    simp [getResouceTypeByName, hreg]
  simp only [getResouceTypeByName, if_pos hreg]
  cases h1 : env.getProviderParams w p0.Region with
  | error err =>
    left
    refine ⟨err, _, rfl, by simp [Event.kind], Or.inr (Or.inr ⟨_, List.mem_singleton_self _, rfl⟩),
      fun _ h => ?_⟩
    have := h _ (List.mem_singleton_self _)
    simp [Event.succeeded] at this
  | ok providerParams =>
    simp only []
    cases h2 : env.QueryInstancesById
        (w ++ [Event.getProviderParams p0.Region (Except.ok providerParams)]) p0.Typ
        providerParams [p0.Id] with
    | error err =>
      left
      refine ⟨err, _, rfl, by simp [Event.kind],
        Or.inr (Or.inr ⟨_, List.mem_cons_of_mem _ (List.mem_singleton_self _), rfl⟩),
        fun _ h => ?_⟩
      have := h _ (List.mem_cons_of_mem _ (List.mem_singleton_self _))
      simp [Event.succeeded] at this
    | ok instances =>
      simp only []
      by_cases hlen : instances.length = 0
      · left
        rw [if_pos hlen]
        refine ⟨_, _, rfl, by simp [Event.kind], Or.inr (Or.inl rfl), fun _ h => ?_⟩
        have := h _ (List.mem_cons_of_mem _ (List.mem_singleton_self _))
        simp [Event.succeeded, hlen] at this
      · rw [if_neg hlen]
        cases hget : mapGet instances p0.Id with
        | none =>
          right; left
          refine ⟨_, rfl, fun h => ?_, by simp [Event.kind]⟩
          have := h _ (List.mem_cons_of_mem _ (List.mem_singleton_self _))
          simp [Event.succeeded, hget] at this
        | some inst =>
          simp only []
          cases h3 : env.InstanceQuerySecurityGroups
              (w ++ [Event.getProviderParams p0.Region (Except.ok providerParams),
                Event.queryInstancesById p0.Typ providerParams [p0.Id] (Except.ok instances)])
              inst providerParams with
          | error err =>
            left
            refine ⟨err, _, rfl, by simp [Event.kind],
              Or.inr (Or.inr ⟨_, List.mem_cons_of_mem _ (List.mem_cons_of_mem _
                (List.mem_singleton_self _)), rfl⟩), fun _ h => ?_⟩
            have := h _ (List.mem_cons_of_mem _ (List.mem_cons_of_mem _
              (List.mem_singleton_self _)))
            simp [Event.succeeded] at this
          | ok exist =>
            right; right
            refine ⟨providerParams, inst, exist, _, ?_, ?_, rfl⟩
            · intro e he
              simp only [List.mem_cons, List.mem_singleton, List.not_mem_nil, or_false] at he
              rcases he with rfl | rfl | rfl
              · simp [Event.succeeded, Event.kind]
              · simp [Event.succeeded, Event.kind, hget]
                exact fun h => hlen (by simp [h])
              · simp [Event.succeeded, Event.kind]
            · simp

end securitygroup

namespace securitygroup

/-! ## A batch of one owner IP -/

theorem normalizeType_Ip (p : SecurityPolicy) : (normalizeType p).Ip = p.Ip := by
  unfold normalizeType; split <;> rfl

theorem normalizeType_support (p : SecurityPolicy) :
    (normalizeType p).SupportSecurityGroupApi = p.SupportSecurityGroupApi := by
  unfold normalizeType; split <;> rfl

theorem normalizeType_ErrorMsg (p : SecurityPolicy) : (normalizeType p).ErrorMsg = p.ErrorMsg := by
  unfold normalizeType; split <;> rfl

theorem normalizeType_UndoReason (p : SecurityPolicy) :
    (normalizeType p).UndoReason = p.UndoReason := by
  unfold normalizeType; split <;> rfl

theorem partitionLoop_cons (policy : SecurityPolicy) (rest : List SecurityPolicy)
    (m : List (String × List SecurityPolicy)) (undo : List SecurityPolicy) :
    partitionLoop (policy :: rest) m undo =
      if policy.SupportSecurityGroupApi = true then
        partitionLoop rest (mapAppend m policy.Ip (normalizeType policy)) undo
      else partitionLoop rest m (undo ++ [markUndo (normalizeType policy)]) := by
  by_cases hp : HasPrefix policy.Typ "clb-cvm" = true
  · simp only [partitionLoop, normalizeType, markUndo, hp, if_true]
  · simp only [partitionLoop, normalizeType, markUndo, hp]
    rfl

theorem partitionLoop_single (ip : String) (ps acc undo : List SecurityPolicy)
    (h : ∀ p ∈ ps, p.Ip = ip ∧ p.SupportSecurityGroupApi = true) :
    partitionLoop ps [(ip, acc)] undo = ([(ip, acc ++ ps.map normalizeType)], undo) := by
  induction ps generalizing acc with
  | nil => simp [partitionLoop]
  | cons p ps ih =>
    obtain ⟨h1, h2⟩ := h p (List.mem_cons_self _ _)
    rw [partitionLoop_cons, if_pos h2, h1]
    have : mapAppend [(ip, acc)] ip (normalizeType p) = [(ip, acc ++ [normalizeType p])] := by
      simp [mapAppend, mapSet, mapGet]
    rw [this, ih _ (fun q hq => h q (List.mem_cons_of_mem _ hq))]
    simp

theorem partitionLoop_one_ip (ip : String) (p : SecurityPolicy) (ps : List SecurityPolicy)
    (h : ∀ q ∈ p :: ps, q.Ip = ip ∧ q.SupportSecurityGroupApi = true) :
    partitionLoop (p :: ps) [] [] = ([(ip, (p :: ps).map normalizeType)], []) := by
  obtain ⟨h1, h2⟩ := h p (List.mem_cons_self _ _)
  rw [partitionLoop_cons, if_pos h2, h1]
  have : mapAppend ([] : List (String × List SecurityPolicy)) ip (normalizeType p) =
      [(ip, [normalizeType p])] := by
    simp [mapAppend, mapSet, mapGet]
  rw [this, partitionLoop_single ip ps _ _ (fun q hq => h q (List.mem_cons_of_mem _ hq))]
  simp

theorem collectGroup_eq (ps s f : List SecurityPolicy) :
    collectGroup ps (s, f) =
      (s ++ ps.filter (fun p => p.ErrorMsg = ""), f ++ ps.filter (fun p => ¬ p.ErrorMsg = "")) := by
  induction ps generalizing s f with
  | nil => simp [collectGroup]
  | cons p ps ih =>
    simp only [collectGroup]
    by_cases h : p.ErrorMsg = ""
    · rw [if_pos h, ih]
      simp [List.filter_cons, h]
    · rw [if_neg h, ih]
      simp [List.filter_cons, h]

/-- `applyPolicies` on a non-empty batch whose entries all support the API and have the same
owner IP is one round of the second loop followed by the split on `ErrorMsg`. -/
theorem applyPolicies_one_ip (env : Env) (w : World) (ip : String) (p : SecurityPolicy)
    (ps : List SecurityPolicy) (direction : String)
    (h : ∀ q ∈ p :: ps, q.Ip = ip ∧ q.SupportSecurityGroupApi = true) :
    applyPolicies env w (p :: ps) direction =
      match applyGroup env w ((p :: ps).map normalizeType) direction with
      | .panic evs => .panic evs
      | .done ps1 evs =>
        .done
          { PoliciesTotal := (p :: ps).length
            SuccessTotal := (ps1.filter (fun q => q.ErrorMsg = "")).length
            UndoTotal := 0
            FailedTotal := (ps1.filter (fun q => ¬ q.ErrorMsg = "")).length
            SuccessPolicies := ps1.filter (fun q => q.ErrorMsg = "")
            UndoPolicies := []
            FailedPolicies := ps1.filter (fun q => ¬ q.ErrorMsg = "") } evs := by
  unfold applyPolicies
  rw [partitionLoop_one_ip ip p ps h]
  simp only [mapKeys, List.map_cons, List.map_nil, rangeKeys_singleton]
  simp only [applyLoop, mapGet, if_true, Option.getD_some]
  cases applyGroup env w (normalizeType p :: ps.map normalizeType) direction with
  | panic evs => rfl
  | done ps1 evs =>
    simp only [mapSet, if_true, List.map_cons, List.map_nil, rangeKeys_singleton, collectLoop,
      mapGet, Option.getD_some, collectGroup_eq, List.nil_append, List.append_nil]

/-! ## The fill loop when the groups can take the whole batch -/

theorem fillLoop_success (env : Env) (providerParams direction : String)
    (M : List (String × Int)) (gs : List String) (ps : List SecurityPolicy) (w : World)
    (hcap : ∀ g ∈ gs, 0 ≤ capOf M g)
    (hsum : ps.length ≤ (gs.map fun g => (capOf M g).toNat).sum)
    (hok : ∀ e ∈ (fillLoop env providerParams direction M gs 0 ps w).events,
      e.succeeded = true) :
    fillLoop env providerParams direction M gs 0 ps w =
        .done (none, boundSlices (greedySlices M gs ps))
          (fillLoop env providerParams direction M gs 0 ps w).events ∧
      (greedySlices M gs ps).flatMap Prod.snd = ps ∧
      submitted (fillLoop env providerParams direction M gs 0 ps w).events =
        ((greedySlices M gs ps).filter (fun s => s.2 ≠ [])).map
          (fun s => (s.1, newSecurityPolicySet s.2 direction true)) := by
  have hfl0 := fillLoop_panic env providerParams direction M gs 0 ps w (Nat.zero_le _)
  have hfl1 := fillLoop_done_err env providerParams direction M gs 0 ps w (Nat.zero_le _)
  have hfl2 := fillLoop_done_none env providerParams direction M gs 0 ps w (Nat.zero_le _)
  have hleft := leftover_eq_nil M gs ps hsum
  have hjoin := greedySlices_join M gs ps
  rw [hleft, List.append_nil] at hjoin
  rcases hFL : fillLoop env providerParams direction M gs 0 ps w with
    ⟨⟨_ | err, ps'⟩, evs⟩ | evs
  · obtain ⟨-, -, hps, hsub⟩ := hfl2 ps' evs hFL
    rw [List.drop_zero, hleft] at hps
    rw [List.drop_zero] at hsub
    refine ⟨?_, hjoin, ?_⟩
    · simp only [Result.events, hps]
      simp
    · simpa [Result.events] using hsub
  · exfalso
    obtain ⟨⟨e, he, _, hns⟩, -⟩ := hfl1 err ps' evs hFL
    rw [hFL] at hok
    have := hok e he
    rw [hns] at this
    simp at this
  · exfalso
    obtain ⟨⟨g, hg, hneg⟩, -⟩ := hfl0 evs hFL
    have := hcap g hg
    omega

theorem foldl_mapSet_const_cap (newIds : List String) (g : String) (h : g ∈ newIds) :
    capOf (newIds.foldl (fun m g => mapSet m g MAX_SEUCRITY_RULE_NUM) []) g =
      MAX_SEUCRITY_RULE_NUM := by
  have key : ∀ (l : List String) (m0 : List (String × Int)),
      (g ∈ l ∨ mapGet m0 g = some MAX_SEUCRITY_RULE_NUM) →
      mapGet (l.foldl (fun m g => mapSet m g MAX_SEUCRITY_RULE_NUM) m0) g =
        some MAX_SEUCRITY_RULE_NUM := by
    intro l
    induction l with
    | nil => intro m0 h; simpa using h
    | cons a l ih =>
      intro m0 h
      simp only [List.foldl_cons]
      apply ih
      by_cases ha : a = g
      · right; rw [mapGet_mapSet, if_pos ha]
      · rcases h with h | h
        · rcases List.mem_cons.1 h with h | h
          · exact absurd h.symm ha
          · exact Or.inl h
        · right; rw [mapGet_mapSet, if_neg ha]; exact h
  unfold capOf
  rw [key newIds [] (Or.inl h)]
  rfl

end securitygroup

namespace securitygroup

theorem submitRequests_eq_submitted (evs : List Event) (h : ∀ e ∈ evs, e.succeeded = true) :
    submitRequests evs = submitted evs := by
  induction evs with
  | nil => rfl
  | cons e evs ih =>
    have he := h e (List.mem_cons_self _ _)
    have ih' := ih (fun x hx => h x (List.mem_cons_of_mem _ hx))
    simp only [submitRequests, submitted, List.filterMap_cons] at ih' ⊢
    cases e with
    | createSecurityGroupPolicies c g s ret =>
      cases ret with
      | none => simp only [ih']
      | some err => simp [Event.succeeded] at he
    | getProviderParams _ _ => simpa using ih'
    | queryInstancesById _ _ _ _ => simpa using ih'
    | instanceQuerySecurityGroups _ _ _ => simpa using ih'
    | instanceAssociateSecurityGroups _ _ _ _ => simpa using ih'
    | querySecurityGroups _ _ _ => simpa using ih'
    | querySecurityGroupPolicies _ _ _ => simpa using ih'
    | createSecurityGroup _ _ _ _ => simpa using ih'
    | createVpcClient _ _ _ _ => simpa using ih'
    | deleteSecurityGroupPolicies _ _ _ _ => simpa using ih'

theorem recognised_eq_nil (ip : String) (names ids : List String)
    (h : ∀ n ∈ names, autoCreatedNum ip n = none) : recognised ip names ids = [] := by
  unfold recognised
  rw [List.filterMap_eq_nil_iff]
  intro x hx
  have := h x.1 (List.of_mem_zip hx).1
  simp [this]

theorem newSecurityPolicySet_normalizeType (ps : List SecurityPolicy) (direction : String)
    (b : Bool) :
    newSecurityPolicySet (ps.map normalizeType) direction b = newSecurityPolicySet ps direction b := by
  have h : ∀ p : SecurityPolicy, newSecurityPolicy (normalizeType p) b = newSecurityPolicy p b := by
    intro p; unfold normalizeType; split <;> rfl
  have h2 : ((fun policy => newSecurityPolicy policy b) ∘ normalizeType) =
      fun policy => newSecurityPolicy policy b := by
    funext p; exact h p
  unfold newSecurityPolicySet
  simp only [List.map_map, h2]

theorem newSecurityPolicySet_rules_length (ps : List SecurityPolicy) (direction : String)
    (b : Bool) : (newSecurityPolicySet ps direction b).rules.length = ps.length := by
  unfold newSecurityPolicySet SecurityGroupPolicySet.rules
  split <;> simp

/-- The events of the second half of a round start with those of `createPolicies`. -/
theorem applyGroupTail_events (env : Env) (w : World) (providerParams : String)
    (inst : ResourceInstance) (exist : List String) (p0 : SecurityPolicy)
    (ps : List SecurityPolicy) (direction : String) :
    ∃ rest, (applyGroupTail env w providerParams inst exist p0 ps direction).events =
      (createPolicies env w providerParams exist ps direction).events ++ rest := by
  unfold applyGroupTail
  rcases createPolicies env w providerParams exist ps direction with
    ⟨⟨⟨newIds, _ | err⟩, ps1⟩, evs⟩ | evs
  · simp only []
    split
    · split
      · exact ⟨_, by simp only [Result.events, List.append_assoc]; rfl⟩
      · exact ⟨_, rfl⟩
    · exact ⟨[], by simp [Result.events]⟩
  · exact ⟨_, rfl⟩
  · exact ⟨[], by simp [Result.events]⟩

/-- When `createPolicies` succeeds with new groups and every call succeeds, the round binds
the groups and leaves the entries as `createPolicies` left them. -/
theorem applyGroupTail_bound (env : Env) (w : World) (providerParams : String)
    (inst : ResourceInstance) (exist : List String) (p0 : SecurityPolicy)
    (ps ps1 : List SecurityPolicy) (direction : String) (newIds : List String)
    (evs : List Event)
    (hc : createPolicies env w providerParams exist ps direction =
      .done ((newIds, none), ps1) evs)
    (hnew : 0 < newIds.length)
    (hok : ∀ e ∈ (applyGroupTail env w providerParams inst exist p0 ps direction).events,
      e.succeeded = true) :
    applyGroupTail env w providerParams inst exist p0 ps direction =
      .done ps1 (evs ++ [Event.instanceAssociateSecurityGroups inst providerParams
        (newIds ++ exist) none]) := by
  unfold applyGroupTail at hok ⊢
  rw [hc] at hok ⊢
  simp only [gt_iff_lt, hnew, if_true] at hok ⊢
  cases hret : env.InstanceAssociateSecurityGroups (w ++ evs) inst providerParams
      (newIds ++ exist) with
  | none => rfl
  | some err =>
    exfalso
    rw [hret] at hok
    have := hok (Event.instanceAssociateSecurityGroups inst providerParams (newIds ++ exist)
      (some err)) (by simp [Result.events])
    simp [Event.succeeded] at this

end securitygroup

namespace securitygroup

/-! ## 250 entries for a resource without auto-created group -/

/-- C3. 250 entries that support the security-group API, have the same owner IP, a
registered resource type and no error message, applied to a resource none of whose groups has
an auto-created name, with every provider call succeeding: exactly three groups are created,
named `<ip>-auto-1`, `<ip>-auto-2`, `<ip>-auto-3`; the first 100 entries, the next 100 and the
last 50 are submitted to them, in that order; all 250 entries are reported as success. -/
theorem applyPolicies_250_entries (env : Env) (w : World) (ip : String)
    (policies : List SecurityPolicy) (direction : String)
    (hlen : policies.length = 250)
    (hall : ∀ p ∈ policies, p.Ip = ip ∧ p.SupportSecurityGroupApi = true ∧ p.ErrorMsg = "" ∧
      (normalizeType p).Typ ∈ registeredResourceTypes)
    (hok : ∀ e ∈ (applyPolicies env w policies direction).events, e.succeeded = true)
    (hnone : ∀ n ∈ groupNamesSeen (applyPolicies env w policies direction).events,
      autoCreatedNum ip n = none) :
    ∃ g1 g2 g3 r evs,
      applyPolicies env w policies direction = .done r evs ∧
      createdNames evs = [ip ++ "-auto-1", ip ++ "-auto-2", ip ++ "-auto-3"] ∧
      createdIds evs = [g1, g2, g3] ∧
      submitRequests evs =
        [(g1, newSecurityPolicySet (policies.take 100) direction true),
         (g2, newSecurityPolicySet ((policies.drop 100).take 100) direction true),
         (g3, newSecurityPolicySet (policies.drop 200) direction true)] ∧
      (submitRequests evs).map (fun s => s.2.rules.length) = [100, 100, 50] ∧
      submitted evs = submitRequests evs ∧
      r.PoliciesTotal = 250 ∧ r.SuccessTotal = 250 ∧ r.FailedTotal = 0 ∧
      r.UndoPolicies = [] ∧ r.FailedPolicies = [] ∧
      r.SuccessPolicies =
        ((policies.take 100).map fun p => bindTo g1 (normalizeType p)) ++
        (((policies.drop 100).take 100).map fun p => bindTo g2 (normalizeType p)) ++
        ((policies.drop 200).map fun p => bindTo g3 (normalizeType p)) := by
  have hne : policies ≠ [] := by
    intro h; rw [h] at hlen; simp at hlen
  obtain ⟨p, ps, hpp⟩ := List.exists_cons_of_ne_nil hne
  have hone := applyPolicies_one_ip env w ip p ps direction
    (fun q hq => ⟨(hall q (by rw [hpp]; exact hq)).1, (hall q (by rw [hpp]; exact hq)).2.1⟩)
  rw [← hpp] at hone
  -- the normalised batch
  have hNlen : (policies.map normalizeType).length = 250 := by rw [List.length_map, hlen]
  have hNerr : ∀ x ∈ policies.map normalizeType, x.ErrorMsg = "" := by
    intro x hx
    obtain ⟨y, hy, rfl⟩ := List.mem_map.1 hx
    rw [normalizeType_ErrorMsg]
    exact (hall y hy).2.2.1
  have hNip : ∀ x ∈ policies.map normalizeType, x.Ip = ip ∧ x.Typ ∈ registeredResourceTypes := by
    intro x hx
    obtain ⟨y, hy, rfl⟩ := List.mem_map.1 hx
    rw [normalizeType_Ip]
    exact ⟨(hall y hy).1, (hall y hy).2.2.2⟩
  generalize hN : policies.map normalizeType = N at hone hNlen hNerr hNip
  obtain ⟨n0, ntl, hNc⟩ : ∃ n0 ntl, N = n0 :: ntl := by
    cases N with
    | nil => simp at hNlen
    | cons a l => exact ⟨a, l, rfl⟩
  obtain ⟨hn0ip, hn0ty⟩ := hNip n0 (by rw [hNc]; exact List.mem_cons_self _ _)
  rw [hNc] at hone
  rcases applyGroup_cases env w n0 ntl direction with
    ⟨err, evs, hg, -, -, hns⟩ | ⟨evs, hg, hns, -⟩ | ⟨pp, inst, exist, evs0, h0, -, hg⟩
  · exfalso
    rw [hg] at hone
    rw [hone] at hok
    exact hns hn0ty hok
  · exfalso
    rw [hg] at hone
    rw [hone] at hok
    exact hns hok
  rw [hg, ← hNc] at hone
  -- the events of the pass
  have hevents : (applyPolicies env w policies direction).events =
      evs0 ++ (applyGroupTail env (w ++ evs0) pp inst exist n0 N direction).events := by
    rw [hone]
    cases applyGroupTail env (w ++ evs0) pp inst exist n0 N direction <;> rfl
  obtain ⟨rest, hrest⟩ := applyGroupTail_events env (w ++ evs0) pp inst exist n0 N direction
  have hokT : ∀ e ∈ (applyGroupTail env (w ++ evs0) pp inst exist n0 N direction).events,
      e.succeeded = true := by
    intro e he
    exact hok e (by rw [hevents]; exact List.mem_append_right _ he)
  have hokC : ∀ e ∈ (createPolicies env (w ++ evs0) pp exist N direction).events,
      e.succeeded = true := by
    intro e he
    exact hokT e (by rw [hrest]; exact List.mem_append_left _ he)
  obtain ⟨p0, tl, names, newIds, evsP, evs4, hpol, hev, hk4, hP, -, hseen, hq, hc, hn, hl,
    heq, he4⟩ := createPolicies_events_fill env (w ++ evs0) pp exist N direction
      (by rw [hNc]; simp) hokC
  have hp0 : p0 = n0 := by
    rw [hNc] at hpol
    simp only [List.cons.injEq] at hpol
    exact hpol.1.symm
  rw [← hpol] at hl heq he4
  rw [hp0, hn0ip] at hq hn
  -- no group is recognised
  have hrec : recognised ip names exist = [] := by
    apply recognised_eq_nil
    intro n hn'
    apply hnone
    rw [hevents, hrest, hev, groupNamesSeen_append, groupNamesSeen_append,
      groupNamesSeen_append]
    exact List.mem_append_right _ (List.mem_append_left _ (List.mem_append_left _ (hseen n hn')))
  have hmax : maxSeq ip names exist = 0 := by simp [maxSeq, hrec]
  rw [hrec] at hq
  simp only [List.length_nil, bubbleLoop, List.map_nil, List.map_eq_nil_iff] at hq
  rw [hq] at hl heq he4
  rw [hNlen] at hl
  have hl3 : newIds.length = 3 := by
    rw [hl]; decide
  obtain ⟨g1, g2, g3, rfl⟩ : ∃ g1 g2 g3, newIds = [g1, g2, g3] := by
    match newIds, hl3 with
    | [a, b, c], _ => exact ⟨a, b, c, rfl⟩
  simp only [List.map_nil, List.foldl_nil, List.nil_append] at heq he4
  -- the fill loop
  have hcap : ∀ g ∈ [g1, g2, g3],
      capOf ([g1, g2, g3].foldl (fun m g => mapSet m g MAX_SEUCRITY_RULE_NUM) []) g =
        MAX_SEUCRITY_RULE_NUM := fun g hg => foldl_mapSet_const_cap [g1, g2, g3] g hg
  generalize [g1, g2, g3].foldl (fun m g => mapSet m g MAX_SEUCRITY_RULE_NUM) [] = M
    at heq he4 hcap
  have hc1 : (capOf M g1).toNat = 100 := by rw [hcap g1 (by simp)]; rfl
  have hc2 : (capOf M g2).toNat = 100 := by rw [hcap g2 (by simp)]; rfl
  have hc3 : (capOf M g3).toNat = 100 := by rw [hcap g3 (by simp)]; rfl
  have hfill := fillLoop_success env pp direction M [g1, g2, g3] N (w ++ evs0 ++ evsP)
    (fun g hg => by rw [hcap g hg]; decide)
    (by
      simp only [List.map_cons, List.map_nil, List.sum_cons, List.sum_nil, hc1, hc2, hc3]
      rw [hNlen]
      decide)
    (by
      intro e he
      rw [← he4] at he
      exact hokC e (by rw [hev]; exact List.mem_append_right _ he))
  obtain ⟨hfl, -, hsub⟩ := hfill
  rw [← he4] at hfl hsub
  have hslices : greedySlices M [g1, g2, g3] N =
      [(g1, N.take 100), (g2, (N.drop 100).take 100), (g3, N.drop 200)] := by
    simp only [greedySlices, hc1, hc2, hc3, List.drop_drop]
    have : List.take 100 (List.drop (100 + 100) N) = List.drop 200 N := by
      apply List.take_of_length_le
      rw [List.length_drop, hNlen]
      decide
    rw [this]
  rw [hslices] at hfl hsub
  rw [hfl] at heq
  simp only [] at heq
  have htail := applyGroupTail_bound env (w ++ evs0) pp inst exist n0 N _ direction
    [g1, g2, g3] (evsP ++ evs4) heq (by simp) hokT
  rw [htail] at hone
  simp only [] at hone
  -- what the history records
  have hk0 : ∀ e ∈ evs0, e.kind = 0 ∨ e.kind = 1 ∨ e.kind = 2 := fun e he => (h0 e he).2
  have hkP : ∀ e ∈ evsP, e.kind = 4 ∨ e.kind = 5 ∨ e.kind = 6 := fun e he => (hP e he).2
  have hn0 : createdNames evs0 = [] := createdNames_eq_nil _ (fun e he => by
    rcases hk0 e he with h | h | h <;> rw [h] <;> decide)
  have hn4 : createdNames evs4 = [] := createdNames_eq_nil _ (fun e he => by
    rcases hk4 e he with h | h <;> rw [h] <;> decide)
  have hi0 : createdIds evs0 = [] := createdIds_eq_nil _ (fun e he => by
    rcases hk0 e he with h | h | h <;> rw [h] <;> decide)
  have hi4 : createdIds evs4 = [] := createdIds_eq_nil _ (fun e he => by
    rcases hk4 e he with h | h <;> rw [h] <;> decide)
  have hs0 : submitRequests evs0 = [] := submitRequests_eq_nil _ (fun e he => by
    rcases hk0 e he with h | h | h <;> rw [h] <;> decide)
  have hsP : submitRequests evsP = [] := submitRequests_eq_nil _ (fun e he => by
    rcases hkP e he with h | h | h <;> rw [h] <;> decide)
  have hs4 : submitRequests evs4 = submitted evs4 := submitRequests_eq_submitted _ (fun e he =>
    hokC e (by rw [hev]; exact List.mem_append_right _ he))
  have htake : ¬ List.take 100 N = [] := by
    intro h
    have := congrArg List.length h
    rw [List.length_take, hNlen] at this
    simp at this
  have htake2 : ¬ List.take 100 (List.drop 100 N) = [] := by
    intro h
    have := congrArg List.length h
    rw [List.length_take, List.length_drop, hNlen] at this
    simp at this
  have hdrop : ¬ List.drop 200 N = [] := by
    intro h
    have := congrArg List.length h
    rw [List.length_drop, hNlen] at this
    simp at this
  have hfilter : List.filter (fun s : String × List SecurityPolicy => decide (s.2 ≠ []))
      [(g1, N.take 100), (g2, (N.drop 100).take 100), (g3, N.drop 200)] =
      [(g1, N.take 100), (g2, (N.drop 100).take 100), (g3, N.drop 200)] := by
    rw [List.filter_eq_self]
    intro s hs
    simp only [List.mem_cons, List.mem_singleton, List.not_mem_nil, or_false] at hs
    rcases hs with rfl | rfl | rfl
    · simpa using htake
    · simpa using htake2
    · simpa using hdrop
  rw [hfilter] at hsub
  have hreq : submitRequests (evs0 ++ (evsP ++ evs4 ++
      [Event.instanceAssociateSecurityGroups inst pp ([g1, g2, g3] ++ exist) none])) =
      [(g1, newSecurityPolicySet (policies.take 100) direction true),
       (g2, newSecurityPolicySet ((policies.drop 100).take 100) direction true),
       (g3, newSecurityPolicySet (policies.drop 200) direction true)] := by
    rw [submitRequests_append, submitRequests_append, submitRequests_append, hs0, hsP, hs4, hsub]
    have : submitRequests [Event.instanceAssociateSecurityGroups inst pp
        ([g1, g2, g3] ++ exist) none] = [] := rfl
    rw [this, ← hN]
    simp only [List.map_cons, List.map_nil, List.nil_append, List.append_nil]
    rw [← List.map_take, ← List.map_drop, ← List.map_take, ← List.map_drop,
      newSecurityPolicySet_normalizeType, newSecurityPolicySet_normalizeType,
      newSecurityPolicySet_normalizeType]
  have herr : ∀ q ∈ boundSlices
      [(g1, N.take 100), (g2, (N.drop 100).take 100), (g3, N.drop 200)], q.ErrorMsg = "" := by
    intro q hq
    simp only [boundSlices, List.flatMap_cons, List.flatMap_nil, List.append_nil,
      List.mem_append, List.mem_map] at hq
    rcases hq with ⟨x, hx, rfl⟩ | ⟨x, hx, rfl⟩ | ⟨x, hx, rfl⟩
    · exact hNerr x (List.mem_of_mem_take hx)
    · exact hNerr x (List.mem_of_mem_drop (List.mem_of_mem_take hx))
    · exact hNerr x (List.mem_of_mem_drop hx)
  have hfs : (boundSlices
      [(g1, N.take 100), (g2, (N.drop 100).take 100), (g3, N.drop 200)]).filter
        (fun q => decide (q.ErrorMsg = "")) =
      boundSlices [(g1, N.take 100), (g2, (N.drop 100).take 100), (g3, N.drop 200)] := by
    rw [List.filter_eq_self]
    intro q hq
    simpa using herr q hq
  have hff : (boundSlices
      [(g1, N.take 100), (g2, (N.drop 100).take 100), (g3, N.drop 200)]).filter
        (fun q => decide (¬ q.ErrorMsg = "")) = [] := by
    rw [List.filter_eq_nil_iff]
    intro q hq
    simpa using herr q hq
  have hbl : (boundSlices
      [(g1, N.take 100), (g2, (N.drop 100).take 100), (g3, N.drop 200)]).length = 250 := by
    simp only [boundSlices, List.flatMap_cons, List.flatMap_nil, List.append_nil,
      List.length_append, List.length_map, List.length_take, List.length_drop, hNlen]
    rfl
  have hbs : boundSlices [(g1, N.take 100), (g2, (N.drop 100).take 100), (g3, N.drop 200)] =
      ((policies.take 100).map fun p => bindTo g1 (normalizeType p)) ++
        (((policies.drop 100).take 100).map fun p => bindTo g2 (normalizeType p)) ++
        ((policies.drop 200).map fun p => bindTo g3 (normalizeType p)) := by
    rw [← hN]
    simp only [boundSlices, List.flatMap_cons, List.flatMap_nil, List.append_nil]
    rw [← List.map_take, ← List.map_drop, ← List.map_take, ← List.map_drop]
    simp only [List.map_map, List.append_assoc]
    rfl
  rw [hfs, hff] at hone
  refine ⟨g1, g2, g3, _, _, hone, ?_, ?_, hreq, ?_, ?_, ?_, ?_, ?_, rfl, rfl, hbs⟩
  · rw [createdNames_append, createdNames_append, createdNames_append, hn0, hn4, hn, hmax]
    simp only [List.nil_append, List.append_nil]
    have : createdNames [Event.instanceAssociateSecurityGroups inst pp
        ([g1, g2, g3] ++ exist) none] = [] := rfl
    rw [this, List.append_nil]
    have e1 : formatInt (wrapInt (wrapInt (0 + 1) + (0 + ((0 : Nat) : Int)))) = "1" := by decide
    have e2 : formatInt (wrapInt (wrapInt (0 + 1) + (0 + ((1 : Nat) : Int)))) = "2" := by decide
    have e3 : formatInt (wrapInt (wrapInt (0 + 1) + (0 + ((2 : Nat) : Int)))) = "3" := by decide
    have hr : List.range [g1, g2, g3].length = [0, 1, 2] := rfl
    rw [hr]
    have a1 : "-auto-" ++ "1" = "-auto-1" := by decide
    have a2 : "-auto-" ++ "2" = "-auto-2" := by decide
    have a3 : "-auto-" ++ "3" = "-auto-3" := by decide
    simp only [List.map_cons, List.map_nil, e1, e2, e3, String.append_assoc, a1, a2, a3]
  · rw [createdIds_append, createdIds_append, createdIds_append, hi0, hi4, hc]
    rfl
  · rw [hreq]
    simp only [List.map_cons, List.map_nil, newSecurityPolicySet_rules_length, List.length_take,
      List.length_drop, hlen]
    rfl
  · rw [← submitRequests_eq_submitted]
    intro e he
    exact hok e (by
      rw [hone]
      exact he)
  · simp only [hlen]; rfl
  · simp only [hbl]; rfl
  · rfl

end securitygroup

namespace securitygroup

/-! ## The theorems at concrete inputs -/

set_option maxRecDepth 100000 in
theorem createPolicies_new_group_count_witness :
    (createdNames (createPolicies demoEnv [] "ap-guangzhou" ["sg-1", "sg-d"] demoBatch
        INGRESS_RULE).events = ["10.0.0.1-auto-2"] ∧
      queriedFree INGRESS_RULE (createPolicies demoEnv [] "ap-guangzhou" ["sg-1", "sg-d"]
        demoBatch INGRESS_RULE).events = [("sg-1", 2)]) ∧
      ((createdNames (createPolicies demoEnv [] "ap-guangzhou" ["sg-1", "sg-d"] demoBatch
          INGRESS_RULE).events).length : Int) =
        (if (demoBatch.length : Int) ≤ ((queriedFree INGRESS_RULE
            (createPolicies demoEnv [] "ap-guangzhou" ["sg-1", "sg-d"] demoBatch
              INGRESS_RULE).events).map Prod.snd).sum then 0
          else ((demoBatch.length : Int) - ((queriedFree INGRESS_RULE
            (createPolicies demoEnv [] "ap-guangzhou" ["sg-1", "sg-d"] demoBatch
              INGRESS_RULE).events).map Prod.snd).sum + 99) / 100) :=
  ⟨by decide,
    (createPolicies_new_group_count demoEnv [] "ap-guangzhou" ["sg-1", "sg-d"] demoBatch
      INGRESS_RULE (by decide) (by decide)).1⟩

set_option maxRecDepth 100000 in
theorem createPolicies_every_entry_in_one_group_witness :
    (submitted (createPolicies demoEnv [] "ap-guangzhou" ["sg-1", "sg-d"] demoBatch
        INGRESS_RULE).events).map (fun s => (s.1, s.2.rules.map fun r => r.CidrBlock)) =
        [("sg-1", ["10.0.0.2", "10.0.0.3"]), ("sg-10.0.0.1-auto-2", ["10.0.0.4"])] ∧
      ∃ slices : List (String × List SecurityPolicy),
        createPolicies demoEnv [] "ap-guangzhou" ["sg-1", "sg-d"] demoBatch INGRESS_RULE =
          .done ((createdIds (createPolicies demoEnv [] "ap-guangzhou" ["sg-1", "sg-d"]
              demoBatch INGRESS_RULE).events, none), boundSlices slices)
            (createPolicies demoEnv [] "ap-guangzhou" ["sg-1", "sg-d"] demoBatch
              INGRESS_RULE).events ∧
        slices.flatMap Prod.snd = demoBatch ∧
        slices.map Prod.fst =
          (queriedFree INGRESS_RULE (createPolicies demoEnv [] "ap-guangzhou" ["sg-1", "sg-d"]
            demoBatch INGRESS_RULE).events).map Prod.fst ++
          createdIds (createPolicies demoEnv [] "ap-guangzhou" ["sg-1", "sg-d"] demoBatch
            INGRESS_RULE).events ∧
        submitted (createPolicies demoEnv [] "ap-guangzhou" ["sg-1", "sg-d"] demoBatch
            INGRESS_RULE).events =
          (slices.filter (fun s => s.2 ≠ [])).map
            (fun s => (s.1, newSecurityPolicySet s.2 INGRESS_RULE true)) ∧
        (∀ s ∈ slices,
          s.1 ∈ createdIds (createPolicies demoEnv [] "ap-guangzhou" ["sg-1", "sg-d"] demoBatch
            INGRESS_RULE).events → s.2.length ≤ 100) ∧
        (∀ s ∈ slices, ∀ f, (s.1, f) ∈ queriedFree INGRESS_RULE
          (createPolicies demoEnv [] "ap-guangzhou" ["sg-1", "sg-d"] demoBatch
            INGRESS_RULE).events → (s.2.length : Int) ≤ f) :=
  ⟨by decide,
    createPolicies_every_entry_in_one_group demoEnv [] "ap-guangzhou" ["sg-1", "sg-d"] demoBatch
      INGRESS_RULE (by decide) (by decide) (by decide) (by decide)⟩

set_option maxRecDepth 1000000 in
theorem applyPolicies_250_entries_witness :
    ∃ g1 g2 g3 r evs,
      applyPolicies plainEnv [] demoBatch250 INGRESS_RULE = .done r evs ∧
      createdNames evs = ["10.0.0.1" ++ "-auto-1", "10.0.0.1" ++ "-auto-2",
        "10.0.0.1" ++ "-auto-3"] ∧
      createdIds evs = [g1, g2, g3] ∧
      submitRequests evs =
        [(g1, newSecurityPolicySet (demoBatch250.take 100) INGRESS_RULE true),
         (g2, newSecurityPolicySet ((demoBatch250.drop 100).take 100) INGRESS_RULE true),
         (g3, newSecurityPolicySet (demoBatch250.drop 200) INGRESS_RULE true)] ∧
      (submitRequests evs).map (fun s => s.2.rules.length) = [100, 100, 50] ∧
      submitted evs = submitRequests evs ∧
      r.PoliciesTotal = 250 ∧ r.SuccessTotal = 250 ∧ r.FailedTotal = 0 ∧
      r.UndoPolicies = [] ∧ r.FailedPolicies = [] ∧
      r.SuccessPolicies =
        ((demoBatch250.take 100).map fun p => bindTo g1 (normalizeType p)) ++
        (((demoBatch250.drop 100).take 100).map fun p => bindTo g2 (normalizeType p)) ++
        ((demoBatch250.drop 200).map fun p => bindTo g3 (normalizeType p)) :=
  applyPolicies_250_entries plainEnv [] "10.0.0.1" demoBatch250 INGRESS_RULE
    (by decide)
    (by
      intro p hp
      rw [List.eq_of_mem_replicate hp]
      decide)
    (by decide) (by decide)

end securitygroup

namespace securitygroup

set_option maxRecDepth 100000 in
/-- C7: on a resource bound to `sg-1` (two free rules), three entries, the create-policies
request for the new group rejected: the rollback issues, besides the delete request for
`sg-1` with the two entries that group received, a delete request against the group id `""`
listing the third entry, which no accepted request ever submitted. -/
theorem destroyPolicies_request_for_unsubmitted :
    (submitted (applyPolicies rejectNewGroupEnv [] demoBatch INGRESS_RULE).events).map
        requestPeers = [("sg-1", ["10.0.0.2", "10.0.0.3"])] ∧
      (deleteRequests (applyPolicies rejectNewGroupEnv [] demoBatch INGRESS_RULE).events).map
        requestPeers = [("sg-1", ["10.0.0.2", "10.0.0.3"]), ("", ["10.0.0.4"])] := by
  decide

set_option maxRecDepth 100000 in
/-- C6 fails as stated: three groups with one free rule each, three entries, the request for
the third group rejected, and the provider rejecting the delete requests for the first and
the second group: the rollback stops at the first of the two it issues, here the one for the
first group, and the entry the second group received is in no delete request. -/
theorem rollback_stops_at_failed_delete :
    (submitted (applyPolicies rejectDeleteEnv [] demoBatch INGRESS_RULE).events).map
        requestPeers = [("sg-1", ["10.0.0.2"]), ("sg-2", ["10.0.0.3"])] ∧
      (deleteRequests (applyPolicies rejectDeleteEnv [] demoBatch INGRESS_RULE).events).map
        requestPeers = [("sg-1", ["10.0.0.2"])] := by
  decide

end securitygroup

namespace securitygroup

/-! ## The rollback -/

theorem mapGet_mapAppend {α : Type} (m : List (String × List α)) (k k' : String) (x : α) :
    mapGet (mapAppend m k x) k' =
      if k = k' then some ((mapGet m k).getD [] ++ [x]) else mapGet m k' := by
  unfold mapAppend
  exact mapGet_mapSet m k k' _

/-- After the grouping loop every entry is in the list stored under its group id, and what a
list held before the loop is still in it. -/
theorem groupBy_foldl_mem (ps : List SecurityPolicy) (m0 : List (String × List SecurityPolicy)) :
    (∀ p ∈ ps, ∃ l,
        mapGet (ps.foldl (fun m policy => mapAppend m policy.SecurityGroupId policy) m0)
          p.SecurityGroupId = some l ∧ p ∈ l) ∧
      ∀ k l0, mapGet m0 k = some l0 → ∃ l,
        mapGet (ps.foldl (fun m policy => mapAppend m policy.SecurityGroupId policy) m0) k =
          some l ∧ ∀ x ∈ l0, x ∈ l := by
  induction ps generalizing m0 with
  | nil =>
    refine ⟨by simp, ?_⟩
    intro k l0 h
    exact ⟨l0, h, fun x hx => hx⟩
  | cons q ps ih =>
    simp only [List.foldl_cons]
    obtain ⟨ih1, ih2⟩ := ih (mapAppend m0 q.SecurityGroupId q)
    constructor
    · intro p hp
      rcases List.mem_cons.1 hp with rfl | hp
      · obtain ⟨l, hl, hsub⟩ := ih2 p.SecurityGroupId
          ((mapGet m0 p.SecurityGroupId).getD [] ++ [p])
          (by rw [mapGet_mapAppend, if_pos rfl])
        exact ⟨l, hl, hsub p (by simp)⟩
      · exact ih1 p hp
    · intro k l0 h
      by_cases hk : q.SecurityGroupId = k
      · obtain ⟨l, hl, hsub⟩ := ih2 k ((mapGet m0 q.SecurityGroupId).getD [] ++ [q])
          (by rw [mapGet_mapAppend, if_pos hk])
        refine ⟨l, hl, fun x hx => hsub x ?_⟩
        rw [hk, h]
        simp [hx]
      · obtain ⟨l, hl, hsub⟩ := ih2 k l0 (by rw [mapGet_mapAppend, if_neg hk]; exact h)
        exact ⟨l, hl, hsub⟩

theorem groupBySecurityGroupId_mem (ps : List SecurityPolicy) (p : SecurityPolicy)
    (hp : p ∈ ps) :
    ∃ l, mapGet (groupBySecurityGroupId ps) p.SecurityGroupId = some l ∧ p ∈ l :=
  (groupBy_foldl_mem ps []).1 p hp

theorem newSecurityPolicySet_rules (ps : List SecurityPolicy) (direction : String)
    (b : Bool) :
    (newSecurityPolicySet ps direction b).rules = ps.map fun p => newSecurityPolicy p b := by
  unfold newSecurityPolicySet SecurityGroupPolicySet.rules
  split <;> simp

theorem destroyLoop_kinds (env : Env) (client : VpcClient) (direction : String)
    (M : List (String × List SecurityPolicy)) (ks : List String) (w : World) :
    ∀ e ∈ (destroyLoop env client direction M ks w).2, e.kind = 9 := by
  induction ks generalizing w with
  | nil => simp [destroyLoop]
  | cons k ks ih =>
    simp only [destroyLoop]
    cases hret : env.DeleteSecurityGroupPolicies w client k
        (newSecurityPolicySet ((mapGet M k).getD []) direction false) with
    | some err => simp [Event.kind]
    | none =>
      simp only [List.mem_cons]
      rintro e (rfl | he)
      · rfl
      · exact ih _ e he

/-- When no delete request fails, the loop issues the request of every group it is given. -/
theorem destroyLoop_covers (env : Env) (client : VpcClient) (direction : String)
    (M : List (String × List SecurityPolicy)) (ks : List String) (w : World)
    (hok : ∀ e ∈ (destroyLoop env client direction M ks w).2, e.succeeded = true) :
    ∀ k ∈ ks, (k, newSecurityPolicySet ((mapGet M k).getD []) direction false) ∈
      deleteRequests (destroyLoop env client direction M ks w).2 := by
  induction ks generalizing w with
  | nil => simp
  | cons k0 ks ih =>
    simp only [destroyLoop] at hok ⊢
    cases hret : env.DeleteSecurityGroupPolicies w client k0
        (newSecurityPolicySet ((mapGet M k0).getD []) direction false) with
    | some err =>
      rw [hret] at hok
      have := hok _ (List.mem_singleton.2 rfl)
      simp [Event.succeeded] at this
    | none =>
      rw [hret] at hok
      simp only [] at hok ⊢
      intro k hk
      have hrec := ih (w ++ [Event.deleteSecurityGroupPolicies client k0
        (newSecurityPolicySet ((mapGet M k0).getD []) direction false) none])
        (fun e he => hok e (List.mem_cons_of_mem _ he))
      rw [show ∀ (a : Event) (l : List Event), a :: l = [a] ++ l from fun _ _ => rfl,
        deleteRequests_append]
      rcases List.mem_cons.1 hk with rfl | hk
      · exact List.mem_append_left _ (by simp [deleteRequests])
      · exact List.mem_append_right _ (hrec k hk)

theorem destroyPolicies_kinds (env : Env) (w : World) (providerParams : String)
    (ps : List SecurityPolicy) (direction : String) :
    ∀ e ∈ (destroyPolicies env w providerParams ps direction).2, e.kind = 7 ∨ e.kind = 9 := by
  unfold destroyPolicies
  simp only []
  split
  · simp [Event.kind]
  · simp only [List.mem_cons]
    rintro e (rfl | he)
    · left; rfl
    · right; exact destroyLoop_kinds _ _ _ _ _ _ e he

/-- When the client is created and no delete request fails, every entry handed to
`destroyPolicies` is in a delete request against the group id it carries. -/
theorem destroyPolicies_covers (env : Env) (w : World) (providerParams : String)
    (ps : List SecurityPolicy) (direction : String)
    (hok : ∀ e ∈ (destroyPolicies env w providerParams ps direction).2, e.succeeded = true) :
    ∀ p ∈ ps, ∃ d ∈ deleteRequests (destroyPolicies env w providerParams ps direction).2,
      d.1 = p.SecurityGroupId ∧ newSecurityPolicy p false ∈ d.2.rules := by
  unfold destroyPolicies at hok ⊢
  simp only [] at hok ⊢
  cases hret : env.CreateVpcClient w (env.GetMapFromProviderParams providerParams "Region")
      (env.GetMapFromProviderParams providerParams "SecretID")
      (env.GetMapFromProviderParams providerParams "SecretKey") with
  | some err =>
    rw [hret] at hok
    have := hok _ (List.mem_singleton.2 rfl)
    simp [Event.succeeded] at this
  | none =>
    rw [hret] at hok
    simp only [] at hok ⊢
    intro p hp
    obtain ⟨l, hl, hpl⟩ := groupBySecurityGroupId_mem ps p hp
    have hkey : p.SecurityGroupId ∈ mapKeys (groupBySecurityGroupId ps) := by
      rw [← mapGet_isSome_iff, hl]; rfl
    have hcov := destroyLoop_covers env _ direction (groupBySecurityGroupId ps) _ _
      (fun e he => hok e (List.mem_cons_of_mem _ he)) p.SecurityGroupId
      ((mem_rangeKeys _ _ _).2 hkey)
    refine ⟨(p.SecurityGroupId, newSecurityPolicySet
      ((mapGet (groupBySecurityGroupId ps) p.SecurityGroupId).getD []) direction false),
      ?_, rfl, ?_⟩
    · rw [show ∀ (a : Event) (l : List Event), a :: l = [a] ++ l from fun _ _ => rfl,
        deleteRequests_append]
      exact List.mem_append_right _ hcov
    · rw [newSecurityPolicySet_rules, hl]
      exact List.mem_map.2 ⟨p, hpl, rfl⟩

end securitygroup

namespace securitygroup

theorem fillSecuityPoliciesWithErrMsg_eraseStatus (ps : List SecurityPolicy) (err : String) :
    (fillSecuityPoliciesWithErrMsg ps err).map eraseStatus = ps.map eraseStatus := by
  unfold fillSecuityPoliciesWithErrMsg
  rw [List.map_map]
  rfl

theorem fillSecuityPoliciesWithErrMsg_ErrorMsg (ps : List SecurityPolicy) (err : String) :
    ∀ p ∈ fillSecuityPoliciesWithErrMsg ps err, p.ErrorMsg = err := by
  unfold fillSecuityPoliciesWithErrMsg
  intro p hp
  obtain ⟨q, _, rfl⟩ := List.mem_map.1 hp
  rfl

/-- The second half of a round in which a create-policies request is rejected, while every
client is created and no delete request fails: the round ends with the error of the rejected
request on every entry, and every rule of an accepted request is in a delete request against
the same group. -/
theorem applyGroupTail_rollback (env : Env) (w : World) (providerParams : String)
    (inst : ResourceInstance) (exist : List String) (p0 : SecurityPolicy)
    (tl : List SecurityPolicy) (direction : String)
    (hfail : ∃ e ∈ (applyGroupTail env w providerParams inst exist p0 (p0 :: tl)
      direction).events, e.kind = 8 ∧ e.succeeded = false)
    (hdel : ∀ e ∈ (applyGroupTail env w providerParams inst exist p0 (p0 :: tl)
      direction).events, e.kind = 7 ∨ e.kind = 9 → e.succeeded = true) :
    ∃ ps1 err evs,
      applyGroupTail env w providerParams inst exist p0 (p0 :: tl) direction =
        .done (fillSecuityPoliciesWithErrMsg ps1 err) evs ∧
      (∃ e ∈ evs, e.error? = some err) ∧
      ps1.map eraseStatus = (p0 :: tl).map eraseStatus ∧
      ∀ s ∈ submitted evs, ∀ rule ∈ s.2.rules, ∃ d ∈ deleteRequests evs,
        d.1 = s.1 ∧ { rule with PolicyIndex := none } ∈ d.2.rules := by
  unfold applyGroupTail at hfail hdel ⊢
  obtain ⟨e8, he8, hk8, hs8⟩ := hfail
  rcases createPolicies_cases env w providerParams exist p0 tl direction with
    ⟨newIds, err, evs, hcp, hkinds, -, -⟩ | ⟨names, newIds, evsP, hP, -, -, -, -, -, -, hcp⟩
  · exfalso
    rw [hcp] at he8
    simp only [Result.events, List.mem_append] at he8
    rcases he8 with h | h
    · have := hkinds e8 h; omega
    · have := destroyPolicies_kinds _ _ _ _ _ e8 h; omega
  · have hfk := fillLoop_kinds env providerParams direction
      (newIds.foldl (fun m g => mapSet m g MAX_SEUCRITY_RULE_NUM)
        ((queriedFree direction evsP).foldl (fun m gf => mapSet m gf.1 gf.2) []))
      ((queriedFree direction evsP).map Prod.fst ++ newIds) 0 (p0 :: tl) (w ++ evsP)
      (Nat.zero_le _)
    cases hfl : fillLoop env providerParams direction
      (newIds.foldl (fun m g => mapSet m g MAX_SEUCRITY_RULE_NUM)
        ((queriedFree direction evsP).foldl (fun m gf => mapSet m gf.1 gf.2) []))
      ((queriedFree direction evsP).map Prod.fst ++ newIds) 0 (p0 :: tl) (w ++ evsP) with
    | panic evs4 =>
      exfalso
      rw [hfl] at hcp
      simp only [] at hcp
      rw [hcp] at he8
      simp only [Result.events, List.mem_append] at he8
      have hok := (fillLoop_panic _ _ _ _ _ _ _ _ (Nat.zero_le _) _ hfl).2
      rcases he8 with h | h
      · rw [(hP e8 h).1] at hs8; cases hs8
      · rw [hok e8 h] at hs8; cases hs8
    | done r evs4 =>
      obtain ⟨err, ps1⟩ := r
      rw [hfl] at hcp hfk
      simp only [] at hcp
      simp only [Result.events] at hfk
      rw [hcp] at he8 hdel ⊢
      cases err with
      | none =>
        exfalso
        have hok := (fillLoop_done_none _ _ _ _ _ _ _ _ (Nat.zero_le _) _ _ hfl).2.1
        have hpre : e8 ∉ evsP ++ evs4 := by
          intro h
          rcases List.mem_append.1 h with h | h
          · rw [(hP e8 h).1] at hs8; cases hs8
          · rw [hok e8 h] at hs8; cases hs8
        simp only [] at he8
        split at he8
        · revert he8
          cases env.InstanceAssociateSecurityGroups (w ++ (evsP ++ evs4)) inst providerParams
              (newIds ++ exist) with
          | none =>
            simp only [Result.events, List.mem_append, List.mem_singleton]
            rintro (h | rfl)
            · exact hpre (List.mem_append.2 h)
            · cases hk8
          | some err =>
            simp only [Result.events, List.mem_append, List.mem_singleton]
            rintro ((h | rfl) | h)
            · exact hpre (List.mem_append.2 h)
            · cases hk8
            · have := destroyPolicies_kinds _ _ _ _ _ e8 h; omega
        · exact hpre he8
      | some err =>
        simp only [Result.events] at hdel ⊢
        obtain ⟨⟨e, he, herr, -⟩, hers, -, hsub⟩ :=
          fillLoop_done_err _ _ _ _ _ _ _ _ (Nat.zero_le _) _ _ _ hfl
        refine ⟨ps1, err, _, rfl,
          ⟨e, List.mem_append_left _ (List.mem_append_right _ he), herr⟩, hers, ?_⟩
        have hcov := destroyPolicies_covers env (w ++ (evsP ++ evs4)) providerParams ps1
          direction (fun e he =>
            hdel e (List.mem_append_right _ he) (destroyPolicies_kinds _ _ _ _ _ e he))
        intro s hs rule hrule
        rw [submitted_append, submitted_append,
          submitted_eq_nil evsP (fun e he => by have := (hP e he).2; omega),
          submitted_eq_nil (destroyPolicies env (w ++ (evsP ++ evs4)) providerParams ps1
            direction).2
            (fun e he => by have := destroyPolicies_kinds _ _ _ _ _ e he; omega)] at hs
        simp only [List.nil_append, List.append_nil] at hs
        obtain ⟨slice, hset, hbound⟩ := hsub s hs
        rw [hset, newSecurityPolicySet_rules] at hrule
        obtain ⟨p, hp, rfl⟩ := List.mem_map.1 hrule
        obtain ⟨d, hd, hd1, hd2⟩ := hcov (bindTo s.1 p) (hbound p hp)
        refine ⟨d, ?_, hd1, hd2⟩
        rw [deleteRequests_append]
        exact List.mem_append_right _ hd

end securitygroup

namespace securitygroup

theorem applyPolicies_one_ip_events (env : Env) (w : World) (ip : String) (p : SecurityPolicy)
    (ps : List SecurityPolicy) (direction : String)
    (h : ∀ q ∈ p :: ps, q.Ip = ip ∧ q.SupportSecurityGroupApi = true) :
    (applyPolicies env w (p :: ps) direction).events =
      (applyGroup env w ((p :: ps).map normalizeType) direction).events := by
  rw [applyPolicies_one_ip env w ip p ps direction h]
  cases applyGroup env w ((p :: ps).map normalizeType) direction <;> rfl

theorem filter_ErrorMsg_fill (ps : List SecurityPolicy) (err : String) (h : err ≠ "") :
    (fillSecuityPoliciesWithErrMsg ps err).filter (fun q => q.ErrorMsg = "") = [] ∧
      (fillSecuityPoliciesWithErrMsg ps err).filter (fun q => ¬ q.ErrorMsg = "") =
        fillSecuityPoliciesWithErrMsg ps err := by
  constructor
  · rw [List.filter_eq_nil_iff]
    intro q hq
    rw [fillSecuityPoliciesWithErrMsg_ErrorMsg ps err q hq]
    simpa using h
  · rw [List.filter_eq_self]
    intro q hq
    rw [fillSecuityPoliciesWithErrMsg_ErrorMsg ps err q hq]
    simpa using h

/-- C6, amended: a batch of entries of one owner IP that support the API, a create-policies
request of the pass rejected, every client created, no delete-policies request failing and
no provider error with an empty message. Then the pass finishes, every rule of every accepted
create-policies request is, without its index, in a delete-policies request against the same
group, and every entry of the batch is in `FailedPolicies`, once and in order, with a
non-empty error message; `SuccessPolicies` is empty. -/
theorem applyPolicies_rollback_on_rejected_request (env : Env) (w : World) (ip : String)
    (policies : List SecurityPolicy) (direction : String)
    (hne : policies ≠ [])
    (hall : ∀ q ∈ policies, q.Ip = ip ∧ q.SupportSecurityGroupApi = true)
    (hfail : ∃ e ∈ (applyPolicies env w policies direction).events,
      e.kind = 8 ∧ e.succeeded = false)
    (hdel : ∀ e ∈ (applyPolicies env w policies direction).events,
      e.kind = 7 ∨ e.kind = 9 → e.succeeded = true)
    (hmsg : ∀ e ∈ (applyPolicies env w policies direction).events, e.error? ≠ some "") :
    ∃ r evs, applyPolicies env w policies direction = .done r evs ∧
      (∀ s ∈ submitted evs, ∀ rule ∈ s.2.rules, ∃ d ∈ deleteRequests evs,
        d.1 = s.1 ∧ { rule with PolicyIndex := none } ∈ d.2.rules) ∧
      r.SuccessPolicies = [] ∧ r.SuccessTotal = 0 ∧
      r.FailedPolicies.map eraseStatus =
        policies.map (fun q => eraseStatus (normalizeType q)) ∧
      r.FailedTotal = policies.length ∧
      ∀ q ∈ r.FailedPolicies, q.ErrorMsg ≠ "" := by
  obtain ⟨p, ps, rfl⟩ := List.exists_cons_of_ne_nil hne
  have hev := applyPolicies_one_ip_events env w ip p ps direction hall
  rw [hev] at hfail hdel hmsg
  rw [applyPolicies_one_ip env w ip p ps direction hall]
  simp only [List.map_cons] at hfail hdel hmsg ⊢
  obtain ⟨e8, he8, hk8, hs8⟩ := hfail
  rcases applyGroup_cases env w (normalizeType p) (ps.map normalizeType) direction with
    ⟨err, evs, heq, hkinds, -, -⟩ | ⟨evs, heq, -, hkinds⟩ |
    ⟨providerParams, inst, exist, evs0, h0, -, heq⟩
  · exfalso
    rw [heq] at he8
    have := hkinds e8 he8
    omega
  · exfalso
    rw [heq] at he8
    have := hkinds e8 he8
    omega
  · have hevs : (applyGroup env w (normalizeType p :: ps.map normalizeType) direction).events =
        evs0 ++ (applyGroupTail env (w ++ evs0) providerParams inst exist (normalizeType p)
          (normalizeType p :: ps.map normalizeType) direction).events := by
      rw [heq]
      cases applyGroupTail env (w ++ evs0) providerParams inst exist (normalizeType p)
        (normalizeType p :: ps.map normalizeType) direction <;> rfl
    rw [hevs] at he8 hdel hmsg
    have he8t : e8 ∈ (applyGroupTail env (w ++ evs0) providerParams inst exist
        (normalizeType p) (normalizeType p :: ps.map normalizeType) direction).events := by
      rcases List.mem_append.1 he8 with h | h
      · have := (h0 e8 h).2; omega
      · exact h
    obtain ⟨ps1, err, evs, htail, ⟨e, he, herr⟩, hers, hcov⟩ :=
      applyGroupTail_rollback env (w ++ evs0) providerParams inst exist (normalizeType p)
        (ps.map normalizeType) direction ⟨e8, he8t, hk8, hs8⟩
        (fun e he => hdel e (List.mem_append_right _ he))
    rw [htail] at hmsg
    have herrne : err ≠ "" := by
      intro h
      apply hmsg e (List.mem_append_right _ he)
      rw [herr, h]
    rw [heq, htail]
    simp only []
    obtain ⟨hf1, hf2⟩ := filter_ErrorMsg_fill ps1 err herrne
    refine ⟨_, _, rfl, ?_, ?_, ?_, ?_, ?_, ?_⟩
    · intro s hs rule hrule
      rw [submitted_append, submitted_eq_nil evs0
        (fun e he => by have := (h0 e he).2; omega), List.nil_append] at hs
      obtain ⟨d, hd, hd1, hd2⟩ := hcov s hs rule hrule
      refine ⟨d, ?_, hd1, hd2⟩
      rw [deleteRequests_append]
      exact List.mem_append_right _ hd
    · simpa using hf1
    · simp only []
      rw [show (fillSecuityPoliciesWithErrMsg ps1 err).filter (fun q => q.ErrorMsg = "") = []
        from hf1]
      rfl
    · simp only []
      have : (fillSecuityPoliciesWithErrMsg ps1 err).filter (fun q => ¬ q.ErrorMsg = "") =
          fillSecuityPoliciesWithErrMsg ps1 err := hf2
      rw [this, fillSecuityPoliciesWithErrMsg_eraseStatus, hers]
      simp [List.map_map, Function.comp]
    · simp only []
      have : (fillSecuityPoliciesWithErrMsg ps1 err).filter (fun q => ¬ q.ErrorMsg = "") =
          fillSecuityPoliciesWithErrMsg ps1 err := hf2
      rw [this]
      have hl := congrArg List.length hers
      simp only [List.length_map, List.length_cons] at hl
      simp only [fillSecuityPoliciesWithErrMsg, List.length_map, List.length_cons]
      rw [hl]
    · simp only []
      intro q hq
      have : (fillSecuityPoliciesWithErrMsg ps1 err).filter (fun q => ¬ q.ErrorMsg = "") =
          fillSecuityPoliciesWithErrMsg ps1 err := hf2
      rw [this] at hq
      rw [fillSecuityPoliciesWithErrMsg_ErrorMsg ps1 err q hq]
      exact herrne

set_option maxRecDepth 100000 in
theorem applyPolicies_rollback_on_rejected_request_witness :
    ((submitted (applyPolicies rejectThirdEnv [] demoBatch INGRESS_RULE).events).map
        requestPeers = [("sg-1", ["10.0.0.2"]), ("sg-2", ["10.0.0.3"])] ∧
      (submitRequests (applyPolicies rejectThirdEnv [] demoBatch INGRESS_RULE).events).map
        requestPeers =
        [("sg-1", ["10.0.0.2"]), ("sg-2", ["10.0.0.3"]), ("sg-3", ["10.0.0.4"])]) ∧
      ∃ r evs, applyPolicies rejectThirdEnv [] demoBatch INGRESS_RULE = .done r evs ∧
        (∀ s ∈ submitted evs, ∀ rule ∈ s.2.rules, ∃ d ∈ deleteRequests evs,
          d.1 = s.1 ∧ { rule with PolicyIndex := none } ∈ d.2.rules) ∧
        r.SuccessPolicies = [] ∧ r.SuccessTotal = 0 ∧
        r.FailedPolicies.map eraseStatus =
          demoBatch.map (fun q => eraseStatus (normalizeType q)) ∧
        r.FailedTotal = demoBatch.length ∧
        ∀ q ∈ r.FailedPolicies, q.ErrorMsg ≠ "" :=
  ⟨by decide,
    applyPolicies_rollback_on_rejected_request rejectThirdEnv [] "10.0.0.1" demoBatch
      INGRESS_RULE (by decide) (by decide) (by decide) (by decide) (by decide)⟩

end securitygroup

namespace securitygroup

/-! ## What a round leaves on its entries -/

theorem append_ne_empty (a b : String) (h : a ≠ "") : a ++ b ≠ "" := by
  intro hab
  apply h
  have h1 := congrArg String.data hab
  rw [String.data_append] at h1
  have h2 : a.data = [] := (List.append_eq_nil.1 h1).1
  exact String.ext h2

theorem boundSlices_eraseStatus (slices : List (String × List SecurityPolicy)) :
    (boundSlices slices).map eraseStatus = (slices.flatMap Prod.snd).map eraseStatus := by
  induction slices with
  | nil => rfl
  | cons s slices ih =>
    simp only [boundSlices, List.flatMap_cons, List.map_append, List.map_map] at ih ⊢
    rw [ih]
    congr 1

theorem boundSlices_ErrorMsg (slices : List (String × List SecurityPolicy)) :
    (boundSlices slices).map (fun p => p.ErrorMsg) =
      (slices.flatMap Prod.snd).map (fun p => p.ErrorMsg) := by
  induction slices with
  | nil => rfl
  | cons s slices ih =>
    simp only [boundSlices, List.flatMap_cons, List.map_append, List.map_map] at ih ⊢
    rw [ih]
    congr 1

theorem boundSlices_group (slices : List (String × List SecurityPolicy)) :
    ∀ p ∈ boundSlices slices, p.SecurityGroupId ∈ slices.map Prod.fst := by
  intro p hp
  simp only [boundSlices, List.mem_flatMap, List.mem_map] at hp
  obtain ⟨s, hs, q, _, rfl⟩ := hp
  exact List.mem_map.2 ⟨s, hs, rfl⟩

/-- With pairwise distinct group ids and no negative free number, the groups the fill loop
walks take the whole batch. -/
theorem fillMap_leftover_eq_nil (qf : List (String × Int)) (newIds : List String)
    (ps : List SecurityPolicy) (hnd : (qf.map Prod.fst ++ newIds).Nodup)
    (hcaps : ∀ g ∈ qf.map Prod.fst ++ newIds,
      0 ≤ capOf (newIds.foldl (fun m g => mapSet m g MAX_SEUCRITY_RULE_NUM)
        (qf.foldl (fun m gf => mapSet m gf.1 gf.2) [])) g)
    (hl : newIds.length =
      (if (qf.map Prod.snd).sum < (ps.length : Int) then
        (Int.tdiv ((ps.length : Int) - (qf.map Prod.snd).sum + MAX_SEUCRITY_RULE_NUM - 1)
          MAX_SEUCRITY_RULE_NUM).toNat
      else 0)) :
    leftover (newIds.foldl (fun m g => mapSet m g MAX_SEUCRITY_RULE_NUM)
        (qf.foldl (fun m gf => mapSet m gf.1 gf.2) [])) (qf.map Prod.fst ++ newIds) ps = [] := by
  have hcapq := fillMap_cap_queried qf newIds hnd
  have hcapn := fillMap_cap_new qf newIds hnd
  have hfree : ∀ gf ∈ qf, 0 ≤ gf.2 := by
    intro gf hgf
    have := hcaps gf.1 (List.mem_append_left _ (List.mem_map.2 ⟨gf, hgf, rfl⟩))
    rw [hcapq gf.1 gf.2 hgf] at this
    exact this
  generalize newIds.foldl (fun m g => mapSet m g MAX_SEUCRITY_RULE_NUM)
    (qf.foldl (fun m gf => mapSet m gf.1 gf.2) []) = M at hcapq hcapn ⊢
  apply leftover_eq_nil
  rw [List.map_append, List.sum_append, sum_caps_new M newIds hcapn]
  have h1 := sum_caps_queried M qf (fun gf h => hcapq gf.1 gf.2 h) hfree
  generalize ((qf.map Prod.fst).map fun g => (capOf M g).toNat).sum = S at h1 ⊢
  generalize (qf.map Prod.snd).sum = F at h1 hl
  generalize ps.length = m at hl ⊢
  unfold MAX_SEUCRITY_RULE_NUM at hl
  by_cases h : F < (m : Int)
  · rw [if_pos h, Int.tdiv_eq_ediv (by omega) (by norm_num)] at hl
    have : 0 ≤ ((m : Int) - F + 100 - 1) / 100 := Int.ediv_nonneg (by omega) (by norm_num)
    omega
  · omega

theorem groupIdsUsed_append (direction : String) (a b : List Event) :
    (groupIdsUsed direction (a ++ b)).Perm (groupIdsUsed direction a ++ groupIdsUsed direction b) := by
  unfold groupIdsUsed
  rw [queriedFree_append, createdIds_append, List.map_append]
  simp only [List.append_assoc]
  apply List.Perm.append_left
  rw [← List.append_assoc, ← List.append_assoc]
  exact List.Perm.append_right _ List.perm_append_comm

theorem groupIdsUsed_nodup_left (direction : String) (a b : List Event)
    (h : (groupIdsUsed direction (a ++ b)).Nodup) : (groupIdsUsed direction a).Nodup :=
  (List.nodup_append.1 (((groupIdsUsed_append direction a b).nodup_iff).1 h)).1

theorem groupIdsUsed_nodup_right (direction : String) (a b : List Event)
    (h : (groupIdsUsed direction (a ++ b)).Nodup) : (groupIdsUsed direction b).Nodup :=
  (List.nodup_append.1 (((groupIdsUsed_append direction a b).nodup_iff).1 h)).2.1

theorem groupIdsUsed_mem_left (direction : String) (a b : List Event) (g : String)
    (h : g ∈ groupIdsUsed direction a) : g ∈ groupIdsUsed direction (a ++ b) :=
  ((groupIdsUsed_append direction a b).mem_iff).2 (List.mem_append_left _ h)

theorem groupIdsUsed_mem_right (direction : String) (a b : List Event) (g : String)
    (h : g ∈ groupIdsUsed direction b) : g ∈ groupIdsUsed direction (a ++ b) :=
  ((groupIdsUsed_append direction a b).mem_iff).2 (List.mem_append_right _ h)

end securitygroup

namespace securitygroup

theorem groupIdsUsed_eq_nil (direction : String) (evs : List Event)
    (h : ∀ e ∈ evs, e.kind ≠ 5 ∧ e.kind ≠ 6) : groupIdsUsed direction evs = [] := by
  unfold groupIdsUsed
  rw [queriedFree_eq_nil direction evs (fun e he => (h e he).1),
    createdIds_eq_nil evs (fun e he => (h e he).2)]
  rfl

/-- What the second half of a round that finishes leaves on the entries, when no provider
error has an empty message and the group ids the round works with are pairwise distinct and
not empty: the entries are those it was given up to error message and group id, and either
every one has an error message, or every one keeps the error message it came with and has a
group id. -/
theorem applyGroupTail_terminal (env : Env) (w : World) (providerParams : String)
    (inst : ResourceInstance) (exist : List String) (p0 : SecurityPolicy)
    (tl : List SecurityPolicy) (direction : String) (ps' : List SecurityPolicy)
    (evs : List Event)
    (h : applyGroupTail env w providerParams inst exist p0 (p0 :: tl) direction =
      .done ps' evs)
    (hmsg : ∀ e ∈ evs, e.error? ≠ some "")
    (hnd : (groupIdsUsed direction evs).Nodup)
    (hid : ∀ g ∈ groupIdsUsed direction evs, g ≠ "") :
    ps'.map eraseStatus = (p0 :: tl).map eraseStatus ∧
      ((∀ p ∈ ps', p.ErrorMsg ≠ "") ∨
        (ps'.map (fun p => p.ErrorMsg) = (p0 :: tl).map (fun p => p.ErrorMsg) ∧
          ∀ p ∈ ps', p.SecurityGroupId ≠ "")) := by
  unfold applyGroupTail at h
  rcases createPolicies_cases env w providerParams exist p0 tl direction with
    ⟨newIds, err, evsC, hcp, -, -, horigin⟩ |
    ⟨names, newIds, evsP, hP, -, -, -, hc, -, hl, hcp⟩
  · rw [hcp] at h
    simp only [Result.done.injEq] at h
    obtain ⟨rfl, rfl⟩ := h
    have herr : err ≠ "" := by
      rcases horigin with ⟨e, he, herr⟩ | ⟨id, rfl⟩
      · intro h0
        apply hmsg e (List.mem_append_left _ he)
        rw [herr, h0]
      · rw [String.append_assoc]
        exact append_ne_empty _ _ (by decide)
    refine ⟨fillSecuityPoliciesWithErrMsg_eraseStatus _ _, Or.inl ?_⟩
    intro p hp
    rw [fillSecuityPoliciesWithErrMsg_ErrorMsg _ _ p hp]
    exact herr
  · cases hfl : fillLoop env providerParams direction
      (newIds.foldl (fun m g => mapSet m g MAX_SEUCRITY_RULE_NUM)
        ((queriedFree direction evsP).foldl (fun m gf => mapSet m gf.1 gf.2) []))
      ((queriedFree direction evsP).map Prod.fst ++ newIds) 0 (p0 :: tl) (w ++ evsP) with
    | panic evs4 =>
      rw [hfl] at hcp
      simp only [] at hcp
      rw [hcp] at h
      cases h
    | done r evs4 =>
      obtain ⟨err, ps1⟩ := r
      rw [hfl] at hcp
      simp only [] at hcp
      rw [hcp] at h
      cases err with
      | some err =>
        simp only [Result.done.injEq] at h
        obtain ⟨rfl, rfl⟩ := h
        obtain ⟨⟨e, he, herr, -⟩, hers, -, -⟩ :=
          fillLoop_done_err _ _ _ _ _ _ _ _ (Nat.zero_le _) _ _ _ hfl
        have herrne : err ≠ "" := by
          intro h0
          apply hmsg e (List.mem_append_left _ (List.mem_append_right _ he))
          rw [herr, h0]
        refine ⟨(fillSecuityPoliciesWithErrMsg_eraseStatus _ _).trans hers, Or.inl ?_⟩
        intro p hp
        rw [fillSecuityPoliciesWithErrMsg_ErrorMsg _ _ p hp]
        exact herrne
      | none =>
        obtain ⟨hcaps, -, hps, -⟩ :=
          fillLoop_done_none _ _ _ _ _ _ _ _ (Nat.zero_le _) _ _ hfl
        -- the ids of this round are among those of the pass
        have hsubP : ∃ rest, evs = evsP ++ rest := by
          simp only [] at h
          split at h
          · revert h
            cases env.InstanceAssociateSecurityGroups (w ++ (evsP ++ evs4)) inst
                providerParams (newIds ++ exist) with
            | none =>
              intro h
              simp only [Result.done.injEq] at h
              exact ⟨_, h.2.symm.trans (List.append_assoc _ _ _)⟩
            | some err =>
              intro h
              simp only [Result.done.injEq] at h
              exact ⟨_, h.2.symm.trans
                ((List.append_assoc _ _ _).trans (List.append_assoc _ _ _))⟩
          · simp only [Result.done.injEq] at h
            exact ⟨_, h.2.symm⟩
        obtain ⟨rest, hrest⟩ := hsubP
        have hndP : ((queriedFree direction evsP).map Prod.fst ++ newIds).Nodup := by
          have := groupIdsUsed_nodup_left direction evsP rest (hrest ▸ hnd)
          unfold groupIdsUsed at this
          rw [hc] at this
          exact this
        have hidP : ∀ g ∈ (queriedFree direction evsP).map Prod.fst ++ newIds, g ≠ "" := by
          intro g hg
          apply hid g
          rw [hrest]
          apply groupIdsUsed_mem_left
          unfold groupIdsUsed
          rw [hc]
          exact hg
        have hleft := fillMap_leftover_eq_nil (queriedFree direction evsP) newIds (p0 :: tl)
          hndP hcaps hl
        rw [List.drop_zero, hleft, List.take_zero, List.nil_append, List.append_nil] at hps
        have hjoin := greedySlices_join
          (newIds.foldl (fun m g => mapSet m g MAX_SEUCRITY_RULE_NUM)
            ((queriedFree direction evsP).foldl (fun m gf => mapSet m gf.1 gf.2) []))
          ((queriedFree direction evsP).map Prod.fst ++ newIds) (p0 :: tl)
        rw [hleft, List.append_nil] at hjoin
        have hers1 : ps1.map eraseStatus = (p0 :: tl).map eraseStatus := by
          rw [hps, boundSlices_eraseStatus, hjoin]
        have hmsg1 : ps1.map (fun p => p.ErrorMsg) = (p0 :: tl).map (fun p => p.ErrorMsg) := by
          rw [hps, boundSlices_ErrorMsg, hjoin]
        have hgrp1 : ∀ p ∈ ps1, p.SecurityGroupId ≠ "" := by
          intro p hp
          rw [hps] at hp
          have := boundSlices_group _ p hp
          rw [greedySlices_fst] at this
          exact hidP _ this
        simp only [] at h
        split at h
        · revert h
          cases env.InstanceAssociateSecurityGroups (w ++ (evsP ++ evs4)) inst
              providerParams (newIds ++ exist) with
          | none =>
            intro h
            simp only [Result.done.injEq] at h
            obtain ⟨rfl, -⟩ := h
            exact ⟨hers1, Or.inr ⟨hmsg1, hgrp1⟩⟩
          | some err =>
            intro h
            simp only [Result.done.injEq] at h
            obtain ⟨rfl, -⟩ := h
            refine ⟨(fillSecuityPoliciesWithErrMsg_eraseStatus _ _).trans hers1, Or.inl ?_⟩
            intro p hp
            rw [fillSecuityPoliciesWithErrMsg_ErrorMsg _ _ p hp]
            unfold bindErrorMsg
            simp only [String.append_assoc]
            exact append_ne_empty _ _ (by decide)
        · simp only [Result.done.injEq] at h
          obtain ⟨rfl, -⟩ := h
          exact ⟨hers1, Or.inr ⟨hmsg1, hgrp1⟩⟩

end securitygroup

namespace securitygroup

/-- What a round of the second loop of `applyPolicies` that finishes leaves on the entries
of its group, when no provider error has an empty message and the group ids the round works
with are pairwise distinct and not empty. -/
theorem applyGroup_terminal (env : Env) (w : World) (ps : List SecurityPolicy)
    (direction : String) (ps' : List SecurityPolicy) (evs : List Event)
    (h : applyGroup env w ps direction = .done ps' evs)
    (hmsg : ∀ e ∈ evs, e.error? ≠ some "")
    (hnd : (groupIdsUsed direction evs).Nodup)
    (hid : ∀ g ∈ groupIdsUsed direction evs, g ≠ "") :
    ps'.map eraseStatus = ps.map eraseStatus ∧
      ((∀ p ∈ ps', p.ErrorMsg ≠ "") ∨
        (ps'.map (fun p => p.ErrorMsg) = ps.map (fun p => p.ErrorMsg) ∧
          ∀ p ∈ ps', p.SecurityGroupId ≠ "")) := by
  cases ps with
  | nil => simp [applyGroup] at h
  | cons p0 tl =>
    rcases applyGroup_cases env w p0 tl direction with
      ⟨err, evs1, heq, -, horigin, -⟩ | ⟨evs1, heq, -, -⟩ |
      ⟨providerParams, inst, exist, evs0, h0, -, heq⟩
    · rw [heq] at h
      simp only [Result.done.injEq] at h
      obtain ⟨rfl, rfl⟩ := h
      have herr : err ≠ "" := by
        rcases horigin with rfl | rfl | ⟨e, he, herr⟩
        · rw [String.append_assoc]
          exact append_ne_empty _ _ (by decide)
        · rw [String.append_assoc]
          exact append_ne_empty _ _ (by decide)
        · intro h0
          apply hmsg e he
          rw [herr, h0]
      refine ⟨fillSecuityPoliciesWithErrMsg_eraseStatus _ _, Or.inl ?_⟩
      intro p hp
      rw [fillSecuityPoliciesWithErrMsg_ErrorMsg _ _ p hp]
      exact herr
    · rw [heq] at h
      cases h
    · rw [heq] at h
      cases htail : applyGroupTail env (w ++ evs0) providerParams inst exist p0 (p0 :: tl)
          direction with
      | panic evs1 =>
        rw [htail] at h
        cases h
      | done ps1 evs1 =>
        rw [htail] at h
        simp only [Result.done.injEq] at h
        obtain ⟨rfl, rfl⟩ := h
        exact applyGroupTail_terminal env (w ++ evs0) providerParams inst exist p0 tl
          direction ps1 evs1 htail (fun e he => hmsg e (List.mem_append_right _ he))
          (groupIdsUsed_nodup_right direction evs0 evs1 hnd)
          (fun g hg => hid g (groupIdsUsed_mem_right direction evs0 evs1 g hg))

/-! ## The first loop: grouping by owner IP -/

/-- The first loop of `applyPolicies` as a fold: the entries that support the API, with the
alias rewritten, are appended to the group of their `Ip`; the others are marked and copied
to the undo list. -/
theorem partitionLoop_eq (ps : List SecurityPolicy) (m0 : List (String × List SecurityPolicy))
    (u0 : List SecurityPolicy) :
    partitionLoop ps m0 u0 =
      (((ps.filter (fun p => p.SupportSecurityGroupApi)).map normalizeType).foldl
          (fun m q => mapAppend m q.Ip q) m0,
        u0 ++ (ps.filter (fun p => !p.SupportSecurityGroupApi)).map
          (fun p => markUndo (normalizeType p))) := by
  induction ps generalizing m0 u0 with
  | nil => simp [partitionLoop]
  | cons p ps ih =>
    rw [partitionLoop_cons]
    cases hs : p.SupportSecurityGroupApi with
    | true =>
      simp only [if_true, List.filter_cons, hs, List.map_cons, List.foldl_cons,
        Bool.not_true, Bool.false_eq_true, if_false]
      rw [ih, normalizeType_Ip]
    | false =>
      simp only [Bool.false_eq_true, if_false, List.filter_cons, hs, Bool.not_false, if_true,
        List.map_cons]
      rw [ih]
      simp

end securitygroup

namespace securitygroup

/-! ## Maps of groups -/

theorem mapGet_mem {α : Type} (m : List (String × α)) (k : String) (v : α)
    (h : mapGet m k = some v) : (k, v) ∈ m := by
  induction m with
  | nil => simp [mapGet] at h
  | cons a m ih =>
    obtain ⟨ka, va⟩ := a
    simp only [mapGet] at h
    by_cases hk : ka = k
    · rw [if_pos hk] at h
      simp only [Option.some.injEq] at h
      subst hk; subst h
      exact List.mem_cons_self _ _
    · rw [if_neg hk] at h
      exact List.mem_cons_of_mem _ (ih h)

theorem mapAppend_flat_perm (m : List (String × List SecurityPolicy)) (k : String)
    (x : SecurityPolicy) :
    ((mapAppend m k x).flatMap Prod.snd).Perm (m.flatMap Prod.snd ++ [x]) := by
  induction m with
  | nil => simp [mapAppend, mapSet, mapGet]
  | cons a m ih =>
    obtain ⟨ka, va⟩ := a
    unfold mapAppend at ih ⊢
    by_cases hk : ka = k
    · simp only [mapGet, mapSet, if_pos hk, Option.getD_some, List.flatMap_cons]
      rw [List.append_assoc, List.append_assoc]
      exact List.Perm.append_left _ List.perm_append_comm
    · simp only [mapGet, mapSet, if_neg hk, List.flatMap_cons]
      rw [List.append_assoc]
      exact List.Perm.append_left _ ih

theorem groupFold_flat_perm (qs : List SecurityPolicy)
    (m0 : List (String × List SecurityPolicy)) :
    ((qs.foldl (fun m q => mapAppend m q.Ip q) m0).flatMap Prod.snd).Perm
      (m0.flatMap Prod.snd ++ qs) := by
  induction qs generalizing m0 with
  | nil => simp
  | cons q qs ih =>
    simp only [List.foldl_cons]
    refine (ih _).trans ?_
    refine ((mapAppend_flat_perm m0 q.Ip q).append_right qs).trans ?_
    simp

theorem groupFold_keys_nodup (qs : List SecurityPolicy)
    (m0 : List (String × List SecurityPolicy)) (h : (mapKeys m0).Nodup) :
    (mapKeys (qs.foldl (fun m q => mapAppend m q.Ip q) m0)).Nodup := by
  induction qs generalizing m0 with
  | nil => exact h
  | cons q qs ih =>
    simp only [List.foldl_cons]
    exact ih _ (mapKeys_mapSet_nodup m0 q.Ip _ h)

/-- Walking the keys of a map and reading each group gives the groups of the map in order. -/
theorem flatMap_keys_eq (m : List (String × List SecurityPolicy)) (h : (mapKeys m).Nodup) :
    (mapKeys m).flatMap (fun k => (mapGet m k).getD []) = m.flatMap Prod.snd := by
  induction m with
  | nil => rfl
  | cons a m ih =>
    obtain ⟨ka, va⟩ := a
    simp only [mapKeys, List.map_cons, List.nodup_cons] at h
    simp only [mapKeys, List.map_cons, List.flatMap_cons, mapGet, if_true, Option.getD_some]
    congr 1
    rw [← ih h.2]
    apply List.flatMap_congr
    intro k hk
    have hne : ka ≠ k := by
      rintro rfl
      exact h.1 hk
    rw [if_neg hne]

/-! ## The second and the last loop -/

/-- A relation that holds between the group a round is given and the group it leaves holds
for every group the second loop walks, and the other groups are not touched. -/
theorem applyLoop_rel (R : List SecurityPolicy → List SecurityPolicy → Prop) (env : Env)
    (direction : String) (ks : List String) (m : List (String × List SecurityPolicy))
    (w : World) (m' : List (String × List SecurityPolicy)) (evs : List Event)
    (hnd : ks.Nodup)
    (h : applyLoop env direction ks m w = .done m' evs)
    (hR : ∀ w' g g' evk, evk.Sublist evs → applyGroup env w' g direction = .done g' evk →
      R g g') :
    mapKeys m' = mapKeys m ∧
      (∀ k ∈ ks, R ((mapGet m k).getD []) ((mapGet m' k).getD [])) ∧
      ∀ k, k ∉ ks → mapGet m' k = mapGet m k := by
  induction ks generalizing m w evs with
  | nil =>
    simp only [applyLoop, Result.done.injEq] at h
    obtain ⟨rfl, rfl⟩ := h
    simp
  | cons k ks ih =>
    simp only [applyLoop] at h
    simp only [List.nodup_cons] at hnd
    cases hg : applyGroup env w ((mapGet m k).getD []) direction with
    | panic evk => rw [hg] at h; cases h
    | done g' evk =>
      rw [hg] at h
      simp only [] at h
      cases hrest : applyLoop env direction ks (mapSet m k g') (w ++ evk) with
      | panic evs2 => rw [hrest] at h; cases h
      | done m'' evs2 =>
        rw [hrest] at h
        simp only [Result.done.injEq] at h
        obtain ⟨rfl, rfl⟩ := h
        obtain ⟨hkeys, hin, hout⟩ := ih (mapSet m k g') (w ++ evk) evs2 hnd.2 hrest
          (fun w' g g'' evk' hsub hrun =>
            hR w' g g'' evk' (hsub.trans (List.sublist_append_right _ _)) hrun)
        have hkm : k ∈ mapKeys m := by
          by_contra hk
          rw [(mapGet_eq_none_iff m k).2 hk] at hg
          simp [applyGroup] at hg
        refine ⟨hkeys.trans (mapKeys_mapSet_of_mem m k g' hkm), ?_, ?_⟩
        · intro k' hk'
          rcases List.mem_cons.1 hk' with rfl | hk'
          · rw [hout k' hnd.1, mapGet_mapSet, if_pos rfl]
            exact hR w _ g' evk (List.sublist_append_left _ _) hg
          · have hne : k ≠ k' := by
              rintro rfl
              exact hnd.1 hk'
            have := hin k' hk'
            rw [mapGet_mapSet, if_neg hne] at this
            exact this
        · intro k' hk'
          simp only [List.mem_cons, not_or] at hk'
          rw [hout k' hk'.2, mapGet_mapSet, if_neg (Ne.symm hk'.1)]

theorem collectLoop_eq (m : List (String × List SecurityPolicy)) (ks : List String)
    (s f : List SecurityPolicy) :
    collectLoop m ks (s, f) =
      (s ++ (ks.flatMap fun k => (mapGet m k).getD []).filter (fun p => p.ErrorMsg = ""),
        f ++ (ks.flatMap fun k => (mapGet m k).getD []).filter
          (fun p => ¬ p.ErrorMsg = "")) := by
  induction ks generalizing s f with
  | nil => simp [collectLoop]
  | cons k ks ih =>
    simp only [collectLoop, collectGroup_eq, ih, List.flatMap_cons, List.filter_append,
      List.append_assoc]

end securitygroup

namespace securitygroup

theorem groupIdsUsed_sublist (direction : String) (a b : List Event) (h : a.Sublist b) :
    (groupIdsUsed direction a).Sublist (groupIdsUsed direction b) := by
  unfold groupIdsUsed queriedFree createdIds
  exact List.Sublist.append ((h.filterMap _).map _) (h.filterMap _)

/-- The shape of a pass that finishes, when no provider error has an empty message and the
group ids the pass works with are pairwise distinct and not empty: the entries that support
the API are grouped in a map `m`, every round turns its group of `m` into the group of `m'`
as `applyGroup_terminal` says, and the result lists are read off `m'`. -/
theorem applyPolicies_done_shape (env : Env) (w : World) (policies : List SecurityPolicy)
    (direction : String) (r : ApplyResult) (evs : List Event)
    (hrun : applyPolicies env w policies direction = .done r evs)
    (hmsg : ∀ e ∈ evs, e.error? ≠ some "")
    (hnd : (groupIdsUsed direction evs).Nodup)
    (hid : ∀ g ∈ groupIdsUsed direction evs, g ≠ "") :
    ∃ (m m' : List (String × List SecurityPolicy)) (ks : List String),
      (m.flatMap Prod.snd).Perm
        ((policies.filter (fun p => p.SupportSecurityGroupApi)).map normalizeType) ∧
      (mapKeys m).Nodup ∧ ks.Perm (mapKeys m) ∧
      (∀ k ∈ ks,
        ((mapGet m' k).getD []).map eraseStatus = ((mapGet m k).getD []).map eraseStatus ∧
        ((∀ p ∈ (mapGet m' k).getD [], p.ErrorMsg ≠ "") ∨
          (((mapGet m' k).getD []).map (fun p => p.ErrorMsg) =
              ((mapGet m k).getD []).map (fun p => p.ErrorMsg) ∧
            ∀ p ∈ (mapGet m' k).getD [], p.SecurityGroupId ≠ ""))) ∧
      r.SuccessPolicies =
        (ks.flatMap fun k => (mapGet m' k).getD []).filter (fun p => p.ErrorMsg = "") ∧
      r.FailedPolicies =
        (ks.flatMap fun k => (mapGet m' k).getD []).filter (fun p => ¬ p.ErrorMsg = "") ∧
      r.UndoPolicies =
        (policies.filter (fun p => !p.SupportSecurityGroupApi)).map
          (fun p => markUndo (normalizeType p)) := by
  unfold applyPolicies at hrun
  rw [partitionLoop_eq policies [] []] at hrun
  simp only [List.nil_append] at hrun
  have hperm := groupFold_flat_perm
    ((policies.filter (fun p => p.SupportSecurityGroupApi)).map normalizeType) []
  have hkeys := groupFold_keys_nodup
    ((policies.filter (fun p => p.SupportSecurityGroupApi)).map normalizeType) []
    (by simp [mapKeys])
  simp only [List.flatMap_nil, List.nil_append] at hperm
  generalize ((policies.filter (fun p => p.SupportSecurityGroupApi)).map normalizeType).foldl
    (fun m q => mapAppend m q.Ip q) [] = m at hrun hperm hkeys
  cases hloop : applyLoop env direction
      (rangeKeys (env.mapOrder w (mapKeys m)) (mapKeys m)) m w with
  | panic evs1 => rw [hloop] at hrun; cases hrun
  | done m' evs1 =>
    rw [hloop] at hrun
    simp only [Result.done.injEq] at hrun
    obtain ⟨rfl, rfl⟩ := hrun
    have hK := rangeKeys_perm (env.mapOrder w (mapKeys m)) (mapKeys m) hkeys
    obtain ⟨hkm, hin, -⟩ := applyLoop_rel
      (fun g g' => g'.map eraseStatus = g.map eraseStatus ∧
        ((∀ p ∈ g', p.ErrorMsg ≠ "") ∨
          (g'.map (fun p => p.ErrorMsg) = g.map (fun p => p.ErrorMsg) ∧
            ∀ p ∈ g', p.SecurityGroupId ≠ "")))
      env direction _ m w m' evs1 (hK.nodup_iff.2 hkeys) hloop
      (fun w' g g' evk hsub hg =>
        applyGroup_terminal env w' g direction g' evk hg
          (fun e he => hmsg e (hsub.subset he))
          (hnd.sublist (groupIdsUsed_sublist direction evk evs1 hsub))
          (fun x hx => hid x ((groupIdsUsed_sublist direction evk evs1 hsub).subset hx)))
    have hK' := rangeKeys_perm (env.mapOrder (w ++ evs1) (mapKeys m')) (mapKeys m')
      (hkm ▸ hkeys)
    refine ⟨m, m', rangeKeys (env.mapOrder (w ++ evs1) (mapKeys m')) (mapKeys m'), hperm,
      hkeys, hkm ▸ hK', ?_, ?_, ?_, rfl⟩
    · intro k hk
      apply hin k
      rw [mem_rangeKeys] at hk ⊢
      rw [← hkm]
      exact hk
    · simp only [collectLoop_eq, List.nil_append]
    · simp only [collectLoop_eq, List.nil_append]

end securitygroup

namespace securitygroup

theorem mem_group_of_mapGet (m : List (String × List SecurityPolicy)) (k : String)
    (q : SecurityPolicy) (h : q ∈ (mapGet m k).getD []) : q ∈ m.flatMap Prod.snd := by
  cases hg : mapGet m k with
  | none => rw [hg] at h; simp at h
  | some l =>
    rw [hg] at h
    exact List.mem_flatMap.2 ⟨(k, l), mapGet_mem m k l hg, h⟩

set_option maxRecDepth 100000 in
/-- C10 fails as stated: an entry that does not support the API and arrives with an error
message gets its undo reason and keeps the message, so two of the three states hold. -/
theorem stale_entry_in_two_states :
    ((applyPolicies plainEnv [] [staleEntry] INGRESS_RULE).value?.map fun r =>
      (r.SuccessPolicies.length, r.FailedPolicies.length,
        r.UndoPolicies.map fun p => (p.ErrorMsg, p.UndoReason, terminalStates p))) =
      some (0, 0,
        [("request rejected", "instanceType(cvm) do not support security group api", 2)]) := by
  decide

end securitygroup

namespace securitygroup

theorem value_events_done {α : Type} (x : Result α) (a : α) (h : x.value? = some a) :
    x = .done a x.events := by
  cases x with
  | done b evs =>
    simp only [Result.value?, Option.some.injEq] at h
    subst h
    rfl
  | panic evs => simp [Result.value?] at h

/-- C10, amended: a pass that finishes on entries that arrive without error message and
without undo reason, when no provider error has an empty message and the ids of the groups
the pass reads and creates are pairwise distinct and not empty. Then exactly one of the three
terminal states holds for every entry of the three result lists: an entry of
`SuccessPolicies` has a group id and neither message nor undo reason, an entry of
`UndoPolicies` has an undo reason and no message, an entry of `FailedPolicies` has a message
and no undo reason; and every input entry is in the lists exactly once: the entries that
support the API are, up to message and group id, those of `SuccessPolicies` and
`FailedPolicies`, the others are those of `UndoPolicies`, in order. -/
theorem applyPolicies_one_terminal_state (env : Env) (w : World)
    (policies : List SecurityPolicy) (direction : String) (r : ApplyResult)
    (hrun : (applyPolicies env w policies direction).value? = some r)
    (hfresh : ∀ p ∈ policies, p.ErrorMsg = "" ∧ p.UndoReason = "")
    (hmsg : ∀ e ∈ (applyPolicies env w policies direction).events, e.error? ≠ some "")
    (hnd : (groupIdsUsed direction (applyPolicies env w policies direction).events).Nodup)
    (hid : ∀ g ∈ groupIdsUsed direction (applyPolicies env w policies direction).events,
      g ≠ "") :
    (∀ p ∈ r.SuccessPolicies ++ r.UndoPolicies ++ r.FailedPolicies, terminalStates p = 1) ∧
      (∀ p ∈ r.SuccessPolicies,
        p.SecurityGroupId ≠ "" ∧ p.ErrorMsg = "" ∧ p.UndoReason = "") ∧
      (∀ p ∈ r.UndoPolicies, p.UndoReason ≠ "" ∧ p.ErrorMsg = "") ∧
      (∀ p ∈ r.FailedPolicies, p.ErrorMsg ≠ "" ∧ p.UndoReason = "") ∧
      ((r.SuccessPolicies ++ r.FailedPolicies).map eraseStatus).Perm
        ((policies.filter (fun p => p.SupportSecurityGroupApi)).map
          (fun p => eraseStatus (normalizeType p))) ∧
      r.UndoPolicies =
        (policies.filter (fun p => !p.SupportSecurityGroupApi)).map
          (fun p => markUndo (normalizeType p)) := by
  have hdone := value_events_done _ r hrun
  generalize (applyPolicies env w policies direction).events = evs at hdone hmsg hnd hid
  obtain ⟨m, m', ks, hperm, hkeys, hks, hR, hS, hF, hU⟩ :=
    applyPolicies_done_shape env w policies direction r evs hdone hmsg hnd hid
  -- the entries of the groups come from the input
  have hin : ∀ k, ∀ q ∈ (mapGet m k).getD [], q.ErrorMsg = "" ∧ q.UndoReason = "" := by
    intro k q hq
    have h1 := hperm.mem_iff.1 (mem_group_of_mapGet m k q hq)
    obtain ⟨p0, hp0, rfl⟩ := List.mem_map.1 h1
    have hp := hfresh p0 (List.mem_of_mem_filter hp0)
    rw [normalizeType_ErrorMsg, normalizeType_UndoReason]
    exact hp
  have hundo : ∀ k ∈ ks, ∀ p ∈ (mapGet m' k).getD [], p.UndoReason = "" := by
    intro k hk p hp
    have h1 : eraseStatus p ∈ ((mapGet m' k).getD []).map eraseStatus :=
      List.mem_map.2 ⟨p, hp, rfl⟩
    rw [(hR k hk).1] at h1
    obtain ⟨q, hq, hqp⟩ := List.mem_map.1 h1
    have h2 : (eraseStatus q).UndoReason = (eraseStatus p).UndoReason :=
      congrArg SecurityPolicy.UndoReason hqp
    have h2 : q.UndoReason = p.UndoReason := h2
    rw [← h2]
    exact (hin k q hq).2
  have hsucc : ∀ p ∈ r.SuccessPolicies,
      p.SecurityGroupId ≠ "" ∧ p.ErrorMsg = "" ∧ p.UndoReason = "" := by
    intro p hp
    rw [hS, List.mem_filter] at hp
    obtain ⟨hmem, hok⟩ := hp
    have hok : p.ErrorMsg = "" := by simpa using hok
    obtain ⟨k, hk, hpk⟩ := List.mem_flatMap.1 hmem
    refine ⟨?_, hok, hundo k hk p hpk⟩
    rcases (hR k hk).2 with hall | ⟨-, hall⟩
    · exact absurd hok (hall p hpk)
    · exact hall p hpk
  have hfailed : ∀ p ∈ r.FailedPolicies, p.ErrorMsg ≠ "" ∧ p.UndoReason = "" := by
    intro p hp
    rw [hF, List.mem_filter] at hp
    obtain ⟨hmem, hno⟩ := hp
    have hno : p.ErrorMsg ≠ "" := by simpa using hno
    obtain ⟨k, hk, hpk⟩ := List.mem_flatMap.1 hmem
    exact ⟨hno, hundo k hk p hpk⟩
  have hund : ∀ p ∈ r.UndoPolicies, p.UndoReason ≠ "" ∧ p.ErrorMsg = "" := by
    intro p hp
    rw [hU] at hp
    obtain ⟨p0, hp0, rfl⟩ := List.mem_map.1 hp
    constructor
    · show "instanceType(" ++ (normalizeType p0).Typ ++
        ") do not support security group api" ≠ ""
      rw [String.append_assoc]
      exact append_ne_empty _ _ (by decide)
    · show (normalizeType p0).ErrorMsg = ""
      rw [normalizeType_ErrorMsg]
      exact (hfresh p0 (List.mem_of_mem_filter hp0)).1
  refine ⟨?_, hsucc, hund, hfailed, ?_, hU⟩
  · intro p hp
    simp only [List.mem_append] at hp
    unfold terminalStates
    rcases hp with (hp | hp) | hp
    · obtain ⟨h1, h2, h3⟩ := hsucc p hp
      simp [h1, h2, h3]
    · obtain ⟨h1, h2⟩ := hund p hp
      simp [h1, h2]
    · obtain ⟨h1, h2⟩ := hfailed p hp
      simp [h1, h2]
  · rw [hS, hF]
    have h1 : ((ks.flatMap fun k => (mapGet m' k).getD []).filter (fun p => p.ErrorMsg = "") ++
        (ks.flatMap fun k => (mapGet m' k).getD []).filter (fun p => ¬ p.ErrorMsg = "")).Perm
        (ks.flatMap fun k => (mapGet m' k).getD []) := by
      have := List.filter_append_perm (fun p : SecurityPolicy => decide (p.ErrorMsg = ""))
        (ks.flatMap fun k => (mapGet m' k).getD [])
      simpa using this
    refine (h1.map eraseStatus).trans ?_
    have h2 : (ks.flatMap fun k => (mapGet m' k).getD []).map eraseStatus =
        (ks.flatMap fun k => (mapGet m k).getD []).map eraseStatus := by
      rw [List.map_flatMap, List.map_flatMap]
      apply List.flatMap_congr
      intro k hk
      exact (hR k hk).1
    rw [h2]
    have h3 : (ks.flatMap fun k => (mapGet m k).getD []).Perm (m.flatMap Prod.snd) := by
      rw [← flatMap_keys_eq m hkeys]
      exact hks.flatMap_right _
    refine (h3.map eraseStatus).trans ?_
    have h4 := hperm.map eraseStatus
    rw [List.map_map] at h4
    exact h4

end securitygroup

namespace securitygroup

set_option maxRecDepth 100000 in
theorem applyPolicies_one_terminal_state_witness :
    ((applyPolicies rejectOtherEnv [] mixedBatch INGRESS_RULE).value?.map fun r =>
        (r.SuccessPolicies.map fun p => (p.PeerIp, p.SecurityGroupId),
          r.UndoPolicies.map fun p => p.PeerIp,
          r.FailedPolicies.map fun p => p.PeerIp)) =
        some ([("10.0.0.2", "sg-1")], ["10.0.0.4"], ["10.0.0.3"]) ∧
      ∃ r, (applyPolicies rejectOtherEnv [] mixedBatch INGRESS_RULE).value? = some r ∧
        (∀ p ∈ r.SuccessPolicies ++ r.UndoPolicies ++ r.FailedPolicies,
          terminalStates p = 1) ∧
        (∀ p ∈ r.SuccessPolicies,
          p.SecurityGroupId ≠ "" ∧ p.ErrorMsg = "" ∧ p.UndoReason = "") ∧
        (∀ p ∈ r.UndoPolicies, p.UndoReason ≠ "" ∧ p.ErrorMsg = "") ∧
        (∀ p ∈ r.FailedPolicies, p.ErrorMsg ≠ "" ∧ p.UndoReason = "") ∧
        ((r.SuccessPolicies ++ r.FailedPolicies).map eraseStatus).Perm
          ((mixedBatch.filter (fun p => p.SupportSecurityGroupApi)).map
            (fun p => eraseStatus (normalizeType p))) ∧
        r.UndoPolicies =
          (mixedBatch.filter (fun p => !p.SupportSecurityGroupApi)).map
            (fun p => markUndo (normalizeType p)) :=
  ⟨by decide,
    ((applyPolicies rejectOtherEnv [] mixedBatch INGRESS_RULE).value?).get (by decide),
    (Option.some_get _).symm,
    applyPolicies_one_terminal_state rejectOtherEnv [] mixedBatch INGRESS_RULE _
      (Option.some_get _).symm (by decide) (by decide) (by decide) (by decide)⟩

end securitygroup

namespace securitygroup

/-! ## Validation of an apply request -/

theorem checkLoop_eq_none_iff (msg : String) (ps : List SecurityPolicy) :
    checkLoop msg ps = none ↔ ∀ p ∈ ps, p.Ip ≠ "" ∧ p.Id ≠ "" := by
  induction ps with
  | nil => simp [checkLoop]
  | cons p ps ih =>
    simp only [checkLoop, List.mem_cons, forall_eq_or_imp]
    by_cases h : p.Ip = "" ∨ p.Id = ""
    · rw [if_pos h]
      simp only [false_iff, not_and, reduceCtorEq]
      intro h1
      rcases h with h | h
      · exact absurd h h1.1
      · exact absurd h h1.2
    · rw [if_neg h, ih]
      simp only [not_or] at h
      simp [h]

theorem checkLoop_eq_some (msg : String) (ps : List SecurityPolicy) (err : String)
    (h : checkLoop msg ps = some err) : err = msg := by
  induction ps with
  | nil => simp [checkLoop] at h
  | cons p ps ih =>
    simp only [checkLoop] at h
    split at h
    · simpa using h.symm
    · exact ih h

/-- C13. `ApplySecurityPolicyAction.CheckParam` returns an error exactly when an entry of
the ingress or of the egress list has an empty `Ip` or an empty `Id`: the ingress message
when it is an ingress entry, the egress message otherwise; it makes no external call; and
when it returns no error every entry of both lists has a non-empty `Ip` and a non-empty
`Id`. -/
theorem CheckParam_error_iff_empty_value (req : ApplySecurityPoliciesRequest) :
    ((ApplySecurityPolicyAction.CheckParam req).1 ≠ none ↔
        ∃ p ∈ req.IngressPolicies ++ req.EgressPolicies, p.Ip = "" ∨ p.Id = "") ∧
      (ApplySecurityPolicyAction.CheckParam req).2 = [] ∧
      ((ApplySecurityPolicyAction.CheckParam req).1 = none →
        ∀ p ∈ req.IngressPolicies ++ req.EgressPolicies, p.Ip ≠ "" ∧ p.Id ≠ "") ∧
      ((∃ p ∈ req.IngressPolicies, p.Ip = "" ∨ p.Id = "") →
        (ApplySecurityPolicyAction.CheckParam req).1 =
          some "ingress policy have empty value") ∧
      ((∀ p ∈ req.IngressPolicies, p.Ip ≠ "" ∧ p.Id ≠ "") →
        (∃ p ∈ req.EgressPolicies, p.Ip = "" ∨ p.Id = "") →
        (ApplySecurityPolicyAction.CheckParam req).1 =
          some "egress policy have empty value") := by
  have hI := checkLoop_eq_none_iff "ingress policy have empty value" req.IngressPolicies
  have hE := checkLoop_eq_none_iff "egress policy have empty value" req.EgressPolicies
  have hIs := checkLoop_eq_some "ingress policy have empty value" req.IngressPolicies
  have hEs := checkLoop_eq_some "egress policy have empty value" req.EgressPolicies
  have hnone : (ApplySecurityPolicyAction.CheckParam req).1 = none ↔
      ∀ p ∈ req.IngressPolicies ++ req.EgressPolicies, p.Ip ≠ "" ∧ p.Id ≠ "" := by
    unfold ApplySecurityPolicyAction.CheckParam
    cases h1 : checkLoop "ingress policy have empty value" req.IngressPolicies with
    | some e =>
      simp only [reduceCtorEq, false_iff]
      intro hall
      have := hI.2 (fun p hp => hall p (List.mem_append_left _ hp))
      rw [h1] at this
      cases this
    | none =>
      cases h2 : checkLoop "egress policy have empty value" req.EgressPolicies with
      | some e =>
        simp only [reduceCtorEq, false_iff]
        intro hall
        have := hE.2 (fun p hp => hall p (List.mem_append_right _ hp))
        rw [h2] at this
        cases this
      | none =>
        simp only [true_iff]
        intro p hp
        rcases List.mem_append.1 hp with hp | hp
        · exact hI.1 h1 p hp
        · exact hE.1 h2 p hp
  refine ⟨?_, ?_, hnone.1, ?_, ?_⟩
  · rw [Ne, hnone]
    constructor
    · intro h
      by_contra hno
      apply h
      intro p hp
      constructor
      · intro h1; exact hno ⟨p, hp, Or.inl h1⟩
      · intro h1; exact hno ⟨p, hp, Or.inr h1⟩
    · rintro ⟨p, hp, h⟩ hall
      rcases h with h | h
      · exact (hall p hp).1 h
      · exact (hall p hp).2 h
  · unfold ApplySecurityPolicyAction.CheckParam
    split
    · rfl
    · split <;> rfl
  · rintro ⟨p, hp, h⟩
    unfold ApplySecurityPolicyAction.CheckParam
    cases h1 : checkLoop "ingress policy have empty value" req.IngressPolicies with
    | some e => rw [hIs e h1]
    | none =>
      exfalso
      have := hI.1 h1 p hp
      rcases h with h | h
      · exact this.1 h
      · exact this.2 h
  · rintro hall ⟨p, hp, h⟩
    unfold ApplySecurityPolicyAction.CheckParam
    rw [hI.2 hall]
    cases h2 : checkLoop "egress policy have empty value" req.EgressPolicies with
    | some e => rw [hEs e h2]
    | none =>
      exfalso
      have := hE.1 h2 p hp
      rcases h with h | h
      · exact this.1 h
      · exact this.2 h

end securitygroup

namespace securitygroup

/-! ## `newPolicies` -/

theorem getResouceTypeByName_of_mem (name : String) (h : name ∈ registeredResourceTypes) :
    getResouceTypeByName name = .ok name := by
  unfold getResouceTypeByName
  rw [if_pos h]

theorem newPolicies_plain (env : CalcEnv) (w : CalcWorld) (inst : ResourceInstance)
    (myIp peerIp proto port action desc : String)
    (hreg : inst.typeName ∈ registeredResourceTypes)
    (hlb : env.IsLoadBalanceType inst.typeName = false) :
    newPolicies env w inst myIp peerIp proto port action desc =
      .done ([newPolicy inst myIp peerIp proto port action desc], none) [] := by
  unfold newPolicies
  rw [getResouceTypeByName_of_mem _ hreg]
  simp only [hlb, if_true]

theorem portLoop_plain (env : CalcEnv) (inst : ResourceInstance)
    (devIp peerIp proto action desc : String)
    (hreg : inst.typeName ∈ registeredResourceTypes)
    (hlb : env.IsLoadBalanceType inst.typeName = false) (ports : List String)
    (policies : List SecurityPolicy) (w : CalcWorld) :
    portLoop env inst devIp peerIp proto action desc ports policies w =
      .done (policies ++ ports.map fun port =>
        newPolicy inst devIp peerIp proto port action desc, none) [] := by
  induction ports generalizing policies w with
  | nil => simp [portLoop]
  | cons port ports ih =>
    simp only [portLoop, newPolicies_plain env w inst devIp peerIp proto port action desc
      hreg hlb, List.length_singleton, gt_iff_lt, Nat.lt_one_iff, if_true, ih,
      List.append_nil, List.map_cons, List.append_assoc, List.singleton_append]

theorem peerLoop_plain (env : CalcEnv) (inst : ResourceInstance)
    (devIp proto : String) (ports : List String) (action desc direction : String)
    (hreg : inst.typeName ∈ registeredResourceTypes)
    (hlb : env.IsLoadBalanceType inst.typeName = false) (peers : List String)
    (hpeers : ∀ peer ∈ peers, ∀ w',
      isLoadBalancePeer env direction (findInstanceByIp env w' peer).1 = false)
    (policies : List SecurityPolicy) (w : CalcWorld) :
    (peerLoop env inst devIp proto ports action desc direction peers policies w).value? =
      some (policies ++ peers.flatMap fun peer => ports.map fun port =>
        newPolicy inst devIp peer proto port action desc, none) := by
  induction peers generalizing policies w with
  | nil => simp [peerLoop, CalcResult.value?]
  | cons peer peers ih =>
    simp only [peerLoop, hpeers peer (List.mem_cons_self _ _) w, Bool.false_eq_true,
      if_false, portLoop_plain env inst devIp peer proto action desc hreg hlb]
    have := ih (fun q hq => hpeers q (List.mem_cons_of_mem _ hq))
      (policies ++ ports.map fun port => newPolicy inst devIp peer proto port action desc)
      (w ++ (findInstanceByIp env w peer).2 ++ [])
    revert this
    cases peerLoop env inst devIp proto ports action desc direction peers
      (policies ++ ports.map fun port => newPolicy inst devIp peer proto port action desc)
      (w ++ (findInstanceByIp env w peer).2 ++ []) with
    | panic evs => simp [CalcResult.value?]
    | done r evs =>
      simp only [CalcResult.value?, Option.some.injEq, List.flatMap_cons, List.append_assoc]
      exact id

theorem calcPolicies_plain (env : CalcEnv) (inst : ResourceInstance)
    (hreg : inst.typeName ∈ registeredResourceTypes)
    (hlb : env.IsLoadBalanceType inst.typeName = false) (w : CalcWorld) (devIp : String)
    (peerIps : List String) (proto : String) (ports : List String)
    (action desc direction : String)
    (hdev : (findInstanceByIp env w devIp).1 = .ok inst)
    (hskip : ¬ (direction = EGRESS_RULE ∧ env.IsSupportEgressPolicy inst.typeName = false))
    (hpeers : ∀ peer ∈ peerIps, ∀ w',
      isLoadBalancePeer env direction (findInstanceByIp env w' peer).1 = false) :
    (calcPolicies env w devIp peerIps proto ports action desc direction).value? =
      some (peerIps.flatMap fun peer => ports.map fun port =>
        newPolicy inst devIp peer proto port action desc, none) := by
  unfold calcPolicies
  simp only [hdev, getResouceTypeByName_of_mem _ hreg, hskip, if_false]
  have := peerLoop_plain env inst devIp proto ports action desc direction hreg hlb peerIps
    hpeers [] (w ++ (findInstanceByIp env w devIp).2)
  revert this
  cases peerLoop env inst devIp proto ports action desc direction peerIps []
    (w ++ (findInstanceByIp env w devIp).2) with
  | panic evs => simp [CalcResult.value?]
  | done r evs =>
    simp only [CalcResult.value?, Option.some.injEq, List.nil_append]
    exact id

/-- C14. For a resource of a registered type that is not a load balancer, `newPolicies`
returns, without error and without external call, exactly one policy: its `Ip` is the
address it was given as the owner, its `Type`, `Id`, `Region` and
`SupportSecurityGroupApi` are those of the resource, and peer, protocol, port, action and
description are the arguments unchanged. Consequently `calcPolicies` on a device that
resolves to such a resource, when the direction is not skipped for its type and no peer is
rejected as a load balancer, returns without error exactly one policy for every pair of a
peer and a port, peers first, in input order. -/
theorem newPolicies_one_policy_per_port (env : CalcEnv) (inst : ResourceInstance)
    (hreg : inst.typeName ∈ registeredResourceTypes)
    (hlb : env.IsLoadBalanceType inst.typeName = false) :
    (∀ w myIp peerIp proto port action desc,
      ∃ policy, newPolicies env w inst myIp peerIp proto port action desc =
          .done ([policy], none) [] ∧
        policy.Ip = myIp ∧ policy.Typ = inst.typeName ∧ policy.Id = inst.id ∧
        policy.Region = inst.region ∧
        policy.SupportSecurityGroupApi = inst.supportSecurityGroupApi ∧
        policy.PeerIp = peerIp ∧ policy.Protocol = proto ∧ policy.Ports = port ∧
        policy.Action = action ∧ policy.Description = desc ∧
        policy = newPolicy inst myIp peerIp proto port action desc) ∧
      ∀ w devIp peerIps proto ports action desc direction,
        (findInstanceByIp env w devIp).1 = .ok inst →
        ¬ (direction = EGRESS_RULE ∧ env.IsSupportEgressPolicy inst.typeName = false) →
        (∀ peer ∈ peerIps, ∀ w',
          isLoadBalancePeer env direction (findInstanceByIp env w' peer).1 = false) →
        (calcPolicies env w devIp peerIps proto ports action desc direction).value? =
          some (peerIps.flatMap fun peer => ports.map fun port =>
            newPolicy inst devIp peer proto port action desc, none) := by
  constructor
  · intro w myIp peerIp proto port action desc
    exact ⟨_, newPolicies_plain env w inst myIp peerIp proto port action desc hreg hlb,
      rfl, rfl, rfl, rfl, rfl, rfl, rfl, rfl, rfl, rfl, rfl⟩
  · intro w devIp peerIps proto ports action desc direction hdev hskip hpeers
    exact calcPolicies_plain env inst hreg hlb w devIp peerIps proto ports action desc
      direction hdev hskip hpeers

end securitygroup

namespace securitygroup

/-! ## `newPolicies` for a load balancer -/

theorem parseDigits_digits (cs : List Char) (acc n : Nat) (h : parseDigits cs acc = some n) :
    ∀ c ∈ cs, (digitVal c).isSome = true := by
  induction cs generalizing acc with
  | nil => simp
  | cons c cs ih =>
    simp only [parseDigits] at h
    cases hd : digitVal c with
    | none => rw [hd] at h; cases h
    | some d =>
      rw [hd] at h
      intro x hx
      rcases List.mem_cons.1 hx with rfl | hx
      · rw [hd]; rfl
      · exact ih _ h x hx

theorem parseDigits_no_comma (cs : List Char) (acc : Nat)
    (h : (parseDigits cs acc).isSome = true) : ',' ∉ cs := by
  cases hp : parseDigits cs acc with
  | none => rw [hp] at h; cases h
  | some n =>
    intro hmem
    have := parseDigits_digits cs acc n hp ',' hmem
    revert this
    decide

theorem Atoi_no_comma (s : String) (h : (Atoi s).isSome = true) : ',' ∉ s.data := by
  unfold Atoi at h
  split at h
  · cases h
  · rename_i ds hs
    rw [hs]
    split at h
    · cases h
    · have : (parseDigits ds 0).isSome = true := by
        cases hp : parseDigits ds 0 with
        | none => rw [hp] at h; cases h
        | some n => rfl
      have := parseDigits_no_comma ds 0 this
      simp only [List.mem_cons, not_or]
      exact ⟨by decide, this⟩
  · rename_i ds hs
    rw [hs]
    split at h
    · cases h
    · have : (parseDigits ds 0).isSome = true := by
        cases hp : parseDigits ds 0 with
        | none => rw [hp] at h; cases h
        | some n => rfl
      have := parseDigits_no_comma ds 0 this
      simp only [List.mem_cons, not_or]
      exact ⟨by decide, this⟩
  · have : (parseDigits s.data 0).isSome = true := by
      cases hp : parseDigits s.data 0 with
      | none => rw [hp] at h; cases h
      | some n => rfl
    exact parseDigits_no_comma s.data 0 this

theorem splitChars_of_not_mem (sep : Char) (cs : List Char) (h : sep ∉ cs) :
    splitChars sep cs = [cs] := by
  induction cs with
  | nil => rfl
  | cons c cs ih =>
    simp only [List.mem_cons, not_or] at h
    simp only [splitChars, if_neg (Ne.symm h.1), ih h.2]

theorem Split_of_Atoi (s : String) (h : (Atoi s).isSome = true) : Split s ',' = [s] := by
  unfold Split
  rw [splitChars_of_not_mem _ _ (Atoi_no_comma s h)]
  rfl

theorem backendLoop_eq (peerIp proto action desc : String) (backends : List ResourceInstance)
    (bports : List String) (policies : List SecurityPolicy)
    (hlen : bports.length = backends.length) :
    backendLoop peerIp proto action desc backends bports policies =
      some (policies ++ (backends.zip bports).map fun bp =>
        newPolicy bp.1 bp.1.ip peerIp proto bp.2 action desc) := by
  induction backends generalizing bports policies with
  | nil => simp [backendLoop]
  | cons b backends ih =>
    cases bports with
    | nil => simp at hlen
    | cons p bports =>
      simp only [List.length_cons, Nat.add_right_cancel_iff] at hlen
      simp only [backendLoop, ih bports _ hlen, List.zip_cons_cons, List.map_cons,
        List.append_assoc, List.singleton_append]

/-- C15. For a load balancer of a registered type and a port that `strconv.Atoi` accepts,
on which `GetBackendTargets` returns `k` backends and `k` ports without error: when
`k ≥ 1`, `newPolicies` returns without error exactly `k` policies, the `i`-th with the
`Ip`, `Type`, `Id`, `Region` and `SupportSecurityGroupApi` of the `i`-th backend and with
the `i`-th backend port as `Ports`; when `k = 0` it returns the no-backend error and no
policy. -/
theorem newPolicies_load_balancer_backends (env : CalcEnv) (w : CalcWorld)
    (inst : ResourceInstance) (myIp peerIp proto port action desc : String)
    (backends : List ResourceInstance) (bports : List String)
    (hreg : inst.typeName ∈ registeredResourceTypes)
    (hlb : env.IsLoadBalanceType inst.typeName = true)
    (hint : (Atoi port).isSome = true)
    (hret : env.GetBackendTargets
      (w ++ [CalcEvent.getProviderParams inst.region (env.getProviderParams w inst.region)])
      inst (env.getProviderParams w inst.region).1 proto port = .ok (backends, bports))
    (hlen : bports.length = backends.length) :
    (backends ≠ [] →
        ∃ policies,
          (newPolicies env w inst myIp peerIp proto port action desc).value? =
            some (policies, none) ∧
          policies.length = backends.length ∧
          policies = (backends.zip bports).map (fun bp =>
            newPolicy bp.1 bp.1.ip peerIp proto bp.2 action desc) ∧
          ∀ (i : Nat) (b : ResourceInstance) (bp : String),
            backends[i]? = some b → bports[i]? = some bp →
            ∃ p : SecurityPolicy, policies[i]? = some p ∧ p.Ip = b.ip ∧ p.Typ = b.typeName ∧ p.Id = b.id ∧
              p.Region = b.region ∧
              p.SupportSecurityGroupApi = b.supportSecurityGroupApi ∧ p.Ports = bp ∧
              p.PeerIp = peerIp ∧ p.Protocol = proto ∧ p.Action = action ∧
              p.Description = desc) ∧
      (backends = [] →
        (newPolicies env w inst myIp peerIp proto port action desc).value? =
          some ([], some (noBackendError inst.ip port))) := by
  have hsome : ∃ n, Atoi port = some n := by
    cases h : Atoi port with
    | none => rw [h] at hint; cases hint
    | some n => exact ⟨n, rfl⟩
  obtain ⟨n, hn⟩ := hsome
  constructor
  · intro hne
    refine ⟨_, ?_, ?_, rfl, ?_⟩
    · unfold newPolicies
      rw [getResouceTypeByName_of_mem _ hreg]
      simp only [hlb, Bool.true_eq_false, if_false, Split_of_Atoi port hint, splitPortLoop,
        hn, hret]
      have hl : ¬ backends.length = 0 := by
        intro h0
        exact hne (List.length_eq_zero.1 h0)
      simp only [hl, if_false, backendLoop_eq peerIp proto action desc backends bports [] hlen,
        List.nil_append, CalcResult.value?]
    · simp [hlen]
    · intro i b bp hb hbp
      refine ⟨newPolicy b b.ip peerIp proto bp action desc, ?_, rfl, rfl, rfl, rfl, rfl, rfl,
        rfl, rfl, rfl, rfl⟩
      have hz : (backends.zip bports)[i]? = some (b, bp) :=
        List.getElem?_zip_eq_some.2 ⟨hb, hbp⟩
      rw [List.getElem?_map, hz]
      rfl
  · intro hnil
    subst hnil
    unfold newPolicies
    rw [getResouceTypeByName_of_mem _ hreg]
    simp only [hlb, Bool.true_eq_false, if_false, Split_of_Atoi port hint, splitPortLoop,
      hn, hret, List.length_nil, if_true, CalcResult.value?]

/-! ## `calcPolicies`: the egress skip -/

/-- C17. For a device that resolves to a resource of a registered type that does not support
egress policy: with direction egress `calcPolicies` returns no policy and no error after
the lookup of the device, whatever the peers and the ports; with direction ingress it goes
on to the loop over the peers, and when the type is not a load balancer and no peer is
rejected it returns one policy for every pair of a peer and a port. -/
theorem calcPolicies_egress_not_supported (env : CalcEnv) (w : CalcWorld) (devIp : String)
    (inst : ResourceInstance)
    (hdev : (findInstanceByIp env w devIp).1 = .ok inst)
    (hreg : inst.typeName ∈ registeredResourceTypes)
    (hno : env.IsSupportEgressPolicy inst.typeName = false) :
    (∀ peerIps proto ports action desc,
      calcPolicies env w devIp peerIps proto ports action desc EGRESS_RULE =
        .done ([], none) (findInstanceByIp env w devIp).2) ∧
      (∀ peerIps proto ports action desc,
        calcPolicies env w devIp peerIps proto ports action desc INGRESS_RULE =
          match peerLoop env inst devIp proto ports action desc INGRESS_RULE peerIps []
              (w ++ (findInstanceByIp env w devIp).2) with
          | .done r evs => .done r ((findInstanceByIp env w devIp).2 ++ evs)
          | .panic evs => .panic ((findInstanceByIp env w devIp).2 ++ evs)) ∧
      (env.IsLoadBalanceType inst.typeName = false →
        ∀ peerIps proto ports action desc,
          (∀ peer ∈ peerIps, ∀ w',
            isLoadBalancePeer env INGRESS_RULE (findInstanceByIp env w' peer).1 = false) →
          (calcPolicies env w devIp peerIps proto ports action desc INGRESS_RULE).value? =
            some (peerIps.flatMap fun peer => ports.map fun port =>
              newPolicy inst devIp peer proto port action desc, none)) := by
  have hne : ¬ INGRESS_RULE = EGRESS_RULE := by decide
  have hing : ∀ peerIps proto ports action desc,
      calcPolicies env w devIp peerIps proto ports action desc INGRESS_RULE =
        match peerLoop env inst devIp proto ports action desc INGRESS_RULE peerIps []
            (w ++ (findInstanceByIp env w devIp).2) with
        | .done r evs => .done r ((findInstanceByIp env w devIp).2 ++ evs)
        | .panic evs => .panic ((findInstanceByIp env w devIp).2 ++ evs) := by
    intro peerIps proto ports action desc
    unfold calcPolicies
    cases hpl : peerLoop env inst devIp proto ports action desc INGRESS_RULE peerIps []
        (w ++ (findInstanceByIp env w devIp).2) with
    | done r evs =>
      simp only [hdev, getResouceTypeByName_of_mem _ hreg, hne, false_and, if_false, hpl]
    | panic evs =>
      simp only [hdev, getResouceTypeByName_of_mem _ hreg, hne, false_and, if_false, hpl]
  refine ⟨?_, hing, ?_⟩
  · intro peerIps proto ports action desc
    unfold calcPolicies
    simp only [hdev, getResouceTypeByName_of_mem _ hreg, hno, and_self, if_true]
  · intro hlb peerIps proto ports action desc hpeers
    rw [hing]
    have := peerLoop_plain env inst devIp proto ports action desc INGRESS_RULE hreg hlb
      peerIps hpeers [] (w ++ (findInstanceByIp env w devIp).2)
    revert this
    cases peerLoop env inst devIp proto ports action desc INGRESS_RULE peerIps []
      (w ++ (findInstanceByIp env w devIp).2) with
    | panic evs => simp [CalcResult.value?]
    | done r evs =>
      simp only [CalcResult.value?, Option.some.injEq, List.nil_append]
      exact id

end securitygroup

namespace securitygroup

/-! ## `CalcSecurityPolicyAction.Do` -/

theorem foldl_append_init (l : List String) (init : String) :
    l.foldl (fun acc e => acc ++ e) init = init ++ l.foldl (fun acc e => acc ++ e) "" := by
  induction l generalizing init with
  | nil => simp
  | cons a l ih =>
    simp only [List.foldl_cons]
    rw [ih (init ++ a), ih ("" ++ a), String.append_assoc]
    simp

theorem foldl_combineError (errs : List (Option String)) (fe : Option String) :
    errs.foldl combineError fe =
      match fe with
      | none => joinErrors errs
      | some f => some (f ++ (errs.filterMap id).foldl (fun acc e => acc ++ e) "") := by
  induction errs generalizing fe with
  | nil =>
    cases fe with
    | none => rfl
    | some f => simp
  | cons e errs ih =>
    simp only [List.foldl_cons]
    rw [ih]
    cases e with
    | none =>
      cases fe with
      | none =>
        simp only [combineError, joinErrors, List.all_cons, Option.isNone_none, Bool.true_and,
          List.filterMap_cons_none, id_eq]
      | some f => simp [combineError]
    | some e =>
      cases fe with
      | none =>
        simp only [combineError, joinErrors, List.all_cons, Option.isNone_some,
          Bool.false_and, Bool.false_eq_true, if_false, List.filterMap_cons_some, id_eq,
          List.foldl_cons, Option.some.injEq]
        rw [foldl_append_init _ ("" ++ e)]
        simp
      | some f =>
        simp only [combineError, List.filterMap_cons_some, id_eq, List.foldl_cons,
          Option.some.injEq]
        rw [foldl_append_init _ ("" ++ e), String.append_assoc]
        simp

theorem joinErrors_ne_none_iff (errs : List (Option String)) :
    joinErrors errs ≠ none ↔ ∃ e ∈ errs, e ≠ none := by
  unfold joinErrors
  by_cases h : errs.all Option.isNone = true
  · rw [if_pos h]
    simp only [ne_eq, not_true_eq_false, false_iff, not_exists, not_and, not_not]
    intro e he
    have := List.all_eq_true.1 h e he
    cases e with
    | none => rfl
    | some x => cases this
  · rw [if_neg h]
    simp only [ne_eq, reduceCtorEq, not_false_eq_true, true_iff]
    by_contra hno
    apply h
    rw [List.all_eq_true]
    intro e he
    cases e with
    | none => rfl
    | some x => exact absurd ⟨some x, he, by simp⟩ hno

/-- The loop over the owner addresses when no calculation panics: the policies of the
calculations one after the other, and their errors folded into `finalError`. -/
theorem doLoop_eq (env : CalcEnv) (peerIps : List String) (proto : String)
    (ports : List String) (action description direction : String) (ips : List String)
    (acc : List SecurityPolicy × Option String) (w : CalcWorld)
    (h : ∀ r ∈ calcRuns env peerIps proto ports action description direction ips w,
      r.value? ≠ none) :
    doLoop env peerIps proto ports action description direction ips acc w =
      .done
        (acc.1 ++ (calcRuns env peerIps proto ports action description direction ips
            w).flatMap policiesOf,
          ((calcRuns env peerIps proto ports action description direction ips w).map
            errorOf).foldl combineError acc.2)
        ((calcRuns env peerIps proto ports action description direction ips w).flatMap
          CalcResult.events) := by
  induction ips generalizing acc w with
  | nil => simp [doLoop, calcRuns]
  | cons ip ips ih =>
    simp only [calcRuns, List.mem_cons, forall_eq_or_imp] at h
    obtain ⟨h1, h2⟩ := h
    simp only [doLoop, calcRuns, List.flatMap_cons, List.map_cons, List.foldl_cons]
    cases hc : calcPolicies env w ip peerIps proto ports action description direction with
    | panic evs => rw [hc] at h1; simp [CalcResult.value?] at h1
    | done r evs =>
      obtain ⟨ps, err⟩ := r
      rw [hc] at h2
      simp only [CalcResult.events] at h2 ⊢
      rw [ih (acc.1 ++ ps, combineError acc.2 err) (w ++ evs) h2]
      simp only [policiesOf, errorOf, CalcResult.value?, List.append_assoc]

/-- C18. When none of the per-address calculations of a request panics,
`CalcSecurityPolicyAction.Do` returns: as egress list the policies of the calculations for
the source addresses one after the other in input order, as ingress list those for the
destination addresses, whatever each calculation returned beside them; both totals equal to
the lengths of the lists; and as error the messages of the calculations that returned one,
egress first, one after the other, which is an error exactly when at least one calculation
returned one. -/
theorem Do_concatenates_calculations (env : CalcEnv) (w : CalcWorld)
    (req : CalcSecurityPoliciesRequest)
    (h : ∀ r ∈ egressRuns env w req ++ ingressRuns env w req, r.value? ≠ none) :
    ∃ result err,
      CalcSecurityPolicyAction.Do env w req =
        .done (result, err)
          ((egressRuns env w req ++ ingressRuns env w req).flatMap CalcResult.events) ∧
      result.EgressPolicies = (egressRuns env w req).flatMap policiesOf ∧
      result.IngressPolicies = (ingressRuns env w req).flatMap policiesOf ∧
      result.EgressPoliciesTotal = result.EgressPolicies.length ∧
      result.IngressPoliciesTotal = result.IngressPolicies.length ∧
      err = joinErrors ((egressRuns env w req ++ ingressRuns env w req).map errorOf) ∧
      (err ≠ none ↔ ∃ r ∈ egressRuns env w req ++ ingressRuns env w req, errorOf r ≠ none) := by
  have hE : ∀ r ∈ egressRuns env w req, r.value? ≠ none :=
    fun r hr => h r (List.mem_append_left _ hr)
  have hI : ∀ r ∈ ingressRuns env w req, r.value? ≠ none :=
    fun r hr => h r (List.mem_append_right _ hr)
  have hiff : joinErrors ((egressRuns env w req ++ ingressRuns env w req).map errorOf) ≠ none ↔
      ∃ r ∈ egressRuns env w req ++ ingressRuns env w req, errorOf r ≠ none := by
    rw [joinErrors_ne_none_iff]
    constructor
    · rintro ⟨e, he, hne⟩
      obtain ⟨r, hr, rfl⟩ := List.mem_map.1 he
      exact ⟨r, hr, hne⟩
    · rintro ⟨r, hr, hne⟩
      exact ⟨errorOf r, List.mem_map.2 ⟨r, hr, rfl⟩, hne⟩
  have hfold : ((ingressRuns env w req).map errorOf).foldl combineError
      (((egressRuns env w req).map errorOf).foldl combineError none) =
      joinErrors ((egressRuns env w req ++ ingressRuns env w req).map errorOf) := by
    rw [← List.foldl_append, ← List.map_append, foldl_combineError]
  refine ⟨{ IngressPoliciesTotal := ((ingressRuns env w req).flatMap policiesOf).length
            EgressPoliciesTotal := ((egressRuns env w req).flatMap policiesOf).length
            IngressPolicies := (ingressRuns env w req).flatMap policiesOf
            EgressPolicies := (egressRuns env w req).flatMap policiesOf },
    joinErrors ((egressRuns env w req ++ ingressRuns env w req).map errorOf),
    ?_, rfl, rfl, rfl, rfl, rfl, hiff⟩
  rw [← hfold]
  unfold CalcSecurityPolicyAction.Do
  unfold egressRuns at hE ⊢
  by_cases he : isContainInList EGRESS_RULE req.PolicyDirections = true
  · rw [if_pos he] at hE
    simp only [he, if_true]
    rw [doLoop_eq _ _ _ _ _ _ _ _ _ _ hE]
    simp only [List.nil_append]
    unfold ingressRuns at hI ⊢
    unfold egressRuns at hI ⊢
    simp only [he, if_true] at hI ⊢
    by_cases hi : isContainInList INGRESS_RULE req.PolicyDirections = true
    · rw [if_pos hi] at hI
      simp only [hi, if_true]
      rw [doLoop_eq _ _ _ _ _ _ _ _ _ _ hI]
      simp only [List.nil_append, List.flatMap_append]
    · simp only [hi, Bool.false_eq_true, if_false, List.flatMap_nil, List.length_nil,
        List.map_nil, List.foldl_nil, List.append_nil]
  · simp only [he, Bool.false_eq_true, if_false, List.flatMap_nil, List.length_nil,
      List.map_nil, List.foldl_nil, List.nil_append, List.append_nil]
    unfold ingressRuns at hI ⊢
    unfold egressRuns at hI ⊢
    simp only [he, Bool.false_eq_true, if_false, List.flatMap_nil, List.append_nil] at hI ⊢
    by_cases hi : isContainInList INGRESS_RULE req.PolicyDirections = true
    · rw [if_pos hi] at hI
      simp only [hi, if_true]
      rw [doLoop_eq _ _ _ _ _ _ _ _ _ _ hI]
      simp only [List.nil_append]
    · simp only [hi, Bool.false_eq_true, if_false, List.flatMap_nil, List.length_nil,
        List.map_nil, List.foldl_nil]

end securitygroup

namespace securitygroup

theorem value_of_done {α : Type} (x : CalcResult α) (a : α) (h : x.value? = some a) :
    x = .done a x.events := by
  cases x with
  | done b evs =>
    simp only [CalcResult.value?, Option.some.injEq] at h
    subst h
    rfl
  | panic evs => simp [CalcResult.value?] at h

/-- C19. The request with protocol `TCP`, source `10.0.0.1`, destination `10.0.0.2`, a
destination port parsed to the single port `80`, action `accept` and the direction egress
alone, when `10.0.0.1` resolves to a resource of a registered type that is not a load
balancer and supports egress policy and `10.0.0.2` resolves to nothing:
`CalcSecurityPolicyAction.Do` returns no error, one egress policy, with `ip` `10.0.0.1`,
`peer_ip` `10.0.0.2`, ports `80`, action `accept` and the identity of the resource, the
egress total 1, no ingress policy and the ingress total 0. -/
theorem Do_egress_scenario (env : CalcEnv) (w : CalcWorld) (inst : ResourceInstance)
    (desc : String)
    (hports : (env.getPortsByPolicyFormat "80").1 = ["80"])
    (hsrc : (findInstanceByIp env w "10.0.0.1").1 = .ok inst)
    (hreg : inst.typeName ∈ registeredResourceTypes)
    (hlb : env.IsLoadBalanceType inst.typeName = false)
    (heg : env.IsSupportEgressPolicy inst.typeName = true)
    (hdst : ∀ w', ∃ e, (findInstanceByIp env w' "10.0.0.2").1 = .error e) :
    ∃ policy : SecurityPolicy,
      (CalcSecurityPolicyAction.Do env w
        { Protocol := "TCP", SourceIps := ["10.0.0.1"], DestIps := ["10.0.0.2"],
          DestPort := "80", PolicyAction := "accept", PolicyDirections := ["egress"],
          Description := desc }).value? =
        some ({ IngressPoliciesTotal := 0, EgressPoliciesTotal := 1, IngressPolicies := [],
                EgressPolicies := [policy] }, none) ∧
      policy.Ip = "10.0.0.1" ∧ policy.PeerIp = "10.0.0.2" ∧ policy.Ports = "80" ∧
      policy.Action = "accept" ∧ policy.Protocol = "TCP" ∧ policy.Description = desc ∧
      policy.Typ = inst.typeName ∧ policy.Id = inst.id ∧ policy.Region = inst.region ∧
      policy.SupportSecurityGroupApi = inst.supportSecurityGroupApi ∧
      policy.ErrorMsg = "" ∧ policy.UndoReason = "" ∧ policy.SecurityGroupId = "" := by
  refine ⟨newPolicy inst "10.0.0.1" "10.0.0.2" "TCP" "80" "accept" desc, ?_, rfl, rfl, rfl,
    rfl, rfl, rfl, rfl, rfl, rfl, rfl, rfl, rfl, rfl⟩
  have hcalc := calcPolicies_plain env inst hreg hlb w "10.0.0.1" ["10.0.0.2"] "TCP" ["80"]
    "accept" desc EGRESS_RULE hsrc (by simp [heg]) (by
      intro peer hp w'
      simp only [List.mem_singleton] at hp
      subst hp
      obtain ⟨e, he⟩ := hdst w'
      rw [he]
      rfl)
  have hdone := value_of_done _ _ hcalc
  have he : isContainInList EGRESS_RULE ["egress"] = true := by decide
  have hi : isContainInList INGRESS_RULE ["egress"] = false := by decide
  unfold CalcSecurityPolicyAction.Do
  simp only [he, hi, hports, if_true, Bool.false_eq_true, if_false, doLoop]
  rw [hdone]
  simp [CalcResult.value?, combineError]

end securitygroup

namespace securitygroup

/-! ## Providers without state -/

theorem typeLoop_stateless (env : CalcEnv) (h : env.stateless) (providerParams ip : String)
    (types : List String) (w w' : CalcWorld) :
    typeLoop env providerParams ip types w = typeLoop env providerParams ip types w' := by
  induction types generalizing w w' with
  | nil => rfl
  | cons t types ih =>
    simp only [typeLoop]
    rw [h.2.2.1 w w' t providerParams [ip]]
    cases env.QueryInstancesByIp w' t providerParams [ip] with
    | error err => rfl
    | ok m =>
      simp only []
      cases mapGet m ip with
      | some inst => rfl
      | none =>
        simp only []
        rw [ih (w ++ [CalcEvent.queryInstancesByIp t providerParams [ip] (.ok m)])
          (w' ++ [CalcEvent.queryInstancesByIp t providerParams [ip] (.ok m)])]

theorem regionLoop_stateless (env : CalcEnv) (h : env.stateless) (ip : String)
    (regions : List String) (w w' : CalcWorld) :
    regionLoop env ip regions w = regionLoop env ip regions w' := by
  induction regions generalizing w w' with
  | nil => rfl
  | cons r regions ih =>
    simp only [regionLoop]
    rw [h.2.1 w w' r]
    cases (env.getProviderParams w' r).2 with
    | some err => rfl
    | none =>
      simp only []
      rw [h.2.2.2 (w ++ [CalcEvent.getProviderParams r (env.getProviderParams w' r)])
        (w' ++ [CalcEvent.getProviderParams r (env.getProviderParams w' r)])
        registeredResourceTypes,
        typeLoop_stateless env h _ ip _
          (w ++ [CalcEvent.getProviderParams r (env.getProviderParams w' r)])
          (w' ++ [CalcEvent.getProviderParams r (env.getProviderParams w' r)])]
      cases (typeLoop env (env.getProviderParams w' r).1 ip
        (rangeKeys (env.typeOrder
          (w' ++ [CalcEvent.getProviderParams r (env.getProviderParams w' r)])
          registeredResourceTypes) registeredResourceTypes)
        (w' ++ [CalcEvent.getProviderParams r (env.getProviderParams w' r)])).1 with
      | some res => rfl
      | none =>
        simp only []
        rw [ih (w ++ _) (w' ++ _)]

/-- With a provider without state, `findInstanceByIp` gives the same answer whenever it is
asked. -/
theorem findInstanceByIp_stateless (env : CalcEnv) (h : env.stateless) (ip : String)
    (w w' : CalcWorld) : findInstanceByIp env w ip = findInstanceByIp env w' ip := by
  unfold findInstanceByIp
  simp only []
  rw [h.1 w w']
  cases env.getRegions w' with
  | error err => rfl
  | ok regions =>
    simp only []
    rw [regionLoop_stateless env h ip regions (w ++ _) (w' ++ _)]

theorem scriptedCalcEnv_stateless (owners : List ResourceInstance)
    (failingTypes noEgressTypes : List String)
    (backends : List (String × List ResourceInstance × List String)) :
    (scriptedCalcEnv owners failingTypes noEgressTypes backends).stateless :=
  ⟨fun _ _ => rfl, fun _ _ _ => rfl, fun _ _ _ _ _ => rfl, fun _ _ _ => rfl⟩

theorem isLoadBalancePeer_egress (env : CalcEnv) (found : Except String ResourceInstance) :
    isLoadBalancePeer env EGRESS_RULE found = false := by
  unfold isLoadBalancePeer
  cases found with
  | error e => rfl
  | ok inst =>
    simp only []
    cases getResouceTypeByName inst.typeName with
    | error e => rfl
    | ok t =>
      have : (EGRESS_RULE == INGRESS_RULE) = false := by decide
      simp only [this, Bool.false_and]

end securitygroup

namespace securitygroup

/-! ## The theorems of the calculator at concrete inputs -/

set_option maxRecDepth 100000 in
theorem newPolicies_one_policy_per_port_witness :
    ((calcPolicies oneVmEnv [] "10.0.0.1" ["10.0.0.2", "10.0.0.9"] "TCP" ["80", "443"]
        "accept" "svc" EGRESS_RULE).value?.map fun r =>
          (r.1.map fun p => (p.Ip, p.Id, p.PeerIp, p.Ports), r.2)) =
        some ([("10.0.0.1", "ins-10.0.0.1", "10.0.0.2", "80"),
            ("10.0.0.1", "ins-10.0.0.1", "10.0.0.2", "443"),
            ("10.0.0.1", "ins-10.0.0.1", "10.0.0.9", "80"),
            ("10.0.0.1", "ins-10.0.0.1", "10.0.0.9", "443")], none) ∧
      (calcPolicies oneVmEnv [] "10.0.0.1" ["10.0.0.2", "10.0.0.9"] "TCP" ["80", "443"]
        "accept" "svc" EGRESS_RULE).value? =
        some (["10.0.0.2", "10.0.0.9"].flatMap fun peer => ["80", "443"].map fun port =>
          newPolicy (cvmAt "10.0.0.1") "10.0.0.1" peer "TCP" port "accept" "svc", none) :=
  ⟨by decide,
    (newPolicies_one_policy_per_port oneVmEnv (cvmAt "10.0.0.1") (by decide) (by decide)).2
      [] "10.0.0.1" ["10.0.0.2", "10.0.0.9"] "TCP" ["80", "443"] "accept" "svc" EGRESS_RULE
      (by rfl) (by decide) (fun _ _ _ => isLoadBalancePeer_egress _ _)⟩

set_option maxRecDepth 100000 in
theorem newPolicies_load_balancer_backends_witness :
    ((newPolicies lbEnv [] (clbAt "10.0.0.8") "10.0.0.8" "10.0.0.2" "TCP" "80" "accept"
        "svc").value?.map fun r => (r.1.map fun p => (p.Ip, p.Id, p.Typ, p.Ports), r.2)) =
        some ([("10.0.0.3", "ins-10.0.0.3", "cvm", "8080"),
            ("10.0.0.4", "ins-10.0.0.4", "cvm", "8081")], none) ∧
      ∃ policies,
        (newPolicies lbEnv [] (clbAt "10.0.0.8") "10.0.0.8" "10.0.0.2" "TCP" "80" "accept"
          "svc").value? = some (policies, none) ∧
        policies.length = [cvmAt "10.0.0.3", cvmAt "10.0.0.4"].length :=
  ⟨by decide,
    let ⟨policies, h1, h2, _⟩ :=
      (newPolicies_load_balancer_backends lbEnv [] (clbAt "10.0.0.8") "10.0.0.8" "10.0.0.2"
        "TCP" "80" "accept" "svc" [cvmAt "10.0.0.3", cvmAt "10.0.0.4"] ["8080", "8081"]
        (by decide) (by decide) (by decide) (by rfl) (by rfl)).1 (by simp)
    ⟨policies, h1, h2⟩⟩

set_option maxRecDepth 100000 in
theorem calcPolicies_egress_not_supported_witness :
    (calcPolicies dbEnv [] "10.0.0.6" ["10.0.0.2"] "TCP" ["3306"] "accept" "svc"
        INGRESS_RULE).value?.map (fun r => (r.1.map fun p => (p.Ip, p.PeerIp, p.Ports), r.2)) =
        some ([("10.0.0.6", "10.0.0.2", "3306")], none) ∧
      calcPolicies dbEnv [] "10.0.0.6" ["10.0.0.2"] "TCP" ["3306"] "accept" "svc"
        EGRESS_RULE = .done ([], none) (findInstanceByIp dbEnv [] "10.0.0.6").2 :=
  ⟨by decide,
    (calcPolicies_egress_not_supported dbEnv [] "10.0.0.6" (mysqlAt "10.0.0.6") (by rfl)
      (by decide) (by decide)).1 ["10.0.0.2"] "TCP" ["3306"] "accept" "svc"⟩

set_option maxRecDepth 100000 in
theorem Do_concatenates_calculations_witness :
    ((CalcSecurityPolicyAction.Do oneVmEnv [] bothRequest).value?.map fun r =>
        (r.1.EgressPolicies.map fun p => (p.Ip, p.PeerIp, p.Ports),
          r.1.IngressPolicies.length, r.1.EgressPoliciesTotal, r.1.IngressPoliciesTotal,
          r.2)) =
        some ([("10.0.0.1", "10.0.0.2", "80"), ("10.0.0.1", "10.0.0.2", "443")], 0, 2, 0,
          some "ip(10.0.0.7),can't be foundip(10.0.0.2),can't be found") ∧
      ∃ result err,
        CalcSecurityPolicyAction.Do oneVmEnv [] bothRequest =
          .done (result, err)
            ((egressRuns oneVmEnv [] bothRequest ++
              ingressRuns oneVmEnv [] bothRequest).flatMap CalcResult.events) ∧
        result.EgressPolicies = (egressRuns oneVmEnv [] bothRequest).flatMap policiesOf ∧
        result.IngressPolicies = (ingressRuns oneVmEnv [] bothRequest).flatMap policiesOf ∧
        result.EgressPoliciesTotal = result.EgressPolicies.length ∧
        result.IngressPoliciesTotal = result.IngressPolicies.length ∧
        err = joinErrors ((egressRuns oneVmEnv [] bothRequest ++
          ingressRuns oneVmEnv [] bothRequest).map errorOf) ∧
        (err ≠ none ↔ ∃ r ∈ egressRuns oneVmEnv [] bothRequest ++
          ingressRuns oneVmEnv [] bothRequest, errorOf r ≠ none) :=
  ⟨by decide, Do_concatenates_calculations oneVmEnv [] bothRequest (by decide)⟩

set_option maxRecDepth 100000 in
theorem Do_egress_scenario_witness :
    (CalcSecurityPolicyAction.Do oneVmEnv [] egressRequest).value? =
        some ({ IngressPoliciesTotal := 0, EgressPoliciesTotal := 1, IngressPolicies := [],
                EgressPolicies := [newPolicy (cvmAt "10.0.0.1") "10.0.0.1" "10.0.0.2" "TCP"
                  "80" "accept" "svc"] }, none) ∧
      ∃ policy : SecurityPolicy,
        (CalcSecurityPolicyAction.Do oneVmEnv [] egressRequest).value? =
          some ({ IngressPoliciesTotal := 0, EgressPoliciesTotal := 1, IngressPolicies := [],
                  EgressPolicies := [policy] }, none) ∧
        policy.Ip = "10.0.0.1" ∧ policy.PeerIp = "10.0.0.2" :=
  ⟨by decide,
    let ⟨policy, h1, h2, h3, _⟩ :=
      Do_egress_scenario oneVmEnv [] (cvmAt "10.0.0.1") "svc" (by decide) (by rfl)
        (by decide) (by decide) (by decide)
        (fun w' => ⟨"ip(10.0.0.2),can't be found", by
          rw [findInstanceByIp_stateless oneVmEnv (scriptedCalcEnv_stateless _ _ _ _)
            "10.0.0.2" w' []]
          rfl⟩)
    ⟨policy, h1, h2, h3⟩⟩

end securitygroup

namespace securitygroup

/-! ## `findInstanceByIp` -/

theorem lookups_append (ip : String) (a b : List CalcEvent) :
    lookups ip (a ++ b) = lookups ip a ++ lookups ip b := by
  simp [lookups, List.filterMap_append]

theorem regionsRead_append (a b : List CalcEvent) :
    regionsRead (a ++ b) = regionsRead a ++ regionsRead b := by
  simp [regionsRead, List.filterMap_append]

/-- The inner loop of `findInstanceByIp`: its lookups ask for the address with the
parameters given; a failing lookup ends it with that error; a lookup whose answer has the
address ends it with the instance, and no earlier answer had the address; it ends without
result when every type was asked and no answer had the address. -/
theorem typeLoop_spec (env : CalcEnv) (providerParams ip : String) (types : List String)
    (w : CalcWorld) :
    (∀ l ∈ lookups ip (typeLoop env providerParams ip types w).2,
        l.2.1 = providerParams ∧ l.2.2.1 = [ip]) ∧
      regionsRead (typeLoop env providerParams ip types w).2 = [] ∧
      (∀ err, (∃ e ∈ (typeLoop env providerParams ip types w).2, e.error? = some err) →
        (typeLoop env providerParams ip types w).1 = some (.error err)) ∧
      (∀ err, (typeLoop env providerParams ip types w).1 = some (.error err) →
        ∃ e ∈ (typeLoop env providerParams ip types w).2, e.error? = some err) ∧
      (∀ inst, (typeLoop env providerParams ip types w).1 = some (.ok inst) →
        ∃ pre t, lookups ip (typeLoop env providerParams ip types w).2 =
            pre ++ [(t, providerParams, [ip], some inst)] ∧ t ∈ types ∧
          ∀ l ∈ pre, l.2.2.2 = none) ∧
      ((typeLoop env providerParams ip types w).1 = none →
        (∀ l ∈ lookups ip (typeLoop env providerParams ip types w).2, l.2.2.2 = none) ∧
        ∀ t ∈ types,
          (t, providerParams, [ip], none) ∈
            lookups ip (typeLoop env providerParams ip types w).2) := by
  induction types generalizing w with
  | nil => simp [typeLoop, lookups, regionsRead]
  | cons t types ih =>
    simp only [typeLoop]
    cases hret : env.QueryInstancesByIp w t providerParams [ip] with
    | error err =>
      simp [lookups, regionsRead, CalcEvent.error?]
    | ok m =>
      simp only []
      cases hget : mapGet m ip with
      | some inst =>
        simp only [lookups, regionsRead, CalcEvent.error?, List.filterMap_cons,
          List.filterMap_nil, List.mem_singleton, hget, forall_eq, and_self, true_and,
          exists_eq_left, reduceCtorEq, false_implies, implies_true, Option.some.injEq,
          Except.ok.injEq, forall_eq']
        refine ⟨?_, ?_⟩
        · exact ⟨[], t, rfl, List.mem_cons_self _ _, by simp⟩
        · trivial
      | none =>
        simp only []
        obtain ⟨h1, h2, h3, h4, h5, h6⟩ :=
          ih (w ++ [CalcEvent.queryInstancesByIp t providerParams [ip] (.ok m)])
        have hl : ∀ evs : List CalcEvent,
            lookups ip (CalcEvent.queryInstancesByIp t providerParams [ip] (.ok m) :: evs) =
              (t, providerParams, [ip], none) :: lookups ip evs := by
          intro evs
          simp [lookups, hget]
        have hr : ∀ evs : List CalcEvent,
            regionsRead (CalcEvent.queryInstancesByIp t providerParams [ip] (.ok m) :: evs) =
              regionsRead evs := by
          intro evs
          simp [regionsRead]
        rw [hl, hr]
        refine ⟨?_, h2, ?_, ?_, ?_, ?_⟩
        · intro l hl'
          rcases List.mem_cons.1 hl' with rfl | hl'
          · exact ⟨rfl, rfl⟩
          · exact h1 l hl'
        · rintro err ⟨e, he, herr⟩
          rcases List.mem_cons.1 he with rfl | he
          · simp [CalcEvent.error?] at herr
          · exact h3 err ⟨e, he, herr⟩
        · intro err herr
          obtain ⟨e, he, h⟩ := h4 err herr
          exact ⟨e, List.mem_cons_of_mem _ he, h⟩
        · intro inst hinst
          obtain ⟨pre, t', heq, ht', hpre⟩ := h5 inst hinst
          refine ⟨(t, providerParams, [ip], none) :: pre, t', by rw [heq]; rfl,
            List.mem_cons_of_mem _ ht', ?_⟩
          intro l hl'
          rcases List.mem_cons.1 hl' with rfl | hl'
          · rfl
          · exact hpre l hl'
        · intro hnone
          obtain ⟨ha, hb⟩ := h6 hnone
          refine ⟨?_, ?_⟩
          · intro l hl'
            rcases List.mem_cons.1 hl' with rfl | hl'
            · rfl
            · exact ha l hl'
          · intro t' ht'
            rcases List.mem_cons.1 ht' with rfl | ht'
            · exact List.mem_cons_self _ _
            · exact List.mem_cons_of_mem _ (hb t' ht')

end securitygroup

namespace securitygroup

/-- The outer loop of `findInstanceByIp`: the error of a failing call ends it; the first
lookup whose answer has the address ends it with the instance; when no call fails and it
ends with an error, that is the not-found error, every region was read, in order, and in
each every registered type was asked without its answer having the address. -/
theorem regionLoop_spec (env : CalcEnv) (ip : String) (regions : List String)
    (w : CalcWorld) :
    (∀ l ∈ lookups ip (regionLoop env ip regions w).2, l.2.2.1 = [ip]) ∧
      (∀ err, (∃ e ∈ (regionLoop env ip regions w).2, e.error? = some err) →
        (regionLoop env ip regions w).1 = .error err) ∧
      (∀ inst, (regionLoop env ip regions w).1 = .ok inst →
        ∃ pre t pp, lookups ip (regionLoop env ip regions w).2 =
            pre ++ [(t, pp, [ip], some inst)] ∧ t ∈ registeredResourceTypes ∧
          ∀ l ∈ pre, l.2.2.2 = none) ∧
      (∀ err, (regionLoop env ip regions w).1 = .error err →
        (∀ e ∈ (regionLoop env ip regions w).2, e.error? = none) →
        err = notFoundError ip ∧
          (∀ l ∈ lookups ip (regionLoop env ip regions w).2, l.2.2.2 = none) ∧
          (regionsRead (regionLoop env ip regions w).2).map Prod.fst = regions ∧
          ∀ rp ∈ regionsRead (regionLoop env ip regions w).2,
            ∀ t ∈ registeredResourceTypes,
              (t, rp.2, [ip], none) ∈ lookups ip (regionLoop env ip regions w).2) ∧
      ((regionsRead (regionLoop env ip regions w).2).map Prod.fst).IsPrefix regions := by
  induction regions generalizing w with
  | nil => simp [regionLoop, lookups, regionsRead]
  | cons region regions ih =>
    simp only [regionLoop]
    generalize env.getProviderParams w region = ret
    obtain ⟨pp, perr⟩ := ret
    cases perr with
    | some err =>
      simp [lookups, regionsRead, CalcEvent.error?]
    | none =>
      simp only []
      obtain ⟨t1, t2, t3, t4, t5, t6⟩ := typeLoop_spec env pp ip
        (rangeKeys (env.typeOrder (w ++ [CalcEvent.getProviderParams region (pp, none)])
          registeredResourceTypes) registeredResourceTypes)
        (w ++ [CalcEvent.getProviderParams region (pp, none)])
      generalize typeLoop env pp ip
        (rangeKeys (env.typeOrder (w ++ [CalcEvent.getProviderParams region (pp, none)])
          registeredResourceTypes) registeredResourceTypes)
        (w ++ [CalcEvent.getProviderParams region (pp, none)]) = found at t1 t2 t3 t4 t5 t6
      obtain ⟨fr, fevs⟩ := found
      simp only [] at t1 t2 t3 t4 t5 t6 ⊢
      have hl : ∀ evs : List CalcEvent,
          lookups ip (CalcEvent.getProviderParams region (pp, none) :: evs) =
            lookups ip evs := by
        intro evs
        simp [lookups]
      have hr : ∀ evs : List CalcEvent,
          regionsRead (CalcEvent.getProviderParams region (pp, none) :: evs) =
            (region, pp) :: regionsRead evs := by
        intro evs
        simp [regionsRead]
      cases fr with
      | some r =>
        simp only [hl, hr, t2]
        refine ⟨fun l hl' => (t1 l hl').2, ?_, ?_, ?_, ?_⟩
        · rintro err ⟨e, he, herr⟩
          rcases List.mem_cons.1 he with rfl | he
          · simp [CalcEvent.error?] at herr
          · have := t3 err ⟨e, he, herr⟩
            simp only [Option.some.injEq] at this
            exact this
        · intro inst hinst
          obtain ⟨pre, t, heq, ht, hpre⟩ := t5 inst (by rw [hinst])
          exact ⟨pre, t, pp, heq, (mem_rangeKeys _ _ _).1 ht, hpre⟩
        · intro err herr hnoerr
          exfalso
          obtain ⟨e, he, h⟩ := t4 err (by rw [herr])
          have := hnoerr e (List.mem_cons_of_mem _ he)
          rw [h] at this
          cases this
        · simp only [List.map_cons, List.map_nil]
          exact List.prefix_iff_eq_append.2 (by simp)
      | none =>
        simp only []
        obtain ⟨r1, r2, r3, r4, r5⟩ :=
          ih (w ++ CalcEvent.getProviderParams region (pp, none) :: fevs)
        obtain ⟨t6a, t6b⟩ := t6 rfl
        rw [show CalcEvent.getProviderParams region (pp, none) :: fevs ++
            (regionLoop env ip regions
              (w ++ CalcEvent.getProviderParams region (pp, none) :: fevs)).2 =
            CalcEvent.getProviderParams region (pp, none) ::
              (fevs ++ (regionLoop env ip regions
                (w ++ CalcEvent.getProviderParams region (pp, none) :: fevs)).2) from rfl,
          hl, hr, lookups_append, regionsRead_append, t2, List.nil_append]
        refine ⟨?_, ?_, ?_, ?_, ?_⟩
        · intro l hl'
          rcases List.mem_append.1 hl' with h | h
          · exact (t1 l h).2
          · exact r1 l h
        · rintro err ⟨e, he, herr⟩
          rcases List.mem_cons.1 he with rfl | he
          · simp [CalcEvent.error?] at herr
          · rcases List.mem_append.1 he with h | h
            · have := t3 err ⟨e, h, herr⟩
              cases this
            · exact r2 err ⟨e, h, herr⟩
        · intro inst hinst
          obtain ⟨pre, t, pp', heq, ht, hpre⟩ := r3 inst hinst
          refine ⟨lookups ip fevs ++ pre, t, pp', by rw [heq, List.append_assoc], ht, ?_⟩
          intro l hl'
          rcases List.mem_append.1 hl' with h | h
          · exact t6a l h
          · exact hpre l h
        · intro err herr hnoerr
          obtain ⟨h1, h2, h3, h4⟩ := r4 err herr
            (fun e he => hnoerr e (List.mem_cons_of_mem _ (List.mem_append_right _ he)))
          refine ⟨h1, ?_, ?_, ?_⟩
          · intro l hl'
            rcases List.mem_append.1 hl' with h | h
            · exact t6a l h
            · exact h2 l h
          · simp only [List.map_cons, h3]
          · intro rp hrp t ht
            rcases List.mem_cons.1 hrp with rfl | hrp
            · exact List.mem_append_left _ (t6b t ((mem_rangeKeys _ _ _).2 ht))
            · exact List.mem_append_right _ (h4 rp hrp t ht)
        · simp only [List.map_cons]
          obtain ⟨rest, hrest⟩ := r5
          exact ⟨rest, by simp only [List.cons_append, hrest]⟩

end securitygroup

namespace securitygroup

set_option maxRecDepth 100000 in
/-- C20 fails as stated: the lookup of the first type fails. For an address no type has, the
search fails with the error of the provider, which is not the not-found error; for the
address of a compute instance it fails the same way, and the lookup whose answer has the
address is never made. -/
theorem lookup_error_ends_the_search :
    (findInstanceByIp lookupFailsEnv [] "10.0.0.5").1 = .error "lookup failed" ∧
      "lookup failed" ≠ notFoundError "10.0.0.5" ∧
      (findInstanceByIp lookupFailsEnv [] "10.0.0.1").1 = .error "lookup failed" ∧
      lookups "10.0.0.1" (findInstanceByIp lookupFailsEnv [] "10.0.0.1").2 = [] ∧
      lookupFailsEnv.QueryInstancesByIp [] "cvm" "ap-guangzhou" ["10.0.0.1"] =
        .ok [("10.0.0.1", cvmAt "10.0.0.1")] :=
  ⟨rfl, by decide, rfl, by decide, rfl⟩

/-- C20, amended. The lookups of `findInstanceByIp` ask for the address. The error of the
first call that fails (`getRegions`, `getProviderParams` or a lookup) ends the search and is
returned as it is. An instance that is returned is the one the last lookup has for the
address, and no earlier lookup had the address. When no call fails and the search returns
an error, it is the not-found error, every region `getRegions` returned was read, in order,
in each of them every registered resource type was asked, and no answer had the address;
so, when no call fails, the search returns the not-found error exactly when no lookup has
the address. -/
theorem findInstanceByIp_first_match (env : CalcEnv) (w : CalcWorld) (ip : String) :
    (∀ l ∈ lookups ip (findInstanceByIp env w ip).2, l.2.2.1 = [ip]) ∧
      (∀ err, (∃ e ∈ (findInstanceByIp env w ip).2, e.error? = some err) →
        (findInstanceByIp env w ip).1 = .error err) ∧
      (∀ inst, (findInstanceByIp env w ip).1 = .ok inst →
        ∃ pre t pp, lookups ip (findInstanceByIp env w ip).2 =
            pre ++ [(t, pp, [ip], some inst)] ∧ t ∈ registeredResourceTypes ∧
          ∀ l ∈ pre, l.2.2.2 = none) ∧
      ((∀ e ∈ (findInstanceByIp env w ip).2, e.error? = none) →
        ∀ err, (findInstanceByIp env w ip).1 = .error err →
          err = notFoundError ip ∧
            (∀ l ∈ lookups ip (findInstanceByIp env w ip).2, l.2.2.2 = none) ∧
            ∃ regions,
              (findInstanceByIp env w ip).2.head? = some (.getRegions (.ok regions)) ∧
              (regionsRead (findInstanceByIp env w ip).2).map Prod.fst = regions ∧
              ∀ rp ∈ regionsRead (findInstanceByIp env w ip).2,
                ∀ t ∈ registeredResourceTypes,
                  (t, rp.2, [ip], none) ∈ lookups ip (findInstanceByIp env w ip).2) ∧
      ((∀ e ∈ (findInstanceByIp env w ip).2, e.error? = none) →
        ((findInstanceByIp env w ip).1 = .error (notFoundError ip) ↔
          ∀ l ∈ lookups ip (findInstanceByIp env w ip).2, l.2.2.2 = none)) := by
  have key : (∀ l ∈ lookups ip (findInstanceByIp env w ip).2, l.2.2.1 = [ip]) ∧
      (∀ err, (∃ e ∈ (findInstanceByIp env w ip).2, e.error? = some err) →
        (findInstanceByIp env w ip).1 = .error err) ∧
      (∀ inst, (findInstanceByIp env w ip).1 = .ok inst →
        ∃ pre t pp, lookups ip (findInstanceByIp env w ip).2 =
            pre ++ [(t, pp, [ip], some inst)] ∧ t ∈ registeredResourceTypes ∧
          ∀ l ∈ pre, l.2.2.2 = none) ∧
      ((∀ e ∈ (findInstanceByIp env w ip).2, e.error? = none) →
        ∀ err, (findInstanceByIp env w ip).1 = .error err →
          err = notFoundError ip ∧
            (∀ l ∈ lookups ip (findInstanceByIp env w ip).2, l.2.2.2 = none) ∧
            ∃ regions,
              (findInstanceByIp env w ip).2.head? = some (.getRegions (.ok regions)) ∧
              (regionsRead (findInstanceByIp env w ip).2).map Prod.fst = regions ∧
              ∀ rp ∈ regionsRead (findInstanceByIp env w ip).2,
                ∀ t ∈ registeredResourceTypes,
                  (t, rp.2, [ip], none) ∈ lookups ip (findInstanceByIp env w ip).2) := by
    unfold findInstanceByIp
    simp only []
    cases hret : env.getRegions w with
    | error err => simp [lookups, CalcEvent.error?]
    | ok regions =>
      simp only []
      obtain ⟨r1, r2, r3, r4, -⟩ :=
        regionLoop_spec env ip regions (w ++ [CalcEvent.getRegions (.ok regions)])
      have hl : ∀ evs : List CalcEvent,
          lookups ip (CalcEvent.getRegions (.ok regions) :: evs) = lookups ip evs := by
        intro evs
        simp [lookups]
      have hr : ∀ evs : List CalcEvent,
          regionsRead (CalcEvent.getRegions (.ok regions) :: evs) = regionsRead evs := by
        intro evs
        simp [regionsRead]
      rw [hl, hr]
      refine ⟨r1, ?_, r3, ?_⟩
      · rintro err ⟨e, he, herr⟩
        rcases List.mem_cons.1 he with rfl | he
        · simp [CalcEvent.error?] at herr
        · exact r2 err ⟨e, he, herr⟩
      · intro hnoerr err herr
        obtain ⟨h1, h2, h3, h4⟩ := r4 err herr
          (fun e he => hnoerr e (List.mem_cons_of_mem _ he))
        exact ⟨h1, h2, regions, rfl, h3, h4⟩
  obtain ⟨k1, k2, k3, k4⟩ := key
  refine ⟨k1, k2, k3, k4, ?_⟩
  intro hnoerr
  constructor
  · intro herr
    exact (k4 hnoerr _ herr).2.1
  · intro hall
    cases hres : (findInstanceByIp env w ip).1 with
    | error err => rw [(k4 hnoerr err hres).1]
    | ok inst =>
      exfalso
      obtain ⟨pre, t, pp, heq, -, -⟩ := k3 inst hres
      have := hall (t, pp, [ip], some inst) (by rw [heq]; simp)
      cases this

set_option maxRecDepth 100000 in
theorem findInstanceByIp_first_match_witness :
    ((findInstanceByIp oneVmEnv [] "10.0.0.1").1 = .ok (cvmAt "10.0.0.1") ∧
      lookups "10.0.0.1" (findInstanceByIp oneVmEnv [] "10.0.0.1").2 =
        [("mysql", "ap-guangzhou", ["10.0.0.1"], none),
          ("cvm", "ap-guangzhou", ["10.0.0.1"], some (cvmAt "10.0.0.1"))] ∧
      (lookups "10.0.0.2" (findInstanceByIp oneVmEnv [] "10.0.0.2").2).map
          (fun l => (l.1, l.2.2.2)) =
        [("mysql", none), ("cvm", none), ("clb", none), ("redis", none),
          ("mongodb", none)]) ∧
      ((findInstanceByIp oneVmEnv [] "10.0.0.2").1 = .error (notFoundError "10.0.0.2") ↔
        ∀ l ∈ lookups "10.0.0.2" (findInstanceByIp oneVmEnv [] "10.0.0.2").2,
          l.2.2.2 = none) :=
  ⟨⟨rfl, by decide, by decide⟩,
    (findInstanceByIp_first_match oneVmEnv [] "10.0.0.2").2.2.2.2 (by decide)⟩

end securitygroup

namespace securitygroup

/-! ## `calcPolicies`: a peer that is a load balancer -/

theorem portLoop_error_origin (env : CalcEnv) (inst : ResourceInstance)
    (devIp peerIp proto action desc : String) (ports : List String)
    (policies : List SecurityPolicy) (w : CalcWorld) (ps : List SecurityPolicy)
    (err : String) (evs : List CalcEvent)
    (h : portLoop env inst devIp peerIp proto action desc ports policies w =
      .done (ps, some err) evs) :
    ∃ w' port, port ∈ ports ∧
      ((newPolicies env w' inst devIp peerIp proto port action desc).value?.map Prod.snd) =
        some (some err) := by
  induction ports generalizing policies w evs with
  | nil => simp [portLoop] at h
  | cons port ports ih =>
    simp only [portLoop] at h
    cases hn : newPolicies env w inst devIp peerIp proto port action desc with
    | panic evs1 => rw [hn] at h; cases h
    | done r evs1 =>
      obtain ⟨nps, nerr⟩ := r
      rw [hn] at h
      cases nerr with
      | some e =>
        simp only [CalcResult.done.injEq, Prod.mk.injEq, Option.some.injEq] at h
        refine ⟨w, port, List.mem_cons_self _ _, ?_⟩
        rw [hn, ← h.1.2]
        rfl
      | none =>
        simp only [] at h
        cases hrec : portLoop env inst devIp peerIp proto action desc ports
            (if nps.length > 0 then policies ++ nps else policies) (w ++ evs1) with
        | panic evs2 => rw [hrec] at h; cases h
        | done r2 evs2 =>
          rw [hrec] at h
          simp only [CalcResult.done.injEq] at h
          obtain ⟨rfl, -⟩ := h
          obtain ⟨w', port', hp, hnp⟩ := ih _ _ _ hrec
          exact ⟨w', port', List.mem_cons_of_mem _ hp, hnp⟩

/-- When no peer is rejected, an error of the loop over the peers is the error of a call of
`newPolicies`. -/
theorem peerLoop_error_origin (env : CalcEnv) (inst : ResourceInstance)
    (devIp proto : String) (ports : List String) (action desc direction : String)
    (peers : List String) (policies : List SecurityPolicy) (w : CalcWorld)
    (hdir : ∀ found, isLoadBalancePeer env direction found = false)
    (ps : List SecurityPolicy) (err : String)
    (h : (peerLoop env inst devIp proto ports action desc direction peers policies
      w).value? = some (ps, some err)) :
    ∃ w' peer port, peer ∈ peers ∧ port ∈ ports ∧
      ((newPolicies env w' inst devIp peer proto port action desc).value?.map Prod.snd) =
        some (some err) := by
  induction peers generalizing policies w with
  | nil => simp [peerLoop, CalcResult.value?] at h
  | cons peer peers ih =>
    simp only [peerLoop, hdir, Bool.false_eq_true, if_false] at h
    cases hp : portLoop env inst devIp peer proto action desc ports policies
        (w ++ (findInstanceByIp env w peer).2) with
    | panic evs => rw [hp] at h; simp [CalcResult.value?] at h
    | done r evs =>
      obtain ⟨ps1, perr⟩ := r
      rw [hp] at h
      cases perr with
      | some e =>
        simp only [CalcResult.value?, Option.some.injEq, Prod.mk.injEq] at h
        obtain ⟨w', port, hport, hnp⟩ := portLoop_error_origin _ _ _ _ _ _ _ _ _ _ _ _ _ hp
        rw [h.2] at hnp
        exact ⟨w', peer, port, List.mem_cons_self _ _, hport, hnp⟩
      | none =>
        simp only [] at h
        cases hrec : peerLoop env inst devIp proto ports action desc direction peers ps1
            (w ++ (findInstanceByIp env w peer).2 ++ evs) with
        | panic evs2 => rw [hrec] at h; simp [CalcResult.value?] at h
        | done r2 evs2 =>
          rw [hrec] at h
          simp only [CalcResult.value?, Option.some.injEq] at h
          subst h
          obtain ⟨w', peer', port, hpe, hport, hnp⟩ := ih ps1 _ (by rw [hrec]; rfl)
          exact ⟨w', peer', port, List.mem_cons_of_mem _ hpe, hport, hnp⟩

/-- A loop over peers one of which is rejected whenever it is looked up returns an error
when it returns. -/
theorem peerLoop_rejects (env : CalcEnv) (inst : ResourceInstance)
    (devIp proto : String) (ports : List String) (action desc direction : String)
    (peers : List String) (policies : List SecurityPolicy) (w : CalcWorld) (p : String)
    (hp : p ∈ peers)
    (hlb : ∀ w', isLoadBalancePeer env direction (findInstanceByIp env w' p).1 = true)
    (r : List SecurityPolicy × Option String)
    (h : (peerLoop env inst devIp proto ports action desc direction peers policies
      w).value? = some r) : r.2 ≠ none := by
  induction peers generalizing policies w with
  | nil => simp at hp
  | cons peer peers ih =>
    simp only [peerLoop] at h
    by_cases hpeer : isLoadBalancePeer env direction (findInstanceByIp env w peer).1 = true
    · rw [if_pos hpeer] at h
      simp only [CalcResult.value?, Option.some.injEq] at h
      rw [← h]
      simp
    · rw [if_neg hpeer] at h
      have hne : p ≠ peer := by
        rintro rfl
        exact hpeer (hlb w)
      have hp' : p ∈ peers := by
        rcases List.mem_cons.1 hp with h1 | h1
        · exact absurd h1 hne
        · exact h1
      cases hport : portLoop env inst devIp peer proto action desc ports policies
          (w ++ (findInstanceByIp env w peer).2) with
      | panic evs => rw [hport] at h; simp [CalcResult.value?] at h
      | done r1 evs =>
        obtain ⟨ps1, perr⟩ := r1
        rw [hport] at h
        cases perr with
        | some e =>
          simp only [CalcResult.value?, Option.some.injEq] at h
          rw [← h]
          simp
        | none =>
          simp only [] at h
          cases hrec : peerLoop env inst devIp proto ports action desc direction peers ps1
              (w ++ (findInstanceByIp env w peer).2 ++ evs) with
          | panic evs2 => rw [hrec] at h; simp [CalcResult.value?] at h
          | done r2 evs2 =>
            rw [hrec] at h
            simp only [CalcResult.value?, Option.some.injEq] at h
            subst h
            exact ih ps1 _ hp' (by rw [hrec]; rfl)

/-- For a device that is not a load balancer, the loop over the peers stops at the first
peer that is rejected, with the error that names it and the policies of the peers before
it. -/
theorem peerLoop_first_rejected (env : CalcEnv) (inst : ResourceInstance)
    (devIp proto : String) (ports : List String) (action desc direction : String)
    (hreg : inst.typeName ∈ registeredResourceTypes)
    (hlbdev : env.IsLoadBalanceType inst.typeName = false)
    (pre : List String) (p : String) (post : List String)
    (hpre : ∀ q ∈ pre, ∀ w',
      isLoadBalancePeer env direction (findInstanceByIp env w' q).1 = false)
    (hp : ∀ w', isLoadBalancePeer env direction (findInstanceByIp env w' p).1 = true)
    (policies : List SecurityPolicy) (w : CalcWorld) :
    (peerLoop env inst devIp proto ports action desc direction (pre ++ p :: post) policies
      w).value? =
      some (policies ++ pre.flatMap (fun q => ports.map fun port =>
        newPolicy inst devIp q proto port action desc), some (lbPeerError p)) := by
  induction pre generalizing policies w with
  | nil =>
    simp only [List.nil_append, peerLoop, hp w, if_true, CalcResult.value?, List.flatMap_nil,
      List.append_nil]
  | cons q pre ih =>
    simp only [List.cons_append, peerLoop, hpre q (List.mem_cons_self _ _) w,
      Bool.false_eq_true, if_false, portLoop_plain env inst devIp q proto action desc hreg
        hlbdev]
    have := ih (fun x hx => hpre x (List.mem_cons_of_mem _ hx))
      (policies ++ ports.map fun port => newPolicy inst devIp q proto port action desc)
      (w ++ (findInstanceByIp env w q).2 ++ [])
    revert this
    cases peerLoop env inst devIp proto ports action desc direction (pre ++ p :: post)
      (policies ++ ports.map fun port => newPolicy inst devIp q proto port action desc)
      (w ++ (findInstanceByIp env w q).2 ++ []) with
    | panic evs => simp [CalcResult.value?]
    | done r evs =>
      simp only [CalcResult.value?, Option.some.injEq, List.flatMap_cons, List.append_assoc]
      exact id

end securitygroup

namespace securitygroup

theorem isLoadBalancePeer_ingress_iff (env : CalcEnv)
    (found : Except String ResourceInstance) :
    isLoadBalancePeer env INGRESS_RULE found = true ↔
      ∃ i, found = .ok i ∧ i.typeName ∈ registeredResourceTypes ∧
        env.IsLoadBalanceType i.typeName = true := by
  unfold isLoadBalancePeer
  cases found with
  | error e => simp
  | ok inst =>
    simp only [Except.ok.injEq, exists_eq_left']
    by_cases hreg : inst.typeName ∈ registeredResourceTypes
    · rw [getResouceTypeByName_of_mem _ hreg]
      simp [hreg]
    · unfold getResouceTypeByName
      rw [if_neg hreg]
      simp [hreg]

set_option maxRecDepth 100000 in
/-- C16 fails as stated: the device `10.0.0.8` is a load balancer without backends, the
first peer is not known and the second, `10.0.0.9`, is a load balancer. The ingress
calculation stops at the first peer with the no-backend error of `newPolicies`, which does
not name `10.0.0.9`. -/
theorem earlier_error_hides_load_balancer_peer :
    isLoadBalancePeer emptyLbEnv INGRESS_RULE
        (findInstanceByIp emptyLbEnv [] "10.0.0.9").1 = true ∧
      (calcPolicies emptyLbEnv [] "10.0.0.8" ["10.0.0.2", "10.0.0.9"] "TCP" ["80"] "accept"
        "svc" INGRESS_RULE).value? =
        some ([], some "loadbalancer(10.0.0.8) port (80) do not have any backends") := by
  decide

/-- C16, amended. For a device that resolves to a resource of a registered type. With
direction ingress, when a peer resolves, whenever it is looked up, to a resource of a
registered type that is a load balancer, a calculation that returns returns an error; when
the device is not a load balancer, the error is the one that names the first such peer in
input order, and the policies returned are those of the peers before it. With direction
egress no peer is rejected: an error that is returned is the error of a call of
`newPolicies`, and there is none when the device is not a load balancer. -/
theorem calcPolicies_load_balancer_peer (env : CalcEnv) (w : CalcWorld) (devIp : String)
    (inst : ResourceInstance)
    (hdev : (findInstanceByIp env w devIp).1 = .ok inst)
    (hreg : inst.typeName ∈ registeredResourceTypes) :
    (∀ found, isLoadBalancePeer env INGRESS_RULE found = true ↔
        ∃ i, found = .ok i ∧ i.typeName ∈ registeredResourceTypes ∧
          env.IsLoadBalanceType i.typeName = true) ∧
      (∀ peerIps proto ports action desc p, p ∈ peerIps →
        (∀ w', isLoadBalancePeer env INGRESS_RULE (findInstanceByIp env w' p).1 = true) →
        ∀ r, (calcPolicies env w devIp peerIps proto ports action desc INGRESS_RULE).value? =
          some r → r.2 ≠ none) ∧
      (env.IsLoadBalanceType inst.typeName = false →
        ∀ pre p post proto ports action desc,
          (∀ q ∈ pre, ∀ w',
            isLoadBalancePeer env INGRESS_RULE (findInstanceByIp env w' q).1 = false) →
          (∀ w', isLoadBalancePeer env INGRESS_RULE (findInstanceByIp env w' p).1 = true) →
          (calcPolicies env w devIp (pre ++ p :: post) proto ports action desc
            INGRESS_RULE).value? =
            some (pre.flatMap (fun q => ports.map fun port =>
              newPolicy inst devIp q proto port action desc), some (lbPeerError p))) ∧
      (∀ peerIps proto ports action desc ps err,
        (calcPolicies env w devIp peerIps proto ports action desc EGRESS_RULE).value? =
          some (ps, some err) →
        ∃ w' peer port, peer ∈ peerIps ∧ port ∈ ports ∧
          ((newPolicies env w' inst devIp peer proto port action desc).value?.map
            Prod.snd) = some (some err)) ∧
      (env.IsLoadBalanceType inst.typeName = false →
        ∀ peerIps proto ports action desc r,
          (calcPolicies env w devIp peerIps proto ports action desc EGRESS_RULE).value? =
            some r → r.2 = none) := by
  have hne : ¬ INGRESS_RULE = EGRESS_RULE := by decide
  have hing : ∀ peerIps proto ports action desc,
      (calcPolicies env w devIp peerIps proto ports action desc INGRESS_RULE).value? =
        (peerLoop env inst devIp proto ports action desc INGRESS_RULE peerIps []
            (w ++ (findInstanceByIp env w devIp).2)).value? := by
    intro peerIps proto ports action desc
    unfold calcPolicies
    simp only [hdev, getResouceTypeByName_of_mem _ hreg, hne, false_and, if_false]
    cases peerLoop env inst devIp proto ports action desc INGRESS_RULE peerIps []
      (w ++ (findInstanceByIp env w devIp).2) <;> rfl
  refine ⟨isLoadBalancePeer_ingress_iff env, ?_, ?_, ?_, ?_⟩
  · intro peerIps proto ports action desc p hp hlb r hr
    rw [hing] at hr
    exact peerLoop_rejects env inst devIp proto ports action desc INGRESS_RULE peerIps []
      _ p hp hlb r hr
  · intro hlbdev pre p post proto ports action desc hpre hp
    rw [hing]
    have := peerLoop_first_rejected env inst devIp proto ports action desc INGRESS_RULE hreg
      hlbdev pre p post hpre hp [] (w ++ (findInstanceByIp env w devIp).2)
    simpa using this
  · intro peerIps proto ports action desc ps err h
    unfold calcPolicies at h
    simp only [hdev, getResouceTypeByName_of_mem _ hreg, true_and] at h
    by_cases hskip : env.IsSupportEgressPolicy inst.typeName = false
    · rw [if_pos hskip] at h
      simp [CalcResult.value?] at h
    · rw [if_neg hskip] at h
      apply peerLoop_error_origin env inst devIp proto ports action desc EGRESS_RULE peerIps
        [] (w ++ (findInstanceByIp env w devIp).2) (isLoadBalancePeer_egress env) ps err
      revert h
      cases peerLoop env inst devIp proto ports action desc EGRESS_RULE peerIps []
        (w ++ (findInstanceByIp env w devIp).2) with
      | panic evs => simp [CalcResult.value?]
      | done r evs => simp only [CalcResult.value?]; exact id
  · intro hlbdev peerIps proto ports action desc r h
    by_cases hskip : env.IsSupportEgressPolicy inst.typeName = false
    · unfold calcPolicies at h
      simp only [hdev, getResouceTypeByName_of_mem _ hreg, hskip, and_self, if_true,
        CalcResult.value?, Option.some.injEq] at h
      rw [← h]
    · have := calcPolicies_plain env inst hreg hlbdev w devIp peerIps proto ports action desc
        EGRESS_RULE hdev (by simp [hskip]) (fun _ _ _ => isLoadBalancePeer_egress _ _)
      rw [this] at h
      simp only [Option.some.injEq] at h
      rw [← h]

set_option maxRecDepth 100000 in
theorem calcPolicies_load_balancer_peer_witness :
    ((calcPolicies vmAndLbEnv [] "10.0.0.1" ["10.0.0.2", "10.0.0.9", "10.0.0.3"] "TCP"
        ["80"] "accept" "svc" INGRESS_RULE).value?.map fun r =>
          (r.1.map fun p => (p.Ip, p.PeerIp, p.Ports), r.2)) =
        some ([("10.0.0.1", "10.0.0.2", "80")], some (lbPeerError "10.0.0.9")) ∧
      (calcPolicies vmAndLbEnv [] "10.0.0.1" (["10.0.0.2"] ++ "10.0.0.9" :: ["10.0.0.3"])
        "TCP" ["80"] "accept" "svc" INGRESS_RULE).value? =
        some (["10.0.0.2"].flatMap (fun q => ["80"].map fun port =>
          newPolicy (cvmAt "10.0.0.1") "10.0.0.1" q "TCP" port "accept" "svc"),
          some (lbPeerError "10.0.0.9")) :=
  ⟨by decide,
    (calcPolicies_load_balancer_peer vmAndLbEnv [] "10.0.0.1" (cvmAt "10.0.0.1") (by rfl)
      (by decide)).2.2.1 (by decide) ["10.0.0.2"] "10.0.0.9" ["10.0.0.3"] "TCP" ["80"]
      "accept" "svc"
      (by
        intro q hq w'
        simp only [List.mem_singleton] at hq
        subst hq
        rw [findInstanceByIp_stateless vmAndLbEnv (scriptedCalcEnv_stateless _ _ _ _)
          "10.0.0.2" w' []]
        decide)
      (by
        intro w'
        rw [findInstanceByIp_stateless vmAndLbEnv (scriptedCalcEnv_stateless _ _ _ _)
          "10.0.0.9" w' []]
        decide)⟩

end securitygroup

namespace securitygroup

/-! ## One round, whatever the provider answers -/

theorem succeeded_no_error (e : Event) (h : e.succeeded = true) : e.error? = none := by
  cases herr : e.error? with
  | none => rfl
  | some err =>
    have := error_not_succeeded e err herr
    rw [h] at this
    cases this

/-- The second half of a round writes nothing but error messages and group ids. -/
theorem applyGroupTail_eraseStatus (env : Env) (w : World)
    (providerParams : String) (inst : ResourceInstance) (exist : List String)
    (p0 : SecurityPolicy) (tl : List SecurityPolicy) (direction : String)
    (ps' : List SecurityPolicy) (evs : List Event)
    (h : applyGroupTail env w providerParams inst exist p0 (p0 :: tl) direction =
      .done ps' evs) :
    ps'.map eraseStatus = (p0 :: tl).map eraseStatus := by
  unfold applyGroupTail at h
  rcases createPolicies_cases env w providerParams exist p0 tl direction with
    ⟨newIds, err, evsC, hcp, -, -, -⟩ | ⟨names, newIds, evsP, -, -, -, -, -, -, -, hcp⟩
  · rw [hcp] at h
    simp only [Result.done.injEq] at h
    rw [← h.1]
    exact fillSecuityPoliciesWithErrMsg_eraseStatus _ _
  · cases hfl : fillLoop env providerParams direction
      (newIds.foldl (fun m g => mapSet m g MAX_SEUCRITY_RULE_NUM)
        ((queriedFree direction evsP).foldl (fun m gf => mapSet m gf.1 gf.2) []))
      ((queriedFree direction evsP).map Prod.fst ++ newIds) 0 (p0 :: tl) (w ++ evsP) with
    | panic evs4 =>
      rw [hfl] at hcp
      simp only [] at hcp
      rw [hcp] at h
      cases h
    | done r evs4 =>
      obtain ⟨err, ps1⟩ := r
      rw [hfl] at hcp
      simp only [] at hcp
      rw [hcp] at h
      cases err with
      | some err =>
        simp only [Result.done.injEq] at h
        rw [← h.1]
        obtain ⟨-, hers, -, -⟩ := fillLoop_done_err _ _ _ _ _ _ _ _ (Nat.zero_le _) _ _ _ hfl
        exact (fillSecuityPoliciesWithErrMsg_eraseStatus _ _).trans hers
      | none =>
        obtain ⟨-, -, hps, -⟩ := fillLoop_done_none _ _ _ _ _ _ _ _ (Nat.zero_le _) _ _ hfl
        have hers1 : ps1.map eraseStatus = (p0 :: tl).map eraseStatus := by
          rw [hps, List.take_zero, List.nil_append, List.drop_zero, List.map_append,
            boundSlices_eraseStatus, ← List.map_append, greedySlices_join]
        simp only [] at h
        split at h
        · revert h
          cases env.InstanceAssociateSecurityGroups (w ++ (evsP ++ evs4)) inst
              providerParams (newIds ++ exist) with
          | none =>
            intro h
            simp only [Result.done.injEq] at h
            rw [← h.1]
            exact hers1
          | some err =>
            intro h
            simp only [Result.done.injEq] at h
            rw [← h.1]
            exact (fillSecuityPoliciesWithErrMsg_eraseStatus _ _).trans hers1
        · simp only [Result.done.injEq] at h
          rw [← h.1]
          exact hers1

/-- A round writes nothing but error messages and group ids. -/
theorem applyGroup_eraseStatus (env : Env) (w : World) (ps : List SecurityPolicy)
    (direction : String) (ps' : List SecurityPolicy) (evs : List Event)
    (h : applyGroup env w ps direction = .done ps' evs) :
    ps'.map eraseStatus = ps.map eraseStatus := by
  cases ps with
  | nil => simp [applyGroup] at h
  | cons p0 tl =>
    rcases applyGroup_cases env w p0 tl direction with
      ⟨err, evs1, heq, -, -, -⟩ | ⟨evs1, heq, -, -⟩ |
      ⟨providerParams, inst, exist, evs0, -, -, heq⟩
    · rw [heq] at h
      simp only [Result.done.injEq] at h
      rw [← h.1]
      exact fillSecuityPoliciesWithErrMsg_eraseStatus _ _
    · rw [heq] at h
      cases h
    · rw [heq] at h
      cases htail : applyGroupTail env (w ++ evs0) providerParams inst exist p0 (p0 :: tl)
          direction with
      | panic evs1 => rw [htail] at h; cases h
      | done ps1 evs1 =>
        rw [htail] at h
        simp only [Result.done.injEq] at h
        rw [← h.1]
        exact applyGroupTail_eraseStatus env _ _ _ _ _ _ _ _ _ htail

/-- The second half of a round panics only after calls that all succeeded. -/
theorem applyGroupTail_panic (env : Env) (w : World) (providerParams : String)
    (inst : ResourceInstance) (exist : List String) (p0 : SecurityPolicy)
    (tl : List SecurityPolicy) (direction : String) (evs : List Event)
    (h : applyGroupTail env w providerParams inst exist p0 (p0 :: tl) direction =
      .panic evs) :
    ∀ e ∈ evs, e.succeeded = true := by
  unfold applyGroupTail at h
  rcases createPolicies_cases env w providerParams exist p0 tl direction with
    ⟨newIds, err, evsC, hcp, -, -, -⟩ | ⟨names, newIds, evsP, hP, -, -, -, -, -, -, hcp⟩
  · rw [hcp] at h
    cases h
  · cases hfl : fillLoop env providerParams direction
      (newIds.foldl (fun m g => mapSet m g MAX_SEUCRITY_RULE_NUM)
        ((queriedFree direction evsP).foldl (fun m gf => mapSet m gf.1 gf.2) []))
      ((queriedFree direction evsP).map Prod.fst ++ newIds) 0 (p0 :: tl) (w ++ evsP) with
    | panic evs4 =>
      rw [hfl] at hcp
      simp only [] at hcp
      rw [hcp] at h
      simp only [Result.panic.injEq] at h
      subst h
      have hok := (fillLoop_panic _ _ _ _ _ _ _ _ (Nat.zero_le _) _ hfl).2
      intro e he
      rcases List.mem_append.1 he with h1 | h1
      · exact (hP e h1).1
      · exact hok e h1
    | done r evs4 =>
      obtain ⟨err, ps1⟩ := r
      rw [hfl] at hcp
      simp only [] at hcp
      rw [hcp] at h
      cases err with
      | some err => cases h
      | none =>
        simp only [] at h
        split at h
        · revert h
          cases env.InstanceAssociateSecurityGroups (w ++ (evsP ++ evs4)) inst
              providerParams (newIds ++ exist) with
          | none => intro h; cases h
          | some err => intro h; cases h
        · cases h

/-- A round panics only when the type of its first entry is registered and no call of the
round returned an error: a round in which a call fails, or whose type is not registered,
returns. -/
theorem applyGroup_panic_no_error (env : Env) (w : World) (ps : List SecurityPolicy)
    (direction : String) (evs : List Event)
    (h : applyGroup env w ps direction = .panic evs) :
    (∀ e ∈ evs, e.error? = none) ∧ ∀ p0 ∈ ps.head?, p0.Typ ∈ registeredResourceTypes := by
  cases ps with
  | nil =>
    simp only [applyGroup, Result.panic.injEq] at h
    subst h
    simp
  | cons p0 tl =>
    unfold applyGroup at h
    by_cases hreg : p0.Typ ∈ registeredResourceTypes
    swap
    · simp [getResouceTypeByName, hreg] at h
    refine ⟨?_, by simpa using hreg⟩
    simp only [getResouceTypeByName, if_pos hreg] at h
    revert h
    cases h1 : env.getProviderParams w p0.Region with
    | error err => intro h; cases h
    | ok providerParams =>
      simp only []
      cases h2 : env.QueryInstancesById
          (w ++ [Event.getProviderParams p0.Region (Except.ok providerParams)]) p0.Typ
          providerParams [p0.Id] with
      | error err => intro h; cases h
      | ok instances =>
        simp only []
        by_cases hlen : instances.length = 0
        · rw [if_pos hlen]; intro h; cases h
        · rw [if_neg hlen]
          cases hget : mapGet instances p0.Id with
          | none =>
            intro h
            simp only [Result.panic.injEq] at h
            subst h
            intro e he
            simp only [List.mem_cons, List.mem_singleton, List.not_mem_nil, or_false] at he
            rcases he with rfl | rfl <;> rfl
          | some inst =>
            simp only []
            cases h3 : env.InstanceQuerySecurityGroups
                (w ++ [Event.getProviderParams p0.Region (Except.ok providerParams),
                  Event.queryInstancesById p0.Typ providerParams [p0.Id]
                    (Except.ok instances)])
                inst providerParams with
            | error err => intro h; cases h
            | ok exist =>
              simp only []
              cases htail : applyGroupTail env
                  (w ++ [Event.getProviderParams p0.Region (Except.ok providerParams),
                    Event.queryInstancesById p0.Typ providerParams [p0.Id]
                      (Except.ok instances),
                    Event.instanceQuerySecurityGroups inst providerParams (Except.ok exist)])
                  providerParams inst exist p0 (p0 :: tl) direction with
              | done ps1 evs1 => intro h; cases h
              | panic evs1 =>
                intro h
                simp only [Result.panic.injEq] at h
                subst h
                have hok := applyGroupTail_panic env _ _ _ _ _ _ _ _ htail
                intro e he
                simp only [List.cons_append, List.nil_append, List.mem_cons] at he
                rcases he with rfl | rfl | rfl | he
                · rfl
                · rfl
                · rfl
                · exact succeeded_no_error e (hok e he)

/-- A round whose calls all succeed, for a registered type, leaves the error messages as
they were. -/
theorem applyGroup_ok_ErrorMsg (env : Env) (w : World) (ps : List SecurityPolicy)
    (direction : String) (ps' : List SecurityPolicy) (evs : List Event)
    (h : applyGroup env w ps direction = .done ps' evs)
    (hok : ∀ e ∈ evs, e.succeeded = true)
    (hreg : ∀ p0 ∈ ps.head?, p0.Typ ∈ registeredResourceTypes) :
    ps'.map (fun p => p.ErrorMsg) = ps.map (fun p => p.ErrorMsg) := by
  cases ps with
  | nil => simp [applyGroup] at h
  | cons p0 tl =>
    have hreg0 : p0.Typ ∈ registeredResourceTypes := hreg p0 (by simp)
    rcases applyGroup_cases env w p0 tl direction with
      ⟨err, evs1, heq, -, -, hno⟩ | ⟨evs1, heq, -, -⟩ |
      ⟨providerParams, inst, exist, evs0, h0, -, heq⟩
    · exfalso
      rw [heq] at h
      simp only [Result.done.injEq] at h
      rw [h.2] at hno
      exact hno hreg0 hok
    · rw [heq] at h
      cases h
    · rw [heq] at h
      cases htail : applyGroupTail env (w ++ evs0) providerParams inst exist p0 (p0 :: tl)
          direction with
      | panic evs1 => rw [htail] at h; cases h
      | done ps1 evs1 =>
        rw [htail] at h
        simp only [Result.done.injEq] at h
        obtain ⟨rfl, rfl⟩ := h
        have hok1 : ∀ e ∈ evs1, e.succeeded = true :=
          fun e he => hok e (List.mem_append_right _ he)
        unfold applyGroupTail at htail
        rcases createPolicies_cases env (w ++ evs0) providerParams exist p0 tl direction with
          ⟨newIds, err, evsC, hcp, -, hnot, -⟩ |
          ⟨names, newIds, evsP, hP, -, -, -, -, -, -, hcp⟩
        · exfalso
          rw [hcp] at htail
          simp only [Result.done.injEq] at htail
          apply hnot
          intro e he
          exact hok1 e (by rw [← htail.2]; exact List.mem_append_left _ he)
        · cases hfl : fillLoop env providerParams direction
            (newIds.foldl (fun m g => mapSet m g MAX_SEUCRITY_RULE_NUM)
              ((queriedFree direction evsP).foldl (fun m gf => mapSet m gf.1 gf.2) []))
            ((queriedFree direction evsP).map Prod.fst ++ newIds) 0 (p0 :: tl)
            (w ++ evs0 ++ evsP) with
          | panic evs4 =>
            rw [hfl] at hcp
            simp only [] at hcp
            rw [hcp] at htail
            cases htail
          | done r evs4 =>
            obtain ⟨err, ps2⟩ := r
            rw [hfl] at hcp
            simp only [] at hcp
            rw [hcp] at htail
            cases err with
            | some err =>
              exfalso
              simp only [Result.done.injEq] at htail
              obtain ⟨⟨e, he, -, hns⟩, -⟩ :=
                fillLoop_done_err _ _ _ _ _ _ _ _ (Nat.zero_le _) _ _ _ hfl
              have := hok1 e (by
                rw [← htail.2]
                exact List.mem_append_left _ (List.mem_append_right _ he))
              rw [hns] at this
              cases this
            | none =>
              obtain ⟨-, -, hps, -⟩ :=
                fillLoop_done_none _ _ _ _ _ _ _ _ (Nat.zero_le _) _ _ hfl
              have hmsg1 : ps2.map (fun p => p.ErrorMsg) =
                  (p0 :: tl).map (fun p => p.ErrorMsg) := by
                rw [hps, List.take_zero, List.nil_append, List.drop_zero, List.map_append,
                  boundSlices_ErrorMsg, ← List.map_append, greedySlices_join]
              simp only [] at htail
              split at htail
              · revert htail
                cases hb : env.InstanceAssociateSecurityGroups (w ++ evs0 ++ (evsP ++ evs4))
                    inst providerParams (newIds ++ exist) with
                | none =>
                  intro htail
                  simp only [Result.done.injEq] at htail
                  rw [← htail.1]
                  exact hmsg1
                | some err =>
                  intro htail
                  exfalso
                  simp only [Result.done.injEq] at htail
                  have := hok1 (Event.instanceAssociateSecurityGroups inst providerParams
                    (newIds ++ exist) (some err)) (by rw [← htail.2]; simp)
                  simp [Event.succeeded] at this
              · simp only [Result.done.injEq] at htail
                rw [← htail.1]
                exact hmsg1

end securitygroup

namespace securitygroup

/-! ## The rounds of a pass -/

theorem groupFold_get (qs : List SecurityPolicy) (m0 : List (String × List SecurityPolicy))
    (k : String) :
    (mapGet (qs.foldl (fun m q => mapAppend m q.Ip q) m0) k).getD [] =
      (mapGet m0 k).getD [] ++ qs.filter (fun q => q.Ip = k) := by
  induction qs generalizing m0 with
  | nil => simp
  | cons q qs ih =>
    simp only [List.foldl_cons]
    rw [ih, mapGet_mapAppend]
    by_cases hk : q.Ip = k
    · rw [if_pos hk, List.filter_cons_of_pos (by simpa using hk), hk]
      simp
    · rw [if_neg hk, List.filter_cons_of_neg (by simpa using hk)]

theorem partition_group (policies : List SecurityPolicy) (ip : String) :
    (mapGet (partitionLoop policies [] []).1 ip).getD [] = ownerGroup policies ip := by
  rw [partitionLoop_eq]
  simp only []
  rw [groupFold_get]
  simp [mapGet, ownerGroup]

theorem partition_key_of_group (policies : List SecurityPolicy) (ip : String)
    (h : ownerGroup policies ip ≠ []) : ip ∈ mapKeys (partitionLoop policies [] []).1 := by
  by_contra hk
  apply h
  rw [← partition_group, (mapGet_eq_none_iff _ _).2 hk]
  rfl

theorem partition_keys_nodup (policies : List SecurityPolicy) :
    (mapKeys (partitionLoop policies [] []).1).Nodup := by
  rw [partitionLoop_eq]
  exact groupFold_keys_nodup _ [] (by simp [mapKeys])

/-- Every round of the second loop that the loop finishes is a run of `applyGroup` on the
group as the first loop left it, in the history the earlier rounds leave, and its events are
a segment of those of the loop. -/
theorem applyLoop_rounds (env : Env) (direction : String) (ks : List String)
    (m : List (String × List SecurityPolicy)) (w : World)
    (m' : List (String × List SecurityPolicy)) (evs : List Event) (hnd : ks.Nodup)
    (h : applyLoop env direction ks m w = .done m' evs) :
    mapKeys m' = mapKeys m ∧
      (∀ k ∈ ks, ∃ pre evk post, evs = pre ++ evk ++ post ∧
        applyGroup env (w ++ pre) ((mapGet m k).getD []) direction =
          .done ((mapGet m' k).getD []) evk) ∧
      ∀ k, k ∉ ks → mapGet m' k = mapGet m k := by
  induction ks generalizing m w evs with
  | nil =>
    simp only [applyLoop, Result.done.injEq] at h
    obtain ⟨rfl, rfl⟩ := h
    simp
  | cons k ks ih =>
    simp only [applyLoop] at h
    simp only [List.nodup_cons] at hnd
    cases hg : applyGroup env w ((mapGet m k).getD []) direction with
    | panic evk => rw [hg] at h; cases h
    | done g' evk =>
      rw [hg] at h
      simp only [] at h
      cases hrest : applyLoop env direction ks (mapSet m k g') (w ++ evk) with
      | panic evs2 => rw [hrest] at h; cases h
      | done m'' evs2 =>
        rw [hrest] at h
        simp only [Result.done.injEq] at h
        obtain ⟨rfl, rfl⟩ := h
        obtain ⟨hkeys, hin, hout⟩ := ih (mapSet m k g') (w ++ evk) evs2 hnd.2 hrest
        have hkm : k ∈ mapKeys m := by
          by_contra hk
          rw [(mapGet_eq_none_iff m k).2 hk] at hg
          simp [applyGroup] at hg
        refine ⟨hkeys.trans (mapKeys_mapSet_of_mem m k g' hkm), ?_, ?_⟩
        · intro k' hk'
          rcases List.mem_cons.1 hk' with rfl | hk'
          · refine ⟨[], evk, evs2, by simp, ?_⟩
            rw [hout k' hnd.1, mapGet_mapSet, if_pos rfl, List.append_nil]
            exact hg
          · have hne : k ≠ k' := by
              rintro rfl
              exact hnd.1 hk'
            obtain ⟨pre, evk', post, heq, hrun⟩ := hin k' hk'
            rw [mapGet_mapSet, if_neg hne] at hrun
            refine ⟨evk ++ pre, evk', post, by rw [heq]; simp only [List.append_assoc], ?_⟩
            rw [← List.append_assoc]
            exact hrun
        · intro k' hk'
          simp only [List.mem_cons, not_or] at hk'
          rw [hout k' hk'.2, mapGet_mapSet, if_neg (Ne.symm hk'.1)]

/-- The second loop panics only in a round that panics. -/
theorem applyLoop_panic (env : Env) (direction : String) (ks : List String)
    (m : List (String × List SecurityPolicy)) (w : World) (evs : List Event)
    (h : applyLoop env direction ks m w = .panic evs) :
    ∃ pre evk g, evs = pre ++ evk ∧ applyGroup env (w ++ pre) g direction = .panic evk := by
  induction ks generalizing m w evs with
  | nil => simp [applyLoop] at h
  | cons k ks ih =>
    simp only [applyLoop] at h
    cases hg : applyGroup env w ((mapGet m k).getD []) direction with
    | panic evk =>
      rw [hg] at h
      simp only [Result.panic.injEq] at h
      subst h
      exact ⟨[], evk, _, by simp, by rw [List.append_nil]; exact hg⟩
    | done g' evk =>
      rw [hg] at h
      simp only [] at h
      cases hrest : applyLoop env direction ks (mapSet m k g') (w ++ evk) with
      | done m'' evs2 => rw [hrest] at h; cases h
      | panic evs2 =>
        rw [hrest] at h
        simp only [Result.panic.injEq] at h
        subst h
        obtain ⟨pre, evk', g, heq, hrun⟩ := ih _ _ _ hrest
        refine ⟨evk ++ pre, evk', g, by rw [heq, List.append_assoc], ?_⟩
        rw [← List.append_assoc]
        exact hrun

/-- A pass that finishes: every owner address with entries had its round, a run of
`applyGroup` on its entries whose events are a segment of those of the pass, and the result
lists are read off what the rounds left. -/
theorem applyPolicies_done_rounds (env : Env) (w : World) (policies : List SecurityPolicy)
    (direction : String) (r : ApplyResult) (evs : List Event)
    (hrun : applyPolicies env w policies direction = .done r evs) :
    ∃ (G : String → List SecurityPolicy) (ks : List String),
      (∀ ip, ownerGroup policies ip ≠ [] → ip ∈ ks) ∧
      (∀ ip ∈ ks, ∃ pre evk post, evs = pre ++ evk ++ post ∧
        applyGroup env (w ++ pre) (ownerGroup policies ip) direction = .done (G ip) evk) ∧
      r.SuccessPolicies = (ks.flatMap G).filter (fun p => p.ErrorMsg = "") ∧
      r.FailedPolicies = (ks.flatMap G).filter (fun p => ¬ p.ErrorMsg = "") ∧
      r.UndoPolicies =
        (policies.filter (fun p => !p.SupportSecurityGroupApi)).map
          (fun p => markUndo (normalizeType p)) ∧
      r.FailedTotal = r.FailedPolicies.length ∧ r.SuccessTotal = r.SuccessPolicies.length := by
  unfold applyPolicies at hrun
  have hkeys := partition_keys_nodup policies
  have hgrp := partition_group policies
  have hkey := partition_key_of_group policies
  have hundo : (partitionLoop policies [] []).2 =
      (policies.filter (fun p => !p.SupportSecurityGroupApi)).map
        (fun p => markUndo (normalizeType p)) := by
    rw [partitionLoop_eq]; simp
  generalize (partitionLoop policies [] []).1 = m at hrun hkeys hgrp hkey
  rw [hundo] at hrun
  cases hloop : applyLoop env direction
      (rangeKeys (env.mapOrder w (mapKeys m)) (mapKeys m)) m w with
  | panic evs1 => rw [hloop] at hrun; cases hrun
  | done m' evs1 =>
    rw [hloop] at hrun
    simp only [Result.done.injEq] at hrun
    obtain ⟨rfl, rfl⟩ := hrun
    have hK := rangeKeys_perm (env.mapOrder w (mapKeys m)) (mapKeys m) hkeys
    obtain ⟨hkm, hin, -⟩ := applyLoop_rounds env direction _ m w m' evs1
      (hK.nodup_iff.2 hkeys) hloop
    refine ⟨fun ip => (mapGet m' ip).getD [],
      rangeKeys (env.mapOrder (w ++ evs1) (mapKeys m')) (mapKeys m'), ?_, ?_, ?_, ?_, rfl, rfl,
      rfl⟩
    · intro ip hip
      rw [mem_rangeKeys, hkm]
      exact hkey ip hip
    · intro ip hip
      rw [mem_rangeKeys, hkm] at hip
      obtain ⟨pre, evk, post, heq, hrun⟩ := hin ip ((mem_rangeKeys _ _ _).2 hip)
      rw [hgrp] at hrun
      exact ⟨pre, evk, post, heq, hrun⟩
    · simp only [collectLoop_eq, List.nil_append]
    · simp only [collectLoop_eq, List.nil_append]

theorem applyPolicies_panic_round (env : Env) (w : World) (policies : List SecurityPolicy)
    (direction : String) (evs : List Event)
    (hrun : applyPolicies env w policies direction = .panic evs) :
    ∃ pre evk g, evs = pre ++ evk ∧ applyGroup env (w ++ pre) g direction = .panic evk := by
  unfold applyPolicies at hrun
  cases hloop : applyLoop env direction
      (rangeKeys (env.mapOrder w (mapKeys (partitionLoop policies [] []).1))
        (mapKeys (partitionLoop policies [] []).1)) (partitionLoop policies [] []).1 w with
  | done m' evs1 => rw [hloop] at hrun; cases hrun
  | panic evs1 =>
    rw [hloop] at hrun
    simp only [Result.panic.injEq] at hrun
    subst hrun
    exact applyLoop_panic env direction _ _ w _ hloop

end securitygroup

namespace securitygroup

/-! ## Entries that do not support the API -/

theorem rangeKeys_nil (hint : List String) : rangeKeys hint [] = [] := by
  simp [rangeKeys]

theorem partition_map_filter (policies : List SecurityPolicy) :
    (partitionLoop (policies.filter fun p => p.SupportSecurityGroupApi) [] []).1 =
      (partitionLoop policies [] []).1 := by
  rw [partitionLoop_eq, partitionLoop_eq]
  simp only [List.filter_filter, Bool.and_self]

theorem ownerGroup_support (policies : List SecurityPolicy) (ip : String) :
    ∀ q ∈ ownerGroup policies ip, q.SupportSecurityGroupApi = true := by
  intro q hq
  unfold ownerGroup at hq
  obtain ⟨p, hp, rfl⟩ := List.mem_map.1 (List.mem_of_mem_filter hq)
  rw [normalizeType_support]
  simpa using (List.mem_filter.1 hp).2

/-- C11. The external calls of a pass are those of the pass on the batch without the entries
whose `SupportSecurityGroupApi` is false. When the pass finishes, these entries are, in
input order and each with a non-empty `UndoReason`, the entries of `UndoPolicies`, and every
entry of `SuccessPolicies` and of `FailedPolicies` supports the API. A batch of such entries
alone makes no external call and gives `FailedTotal = 0`, no failed and no success entry. -/
theorem applyPolicies_unsupported_entries (env : Env) (w : World)
    (policies : List SecurityPolicy) (direction : String) :
    (applyPolicies env w policies direction).events =
        (applyPolicies env w (policies.filter fun p => p.SupportSecurityGroupApi)
          direction).events ∧
      (∀ r, (applyPolicies env w policies direction).value? = some r →
        r.UndoPolicies =
            (policies.filter (fun p => !p.SupportSecurityGroupApi)).map
              (fun p => markUndo (normalizeType p)) ∧
          (∀ p ∈ r.UndoPolicies, p.UndoReason ≠ "" ∧ p.SupportSecurityGroupApi = false) ∧
          ∀ p ∈ r.SuccessPolicies ++ r.FailedPolicies, p.SupportSecurityGroupApi = true) ∧
      ((∀ p ∈ policies, p.SupportSecurityGroupApi = false) →
        ∃ r, applyPolicies env w policies direction = .done r [] ∧
          r.FailedTotal = 0 ∧ r.FailedPolicies = [] ∧ r.SuccessPolicies = [] ∧
          r.UndoPolicies = policies.map (fun p => markUndo (normalizeType p))) := by
  refine ⟨?_, ?_, ?_⟩
  · unfold applyPolicies
    rw [partition_map_filter]
    cases applyLoop env direction
      (rangeKeys (env.mapOrder w (mapKeys (partitionLoop policies [] []).1))
        (mapKeys (partitionLoop policies [] []).1)) (partitionLoop policies [] []).1 w <;> rfl
  · intro r hr
    have hdone := value_events_done _ r hr
    obtain ⟨G, ks, -, hrounds, hS, hF, hU, -, -⟩ :=
      applyPolicies_done_rounds env w policies direction r _ hdone
    refine ⟨hU, ?_, ?_⟩
    · intro p hp
      rw [hU] at hp
      obtain ⟨p0, hp0, rfl⟩ := List.mem_map.1 hp
      constructor
      · show "instanceType(" ++ (normalizeType p0).Typ ++
          ") do not support security group api" ≠ ""
        rw [String.append_assoc]
        exact append_ne_empty _ _ (by decide)
      · show (normalizeType p0).SupportSecurityGroupApi = false
        rw [normalizeType_support]
        simpa using (List.mem_filter.1 hp0).2
    · intro p hp
      have hmem : p ∈ ks.flatMap G := by
        rcases List.mem_append.1 hp with h | h
        · rw [hS] at h; exact List.mem_of_mem_filter h
        · rw [hF] at h; exact List.mem_of_mem_filter h
      obtain ⟨ip, hip, hpG⟩ := List.mem_flatMap.1 hmem
      obtain ⟨pre, evk, post, -, hround⟩ := hrounds ip hip
      have hers := applyGroup_eraseStatus env _ _ _ _ _ hround
      have h1 : eraseStatus p ∈ (G ip).map eraseStatus := List.mem_map.2 ⟨p, hpG, rfl⟩
      rw [hers] at h1
      obtain ⟨q, hq, hqp⟩ := List.mem_map.1 h1
      have h2 : (eraseStatus q).SupportSecurityGroupApi =
          (eraseStatus p).SupportSecurityGroupApi :=
        congrArg SecurityPolicy.SupportSecurityGroupApi hqp
      have h3 : q.SupportSecurityGroupApi = p.SupportSecurityGroupApi := h2
      rw [← h3]
      exact ownerGroup_support policies ip q hq
  · intro hall
    have hf : policies.filter (fun p => p.SupportSecurityGroupApi) = [] := by
      rw [List.filter_eq_nil_iff]
      intro p hp
      simp [hall p hp]
    have hn : policies.filter (fun p => !p.SupportSecurityGroupApi) = policies := by
      rw [List.filter_eq_self]
      intro p hp
      simp [hall p hp]
    unfold applyPolicies
    rw [partitionLoop_eq]
    simp only [hf, hn, List.map_nil, List.foldl_nil, mapKeys, rangeKeys_nil, applyLoop,
      collectLoop, List.length_nil, List.nil_append]
    exact ⟨_, rfl, rfl, rfl, rfl, rfl⟩

/-! ## Rounds do not interfere -/

theorem ownerGroup_Ip (policies : List SecurityPolicy) (ip : String) :
    ∀ q ∈ ownerGroup policies ip, q.Ip = ip := by
  intro q hq
  unfold ownerGroup at hq
  simpa using (List.mem_filter.1 hq).2

/-- C12. A pass stops early only in a round that panics, and such a round is one in which no
call returned an error and whose type is registered: a round in which the type lookup or a
provider call fails returns and the loop goes on. In a pass that finishes, the entries of
every owner address had their own round, a run of `applyGroup` on these entries alone; what
the round left of them, equal to them up to error message and group id, is what the result
lists report for that address, by the error message of each entry; and when all calls of
that round succeeded, for entries of a registered type that came without error message,
every one of them is in `SuccessPolicies`, whatever happened in the other rounds. -/
theorem applyPolicies_rounds_isolated (env : Env) (w : World)
    (policies : List SecurityPolicy) (direction : String) :
    (∀ evs, applyPolicies env w policies direction = .panic evs →
        ∃ pre evk g, evs = pre ++ evk ∧
          applyGroup env (w ++ pre) g direction = .panic evk ∧
          (∀ e ∈ evk, e.error? = none) ∧
          ∀ p0 ∈ g.head?, p0.Typ ∈ registeredResourceTypes) ∧
      ∀ r evs, applyPolicies env w policies direction = .done r evs →
        ∀ ip, ownerGroup policies ip ≠ [] →
          ∃ pre evk post g', evs = pre ++ evk ++ post ∧
            applyGroup env (w ++ pre) (ownerGroup policies ip) direction = .done g' evk ∧
            g'.map eraseStatus = (ownerGroup policies ip).map eraseStatus ∧
            (∀ p ∈ g', (p.ErrorMsg = "" → p ∈ r.SuccessPolicies) ∧
              (p.ErrorMsg ≠ "" → p ∈ r.FailedPolicies)) ∧
            (∀ p ∈ r.SuccessPolicies ++ r.FailedPolicies, p.Ip = ip → p ∈ g') ∧
            ((∀ e ∈ evk, e.succeeded = true) →
              (∀ p ∈ ownerGroup policies ip,
                p.ErrorMsg = "" ∧ p.Typ ∈ registeredResourceTypes) →
              ∀ p ∈ g', p ∈ r.SuccessPolicies ∧ p.ErrorMsg = "") := by
  constructor
  · intro evs hrun
    obtain ⟨pre, evk, g, heq, hpanic⟩ := applyPolicies_panic_round env w policies direction
      evs hrun
    obtain ⟨h1, h2⟩ := applyGroup_panic_no_error env _ g direction evk hpanic
    exact ⟨pre, evk, g, heq, hpanic, h1, h2⟩
  · intro r evs hrun ip hip
    obtain ⟨G, ks, hmem, hrounds, hS, hF, -, -, -⟩ :=
      applyPolicies_done_rounds env w policies direction r evs hrun
    have hk := hmem ip hip
    obtain ⟨pre, evk, post, heq, hround⟩ := hrounds ip hk
    have hers := applyGroup_eraseStatus env _ _ _ _ _ hround
    have hrep : ∀ p ∈ G ip, (p.ErrorMsg = "" → p ∈ r.SuccessPolicies) ∧
        (p.ErrorMsg ≠ "" → p ∈ r.FailedPolicies) := by
      intro p hp
      have hfl : p ∈ ks.flatMap G := List.mem_flatMap.2 ⟨ip, hk, hp⟩
      constructor
      · intro h
        rw [hS]
        exact List.mem_filter.2 ⟨hfl, by simpa using h⟩
      · intro h
        rw [hF]
        exact List.mem_filter.2 ⟨hfl, by simpa using h⟩
    refine ⟨pre, evk, post, G ip, heq, hround, hers, hrep, ?_, ?_⟩
    · intro p hp hpip
      have hmem' : p ∈ ks.flatMap G := by
        rcases List.mem_append.1 hp with h | h
        · rw [hS] at h; exact List.mem_of_mem_filter h
        · rw [hF] at h; exact List.mem_of_mem_filter h
      obtain ⟨k, hk', hpG⟩ := List.mem_flatMap.1 hmem'
      obtain ⟨pre', evk', post', -, hround'⟩ := hrounds k hk'
      have hers' := applyGroup_eraseStatus env _ _ _ _ _ hround'
      have h1 : eraseStatus p ∈ (G k).map eraseStatus := List.mem_map.2 ⟨p, hpG, rfl⟩
      rw [hers'] at h1
      obtain ⟨q, hq, hqp⟩ := List.mem_map.1 h1
      have h2 : (eraseStatus q).Ip = (eraseStatus p).Ip := congrArg SecurityPolicy.Ip hqp
      have h3 : q.Ip = p.Ip := h2
      have h4 := ownerGroup_Ip policies k q hq
      have : k = ip := by rw [← h4, h3, hpip]
      subst this
      exact hpG
    · intro hok hfresh p hp
      have hmsg := applyGroup_ok_ErrorMsg env _ _ _ _ _ hround hok (by
        intro p0 hp0
        exact (hfresh p0 (List.mem_of_mem_head? hp0)).2)
      have h1 : p.ErrorMsg ∈ (G ip).map (fun p => p.ErrorMsg) :=
        List.mem_map.2 ⟨p, hp, rfl⟩
      rw [hmsg] at h1
      obtain ⟨q, hq, hqp⟩ := List.mem_map.1 h1
      have hempty : p.ErrorMsg = "" := by
        rw [← hqp]
        exact (hfresh q hq).1
      exact ⟨(hrep p hp).1 hempty, hempty⟩

end securitygroup

namespace securitygroup

set_option maxRecDepth 100000 in
theorem applyPolicies_unsupported_entries_witness :
    ((applyPolicies demoEnv [] mixedBatch INGRESS_RULE).value?.map fun r =>
        (r.SuccessPolicies.map fun p => p.Ip, r.FailedPolicies.map fun p => p.Ip,
          r.UndoPolicies.map fun p => (p.Ip, p.UndoReason))) =
        some (["10.0.0.1", "10.0.0.9"], [],
          [("10.0.0.5", "instanceType(cvm) do not support security group api")]) ∧
      ∃ r, applyPolicies demoEnv [] [samplePolicy "10.0.0.5" "10.0.0.4" false] INGRESS_RULE =
          .done r [] ∧
        r.FailedTotal = 0 ∧ r.FailedPolicies = [] ∧ r.SuccessPolicies = [] ∧
        r.UndoPolicies = [samplePolicy "10.0.0.5" "10.0.0.4" false].map
          (fun p => markUndo (normalizeType p)) :=
  ⟨by decide,
    (applyPolicies_unsupported_entries demoEnv [] [samplePolicy "10.0.0.5" "10.0.0.4" false]
      INGRESS_RULE).2.2 (by decide)⟩

set_option maxRecDepth 100000 in
theorem applyPolicies_rounds_isolated_witness :
    ((applyPolicies rejectOtherEnv [] mixedBatch INGRESS_RULE).value?.map fun r =>
        (r.SuccessPolicies.map fun p => (p.Ip, p.ErrorMsg),
          r.FailedPolicies.map fun p => (p.Ip, p.ErrorMsg))) =
        some ([("10.0.0.1", "")], [("10.0.0.9", "request rejected")]) ∧
      ∃ pre evk post g',
        (applyPolicies rejectOtherEnv [] mixedBatch INGRESS_RULE).events =
          pre ++ evk ++ post ∧
        applyGroup rejectOtherEnv ([] ++ pre) (ownerGroup mixedBatch "10.0.0.1")
          INGRESS_RULE = .done g' evk ∧
        g'.map eraseStatus = (ownerGroup mixedBatch "10.0.0.1").map eraseStatus :=
  ⟨by decide,
    let ⟨pre, evk, post, g', h1, h2, h3, _⟩ :=
      (applyPolicies_rounds_isolated rejectOtherEnv [] mixedBatch INGRESS_RULE).2
        (((applyPolicies rejectOtherEnv [] mixedBatch INGRESS_RULE).value?).get (by decide))
        (applyPolicies rejectOtherEnv [] mixedBatch INGRESS_RULE).events
        (value_events_done _ _ (Option.some_get _).symm) "10.0.0.1" (by decide)
    ⟨pre, evk, post, g', h1, h2, h3⟩⟩

set_option maxRecDepth 100000 in
theorem CheckParam_error_iff_empty_value_witness :
    (ApplySecurityPolicyAction.CheckParam
        { IngressPolicies := demoBatch,
          EgressPolicies := [{ samplePolicy "10.0.0.1" "10.0.0.2" true with Id := "" }] }).1 =
        some "egress policy have empty value" ∧
      (ApplySecurityPolicyAction.CheckParam
        { IngressPolicies := demoBatch, EgressPolicies := demoBatch }).1 = none :=
  ⟨(CheckParam_error_iff_empty_value
      { IngressPolicies := demoBatch,
        EgressPolicies := [{ samplePolicy "10.0.0.1" "10.0.0.2" true with Id := "" }] }).2.2.2.2
      (by decide) (by decide),
    by decide⟩

end securitygroup

namespace securitygroup

/-! ## First fit, slice by slice -/

/-- When every call of `createPolicies` succeeds, no free number read is negative and the
group ids are pairwise distinct, the run is first fit over the groups read followed by the
groups created, with a capacity that is the free number read for a group read and `100` for
a group created; nothing is left over. -/
theorem createPolicies_greedy (env : Env) (w : World)
    (providerParams : String) (exist : List String) (policies : List SecurityPolicy)
    (direction : String) (hne : policies ≠ [])
    (hok : ∀ e ∈ (createPolicies env w providerParams exist policies direction).events,
      e.succeeded = true)
    (hfree : ∀ gf ∈ queriedFree direction
      (createPolicies env w providerParams exist policies direction).events, 0 ≤ gf.2)
    (hnd : ((queriedFree direction
        (createPolicies env w providerParams exist policies direction).events).map Prod.fst ++
      createdIds (createPolicies env w providerParams exist policies direction).events).Nodup) :
    ∃ (M : List (String × Int)) (p0 : SecurityPolicy) (tl : List SecurityPolicy)
      (names : List String),
      policies = p0 :: tl ∧
      names.length = exist.length ∧
      (∀ n ∈ names, n ∈ groupNamesSeen
        (createPolicies env w providerParams exist policies direction).events) ∧
      (queriedFree direction
          (createPolicies env w providerParams exist policies direction).events).map Prod.fst =
        (bubbleLoop (recognised p0.Ip names exist).length
          (recognised p0.Ip names exist)).map Prod.snd ∧
      createPolicies env w providerParams exist policies direction =
        .done ((createdIds (createPolicies env w providerParams exist policies direction).events,
            none),
          boundSlices (greedySlices M
            ((queriedFree direction
                (createPolicies env w providerParams exist policies direction).events).map
                Prod.fst ++
              createdIds (createPolicies env w providerParams exist policies direction).events)
            policies))
          (createPolicies env w providerParams exist policies direction).events ∧
      leftover M
        ((queriedFree direction
            (createPolicies env w providerParams exist policies direction).events).map
            Prod.fst ++
          createdIds (createPolicies env w providerParams exist policies direction).events)
        policies = [] ∧
      (∀ g f, (g, f) ∈ queriedFree direction
        (createPolicies env w providerParams exist policies direction).events →
          capOf M g = f) ∧
      (∀ g ∈ createdIds (createPolicies env w providerParams exist policies direction).events,
        capOf M g = MAX_SEUCRITY_RULE_NUM) ∧
      submitted (createPolicies env w providerParams exist policies direction).events =
        ((greedySlices M
            ((queriedFree direction
                (createPolicies env w providerParams exist policies direction).events).map
                Prod.fst ++
              createdIds (createPolicies env w providerParams exist policies direction).events)
            policies).filter (fun s => s.2 ≠ [])).map
          (fun s => (s.1, newSecurityPolicySet s.2 direction true)) := by
  obtain ⟨p0, tl, names, newIds, evsP, evs4, hpol, hev, hk4, hP, hnl, hseen, hq, hc, -, hl, heq,
      he4⟩ :=
    createPolicies_events_fill env w providerParams exist policies direction hne hok
  have hq4 : queriedFree direction evs4 = [] :=
    queriedFree_eq_nil _ _ (fun e he => by rcases hk4 e he with h | h <;> rw [h] <;> decide)
  have hc4 : createdIds evs4 = [] :=
    createdIds_eq_nil _ (fun e he => by rcases hk4 e he with h | h <;> rw [h] <;> decide)
  have hsP : submitted evsP = [] :=
    submitted_eq_nil _ (fun e he => by
      rcases (hP e he).2 with h | h | h <;> rw [h] <;> decide)
  rw [hev] at hok hfree hnd ⊢
  rw [queriedFree_append, hq4, List.append_nil] at hfree hnd ⊢
  rw [createdIds_append, hc4, List.append_nil, hc] at hnd ⊢
  rw [submitted_append, hsP, List.nil_append]
  subst hpol
  rw [heq]
  have hcapnn := fillMap_cap_nonneg (queriedFree direction evsP) newIds hfree
  have hcapq := fillMap_cap_queried (queriedFree direction evsP) newIds hnd
  have hcapn := fillMap_cap_new (queriedFree direction evsP) newIds hnd
  have hleft := fillMap_leftover_eq_nil (queriedFree direction evsP) newIds (p0 :: tl) hnd
    (fun g _ => hcapnn g) hl
  generalize hM : newIds.foldl (fun m g => mapSet m g MAX_SEUCRITY_RULE_NUM)
    ((queriedFree direction evsP).foldl (fun m gf => mapSet m gf.1 gf.2) []) = M
    at heq he4 hcapnn hcapq hcapn hleft ⊢
  have hfl0 := fillLoop_panic env providerParams direction M
    ((queriedFree direction evsP).map Prod.fst ++ newIds) 0 (p0 :: tl) (w ++ evsP)
    (Nat.zero_le _)
  have hfl1 := fillLoop_done_err env providerParams direction M
    ((queriedFree direction evsP).map Prod.fst ++ newIds) 0 (p0 :: tl) (w ++ evsP)
    (Nat.zero_le _)
  have hfl2 := fillLoop_done_none env providerParams direction M
    ((queriedFree direction evsP).map Prod.fst ++ newIds) 0 (p0 :: tl) (w ++ evsP)
    (Nat.zero_le _)
  rcases hFL : fillLoop env providerParams direction M
    ((queriedFree direction evsP).map Prod.fst ++ newIds) 0 (p0 :: tl) (w ++ evsP) with
    ⟨⟨_ | err, ps1⟩, evs⟩ | evs
  · rw [hFL] at he4
    simp only [Result.events] at he4
    subst he4
    obtain ⟨-, -, hps, hsub⟩ := hfl2 ps1 evs4 hFL
    refine ⟨M, p0, tl, names, rfl, hnl, fun n hn => ?_, hq, ?_, hleft, hcapq, hcapn, ?_⟩
    · rw [groupNamesSeen_append]
      exact List.mem_append_left _ (hseen n hn)
    · simp only []
      rw [hps, List.drop_zero, hleft]
      simp
    · rw [hsub, List.drop_zero]
  · exfalso
    obtain ⟨⟨e, he, _, hns⟩, -⟩ := hfl1 err ps1 evs hFL
    rw [hFL] at he4
    simp only [Result.events] at he4
    subst he4
    have := hok e (List.mem_append_right _ he)
    rw [hns] at this
    simp at this
  · exfalso
    obtain ⟨⟨g, _, hneg⟩, -⟩ := hfl0 evs hFL
    have := hcapnn g
    omega

end securitygroup

namespace securitygroup

/-- Every slice of first fit is what the capacity of its group allows of the entries that
follow those of the slices before it. -/
theorem greedySlices_slice (M : List (String × Int)) (gs : List String)
    (rest : List SecurityPolicy) (pre : List (String × List SecurityPolicy))
    (s : String × List SecurityPolicy) (post : List (String × List SecurityPolicy))
    (h : greedySlices M gs rest = pre ++ s :: post) :
    s.2 = (rest.drop (pre.flatMap Prod.snd).length).take (capOf M s.1).toNat := by
  induction gs generalizing rest pre with
  | nil => simp [greedySlices] at h
  | cons g gs ih =>
    simp only [greedySlices] at h
    cases pre with
    | nil =>
      simp only [List.nil_append, List.cons.injEq] at h
      rw [← h.1]
      simp
    | cons a pre =>
      simp only [List.cons_append, List.cons.injEq] at h
      obtain ⟨ha, hrest⟩ := h
      rw [ih _ _ hrest, List.drop_drop, ← ha]
      simp only [List.flatMap_cons, List.length_append, List.length_take]
      by_cases hc : (capOf M g).toNat ≤ rest.length
      · rw [Nat.min_eq_left hc]
      · rw [Nat.min_eq_right (by omega), List.drop_of_length_le (by omega),
          List.drop_of_length_le (by omega)]

theorem take_min_length {α : Type} (n : Nat) (l : List α) :
    l.take (min n l.length) = l.take n := by
  by_cases h : n ≤ l.length
  · rw [Nat.min_eq_left h]
  · rw [Nat.min_eq_right (by omega), List.take_of_length_le (le_refl _),
      List.take_of_length_le (by omega)]

/-- The entries bound slice by slice keep the order of the groups: of two places in the
result, the earlier one is not bound to a later group. -/
theorem boundSlices_monotone (slices : List (String × List SecurityPolicy))
    (hnd : (slices.map Prod.fst).Nodup) (i j : Nat) (p q : SecurityPolicy) (hij : i ≤ j)
    (hp : (boundSlices slices)[i]? = some p) (hq : (boundSlices slices)[j]? = some q) :
    (slices.map Prod.fst).indexOf p.SecurityGroupId ≤
      (slices.map Prod.fst).indexOf q.SecurityGroupId := by
  induction slices generalizing i j with
  | nil => simp [boundSlices] at hp
  | cons s slices ih =>
    have hbs : boundSlices (s :: slices) = s.2.map (bindTo s.1) ++ boundSlices slices := by
      simp [boundSlices]
    rw [hbs] at hp hq
    simp only [List.map_cons, List.nodup_cons] at hnd ⊢
    by_cases hi : i < (s.2.map (bindTo s.1)).length
    · rw [List.getElem?_append_left hi, List.getElem?_map] at hp
      cases hx : s.2[i]? with
      | none => rw [hx] at hp; simp at hp
      | some x =>
        rw [hx] at hp
        simp only [Option.map_some', Option.some.injEq] at hp
        rw [← hp]
        simp [bindTo]
    · rw [List.getElem?_append_right (by omega)] at hp
      rw [List.getElem?_append_right (by omega)] at hq
      have hpm := boundSlices_group slices p (List.mem_iff_getElem?.2 ⟨_, hp⟩)
      have hqm := boundSlices_group slices q (List.mem_iff_getElem?.2 ⟨_, hq⟩)
      have hpne : s.1 ≠ p.SecurityGroupId := fun h => hnd.1 (h ▸ hpm)
      have hqne : s.1 ≠ q.SecurityGroupId := fun h => hnd.1 (h ▸ hqm)
      rw [List.indexOf_cons_ne _ hpne, List.indexOf_cons_ne _ hqne]
      exact Nat.succ_le_succ (ih hnd.2 _ _ (by omega) hp hq)

/-- Place by place, the entries bound slice by slice are the entries of the slices, each
with a group id written to it. -/
theorem boundSlices_place (slices : List (String × List SecurityPolicy)) (i : Nat)
    (p : SecurityPolicy) (hp : (boundSlices slices)[i]? = some p) :
    ∃ p0, (slices.flatMap Prod.snd)[i]? = some p0 ∧ p = bindTo p.SecurityGroupId p0 := by
  induction slices generalizing i with
  | nil => simp [boundSlices] at hp
  | cons s slices ih =>
    have hbs : boundSlices (s :: slices) = s.2.map (bindTo s.1) ++ boundSlices slices := by
      simp [boundSlices]
    rw [hbs] at hp
    rw [List.flatMap_cons]
    by_cases hi : i < s.2.length
    · rw [List.getElem?_append_left (by simpa using hi), List.getElem?_map] at hp
      rw [List.getElem?_append_left hi]
      cases hx : s.2[i]? with
      | none => rw [hx] at hp; simp at hp
      | some x =>
        rw [hx] at hp
        simp only [Option.map_some', Option.some.injEq] at hp
        exact ⟨x, rfl, by rw [← hp]; rfl⟩
    · rw [List.getElem?_append_right (by simpa using hi), List.length_map] at hp
      rw [List.getElem?_append_right (by omega)]
      exact ih _ hp

end securitygroup

namespace securitygroup

/-- C21. For a non-empty batch, when every provider call of `createPolicies` succeeds, no
free number read is negative and the group ids are pairwise distinct, the entries are placed
first fit in order. The groups walked are the existing auto-created groups in ascending order
of their sequence number, followed by the new groups in the order of their creation; the
slice of a group is the next `min(free, remaining)` entries of the batch after the entries of
the slices before it, `free` being the free number read for an existing group and `100` for
a new one; the slices together are the batch, and every entry leaves with the id of the group
of its slice, so that of two entries the earlier one is not in a later group; the
create-policies requests are the non-empty slices, in order, and a group with an empty slice
gets no request. -/
theorem createPolicies_first_fit_in_order (env : Env) (w : World)
    (providerParams : String) (exist : List String) (policies : List SecurityPolicy)
    (direction : String) (hne : policies ≠ [])
    (hok : ∀ e ∈ (createPolicies env w providerParams exist policies direction).events,
      e.succeeded = true)
    (hfree : ∀ gf ∈ queriedFree direction
      (createPolicies env w providerParams exist policies direction).events, 0 ≤ gf.2)
    (hnd : ((queriedFree direction
        (createPolicies env w providerParams exist policies direction).events).map Prod.fst ++
      createdIds (createPolicies env w providerParams exist policies direction).events).Nodup) :
    ∃ (slices : List (String × List SecurityPolicy)) (p0 : SecurityPolicy)
      (names : List String) (sorted : List (Int × String)),
      policies.head? = some p0 ∧
      names.length = exist.length ∧
      (∀ n ∈ names, n ∈ groupNamesSeen
        (createPolicies env w providerParams exist policies direction).events) ∧
      sorted.Perm (recognised p0.Ip names exist) ∧
      sorted.Pairwise (fun a b => a.1 ≤ b.1) ∧
      (queriedFree direction
          (createPolicies env w providerParams exist policies direction).events).map Prod.fst =
        sorted.map Prod.snd ∧
      slices.map Prod.fst =
        sorted.map Prod.snd ++
          createdIds (createPolicies env w providerParams exist policies direction).events ∧
      createPolicies env w providerParams exist policies direction =
        .done ((createdIds (createPolicies env w providerParams exist policies direction).events,
            none), boundSlices slices)
          (createPolicies env w providerParams exist policies direction).events ∧
      slices.flatMap Prod.snd = policies ∧
      (∀ (pre : List (String × List SecurityPolicy)) (s : String × List SecurityPolicy)
          (post : List (String × List SecurityPolicy)) (free : Int),
        slices = pre ++ s :: post →
        ((s.1, free) ∈ queriedFree direction
            (createPolicies env w providerParams exist policies direction).events ∨
          (s.1 ∈ createdIds (createPolicies env w providerParams exist policies direction).events ∧
            free = 100)) →
        s.2 = (policies.drop (pre.flatMap Prod.snd).length).take
          (min free.toNat (policies.length - (pre.flatMap Prod.snd).length))) ∧
      (∀ (i j : Nat) (p q : SecurityPolicy), i ≤ j → (boundSlices slices)[i]? = some p →
        (boundSlices slices)[j]? = some q →
        (∃ p1, policies[i]? = some p1 ∧ p = bindTo p.SecurityGroupId p1) ∧
          (slices.map Prod.fst).indexOf p.SecurityGroupId ≤
            (slices.map Prod.fst).indexOf q.SecurityGroupId) ∧
      submitRequests (createPolicies env w providerParams exist policies direction).events =
        (slices.filter (fun s => s.2 ≠ [])).map
          (fun s => (s.1, newSecurityPolicySet s.2 direction true)) ∧
      (∀ s ∈ slices, s.2 = [] →
        ∀ r ∈ submitRequests
          (createPolicies env w providerParams exist policies direction).events, r.1 ≠ s.1) := by
  obtain ⟨M, p0, tl, names, hpol, hnl, hseen, hq, hres, hleft, hcapq, hcapn, hsub⟩ :=
    createPolicies_greedy env w providerParams exist policies direction hne hok hfree hnd
  obtain ⟨hsorted, hperm⟩ := bubbleLoop_sorted (recognised p0.Ip names exist).length
    (recognised p0.Ip names exist) (le_refl _) (by simp) (by simp)
  have hreq := submitRequests_eq_submitted _ hok
  generalize (createPolicies env w providerParams exist policies direction).events = E at *
  have hfst := greedySlices_fst M ((queriedFree direction E).map Prod.fst ++ createdIds E)
    policies
  have hjoin := greedySlices_join M ((queriedFree direction E).map Prod.fst ++ createdIds E)
    policies
  rw [hleft, List.append_nil] at hjoin
  have hnds : ((greedySlices M ((queriedFree direction E).map Prod.fst ++ createdIds E)
      policies).map Prod.fst).Nodup := by rw [hfst]; exact hnd
  refine ⟨greedySlices M ((queriedFree direction E).map Prod.fst ++ createdIds E) policies,
    p0, names, _, by rw [hpol]; rfl, hnl, hseen, hperm, hsorted, hq, by rw [hfst, hq], hres,
    hjoin, ?_, ?_, by rw [hreq, hsub], ?_⟩
  · intro pre s post free hsplit hfrees
    have hcap : capOf M s.1 = free := by
      rcases hfrees with h | ⟨h, rfl⟩
      · exact hcapq _ _ h
      · exact hcapn _ h
    rw [greedySlices_slice M _ policies pre s post hsplit, hcap]
    have := take_min_length free.toNat (policies.drop (pre.flatMap Prod.snd).length)
    rw [List.length_drop] at this
    exact this.symm
  · intro i j p q hij hp hq'
    refine ⟨?_, boundSlices_monotone _ hnds i j p q hij hp hq'⟩
    have := boundSlices_place _ i p hp
    rw [hjoin] at this
    exact this
  · intro s hs hnil r hr hrs
    rw [hreq, hsub] at hr
    obtain ⟨s1, hs1, rfl⟩ := List.mem_map.1 hr
    obtain ⟨hs1m, hs1n⟩ := List.mem_filter.1 hs1
    have : s1 = s := List.inj_on_of_nodup_map hnds hs1m hs hrs
    rw [this, hnil] at hs1n
    simp at hs1n

set_option maxRecDepth 100000 in
theorem createPolicies_first_fit_in_order_witness :
    queriedFree INGRESS_RULE (createPolicies packedEnv [] "ap-guangzhou" ["sg-1", "sg-d", "sg-2"] demoBatch
        INGRESS_RULE).events = [("sg-1", 0), ("sg-2", 2)] ∧
      createdIds (createPolicies packedEnv [] "ap-guangzhou" ["sg-1", "sg-d", "sg-2"] demoBatch
        INGRESS_RULE).events = ["sg-10.0.0.1-auto-3"] ∧
      (submitRequests (createPolicies packedEnv [] "ap-guangzhou" ["sg-1", "sg-d", "sg-2"] demoBatch
        INGRESS_RULE).events).map (fun s => (s.1, s.2.rules.map fun r => r.CidrBlock)) =
        [("sg-2", ["10.0.0.2", "10.0.0.3"]), ("sg-10.0.0.1-auto-3", ["10.0.0.4"])] ∧
      ((createPolicies packedEnv [] "ap-guangzhou" ["sg-1", "sg-d", "sg-2"] demoBatch
        INGRESS_RULE).value?.map fun r => r.2.map fun p => p.SecurityGroupId) =
        some ["sg-2", "sg-2", "sg-10.0.0.1-auto-3"] ∧
      ∃ (slices : List (String × List SecurityPolicy)) (p0 : SecurityPolicy)
        (names : List String) (sorted : List (Int × String)),
        demoBatch.head? = some p0 ∧
        names.length = ["sg-1", "sg-d", "sg-2"].length ∧
        (∀ n ∈ names, n ∈ groupNamesSeen
          (createPolicies packedEnv [] "ap-guangzhou" ["sg-1", "sg-d", "sg-2"] demoBatch
            INGRESS_RULE).events) ∧
        sorted.Perm (recognised p0.Ip names ["sg-1", "sg-d", "sg-2"]) ∧
        sorted.Pairwise (fun a b => a.1 ≤ b.1) ∧
        (queriedFree INGRESS_RULE
            (createPolicies packedEnv [] "ap-guangzhou" ["sg-1", "sg-d", "sg-2"] demoBatch
            INGRESS_RULE).events).map Prod.fst =
          sorted.map Prod.snd ∧
        slices.map Prod.fst =
          sorted.map Prod.snd ++
            createdIds (createPolicies packedEnv [] "ap-guangzhou" ["sg-1", "sg-d", "sg-2"] demoBatch
            INGRESS_RULE).events ∧
        createPolicies packedEnv [] "ap-guangzhou" ["sg-1", "sg-d", "sg-2"] demoBatch
            INGRESS_RULE =
          .done ((createdIds (createPolicies packedEnv [] "ap-guangzhou" ["sg-1", "sg-d", "sg-2"] demoBatch
            INGRESS_RULE).events,
              none), boundSlices slices)
            (createPolicies packedEnv [] "ap-guangzhou" ["sg-1", "sg-d", "sg-2"] demoBatch
            INGRESS_RULE).events ∧
        slices.flatMap Prod.snd = demoBatch ∧
        (∀ (pre : List (String × List SecurityPolicy)) (s : String × List SecurityPolicy)
            (post : List (String × List SecurityPolicy)) (free : Int),
          slices = pre ++ s :: post →
          ((s.1, free) ∈ queriedFree INGRESS_RULE
              (createPolicies packedEnv [] "ap-guangzhou" ["sg-1", "sg-d", "sg-2"] demoBatch
            INGRESS_RULE).events ∨
            (s.1 ∈ createdIds (createPolicies packedEnv [] "ap-guangzhou" ["sg-1", "sg-d", "sg-2"] demoBatch
            INGRESS_RULE).events ∧
              free = 100)) →
          s.2 = (demoBatch.drop (pre.flatMap Prod.snd).length).take
            (min free.toNat (demoBatch.length - (pre.flatMap Prod.snd).length))) ∧
        (∀ (i j : Nat) (p q : SecurityPolicy), i ≤ j → (boundSlices slices)[i]? = some p →
          (boundSlices slices)[j]? = some q →
          (∃ p1, demoBatch[i]? = some p1 ∧ p = bindTo p.SecurityGroupId p1) ∧
            (slices.map Prod.fst).indexOf p.SecurityGroupId ≤
              (slices.map Prod.fst).indexOf q.SecurityGroupId) ∧
        submitRequests (createPolicies packedEnv [] "ap-guangzhou" ["sg-1", "sg-d", "sg-2"] demoBatch
            INGRESS_RULE).events =
          (slices.filter (fun s => s.2 ≠ [])).map
            (fun s => (s.1, newSecurityPolicySet s.2 INGRESS_RULE true)) ∧
        (∀ s ∈ slices, s.2 = [] →
          ∀ r ∈ submitRequests
            (createPolicies packedEnv [] "ap-guangzhou" ["sg-1", "sg-d", "sg-2"] demoBatch
            INGRESS_RULE).events, r.1 ≠ s.1) :=
  ⟨by decide, by decide, by decide, by decide,
    createPolicies_first_fit_in_order packedEnv [] "ap-guangzhou" ["sg-1", "sg-d", "sg-2"]
      demoBatch INGRESS_RULE (by decide) (by decide) (by decide) (by decide)⟩

end securitygroup

namespace securitygroup

/-! ## The bounds of the slices of the fill loop -/

/-- A group whose free number is negative (more than 100 rules in the direction) makes
`createPolicies` panic on the slice `policies[offset:offset+limit]`: for a non-empty batch,
when every provider call succeeds and the group ids are pairwise distinct, the run does not
return once one of the existing auto-created groups has a negative free number. -/
theorem createPolicies_negative_free_number_panics (env : Env) (w : World)
    (providerParams : String) (exist : List String) (policies : List SecurityPolicy)
    (direction : String) (hne : policies ≠ [])
    (hok : ∀ e ∈ (createPolicies env w providerParams exist policies direction).events,
      e.succeeded = true)
    (hnd : ((queriedFree direction
        (createPolicies env w providerParams exist policies direction).events).map Prod.fst ++
      createdIds (createPolicies env w providerParams exist policies direction).events).Nodup)
    (hneg : ∃ gf ∈ queriedFree direction
      (createPolicies env w providerParams exist policies direction).events, gf.2 < 0) :
    (createPolicies env w providerParams exist policies direction).value? = none := by
  obtain ⟨p0, tl, names, newIds, evsP, evs4, hpol, hev, hk4, hP, -, -, -, hc, -, hl, heq, he4⟩ :=
    createPolicies_events_fill env w providerParams exist policies direction hne hok
  have hq4 : queriedFree direction evs4 = [] :=
    queriedFree_eq_nil _ _ (fun e he => by rcases hk4 e he with h | h <;> rw [h] <;> decide)
  have hc4 : createdIds evs4 = [] :=
    createdIds_eq_nil _ (fun e he => by rcases hk4 e he with h | h <;> rw [h] <;> decide)
  rw [hev] at hok hnd hneg
  rw [queriedFree_append, hq4, List.append_nil] at hnd hneg
  rw [createdIds_append, hc4, List.append_nil, hc] at hnd
  subst hpol
  rw [heq]
  have hcapq := fillMap_cap_queried (queriedFree direction evsP) newIds hnd
  generalize hM : newIds.foldl (fun m g => mapSet m g MAX_SEUCRITY_RULE_NUM)
    ((queriedFree direction evsP).foldl (fun m gf => mapSet m gf.1 gf.2) []) = M
    at heq he4 hcapq ⊢
  obtain ⟨gf, hgf, hlt⟩ := hneg
  have hmem : gf.1 ∈ (queriedFree direction evsP).map Prod.fst ++ newIds :=
    List.mem_append_left _ (List.mem_map.2 ⟨gf, hgf, rfl⟩)
  have hcap : capOf M gf.1 < 0 := by rw [hcapq gf.1 gf.2 hgf]; exact hlt
  rcases hFL : fillLoop env providerParams direction M
    ((queriedFree direction evsP).map Prod.fst ++ newIds) 0 (p0 :: tl) (w ++ evsP) with
    ⟨⟨_ | err, ps1⟩, evs⟩ | evs
  · exfalso
    have := (fillLoop_done_none env providerParams direction M _ 0 (p0 :: tl) (w ++ evsP)
      (Nat.zero_le _) ps1 evs hFL).1 gf.1 hmem
    omega
  · exfalso
    obtain ⟨⟨e, he, _, hns⟩, -⟩ := fillLoop_done_err env providerParams direction M _ 0
      (p0 :: tl) (w ++ evsP) (Nat.zero_le _) err ps1 evs hFL
    rw [hFL] at he4
    simp only [Result.events] at he4
    subst he4
    have := hok e (List.mem_append_right _ he)
    rw [hns] at this
    simp at this
  · rfl

set_option maxRecDepth 100000 in
/-- C22. The fill loop of `createPolicies` takes a slice that is out of range when an existing
auto-created group holds more than 100 rules in the direction. The resource is bound to one
auto-created group with 101 ingress rules: its free number is `-1`, every provider call
succeeds, one new group is created, and the first slice of the fill loop is
`policies[0:-1]`, on which `createPolicies` panics before any create-policies request, and
the pass of `applyPolicies` with it. In a batch with an entry of another owner whose round
comes first, the pass panics after the group of that owner was created, its entry submitted
and the group bound, and returns nothing. -/
theorem overfull_group_slice_out_of_bounds :
    queriedFree INGRESS_RULE
        (createPolicies overfullEnv [] "ap-guangzhou" ["sg-1"] demoBatch INGRESS_RULE).events =
        [("sg-1", -1)] ∧
      createdIds
        (createPolicies overfullEnv [] "ap-guangzhou" ["sg-1"] demoBatch INGRESS_RULE).events =
        ["sg-10.0.0.1-auto-2"] ∧
      (∀ e ∈ (createPolicies overfullEnv [] "ap-guangzhou" ["sg-1"] demoBatch
        INGRESS_RULE).events, e.succeeded = true) ∧
      submitRequests
        (createPolicies overfullEnv [] "ap-guangzhou" ["sg-1"] demoBatch INGRESS_RULE).events =
        [] ∧
      (createPolicies overfullEnv [] "ap-guangzhou" ["sg-1"] demoBatch INGRESS_RULE).value? =
        none ∧
      (applyPolicies overfullEnv [] demoBatch INGRESS_RULE).value? = none ∧
      (applyPolicies overfullEnv [] (samplePolicy "10.0.0.9" "10.0.0.3" true :: demoBatch)
        INGRESS_RULE).value? = none ∧
      (∀ e ∈ (applyPolicies overfullEnv []
        (samplePolicy "10.0.0.9" "10.0.0.3" true :: demoBatch) INGRESS_RULE).events,
        e.succeeded = true) ∧
      createdIds (applyPolicies overfullEnv []
        (samplePolicy "10.0.0.9" "10.0.0.3" true :: demoBatch) INGRESS_RULE).events =
        ["sg-10.0.0.9-auto-1", "sg-10.0.0.1-auto-2"] ∧
      (submitRequests (applyPolicies overfullEnv []
        (samplePolicy "10.0.0.9" "10.0.0.3" true :: demoBatch) INGRESS_RULE).events).map
          (fun s => (s.1, s.2.rules.map fun r => r.CidrBlock)) =
        [("sg-10.0.0.9-auto-1", ["10.0.0.3"])] ∧
      bindRequests (applyPolicies overfullEnv []
        (samplePolicy "10.0.0.9" "10.0.0.3" true :: demoBatch) INGRESS_RULE).events =
        [["sg-10.0.0.9-auto-1", "sg-1"]] := by
  refine ⟨?_, ?_, ?_, ?_, ?_, ?_, ?_, ?_, ?_, ?_, ?_⟩ <;> decide

end securitygroup

namespace securitygroup

/-- When no free number read is negative, `createPolicies` returns: the fill loop takes no
slice with a negative `limit`. -/
theorem createPolicies_returns (env : Env) (w : World) (providerParams : String)
    (exist : List String) (policies : List SecurityPolicy) (direction : String)
    (hfree : ∀ gf ∈ queriedFree direction
      (createPolicies env w providerParams exist policies direction).events, 0 ≤ gf.2) :
    (createPolicies env w providerParams exist policies direction).value? ≠ none := by
  cases policies with
  | nil => simp [createPolicies, Result.value?]
  | cons p0 tl =>
    rcases createPolicies_cases env w providerParams exist p0 tl direction with
      ⟨newIds, err, evs, hcp, -, -, -⟩ | ⟨names, newIds, evsP, hP, -, -, -, -, -, -, hcp⟩
    · rw [hcp]
      simp [Result.value?]
    · cases hfl : fillLoop env providerParams direction
        (newIds.foldl (fun m g => mapSet m g MAX_SEUCRITY_RULE_NUM)
          ((queriedFree direction evsP).foldl (fun m gf => mapSet m gf.1 gf.2) []))
        ((queriedFree direction evsP).map Prod.fst ++ newIds) 0 (p0 :: tl) (w ++ evsP) with
      | done r evs4 =>
        rw [hfl] at hcp
        simp only [] at hcp
        rw [hcp]
        simp [Result.value?]
      | panic evs4 =>
        exfalso
        rw [hfl] at hcp
        simp only [] at hcp
        rw [hcp] at hfree
        simp only [Result.events, queriedFree_append] at hfree
        obtain ⟨⟨g, -, hneg⟩, -⟩ := fillLoop_panic _ _ _ _ _ _ _ _ (Nat.zero_le _) _ hfl
        have := fillMap_cap_nonneg (queriedFree direction evsP) newIds
          (fun gf hgf => hfree gf (List.mem_append_left _ hgf)) g
        omega

end securitygroup

namespace securitygroup

/-- For a non-empty batch, when no free number read is negative (no existing auto-created
group holds more than 100 rules in the direction), `createPolicies` returns: no slice of the
fill loop is out of range. When moreover every provider call succeeds and the group ids are
pairwise distinct, the slice of every group walked is `policies[offset:offset+limit]` with
`offset` the number of entries of the slices before it and `limit` the value the loop
computes from the free number of the group, with `0 ≤ limit` and
`offset + limit ≤ len(policies)`, and the slices together have `len(policies)` entries:
`offset` is `len(policies)` when the loop ends. -/
theorem createPolicies_slices_within_bounds (env : Env) (w : World)
    (providerParams : String) (exist : List String) (policies : List SecurityPolicy)
    (direction : String) (hne : policies ≠ [])
    (hfree : ∀ gf ∈ queriedFree direction
      (createPolicies env w providerParams exist policies direction).events, 0 ≤ gf.2) :
    (createPolicies env w providerParams exist policies direction).value? ≠ none ∧
      ((∀ e ∈ (createPolicies env w providerParams exist policies direction).events,
          e.succeeded = true) →
        ((queriedFree direction
            (createPolicies env w providerParams exist policies direction).events).map
            Prod.fst ++
          createdIds
            (createPolicies env w providerParams exist policies direction).events).Nodup →
        ∃ slices : List (String × List SecurityPolicy),
          createPolicies env w providerParams exist policies direction =
            .done ((createdIds
                (createPolicies env w providerParams exist policies direction).events,
              none), boundSlices slices)
              (createPolicies env w providerParams exist policies direction).events ∧
          slices.map Prod.fst =
            (queriedFree direction
              (createPolicies env w providerParams exist policies direction).events).map
              Prod.fst ++
            createdIds (createPolicies env w providerParams exist policies direction).events ∧
          (∀ (pre : List (String × List SecurityPolicy)) (s : String × List SecurityPolicy)
              (post : List (String × List SecurityPolicy)) (free offset limit : Int),
            slices = pre ++ s :: post →
            ((s.1, free) ∈ queriedFree direction
                (createPolicies env w providerParams exist policies direction).events ∨
              (s.1 ∈ createdIds
                  (createPolicies env w providerParams exist policies direction).events ∧
                free = MAX_SEUCRITY_RULE_NUM)) →
            offset = ((pre.flatMap Prod.snd).length : Int) →
            limit = (if (policies.length : Int) - offset > free then free
              else (policies.length : Int) - offset) →
            0 ≤ limit ∧ offset + limit ≤ (policies.length : Int) ∧
              s.2 = (policies.drop offset.toNat).take limit.toNat ∧
              (s.2.length : Int) = limit) ∧
          (slices.flatMap Prod.snd).length = policies.length) := by
  refine ⟨createPolicies_returns env w providerParams exist policies direction hfree,
    fun hok hnd => ?_⟩
  obtain ⟨M, p0, tl, names, hpol, -, -, -, hres, hleft, hcapq, hcapn, -⟩ :=
    createPolicies_greedy env w providerParams exist policies direction hne hok hfree hnd
  generalize (createPolicies env w providerParams exist policies direction).events = E at *
  have hfst := greedySlices_fst M ((queriedFree direction E).map Prod.fst ++ createdIds E)
    policies
  have hjoin := greedySlices_join M ((queriedFree direction E).map Prod.fst ++ createdIds E)
    policies
  rw [hleft, List.append_nil] at hjoin
  refine ⟨greedySlices M ((queriedFree direction E).map Prod.fst ++ createdIds E) policies,
    hres, hfst, ?_, by rw [hjoin]⟩
  intro pre s post free offset limit hsplit hfrees hoff hlim
  have hcap : capOf M s.1 = free := by
    rcases hfrees with h | ⟨h, rfl⟩
    · exact hcapq _ _ h
    · exact hcapn _ h
  have hfree0 : 0 ≤ free := by
    rcases hfrees with h | ⟨-, rfl⟩
    · exact hfree _ h
    · decide
  have hk : (pre.flatMap Prod.snd).length ≤ policies.length := by
    have := congrArg List.length hjoin
    rw [hsplit] at this
    simp only [List.flatMap_append, List.flatMap_cons, List.length_append] at this
    omega
  have hs := greedySlices_slice M _ policies pre s post hsplit
  rw [hcap] at hs
  have hlen : s.2.length = min free.toNat (policies.length - (pre.flatMap Prod.snd).length) := by
    rw [hs, List.length_take, List.length_drop]
  subst hoff
  have hlimeq : limit = ((min free.toNat
      (policies.length - (pre.flatMap Prod.snd).length) : Nat) : Int) := by
    rw [hlim]
    split <;> omega
  refine ⟨by omega, by omega, ?_, by omega⟩
  rw [hlimeq, Int.toNat_natCast, Int.toNat_natCast, hs]
  have := take_min_length free.toNat (policies.drop (pre.flatMap Prod.snd).length)
  rw [List.length_drop] at this
  exact this.symm

set_option maxRecDepth 100000 in
theorem createPolicies_slices_within_bounds_witness :
    demoBatch ≠ [] ∧
      queriedFree INGRESS_RULE (createPolicies demoEnv [] "ap-guangzhou" ["sg-1", "sg-d"] demoBatch INGRESS_RULE).events = [("sg-1", 2)] ∧
      (∀ e ∈ (createPolicies demoEnv [] "ap-guangzhou" ["sg-1", "sg-d"] demoBatch INGRESS_RULE).events, e.succeeded = true) ∧
      ((queriedFree INGRESS_RULE (createPolicies demoEnv [] "ap-guangzhou" ["sg-1", "sg-d"] demoBatch INGRESS_RULE).events).map Prod.fst ++ createdIds (createPolicies demoEnv [] "ap-guangzhou" ["sg-1", "sg-d"] demoBatch INGRESS_RULE).events).Nodup ∧
      (createPolicies demoEnv [] "ap-guangzhou" ["sg-1", "sg-d"] demoBatch INGRESS_RULE).value? ≠ none ∧
        ((∀ e ∈ (createPolicies demoEnv [] "ap-guangzhou" ["sg-1", "sg-d"] demoBatch INGRESS_RULE).events,
            e.succeeded = true) →
          ((queriedFree INGRESS_RULE
              (createPolicies demoEnv [] "ap-guangzhou" ["sg-1", "sg-d"] demoBatch INGRESS_RULE).events).map
              Prod.fst ++
            createdIds
              (createPolicies demoEnv [] "ap-guangzhou" ["sg-1", "sg-d"] demoBatch INGRESS_RULE).events).Nodup →
          ∃ slices : List (String × List SecurityPolicy),
            createPolicies demoEnv [] "ap-guangzhou" ["sg-1", "sg-d"] demoBatch INGRESS_RULE =
              .done ((createdIds
                  (createPolicies demoEnv [] "ap-guangzhou" ["sg-1", "sg-d"] demoBatch INGRESS_RULE).events,
                none), boundSlices slices)
                (createPolicies demoEnv [] "ap-guangzhou" ["sg-1", "sg-d"] demoBatch INGRESS_RULE).events ∧
            slices.map Prod.fst =
              (queriedFree INGRESS_RULE
                (createPolicies demoEnv [] "ap-guangzhou" ["sg-1", "sg-d"] demoBatch INGRESS_RULE).events).map
                Prod.fst ++
              createdIds (createPolicies demoEnv [] "ap-guangzhou" ["sg-1", "sg-d"] demoBatch INGRESS_RULE).events ∧
            (∀ (pre : List (String × List SecurityPolicy)) (s : String × List SecurityPolicy)
                (post : List (String × List SecurityPolicy)) (free offset limit : Int),
              slices = pre ++ s :: post →
              ((s.1, free) ∈ queriedFree INGRESS_RULE
                  (createPolicies demoEnv [] "ap-guangzhou" ["sg-1", "sg-d"] demoBatch INGRESS_RULE).events ∨
                (s.1 ∈ createdIds
                    (createPolicies demoEnv [] "ap-guangzhou" ["sg-1", "sg-d"] demoBatch INGRESS_RULE).events ∧
                  free = MAX_SEUCRITY_RULE_NUM)) →
              offset = ((pre.flatMap Prod.snd).length : Int) →
              limit = (if (demoBatch.length : Int) - offset > free then free
                else (demoBatch.length : Int) - offset) →
              0 ≤ limit ∧ offset + limit ≤ (demoBatch.length : Int) ∧
                s.2 = (demoBatch.drop offset.toNat).take limit.toNat ∧
                (s.2.length : Int) = limit) ∧
            (slices.flatMap Prod.snd).length = demoBatch.length) :=
  ⟨by decide, by decide, by decide, by decide,
    createPolicies_slices_within_bounds demoEnv [] "ap-guangzhou" ["sg-1", "sg-d"] demoBatch
      INGRESS_RULE (by decide) (by decide)⟩

end securitygroup

namespace securitygroup

/-! ## The bind call of a round -/

/-- A run of `createPolicies` that returns no error: every call succeeded, the new group ids
are those the provider returned, and their number follows from the free numbers read. -/
theorem createPolicies_done_none (env : Env) (w : World) (providerParams : String)
    (exist : List String) (p0 : SecurityPolicy) (tl : List SecurityPolicy) (direction : String)
    (newIds : List String) (ps1 : List SecurityPolicy) (evsC : List Event)
    (h : createPolicies env w providerParams exist (p0 :: tl) direction =
      .done ((newIds, none), ps1) evsC) :
    (∀ e ∈ evsC, e.succeeded = true ∧
      (e.kind = 4 ∨ e.kind = 5 ∨ e.kind = 6 ∨ e.kind = 7 ∨ e.kind = 8)) ∧
      createdIds evsC = newIds ∧
      newIds.length =
        (if ((queriedFree direction evsC).map Prod.snd).sum < ((p0 :: tl).length : Int) then
          (Int.tdiv (((p0 :: tl).length : Int) -
            ((queriedFree direction evsC).map Prod.snd).sum + MAX_SEUCRITY_RULE_NUM - 1)
            MAX_SEUCRITY_RULE_NUM).toNat
        else 0) := by
  rcases createPolicies_cases env w providerParams exist p0 tl direction with
    ⟨newIds1, err, evs, hcp, -, -, -⟩ | ⟨names, newIds1, evsP, hP, -, -, -, hc, -, hl, hcp⟩
  · rw [hcp] at h
    simp at h
  · have hk := fillLoop_kinds env providerParams direction
      (newIds1.foldl (fun m g => mapSet m g MAX_SEUCRITY_RULE_NUM)
        ((queriedFree direction evsP).foldl (fun m gf => mapSet m gf.1 gf.2) []))
      ((queriedFree direction evsP).map Prod.fst ++ newIds1) 0 (p0 :: tl) (w ++ evsP)
      (Nat.zero_le _)
    cases hfl : fillLoop env providerParams direction
      (newIds1.foldl (fun m g => mapSet m g MAX_SEUCRITY_RULE_NUM)
        ((queriedFree direction evsP).foldl (fun m gf => mapSet m gf.1 gf.2) []))
      ((queriedFree direction evsP).map Prod.fst ++ newIds1) 0 (p0 :: tl) (w ++ evsP) with
    | panic evs4 =>
      rw [hfl] at hcp
      simp only [] at hcp
      rw [hcp] at h
      cases h
    | done r evs4 =>
      obtain ⟨err, ps2⟩ := r
      rw [hfl] at hcp hk
      simp only [] at hcp
      simp only [Result.events] at hk
      rw [hcp] at h
      simp only [Result.done.injEq, Prod.mk.injEq] at h
      obtain ⟨⟨⟨rfl, rfl⟩, rfl⟩, rfl⟩ := h
      have hok4 := (fillLoop_done_none _ _ _ _ _ _ _ _ (Nat.zero_le _) _ _ hfl).2.1
      have hq4 : queriedFree direction evs4 = [] :=
        queriedFree_eq_nil _ _ (fun e he => by rcases hk e he with h | h <;> rw [h] <;> decide)
      have hc4 : createdIds evs4 = [] :=
        createdIds_eq_nil _ (fun e he => by rcases hk e he with h | h <;> rw [h] <;> decide)
      refine ⟨?_, ?_, ?_⟩
      · intro e he
        rcases List.mem_append.1 he with he | he
        · refine ⟨(hP e he).1, ?_⟩
          rcases (hP e he).2 with h | h | h <;> simp [h]
        · refine ⟨hok4 e he, ?_⟩
          rcases hk e he with h | h <;> simp [h]
      · rw [createdIds_append, hc4, List.append_nil, hc]
      · rw [queriedFree_append, hq4, List.append_nil]
        exact hl

/-- A run of `createPolicies` that returns an error has a failed call, and makes none but
its own five kinds of calls. -/
theorem createPolicies_done_some (env : Env) (w : World) (providerParams : String)
    (exist : List String) (p0 : SecurityPolicy) (tl : List SecurityPolicy) (direction : String)
    (newIds : List String) (err : String) (ps1 : List SecurityPolicy) (evsC : List Event)
    (h : createPolicies env w providerParams exist (p0 :: tl) direction =
      .done ((newIds, some err), ps1) evsC) :
    (∃ e ∈ evsC, e.succeeded = false) ∧
      ∀ e ∈ evsC, e.kind = 4 ∨ e.kind = 5 ∨ e.kind = 6 ∨ e.kind = 7 ∨ e.kind = 8 := by
  rcases createPolicies_cases env w providerParams exist p0 tl direction with
    ⟨newIds1, err1, evs, hcp, hkinds, hnot, -⟩ |
    ⟨names, newIds1, evsP, hP, -, -, -, hc, -, hl, hcp⟩
  · rw [hcp] at h
    simp only [Result.done.injEq, Prod.mk.injEq] at h
    obtain ⟨-, rfl⟩ := h
    refine ⟨?_, ?_⟩
    · by_contra hcon
      apply hnot
      intro e he
      by_contra hne
      exact hcon ⟨e, he, by simpa using hne⟩
    · intro e he
      rcases hkinds e he with h | h | h <;> simp [h]
  · have hk := fillLoop_kinds env providerParams direction
      (newIds1.foldl (fun m g => mapSet m g MAX_SEUCRITY_RULE_NUM)
        ((queriedFree direction evsP).foldl (fun m gf => mapSet m gf.1 gf.2) []))
      ((queriedFree direction evsP).map Prod.fst ++ newIds1) 0 (p0 :: tl) (w ++ evsP)
      (Nat.zero_le _)
    cases hfl : fillLoop env providerParams direction
      (newIds1.foldl (fun m g => mapSet m g MAX_SEUCRITY_RULE_NUM)
        ((queriedFree direction evsP).foldl (fun m gf => mapSet m gf.1 gf.2) []))
      ((queriedFree direction evsP).map Prod.fst ++ newIds1) 0 (p0 :: tl) (w ++ evsP) with
    | panic evs4 =>
      rw [hfl] at hcp
      simp only [] at hcp
      rw [hcp] at h
      cases h
    | done r evs4 =>
      obtain ⟨err2, ps2⟩ := r
      rw [hfl] at hcp hk
      simp only [] at hcp
      simp only [Result.events] at hk
      rw [hcp] at h
      simp only [Result.done.injEq, Prod.mk.injEq] at h
      obtain ⟨⟨⟨rfl, rfl⟩, rfl⟩, rfl⟩ := h
      obtain ⟨⟨e, he, -, hns⟩, -⟩ :=
        fillLoop_done_err _ _ _ _ _ _ _ _ (Nat.zero_le _) _ _ _ hfl
      refine ⟨⟨e, List.mem_append_right _ he, hns⟩, ?_⟩
      intro e he
      rcases List.mem_append.1 he with he | he
      · rcases (hP e he).2 with h | h | h <;> simp [h]
      · rcases hk e he with h | h <;> simp [h]

end securitygroup

namespace securitygroup

/-- After `createPolicies` returned no error, the second half of a round makes one bind call,
for the new groups followed by the groups of the resource, when there is a new group, and
no bind call otherwise; what follows creates no group and reads no free number. -/
theorem applyGroupTail_after_submission (env : Env) (w : World) (providerParams : String)
    (inst : ResourceInstance) (exist : List String) (p0 : SecurityPolicy)
    (ps ps1 : List SecurityPolicy) (direction : String) (newIds : List String)
    (evs : List Event)
    (hc : createPolicies env w providerParams exist ps direction =
      .done ((newIds, none), ps1) evs) :
    ∃ rest, (applyGroupTail env w providerParams inst exist p0 ps direction).events =
        evs ++ rest ∧
      bindRequests rest = (if newIds = [] then [] else [newIds ++ exist]) ∧
      createdIds rest = [] ∧ queriedFree direction rest = [] := by
  unfold applyGroupTail
  rw [hc]
  simp only []
  by_cases hnew : newIds.length > 0
  · have hne : newIds ≠ [] := by
      intro h
      rw [h] at hnew
      simp at hnew
    simp only [hnew, if_true, if_neg hne]
    have hd := destroyPolicies_kinds env
      (w ++ evs ++ [Event.instanceAssociateSecurityGroups inst providerParams
        (newIds ++ exist) (env.InstanceAssociateSecurityGroups (w ++ evs) inst providerParams
          (newIds ++ exist))]) providerParams ps1 direction
    cases hret : env.InstanceAssociateSecurityGroups (w ++ evs) inst providerParams
        (newIds ++ exist) with
    | none =>
      refine ⟨[Event.instanceAssociateSecurityGroups inst providerParams (newIds ++ exist)
        none], rfl, rfl, rfl, rfl⟩
    | some err =>
      rw [hret] at hd
      have hb := bindRequests_eq_nil _ (fun e he => by
        rcases hd e he with h | h <;> rw [h] <;> decide)
      have hcr := createdIds_eq_nil _ (fun e he => by
        rcases hd e he with h | h <;> rw [h] <;> decide)
      have hq := queriedFree_eq_nil direction _ (fun e he => by
        rcases hd e he with h | h <;> rw [h] <;> decide)
      refine ⟨[Event.instanceAssociateSecurityGroups inst providerParams (newIds ++ exist)
        (some err)] ++ (destroyPolicies env
          (w ++ evs ++ [Event.instanceAssociateSecurityGroups inst providerParams
            (newIds ++ exist) (some err)]) providerParams ps1 direction).2, ?_, ?_, ?_, ?_⟩
      · simp only [Result.events, List.append_assoc]
      · rw [bindRequests_append, hb]
        rfl
      · rw [createdIds_append, hcr]
        rfl
      · rw [queriedFree_append, hq]
        rfl
  · have hnil : newIds = [] := by
      cases newIds with
      | nil => rfl
      | cons a l => simp at hnew
    simp only [hnew, if_false, if_pos hnil]
    exact ⟨[], by simp [Result.events], rfl, rfl, rfl⟩

end securitygroup

namespace securitygroup

/-- The bind calls of the second half of a round that returns and in which every call before
the first bind call succeeded: one call, for the new groups followed by the groups of the
resource, when a group was created; none otherwise, and none when the free numbers read
cover the batch. -/
theorem applyGroupTail_bind_calls (env : Env) (w : World) (providerParams : String)
    (inst : ResourceInstance) (exist : List String) (p0 : SecurityPolicy)
    (tl : List SecurityPolicy) (direction : String)
    (hfin : (applyGroupTail env w providerParams inst exist p0 (p0 :: tl) direction).value? ≠
      none)
    (hpre : ∀ e ∈ (applyGroupTail env w providerParams inst exist p0 (p0 :: tl)
      direction).events.takeWhile (fun e => decide (e.kind ≠ 3)), e.succeeded = true) :
    ((createdIds (applyGroupTail env w providerParams inst exist p0 (p0 :: tl)
          direction).events = [] ∧
        bindRequests (applyGroupTail env w providerParams inst exist p0 (p0 :: tl)
          direction).events = []) ∨
      (createdIds (applyGroupTail env w providerParams inst exist p0 (p0 :: tl)
          direction).events ≠ [] ∧
        bindRequests (applyGroupTail env w providerParams inst exist p0 (p0 :: tl)
          direction).events =
          [createdIds (applyGroupTail env w providerParams inst exist p0 (p0 :: tl)
            direction).events ++ exist])) ∧
      (((p0 :: tl).length : Int) ≤
          ((queriedFree direction (applyGroupTail env w providerParams inst exist p0 (p0 :: tl)
            direction).events).map Prod.snd).sum →
        bindRequests (applyGroupTail env w providerParams inst exist p0 (p0 :: tl)
          direction).events = []) := by
  obtain ⟨rest0, hev0⟩ := applyGroupTail_events env w providerParams inst exist p0 (p0 :: tl)
    direction
  rcases hcp : createPolicies env w providerParams exist (p0 :: tl) direction with
    ⟨⟨⟨newIds, _ | err⟩, ps1⟩, evs⟩ | evs
  · -- the submission succeeded
    obtain ⟨hall, hcre, hl⟩ := createPolicies_done_none env w providerParams exist p0 tl
      direction newIds ps1 evs hcp
    obtain ⟨rest, hE, hb, hcr, hq⟩ := applyGroupTail_after_submission env w providerParams
      inst exist p0 (p0 :: tl) ps1 direction newIds evs hcp
    have hbe : bindRequests evs = [] :=
      bindRequests_eq_nil _ (fun e he => by
        rcases (hall e he).2 with h | h | h | h | h <;> rw [h] <;> decide)
    rw [hE, createdIds_append, bindRequests_append, queriedFree_append, hbe, hb, hcr, hq, hcre,
      List.append_nil, List.append_nil, List.nil_append]
    by_cases hnil : newIds = []
    · rw [if_pos hnil]
      exact ⟨Or.inl ⟨hnil, rfl⟩, fun _ => rfl⟩
    · rw [if_neg hnil]
      refine ⟨Or.inr ⟨hnil, rfl⟩, fun hfit => ?_⟩
      exfalso
      rw [if_neg (by omega)] at hl
      exact hnil (List.length_eq_zero.1 hl)
  · -- the submission failed
    exfalso
    obtain ⟨⟨e, he, hns⟩, hk⟩ := createPolicies_done_some env w providerParams exist p0 tl
      direction newIds err ps1 evs hcp
    have hev1 : (applyGroupTail env w providerParams inst exist p0 (p0 :: tl)
        direction).events = evs ++ rest0 := by
      rw [hev0, hcp]
      rfl
    rw [hev1, List.takeWhile_append_of_pos (fun e he => by
      rcases hk e he with h | h | h | h | h <;> rw [h] <;> decide)] at hpre
    have := hpre e (List.mem_append_left _ he)
    rw [hns] at this
    simp at this
  · exfalso
    apply hfin
    unfold applyGroupTail
    rw [hcp]
    rfl

end securitygroup

namespace securitygroup

/-- C23. A round of the second loop of `applyPolicies` that returns and in which every call
before the first bind call succeeded (the submission succeeded): either no group was created
and no bind call is made, or a group was created and exactly one bind call is made, for the
new group ids followed by the group ids `instance.QuerySecurityGroups` returned; and no bind
call is made when the free numbers of the existing auto-created groups cover the batch. -/
theorem applyGroup_binds_iff_new_groups (env : Env) (w : World)
    (policies : List SecurityPolicy) (direction : String)
    (hfin : (applyGroup env w policies direction).value? ≠ none)
    (hpre : ∀ e ∈ (applyGroup env w policies direction).events.takeWhile
      (fun e => decide (e.kind ≠ 3)), e.succeeded = true) :
    ((createdIds (applyGroup env w policies direction).events = [] ∧
        bindRequests (applyGroup env w policies direction).events = []) ∨
      (createdIds (applyGroup env w policies direction).events ≠ [] ∧
        ∃ inst providerParams exist,
          Event.instanceQuerySecurityGroups inst providerParams (.ok exist) ∈
            (applyGroup env w policies direction).events ∧
          bindRequests (applyGroup env w policies direction).events =
            [createdIds (applyGroup env w policies direction).events ++ exist])) ∧
      ((policies.length : Int) ≤
          ((queriedFree direction (applyGroup env w policies direction).events).map
            Prod.snd).sum →
        bindRequests (applyGroup env w policies direction).events = []) := by
  cases policies with
  | nil => exact absurd rfl hfin
  | cons p0 tl =>
    rcases applyGroup_cases env w p0 tl direction with
      ⟨err, evs, heq, hk, -, -⟩ | ⟨evs, heq, -, -⟩ |
      ⟨providerParams, inst, exist, evs0, h0, hmem, heq⟩
    · rw [heq]
      simp only [Result.events]
      have hb : bindRequests evs = [] :=
        bindRequests_eq_nil _ (fun e he => by
          rcases hk e he with h | h | h <;> rw [h] <;> decide)
      have hc : createdIds evs = [] :=
        createdIds_eq_nil _ (fun e he => by
          rcases hk e he with h | h | h <;> rw [h] <;> decide)
      exact ⟨Or.inl ⟨hc, hb⟩, fun _ => hb⟩
    · rw [heq] at hfin
      exact absurd rfl hfin
    · have hb0 : bindRequests evs0 = [] :=
        bindRequests_eq_nil _ (fun e he => by
          rcases (h0 e he).2 with h | h | h <;> rw [h] <;> decide)
      have hc0 : createdIds evs0 = [] :=
        createdIds_eq_nil _ (fun e he => by
          rcases (h0 e he).2 with h | h | h <;> rw [h] <;> decide)
      have hq0 : queriedFree direction evs0 = [] :=
        queriedFree_eq_nil _ _ (fun e he => by
          rcases (h0 e he).2 with h | h | h <;> rw [h] <;> decide)
      have hev : (applyGroup env w (p0 :: tl) direction).events =
          evs0 ++ (applyGroupTail env (w ++ evs0) providerParams inst exist p0 (p0 :: tl)
            direction).events := by
        rw [heq]
        cases applyGroupTail env (w ++ evs0) providerParams inst exist p0 (p0 :: tl)
          direction <;> rfl
      have hfin1 : (applyGroupTail env (w ++ evs0) providerParams inst exist p0 (p0 :: tl)
          direction).value? ≠ none := by
        intro hcon
        apply hfin
        rw [heq]
        revert hcon
        cases applyGroupTail env (w ++ evs0) providerParams inst exist p0 (p0 :: tl)
          direction with
        | done r evs => intro hcon; simp [Result.value?] at hcon
        | panic evs => intro _; rfl
      rw [hev, List.takeWhile_append_of_pos (fun e he => by
        rcases (h0 e he).2 with h | h | h <;> rw [h] <;> decide)] at hpre
      obtain ⟨h1, h2⟩ := applyGroupTail_bind_calls env (w ++ evs0) providerParams inst exist
        p0 tl direction hfin1 (fun e he => hpre e (List.mem_append_right _ he))
      rw [hev, createdIds_append, bindRequests_append, queriedFree_append, hb0, hc0, hq0,
        List.nil_append, List.nil_append, List.nil_append]
      refine ⟨?_, h2⟩
      rcases h1 with h1 | ⟨h1, h3⟩
      · exact Or.inl h1
      · exact Or.inr ⟨h1, inst, providerParams, exist, List.mem_append_left _ hmem, h3⟩

set_option maxRecDepth 100000 in
theorem applyGroup_binds_iff_new_groups_witness :
    bindRequests (applyGroup demoEnv [] demoBatch INGRESS_RULE).events =
        [["sg-10.0.0.1-auto-2", "sg-1", "sg-d"]] ∧
      bindRequests (applyPolicies demoEnv [] demoBatch INGRESS_RULE).events =
        [["sg-10.0.0.1-auto-2", "sg-1", "sg-d"]] ∧
      queriedFree INGRESS_RULE (applyGroup demoEnv [] (demoBatch.take 2) INGRESS_RULE).events =
        [("sg-1", 2)] ∧
      bindRequests (applyPolicies demoEnv [] (demoBatch.take 2) INGRESS_RULE).events = [] ∧
      (((createdIds (applyGroup demoEnv [] demoBatch INGRESS_RULE).events = [] ∧
          bindRequests (applyGroup demoEnv [] demoBatch INGRESS_RULE).events = []) ∨
        (createdIds (applyGroup demoEnv [] demoBatch INGRESS_RULE).events ≠ [] ∧
          ∃ inst providerParams exist,
            Event.instanceQuerySecurityGroups inst providerParams (.ok exist) ∈
              (applyGroup demoEnv [] demoBatch INGRESS_RULE).events ∧
            bindRequests (applyGroup demoEnv [] demoBatch INGRESS_RULE).events =
              [createdIds (applyGroup demoEnv [] demoBatch INGRESS_RULE).events ++ exist])) ∧
        ((demoBatch.length : Int) ≤
            ((queriedFree INGRESS_RULE (applyGroup demoEnv [] demoBatch INGRESS_RULE).events).map
              Prod.snd).sum →
          bindRequests (applyGroup demoEnv [] demoBatch INGRESS_RULE).events = [])) :=
  ⟨by decide, by decide, by decide, by decide,
    applyGroup_binds_iff_new_groups demoEnv [] demoBatch INGRESS_RULE (by decide) (by decide)⟩

end securitygroup
